import Mathlib

/-!
# STDF record codec: a shallow embedding of `stdf_parser.cpp` / `stdf_types.cpp`

The development follows the C++ sources function by function.

Modelling conventions

* A byte is a `Fin 256`; the file is a `List Byte`.
* `U1`, `U2`, `U4` values are natural numbers, `I1`, `I2`, `I4` values are
  integers, an `R4` / `R8` is kept as its 32-bit / 64-bit IEEE-754 pattern (a
  natural number, `0` being `0.0`), a `Cn` / `Bn` is a list of bytes.
* The host is little-endian and `size_t` has 64 bits.
* `std::ifstream` is modelled by `IfStream`: the file bytes, the get position
  and the two state bits the program can observe (`eofbit`, `failbit`).  The
  operations follow [istream.unformatted]: every unformatted input function
  first builds a sentry, which fails (and sets `failbit`) when the stream is
  not `good()`; `read` sets `eofbit | failbit` when fewer characters than asked
  are available; `seekg` first clears `eofbit` and does nothing else on a
  failed stream; `tellg` answers `-1` on a failed stream.  No exception mask is
  installed by the program, so no stream operation throws.
* A local variable that is declared without initialiser (`U2 value;`) holds
  indeterminate bytes.  They are supplied by the field `uninit` of the parser
  state and are only ever looked at when a `read` delivers fewer bytes than
  the variable has.
-/

namespace STDF

/-! ## Basic types (`stdf_types.h`) -/

abbrev Byte := Fin 256
abbrev U1 := Nat
abbrev U2 := Nat
abbrev U4 := Nat
abbrev I1 := Int
abbrev I2 := Int
abbrev I4 := Int
/-- An `R4` value, kept as its 32-bit pattern. -/
abbrev R4 := Nat
/-- An `R8` value, kept as its 64-bit pattern. -/
abbrev R8 := Nat
abbrev C1 := Byte
abbrev Cn := List Byte
abbrev Bn := List Byte

/-- Little-endian value of a byte string (the host reads its integers so). -/
def leValue : List Byte → Nat
  | [] => 0
  | b :: bs => b.val + 256 * leValue bs

/-- Reinterpretation of a `w`-bit pattern as a two's-complement integer. -/
def toSigned (w : Nat) (u : Nat) : Int :=
  if u % 2 ^ w < 2 ^ (w - 1) then ((u % 2 ^ w : Nat) : Int)
  else ((u % 2 ^ w : Nat) : Int) - ((2 ^ w : Nat) : Int)

/-- Conversion of an integer to the `w`-bit unsigned type (`static_cast`). -/
def toUnsigned (w : Nat) (i : Int) : Nat := (i % ((2 ^ w : Nat) : Int)).toNat

/-! ## The input stream -/

/-- The observable state of the `std::ifstream file_`. -/
structure IfStream where
  data : List Byte
  pos : Nat
  eofbit : Bool
  failbit : Bool
deriving DecidableEq

inductive SeekDir where
  | beg
  | cur
  | fin
deriving DecidableEq

namespace IfStream

/-- Member `good()`. -/
def good (f : IfStream) : Bool := !f.eofbit && !f.failbit

/-- Member `eof()`. -/
def eof (f : IfStream) : Bool := f.eofbit

/-- Member `fail()`. -/
def fail (f : IfStream) : Bool := f.failbit

/-- Member `read(buf, n)`: the characters stored into the buffer and the new state. -/
def read (f : IfStream) (n : Nat) : List Byte × IfStream :=
  if f.good then
    let got := (f.data.drop f.pos).take n
    if got.length = n then (got, { f with pos := f.pos + n })
    else (got, { f with pos := f.pos + got.length, eofbit := true, failbit := true })
  else ([], { f with failbit := true })

/-- Member `tellg()`. -/
def tellg (f : IfStream) : Int × IfStream :=
  if f.good then ((f.pos : Int), f) else (-1, { f with failbit := true })

/-- The position a seek by `off` from `dir` asks for. -/
def seekTarget (f : IfStream) (off : Int) : SeekDir → Int
  | .beg => off
  | .cur => (f.pos : Int) + off
  | .fin => (f.data.length : Int) + off

/-- Member `seekg(pos)`. -/
def seekgPos (f : IfStream) (p : Int) : IfStream :=
  let f := { f with eofbit := false }
  if f.failbit then f
  else if p < 0 then { f with failbit := true }
  else { f with pos := p.toNat }

/-- Member `seekg(off, dir)`.  A file position past the end is accepted. -/
def seekgOff (f : IfStream) (off : Int) (dir : SeekDir) : IfStream :=
  let f := { f with eofbit := false }
  if f.failbit then f
  else if f.seekTarget off dir < 0 then { f with failbit := true }
  else { f with pos := (f.seekTarget off dir).toNat }

end IfStream

/-! ## The parser state (`stdf_parser.h`) -/

/-- The members of `STDFParser` (the file name plays no part in decoding), and
the supply of indeterminate bytes for uninitialised locals. -/
structure STDFParser where
  file_ : IfStream
  fileSize_ : Nat
  endianSwap_ : Bool
  uninit : List Byte
deriving DecidableEq

/-- The first `k` bytes of `l`, padded with zero bytes when `l` is shorter. -/
def takePad (k : Nat) (l : List Byte) : List Byte :=
  l.take k ++ List.replicate (k - l.length) 0

/-- The statement pair `T value; file_.read((char*)&value, sizeof value)`: the
`n` bytes of `value` afterwards.  What the stream did not deliver stays
indeterminate. -/
def readRaw (n : Nat) (s : STDFParser) : List Byte × STDFParser :=
  let (got, f) := s.file_.read n
  (got ++ takePad (n - got.length) s.uninit,
    { s with file_ := f, uninit := s.uninit.drop (n - got.length) })

/-- `STDFParser::swapBytes(U2)`. -/
def swapBytes16 (value : U2) : U2 :=
  (((value &&& 0xFF) <<< 8) ||| ((value >>> 8) &&& 0xFF)) % 2 ^ 16

/-- `STDFParser::swapBytes(U4)`. -/
def swapBytes32 (value : U4) : U4 :=
  ((((value &&& 0xFF) <<< 24) % 2 ^ 32) |||
   ((((value >>> 8) &&& 0xFF) <<< 16) % 2 ^ 32) |||
   ((((value >>> 16) &&& 0xFF) <<< 8) % 2 ^ 32) |||
   ((value >>> 24) &&& 0xFF)) % 2 ^ 32

/-! ## Primitive reads (`stdf_parser.cpp`, lines 120-199) -/

def readU1 (s : STDFParser) : U1 × STDFParser :=
  let (bs, s) := readRaw 1 s
  (leValue bs, s)

def readU2 (s : STDFParser) : U2 × STDFParser :=
  let (bs, s) := readRaw 2 s
  let value := leValue bs
  (if s.endianSwap_ then swapBytes16 value else value, s)

def readU4 (s : STDFParser) : U4 × STDFParser :=
  let (bs, s) := readRaw 4 s
  let value := leValue bs
  (if s.endianSwap_ then swapBytes32 value else value, s)

def readI1 (s : STDFParser) : I1 × STDFParser :=
  let (bs, s) := readRaw 1 s
  (toSigned 8 (leValue bs), s)

def readI2 (s : STDFParser) : I2 × STDFParser :=
  let (bs, s) := readRaw 2 s
  let value := toSigned 16 (leValue bs)
  (if s.endianSwap_ then toSigned 16 (swapBytes16 (toUnsigned 16 value)) else value, s)

def readI4 (s : STDFParser) : I4 × STDFParser :=
  let (bs, s) := readRaw 4 s
  let value := toSigned 32 (leValue bs)
  (if s.endianSwap_ then toSigned 32 (swapBytes32 (toUnsigned 32 value)) else value, s)

def readR4 (s : STDFParser) : R4 × STDFParser :=
  let (bs, s) := readRaw 4 s
  let value := leValue bs
  (if s.endianSwap_ then swapBytes32 value else value, s)

/-- The eight bytes are returned as read: no byte swapping in either mode. -/
def readR8 (s : STDFParser) : R8 × STDFParser :=
  let (bs, s) := readRaw 8 s
  (leValue bs, s)

def readC1 (s : STDFParser) : C1 × STDFParser :=
  let (bs, s) := readRaw 1 s
  (bs.headD 0, s)

/-- The statement pair `Container result(length); file_.read(result.data(), length)`:
the container is zero-filled before the read. -/
def readInto (length : Nat) (s : STDFParser) : List Byte × STDFParser :=
  let (got, f) := s.file_.read length
  (got ++ List.replicate (length - got.length) 0, { s with file_ := f })

def readCn (s : STDFParser) : Cn × STDFParser :=
  let (length, s) := readU1 s
  if length = 0 then ([], s)
  else readInto length s

def readBn (s : STDFParser) : Bn × STDFParser :=
  let (length, s) := readU2 s
  if length = 0 then ([], s)
  else readInto length s

/-! ## Record model (`stdf_types.h`)

Every record is created by `std::make_unique<T>()`, which value-initialises it:
scalar members start at zero, strings and vectors start empty.  The structure
defaults below are that initial value. -/

/-- The enumeration `RecordType`. -/
inductive RecordType where
  | FAR
  | ATR
  | MIR
  | MRR
  | PCR
  | HBR
  | SBR
  | PMR
  | PGR
  | PLR
  | RDR
  | SDR
  | WIR
  | WRR
  | WCR
  | PIR
  | PRR
  | TSR
  | PTR
  | MPR
  | FTR
  | BPS
  | EPS
  | GDR
  | DTR
deriving DecidableEq

/-- File Attribute Record. -/
structure FARRecord where
  CPU_TYP : U1 := 0
  STDF_VER : U1 := 0
deriving DecidableEq

/-- Master Information Record. -/
structure MIRRecord where
  SETUP_T : U4 := 0
  START_T : U4 := 0
  STAT_NUM : U1 := 0
  MODE_COD : C1 := 0
  RTST_COD : C1 := 0
  PROT_COD : C1 := 0
  BURN_TIM : U2 := 0
  CMOD_COD : C1 := 0
  LOT_ID : Cn := []
  PART_TYP : Cn := []
  NODE_NAM : Cn := []
  TSTR_TYP : Cn := []
  JOB_NAM : Cn := []
  JOB_REV : Cn := []
  SBLOT_ID : Cn := []
  OPER_NAM : Cn := []
  EXEC_TYP : Cn := []
  EXEC_VER : Cn := []
  TEST_COD : Cn := []
  TST_TEMP : Cn := []
  USER_TXT : Cn := []
  AUX_FILE : Cn := []
  PKG_TYP : Cn := []
  FAMLY_ID : Cn := []
  DATE_COD : Cn := []
  FACIL_ID : Cn := []
  FLOOR_ID : Cn := []
  PROC_ID : Cn := []
  OPER_FRQ : Cn := []
  SPEC_NAM : Cn := []
  SPEC_VER : Cn := []
  FLOW_ID : Cn := []
  SETUP_ID : Cn := []
  DSGN_REV : Cn := []
  ENG_ID : Cn := []
  ROM_COD : Cn := []
  SERL_NUM : Cn := []
  SUPR_NAM : Cn := []
deriving DecidableEq

/-- Part Information Record. -/
structure PIRRecord where
  HEAD_NUM : U1 := 0
  SITE_NUM : U1 := 0
deriving DecidableEq

/-- Part Results Record. -/
structure PRRRecord where
  HEAD_NUM : U1 := 0
  SITE_NUM : U1 := 0
  PART_FLG : U1 := 0
  NUM_TEST : U2 := 0
  HARD_BIN : U2 := 0
  SOFT_BIN : U2 := 0
  X_COORD : I2 := 0
  Y_COORD : I2 := 0
  TEST_T : U4 := 0
  PART_ID : Cn := []
  PART_TXT : Cn := []
  PART_FIX : Bn := []
deriving DecidableEq

/-- Parametric Test Record. -/
structure PTRRecord where
  TEST_NUM : U4 := 0
  HEAD_NUM : U1 := 0
  SITE_NUM : U1 := 0
  TEST_FLG : U1 := 0
  PARM_FLG : U1 := 0
  RESULT : R4 := 0
  TEST_TXT : Cn := []
  ALARM_ID : Cn := []
  OPT_FLAG : U1 := 0
  RES_SCAL : I1 := 0
  LLM_SCAL : I1 := 0
  HLM_SCAL : I1 := 0
  LO_LIMIT : R4 := 0
  HI_LIMIT : R4 := 0
  UNITS : Cn := []
  C_RESFMT : Cn := []
  C_LLMFMT : Cn := []
  C_HLMFMT : Cn := []
  LO_SPEC : R4 := 0
  HI_SPEC : R4 := 0
deriving DecidableEq

/-- Functional Test Record. -/
structure FTRRecord where
  TEST_NUM : U4 := 0
  HEAD_NUM : U1 := 0
  SITE_NUM : U1 := 0
  TEST_FLG : U1 := 0
  OPT_FLAG : U1 := 0
  CYCL_CNT : U4 := 0
  REL_VADR : U4 := 0
  REPT_CNT : U4 := 0
  NUM_FAIL : U4 := 0
  XFAIL_AD : I4 := 0
  YFAIL_AD : I4 := 0
  VECT_OFF : I2 := 0
  RTN_ICNT : U2 := 0
  PGM_ICNT : U2 := 0
  RTN_INDX : List U2 := []
  RTN_STAT : List U2 := []
  PGM_INDX : List U2 := []
  PGM_STAT : List U2 := []
  FAIL_PIN : Bn := []
  VECT_NAM : Cn := []
  TIME_SET : Cn := []
  OP_CODE : Cn := []
  TEST_TXT : Cn := []
  ALARM_ID : Cn := []
  PROG_TXT : Cn := []
  RSLT_TXT : Cn := []
  PATG_NUM : U1 := 0
  SPIN_MAP : Bn := []
deriving DecidableEq

/-- Hardware Bin Record. -/
structure HBRRecord where
  HEAD_NUM : U1 := 0
  SITE_NUM : U1 := 0
  HBIN_NUM : U2 := 0
  HBIN_CNT : U4 := 0
  HBIN_PF : C1 := 0
  HBIN_NAM : Cn := []
deriving DecidableEq

/-- Software Bin Record. -/
structure SBRRecord where
  HEAD_NUM : U1 := 0
  SITE_NUM : U1 := 0
  SBIN_NUM : U2 := 0
  SBIN_CNT : U4 := 0
  SBIN_PF : C1 := 0
  SBIN_NAM : Cn := []
deriving DecidableEq

/-- Wafer Information Record. -/
structure WIRRecord where
  HEAD_NUM : U1 := 0
  SITE_GRP : U1 := 0
  START_T : U4 := 0
  WAFER_ID : Cn := []
deriving DecidableEq

/-- Wafer Results Record. -/
structure WRRRecord where
  HEAD_NUM : U1 := 0
  SITE_GRP : U1 := 0
  FINISH_T : U4 := 0
  PART_CNT : U4 := 0
  RTST_CNT : U4 := 0
  ABRT_CNT : U4 := 0
  GOOD_CNT : U4 := 0
  FUNC_CNT : U4 := 0
  WAFER_ID : Cn := []
  FABWF_ID : Cn := []
  FRAME_ID : Cn := []
  MASK_ID : Cn := []
  USR_DESC : Cn := []
  EXC_DESC : Cn := []
deriving DecidableEq

/-- A record behind the common base class `STDFRecord`. -/
inductive STDFRecord where
  | far (r : FARRecord)
  | mir (r : MIRRecord)
  | pir (r : PIRRecord)
  | prr (r : PRRRecord)
  | ptr (r : PTRRecord)
  | ftr (r : FTRRecord)
  | hbr (r : HBRRecord)
  | sbr (r : SBRRecord)
  | wir (r : WIRRecord)
  | wrr (r : WRRRecord)
deriving DecidableEq

/-! ## `getRecordType` and `getSize` (`stdf_types.h`, `stdf_types.cpp`) -/

def FARRecord.getSize (_ : FARRecord) : Nat := 2

def MIRRecord.getSize (r : MIRRecord) : Nat :=
  let fixedSize := 4 + 4 + 1 + 1 + 1 + 1 + 2 + 1
  let stringSize :=
    r.LOT_ID.length + r.PART_TYP.length + r.NODE_NAM.length +
    r.TSTR_TYP.length + r.JOB_NAM.length + r.JOB_REV.length +
    r.SBLOT_ID.length + r.OPER_NAM.length + r.EXEC_TYP.length +
    r.EXEC_VER.length + r.TEST_COD.length + r.TST_TEMP.length +
    r.USER_TXT.length + r.AUX_FILE.length + r.PKG_TYP.length +
    r.FAMLY_ID.length + r.DATE_COD.length + r.FACIL_ID.length +
    r.FLOOR_ID.length + r.PROC_ID.length + r.OPER_FRQ.length +
    r.SPEC_NAM.length + r.SPEC_VER.length + r.FLOW_ID.length +
    r.SETUP_ID.length + r.DSGN_REV.length + r.ENG_ID.length +
    r.ROM_COD.length + r.SERL_NUM.length + r.SUPR_NAM.length
  fixedSize + stringSize + 30

def PIRRecord.getSize (_ : PIRRecord) : Nat := 2

def PRRRecord.getSize (r : PRRRecord) : Nat :=
  1 + 1 + 1 + 2 + 2 + 2 + 2 + 2 + 4 +
    r.PART_ID.length + 1 + r.PART_TXT.length + 1 + r.PART_FIX.length + 2

def PTRRecord.getSize (r : PTRRecord) : Nat :=
  let baseSize := 4 + 1 + 1 + 1 + 1 + 4
  let baseSize := baseSize + (r.TEST_TXT.length + 1)
  let baseSize := baseSize + (r.ALARM_ID.length + 1)
  let baseSize := baseSize + 1
  let baseSize := if r.OPT_FLAG &&& 0x01 ≠ 0 then baseSize + 1 else baseSize
  let baseSize := if r.OPT_FLAG &&& 0x06 ≠ 0 then baseSize + (1 + 4) else baseSize
  let baseSize := if r.OPT_FLAG &&& 0x18 ≠ 0 then baseSize + (1 + 4) else baseSize
  let baseSize := if r.OPT_FLAG &&& 0x20 ≠ 0 then baseSize + (r.UNITS.length + 1) else baseSize
  let baseSize := if r.OPT_FLAG &&& 0x40 ≠ 0 then baseSize + (r.C_RESFMT.length + 1) else baseSize
  let baseSize := if r.OPT_FLAG &&& 0x80 ≠ 0 then
    baseSize + (r.C_LLMFMT.length + 1 + r.C_HLMFMT.length + 1) else baseSize
  baseSize

def FTRRecord.getSize (r : FTRRecord) : Nat :=
  let baseSize := 4 + 1 + 1 + 1 + 1 + 4 + 4 + 4 + 4 + 4 + 4 + 2 + 2 + 2
  let baseSize := baseSize + r.RTN_INDX.length * 2
  let baseSize := baseSize + r.RTN_STAT.length * 2
  let baseSize := baseSize + r.PGM_INDX.length * 2
  let baseSize := baseSize + r.PGM_STAT.length * 2
  let baseSize := baseSize + (r.FAIL_PIN.length + 2)
  let baseSize := baseSize + (r.VECT_NAM.length + 1)
  let baseSize := baseSize + (r.TIME_SET.length + 1)
  let baseSize := baseSize + (r.OP_CODE.length + 1)
  let baseSize := baseSize + (r.TEST_TXT.length + 1)
  let baseSize := baseSize + (r.ALARM_ID.length + 1)
  let baseSize := baseSize + (r.PROG_TXT.length + 1)
  let baseSize := baseSize + (r.RSLT_TXT.length + 1)
  let baseSize := baseSize + 1
  let baseSize := baseSize + (r.SPIN_MAP.length + 2)
  baseSize

def HBRRecord.getSize (r : HBRRecord) : Nat := 1 + 1 + 2 + 4 + 1 + 1 + r.HBIN_NAM.length

def SBRRecord.getSize (r : SBRRecord) : Nat := 1 + 1 + 2 + 4 + 1 + 1 + r.SBIN_NAM.length

def WIRRecord.getSize (r : WIRRecord) : Nat := 1 + 1 + 4 + 1 + r.WAFER_ID.length

def WRRRecord.getSize (r : WRRRecord) : Nat :=
  let fixedSize := 1 + 1 + 4 + 4 + 4 + 4 + 4 + 4
  let stringSize := r.WAFER_ID.length + r.FABWF_ID.length + r.FRAME_ID.length +
    r.MASK_ID.length + r.USR_DESC.length + r.EXC_DESC.length
  fixedSize + stringSize + 6

/-- The virtual `getRecordType()`. -/
def STDFRecord.getRecordType : STDFRecord → RecordType
  | .far _ => .FAR
  | .mir _ => .MIR
  | .pir _ => .PIR
  | .prr _ => .PRR
  | .ptr _ => .PTR
  | .ftr _ => .FTR
  | .hbr _ => .HBR
  | .sbr _ => .SBR
  | .wir _ => .WIR
  | .wrr _ => .WRR

/-- The virtual `getSize()`. -/
def STDFRecord.getSize : STDFRecord → Nat
  | .far r => r.getSize
  | .mir r => r.getSize
  | .pir r => r.getSize
  | .prr r => r.getSize
  | .ptr r => r.getSize
  | .ftr r => r.getSize
  | .hbr r => r.getSize
  | .sbr r => r.getSize
  | .wir r => r.getSize
  | .wrr r => r.getSize

/-! ## Record decoders (`stdf_parser.cpp`, lines 240-473)

A decoder assigns the members of a fresh, value-initialised record one by one,
`record->X = readT();`.  Below, each such statement is the binding of `X` to the
result of the read, in source order: `X.1` is the value stored in the member and
`X.2` the parser state in which the next statement runs.  The record is
assembled from the values at the end; a member the source does not assign keeps
its initial value.  The six `if` statements of `parsePTR` are given one by one,
as steps on the pair `p` of the record under construction and the parser
state. -/

def parseFAR (s : STDFParser) : FARRecord × STDFParser :=
  let CPU_TYP := readU1 s
  let STDF_VER := readU1 CPU_TYP.2
  ({
    CPU_TYP := CPU_TYP.1, STDF_VER := STDF_VER.1 },
    STDF_VER.2)

def parseMIR (s : STDFParser) : MIRRecord × STDFParser :=
  let SETUP_T := readU4 s
  let START_T := readU4 SETUP_T.2
  let STAT_NUM := readU1 START_T.2
  let MODE_COD := readC1 STAT_NUM.2
  let RTST_COD := readC1 MODE_COD.2
  let PROT_COD := readC1 RTST_COD.2
  let BURN_TIM := readU2 PROT_COD.2
  let CMOD_COD := readC1 BURN_TIM.2
  let LOT_ID := readCn CMOD_COD.2
  let PART_TYP := readCn LOT_ID.2
  let NODE_NAM := readCn PART_TYP.2
  let TSTR_TYP := readCn NODE_NAM.2
  let JOB_NAM := readCn TSTR_TYP.2
  let JOB_REV := readCn JOB_NAM.2
  let SBLOT_ID := readCn JOB_REV.2
  let OPER_NAM := readCn SBLOT_ID.2
  let EXEC_TYP := readCn OPER_NAM.2
  let EXEC_VER := readCn EXEC_TYP.2
  let TEST_COD := readCn EXEC_VER.2
  let TST_TEMP := readCn TEST_COD.2
  let USER_TXT := readCn TST_TEMP.2
  let AUX_FILE := readCn USER_TXT.2
  let PKG_TYP := readCn AUX_FILE.2
  let FAMLY_ID := readCn PKG_TYP.2
  let DATE_COD := readCn FAMLY_ID.2
  let FACIL_ID := readCn DATE_COD.2
  let FLOOR_ID := readCn FACIL_ID.2
  let PROC_ID := readCn FLOOR_ID.2
  let OPER_FRQ := readCn PROC_ID.2
  let SPEC_NAM := readCn OPER_FRQ.2
  let SPEC_VER := readCn SPEC_NAM.2
  let FLOW_ID := readCn SPEC_VER.2
  let SETUP_ID := readCn FLOW_ID.2
  let DSGN_REV := readCn SETUP_ID.2
  let ENG_ID := readCn DSGN_REV.2
  let ROM_COD := readCn ENG_ID.2
  let SERL_NUM := readCn ROM_COD.2
  let SUPR_NAM := readCn SERL_NUM.2
  ({
    SETUP_T := SETUP_T.1, START_T := START_T.1, STAT_NUM := STAT_NUM.1,
    MODE_COD := MODE_COD.1, RTST_COD := RTST_COD.1, PROT_COD := PROT_COD.1,
    BURN_TIM := BURN_TIM.1, CMOD_COD := CMOD_COD.1, LOT_ID := LOT_ID.1,
    PART_TYP := PART_TYP.1, NODE_NAM := NODE_NAM.1, TSTR_TYP := TSTR_TYP.1,
    JOB_NAM := JOB_NAM.1, JOB_REV := JOB_REV.1, SBLOT_ID := SBLOT_ID.1,
    OPER_NAM := OPER_NAM.1, EXEC_TYP := EXEC_TYP.1, EXEC_VER := EXEC_VER.1,
    TEST_COD := TEST_COD.1, TST_TEMP := TST_TEMP.1, USER_TXT := USER_TXT.1,
    AUX_FILE := AUX_FILE.1, PKG_TYP := PKG_TYP.1, FAMLY_ID := FAMLY_ID.1,
    DATE_COD := DATE_COD.1, FACIL_ID := FACIL_ID.1, FLOOR_ID := FLOOR_ID.1,
    PROC_ID := PROC_ID.1, OPER_FRQ := OPER_FRQ.1, SPEC_NAM := SPEC_NAM.1,
    SPEC_VER := SPEC_VER.1, FLOW_ID := FLOW_ID.1, SETUP_ID := SETUP_ID.1,
    DSGN_REV := DSGN_REV.1, ENG_ID := ENG_ID.1, ROM_COD := ROM_COD.1, SERL_NUM := SERL_NUM.1,
    SUPR_NAM := SUPR_NAM.1 },
    SUPR_NAM.2)

def parsePIR (s : STDFParser) : PIRRecord × STDFParser :=
  let HEAD_NUM := readU1 s
  let SITE_NUM := readU1 HEAD_NUM.2
  ({
    HEAD_NUM := HEAD_NUM.1, SITE_NUM := SITE_NUM.1 },
    SITE_NUM.2)

def parsePRR (s : STDFParser) : PRRRecord × STDFParser :=
  let HEAD_NUM := readU1 s
  let SITE_NUM := readU1 HEAD_NUM.2
  let PART_FLG := readU1 SITE_NUM.2
  let NUM_TEST := readU2 PART_FLG.2
  let HARD_BIN := readU2 NUM_TEST.2
  let SOFT_BIN := readU2 HARD_BIN.2
  let X_COORD := readI2 SOFT_BIN.2
  let Y_COORD := readI2 X_COORD.2
  let TEST_T := readU4 Y_COORD.2
  let PART_ID := readCn TEST_T.2
  let PART_TXT := readCn PART_ID.2
  let PART_FIX := readBn PART_TXT.2
  ({
    HEAD_NUM := HEAD_NUM.1, SITE_NUM := SITE_NUM.1, PART_FLG := PART_FLG.1,
    NUM_TEST := NUM_TEST.1, HARD_BIN := HARD_BIN.1, SOFT_BIN := SOFT_BIN.1,
    X_COORD := X_COORD.1, Y_COORD := Y_COORD.1, TEST_T := TEST_T.1, PART_ID := PART_ID.1,
    PART_TXT := PART_TXT.1, PART_FIX := PART_FIX.1 },
    PART_FIX.2)

/-- The statement `if (record->OPT_FLAG & 0x01) { ... }` of `parsePTR`. -/
def parsePTR.ifResScal (p : PTRRecord × STDFParser) : PTRRecord × STDFParser :=
  if p.1.OPT_FLAG &&& 0x01 ≠ 0 then
    let (v, s) := readI1 p.2
    ({ p.1 with RES_SCAL := v }, s)
  else p

/-- The statement `if (record->OPT_FLAG & 0x06) { ... }` of `parsePTR`. -/
def parsePTR.ifLowLimit (p : PTRRecord × STDFParser) : PTRRecord × STDFParser :=
  if p.1.OPT_FLAG &&& 0x06 ≠ 0 then
    let (v, s) := readI1 p.2
    let record := { p.1 with LLM_SCAL := v }
    let (v, s) := readR4 s
    ({ record with LO_LIMIT := v }, s)
  else p

/-- The statement `if (record->OPT_FLAG & 0x18) { ... }` of `parsePTR`. -/
def parsePTR.ifHighLimit (p : PTRRecord × STDFParser) : PTRRecord × STDFParser :=
  if p.1.OPT_FLAG &&& 0x18 ≠ 0 then
    let (v, s) := readI1 p.2
    let record := { p.1 with HLM_SCAL := v }
    let (v, s) := readR4 s
    ({ record with HI_LIMIT := v }, s)
  else p

/-- The statement `if (record->OPT_FLAG & 0x20) { ... }` of `parsePTR`. -/
def parsePTR.ifUnits (p : PTRRecord × STDFParser) : PTRRecord × STDFParser :=
  if p.1.OPT_FLAG &&& 0x20 ≠ 0 then
    let (v, s) := readCn p.2
    ({ p.1 with UNITS := v }, s)
  else p

/-- The statement `if (record->OPT_FLAG & 0x40) { ... }` of `parsePTR`. -/
def parsePTR.ifResFmt (p : PTRRecord × STDFParser) : PTRRecord × STDFParser :=
  if p.1.OPT_FLAG &&& 0x40 ≠ 0 then
    let (v, s) := readCn p.2
    ({ p.1 with C_RESFMT := v }, s)
  else p

/-- The statement `if (record->OPT_FLAG & 0x80) { ... }` of `parsePTR`. -/
def parsePTR.ifLimFmts (p : PTRRecord × STDFParser) : PTRRecord × STDFParser :=
  if p.1.OPT_FLAG &&& 0x80 ≠ 0 then
    let (v, s) := readCn p.2
    let record := { p.1 with C_LLMFMT := v }
    let (v, s) := readCn s
    ({ record with C_HLMFMT := v }, s)
  else p

def parsePTR (s : STDFParser) : PTRRecord × STDFParser :=
  let TEST_NUM := readU4 s
  let HEAD_NUM := readU1 TEST_NUM.2
  let SITE_NUM := readU1 HEAD_NUM.2
  let TEST_FLG := readU1 SITE_NUM.2
  let PARM_FLG := readU1 TEST_FLG.2
  let RESULT := readR4 PARM_FLG.2
  let TEST_TXT := readCn RESULT.2
  let ALARM_ID := readCn TEST_TXT.2
  let OPT_FLAG := readU1 ALARM_ID.2
  let record : PTRRecord := {
    TEST_NUM := TEST_NUM.1, HEAD_NUM := HEAD_NUM.1, SITE_NUM := SITE_NUM.1,
    TEST_FLG := TEST_FLG.1, PARM_FLG := PARM_FLG.1, RESULT := RESULT.1,
    TEST_TXT := TEST_TXT.1, ALARM_ID := ALARM_ID.1, OPT_FLAG := OPT_FLAG.1 }
  let p := parsePTR.ifResScal (record, OPT_FLAG.2)
  let p := parsePTR.ifLowLimit p
  let p := parsePTR.ifHighLimit p
  let p := parsePTR.ifUnits p
  let p := parsePTR.ifResFmt p
  let p := parsePTR.ifLimFmts p
  p

/-- The loop `for (U2 i = start; i < count; ++i) arr[i] = readU2();`.  The
counter is a 16-bit value; `fuel` bounds the number of iterations. -/
def fillLoop : Nat → U2 → U2 → List U2 → STDFParser → List U2 × STDFParser
  | 0, _, _, arr, s => (arr, s)
  | fuel + 1, count, i, arr, s =>
    if i < count then
      let (v, s) := readU2 s
      fillLoop fuel count ((i + 1) % 2 ^ 16) (arr.set i v) s
    else (arr, s)

/-- The statement `vec.resize(n)` on a vector (new elements are zero). -/
def resize (vec : List U2) (n : Nat) : List U2 :=
  vec.take n ++ List.replicate (n - vec.length) 0

def parseFTR (s : STDFParser) : FTRRecord × STDFParser :=
  let TEST_NUM := readU4 s
  let HEAD_NUM := readU1 TEST_NUM.2
  let SITE_NUM := readU1 HEAD_NUM.2
  let TEST_FLG := readU1 SITE_NUM.2
  let OPT_FLAG := readU1 TEST_FLG.2
  let CYCL_CNT := readU4 OPT_FLAG.2
  let REL_VADR := readU4 CYCL_CNT.2
  let REPT_CNT := readU4 REL_VADR.2
  let NUM_FAIL := readU4 REPT_CNT.2
  let XFAIL_AD := readI4 NUM_FAIL.2
  let YFAIL_AD := readI4 XFAIL_AD.2
  let VECT_OFF := readI2 YFAIL_AD.2
  let RTN_ICNT := readU2 VECT_OFF.2
  let PGM_ICNT := readU2 RTN_ICNT.2
  let RTN_INDX₀ := resize [] RTN_ICNT.1
  let RTN_STAT₀ := resize [] RTN_ICNT.1
  let RTN_INDX := fillLoop RTN_ICNT.1 RTN_ICNT.1 0 RTN_INDX₀ PGM_ICNT.2
  let RTN_STAT := fillLoop RTN_ICNT.1 RTN_ICNT.1 0 RTN_STAT₀ RTN_INDX.2
  let PGM_INDX₀ := resize [] PGM_ICNT.1
  let PGM_STAT₀ := resize [] PGM_ICNT.1
  let PGM_INDX := fillLoop PGM_ICNT.1 PGM_ICNT.1 0 PGM_INDX₀ RTN_STAT.2
  let PGM_STAT := fillLoop PGM_ICNT.1 PGM_ICNT.1 0 PGM_STAT₀ PGM_INDX.2
  let FAIL_PIN := readBn PGM_STAT.2
  let VECT_NAM := readCn FAIL_PIN.2
  let TIME_SET := readCn VECT_NAM.2
  let OP_CODE := readCn TIME_SET.2
  let TEST_TXT := readCn OP_CODE.2
  let ALARM_ID := readCn TEST_TXT.2
  let PROG_TXT := readCn ALARM_ID.2
  let RSLT_TXT := readCn PROG_TXT.2
  let PATG_NUM := readU1 RSLT_TXT.2
  let SPIN_MAP := readBn PATG_NUM.2
  ({
    TEST_NUM := TEST_NUM.1, HEAD_NUM := HEAD_NUM.1, SITE_NUM := SITE_NUM.1,
    TEST_FLG := TEST_FLG.1, OPT_FLAG := OPT_FLAG.1, CYCL_CNT := CYCL_CNT.1,
    REL_VADR := REL_VADR.1, REPT_CNT := REPT_CNT.1, NUM_FAIL := NUM_FAIL.1,
    XFAIL_AD := XFAIL_AD.1, YFAIL_AD := YFAIL_AD.1, VECT_OFF := VECT_OFF.1,
    RTN_ICNT := RTN_ICNT.1, PGM_ICNT := PGM_ICNT.1, RTN_INDX := RTN_INDX.1,
    RTN_STAT := RTN_STAT.1, PGM_INDX := PGM_INDX.1, PGM_STAT := PGM_STAT.1,
    FAIL_PIN := FAIL_PIN.1, VECT_NAM := VECT_NAM.1, TIME_SET := TIME_SET.1,
    OP_CODE := OP_CODE.1, TEST_TXT := TEST_TXT.1, ALARM_ID := ALARM_ID.1,
    PROG_TXT := PROG_TXT.1, RSLT_TXT := RSLT_TXT.1, PATG_NUM := PATG_NUM.1,
    SPIN_MAP := SPIN_MAP.1 },
    SPIN_MAP.2)

def parseHBR (s : STDFParser) : HBRRecord × STDFParser :=
  let HEAD_NUM := readU1 s
  let SITE_NUM := readU1 HEAD_NUM.2
  let HBIN_NUM := readU2 SITE_NUM.2
  let HBIN_CNT := readU4 HBIN_NUM.2
  let HBIN_PF := readC1 HBIN_CNT.2
  let HBIN_NAM := readCn HBIN_PF.2
  ({
    HEAD_NUM := HEAD_NUM.1, SITE_NUM := SITE_NUM.1, HBIN_NUM := HBIN_NUM.1,
    HBIN_CNT := HBIN_CNT.1, HBIN_PF := HBIN_PF.1, HBIN_NAM := HBIN_NAM.1 },
    HBIN_NAM.2)

def parseSBR (s : STDFParser) : SBRRecord × STDFParser :=
  let HEAD_NUM := readU1 s
  let SITE_NUM := readU1 HEAD_NUM.2
  let SBIN_NUM := readU2 SITE_NUM.2
  let SBIN_CNT := readU4 SBIN_NUM.2
  let SBIN_PF := readC1 SBIN_CNT.2
  let SBIN_NAM := readCn SBIN_PF.2
  ({
    HEAD_NUM := HEAD_NUM.1, SITE_NUM := SITE_NUM.1, SBIN_NUM := SBIN_NUM.1,
    SBIN_CNT := SBIN_CNT.1, SBIN_PF := SBIN_PF.1, SBIN_NAM := SBIN_NAM.1 },
    SBIN_NAM.2)

def parseWIR (s : STDFParser) : WIRRecord × STDFParser :=
  let HEAD_NUM := readU1 s
  let SITE_GRP := readU1 HEAD_NUM.2
  let START_T := readU4 SITE_GRP.2
  let WAFER_ID := readCn START_T.2
  ({
    HEAD_NUM := HEAD_NUM.1, SITE_GRP := SITE_GRP.1, START_T := START_T.1,
    WAFER_ID := WAFER_ID.1 },
    WAFER_ID.2)

def parseWRR (s : STDFParser) : WRRRecord × STDFParser :=
  let HEAD_NUM := readU1 s
  let SITE_GRP := readU1 HEAD_NUM.2
  let FINISH_T := readU4 SITE_GRP.2
  let PART_CNT := readU4 FINISH_T.2
  let RTST_CNT := readU4 PART_CNT.2
  let ABRT_CNT := readU4 RTST_CNT.2
  let GOOD_CNT := readU4 ABRT_CNT.2
  let FUNC_CNT := readU4 GOOD_CNT.2
  let WAFER_ID := readCn FUNC_CNT.2
  let FABWF_ID := readCn WAFER_ID.2
  let FRAME_ID := readCn FABWF_ID.2
  let MASK_ID := readCn FRAME_ID.2
  let USR_DESC := readCn MASK_ID.2
  let EXC_DESC := readCn USR_DESC.2
  ({
    HEAD_NUM := HEAD_NUM.1, SITE_GRP := SITE_GRP.1, FINISH_T := FINISH_T.1,
    PART_CNT := PART_CNT.1, RTST_CNT := RTST_CNT.1, ABRT_CNT := ABRT_CNT.1,
    GOOD_CNT := GOOD_CNT.1, FUNC_CNT := FUNC_CNT.1, WAFER_ID := WAFER_ID.1,
    FABWF_ID := FABWF_ID.1, FRAME_ID := FRAME_ID.1, MASK_ID := MASK_ID.1,
    USR_DESC := USR_DESC.1, EXC_DESC := EXC_DESC.1 },
    EXC_DESC.2)

/-! ## Header, dispatch and the public operations (`stdf_parser.cpp`, lines 29-117, 201-238) -/

/-- The nested `struct RecordHeader`. -/
structure RecordHeader where
  length : U2 := 0
  recordType : U1 := 0
  recordSub : U1 := 0
deriving DecidableEq

def readRecordHeader (s : STDFParser) : RecordHeader × STDFParser :=
  let length := readU2 s
  let recordType := readU1 length.2
  let recordSub := readU1 recordType.2
  ({ length := length.1, recordType := recordType.1, recordSub := recordSub.1 }, recordSub.2)

def skipBytes (count : Nat) (s : STDFParser) : STDFParser :=
  { s with file_ := s.file_.seekgOff (count : Int) .cur }

/-- In `parseRecord`, `header.1` is the header read and `header.2` the parser state
after it; a decoder result `record` is the pair of the record and the state. -/
def parseRecord (s : STDFParser) : Option STDFRecord × STDFParser :=
  let header := readRecordHeader s
  if header.1.recordType = 0 ∧ header.1.recordSub = 10 then
    let record := parseFAR header.2
    (some (.far record.1), record.2)
  else if header.1.recordType = 1 ∧ header.1.recordSub = 10 then
    let record := parseMIR header.2
    (some (.mir record.1), record.2)
  else if header.1.recordType = 1 ∧ header.1.recordSub = 40 then
    let record := parseHBR header.2
    (some (.hbr record.1), record.2)
  else if header.1.recordType = 1 ∧ header.1.recordSub = 50 then
    let record := parseSBR header.2
    (some (.sbr record.1), record.2)
  else if header.1.recordType = 2 ∧ header.1.recordSub = 10 then
    let record := parseWIR header.2
    (some (.wir record.1), record.2)
  else if header.1.recordType = 2 ∧ header.1.recordSub = 20 then
    let record := parseWRR header.2
    (some (.wrr record.1), record.2)
  else if header.1.recordType = 5 ∧ header.1.recordSub = 10 then
    let record := parsePIR header.2
    (some (.pir record.1), record.2)
  else if header.1.recordType = 5 ∧ header.1.recordSub = 20 then
    let record := parsePRR header.2
    (some (.prr record.1), record.2)
  else if header.1.recordType = 15 ∧ header.1.recordSub = 10 then
    let record := parsePTR header.2
    (some (.ptr record.1), record.2)
  else if header.1.recordType = 15 ∧ header.1.recordSub = 20 then
    let record := parseFTR header.2
    (some (.ftr record.1), record.2)
  else
    (none, skipBytes header.1.length header.2)

/-- The comparison `file_.eof() || file_.tellg() >= streampos(fileSize_)`; the
second operand is evaluated only when the first is false, and the positions are
compared as signed 64-bit offsets. -/
def isEndOfFile (s : STDFParser) : Bool × STDFParser :=
  if s.file_.eof then (true, s)
  else
    let (p, f) := s.file_.tellg
    (decide (p ≥ toSigned 64 s.fileSize_), { s with file_ := f })

def getFileSize (s : STDFParser) : Nat := s.fileSize_

def getCurrentPosition (s : STDFParser) : Nat × STDFParser :=
  let (p, f) := s.file_.tellg
  (toUnsigned 64 p, { s with file_ := f })

def parseNextRecord (s : STDFParser) : Option STDFRecord × STDFParser :=
  let atEnd := isEndOfFile s
  if atEnd.1 then (none, atEnd.2)
  else parseRecord atEnd.2

/-- The `while (!isEndOfFile())` loop of `parseFile`.  No operation of the body
throws, so the `catch` branch is never taken.  The result is `none` when the
loop is still running after `fuel` iterations. -/
def parseFileLoop : Nat → List STDFRecord → STDFParser → Option (List STDFRecord × STDFParser)
  | 0, _, _ => none
  | fuel + 1, records, s =>
    let atEnd := isEndOfFile s
    if atEnd.1 then some (records, atEnd.2)
    else
      let record := parseNextRecord atEnd.2
      let records :=
        match record.1 with
        | some r => records ++ [r]
        | none => records
      parseFileLoop fuel records record.2

def parseFile (fuel : Nat) (s : STDFParser) : Option (List STDFRecord × STDFParser) :=
  let s := { s with file_ := s.file_.seekgOff 0 .beg }
  parseFileLoop fuel [] s

/-- In `detectEndianness`, `length`, `recordType` and `recordSub` are the three
locals after their `read`: the bytes of the local and the parser state. -/
def detectEndianness (s : STDFParser) : STDFParser :=
  let pos := s.file_.tellg
  let s := { s with file_ := pos.2 }
  let length := readRaw 2 s
  let recordType := readRaw 1 length.2
  let recordSub := readRaw 1 recordType.2
  let s := recordSub.2
  let s :=
    if leValue length.1 = 2 ∧ leValue recordType.1 = 0 ∧
        (leValue recordSub.1 = 10 ∨ leValue recordSub.1 = 20) then
      { s with endianSwap_ := false }
    else
      if swapBytes16 (leValue length.1) = 2 ∧ leValue recordType.1 = 0 ∧
          (leValue recordSub.1 = 10 ∨ leValue recordSub.1 = 20) then
        { s with endianSwap_ := true }
      else
        { s with endianSwap_ := false }
  { s with file_ := s.file_.seekgPos pos.1 }

/-- The body of the constructor once `file_.open` has succeeded on a file with
the bytes `contents`. -/
def STDFParser.construct (contents : List Byte) (uninit : List Byte) : STDFParser :=
  let file_ : IfStream := { data := contents, pos := 0, eofbit := false, failbit := false }
  let file_ := file_.seekgOff 0 .fin
  let size := file_.tellg
  let fileSize_ := toUnsigned 64 size.1
  let file_ := size.2.seekgOff 0 .beg
  detectEndianness { file_ := file_, fileSize_ := fileSize_, endianSwap_ := false, uninit := uninit }

/-- The constructor `STDFParser(filename)`: `file` is what the file system holds
under `filename` (`none` when it cannot be opened); the error is the message of
the `std::runtime_error` thrown. -/
def STDFParser.new (filename : String) (file : Option (List Byte)) (uninit : List Byte) :
    Except String STDFParser :=
  match file with
  | none => .error ("Failed to open file: " ++ filename)
  | some contents => .ok (STDFParser.construct contents uninit)

/-! ## Definitions used to state the properties -/

/-- The state after `k` more bytes have been consumed. -/
def advance (k : Nat) (s : STDFParser) : STDFParser :=
  { s with file_ := { s.file_ with pos := s.file_.pos + k } }

/-- Every read between `s` and `t` found its bytes, `k` of them in all: the
stream has not failed and `t` is `s` moved on by `k` bytes. -/
structure Consumed (s t : STDFParser) (k : Nat) : Prop where
  ok : s.file_.failbit = false
  eq : t = advance k s

/-- The dispatch table of the specification (section 6). -/
def dispatchTable : List ((Nat × Nat) × RecordType) :=
  [((0, 10), .FAR), ((1, 10), .MIR), ((1, 40), .HBR), ((1, 50), .SBR), ((2, 10), .WIR),
   ((2, 20), .WRR), ((5, 10), .PIR), ((5, 20), .PRR), ((15, 10), .PTR), ((15, 20), .FTR)]

/-- The record kind the specification assigns to a (major, minor) pair. -/
def specDispatch (major minor : Nat) : Option RecordType :=
  dispatchTable.lookup (major, minor)

/-- The byte of the file at absolute offset `p` (zero past the end). -/
def byteAt (s : STDFParser) (p : Nat) : Nat := (s.file_.data.getD p 0).val

/-- The 16-bit value stored at absolute offset `p`, in the byte order of the session. -/
def wordAt (s : STDFParser) (p : Nat) : Nat :=
  if s.endianSwap_ then 256 * byteAt s p + byteAt s (p + 1)
  else byteAt s p + 256 * byteAt s (p + 1)

/-- The optional field groups of a Parametric Test record, in wire order. -/
inductive PTRGroup where
  | resScal
  | lowLimit
  | highLimit
  | units
  | resFmt
  | limFmts
deriving DecidableEq

/-- The groups the specification says are present for an `OPT_FLAG` value
(section 4.5), in the order in which they are decoded. -/
def ptrGroups (flag : Nat) : List PTRGroup :=
  (if flag.testBit 0 then [PTRGroup.resScal] else []) ++
  (if flag.testBit 1 ∨ flag.testBit 2 then [PTRGroup.lowLimit] else []) ++
  (if flag.testBit 3 ∨ flag.testBit 4 then [PTRGroup.highLimit] else []) ++
  (if flag.testBit 5 then [PTRGroup.units] else []) ++
  (if flag.testBit 6 then [PTRGroup.resFmt] else []) ++
  (if flag.testBit 7 then [PTRGroup.limFmts] else [])

/-- Decoding of one optional group into a record: scaling byte; scaling byte
and 4-byte limit; units string; result format string; the two limit format
strings. -/
def readGroup (p : PTRRecord × STDFParser) : PTRGroup → PTRRecord × STDFParser
  | .resScal =>
    let (a, s) := readI1 p.2
    ({ p.1 with RES_SCAL := a }, s)
  | .lowLimit =>
    let (a, s) := readI1 p.2
    let (b, s) := readR4 s
    ({ p.1 with LLM_SCAL := a, LO_LIMIT := b }, s)
  | .highLimit =>
    let (a, s) := readI1 p.2
    let (b, s) := readR4 s
    ({ p.1 with HLM_SCAL := a, HI_LIMIT := b }, s)
  | .units =>
    let (a, s) := readCn p.2
    ({ p.1 with UNITS := a }, s)
  | .resFmt =>
    let (a, s) := readCn p.2
    ({ p.1 with C_RESFMT := a }, s)
  | .limFmts =>
    let (a, s) := readCn p.2
    let (b, s) := readCn s
    ({ p.1 with C_LLMFMT := a, C_HLMFMT := b }, s)

/-- The part of a Parametric Test record up to and including `OPT_FLAG`. -/
def ptrMandatory (s : STDFParser) : PTRRecord × STDFParser :=
  let TEST_NUM := readU4 s
  let HEAD_NUM := readU1 TEST_NUM.2
  let SITE_NUM := readU1 HEAD_NUM.2
  let TEST_FLG := readU1 SITE_NUM.2
  let PARM_FLG := readU1 TEST_FLG.2
  let RESULT := readR4 PARM_FLG.2
  let TEST_TXT := readCn RESULT.2
  let ALARM_ID := readCn TEST_TXT.2
  let OPT_FLAG := readU1 ALARM_ID.2
  ({
    TEST_NUM := TEST_NUM.1, HEAD_NUM := HEAD_NUM.1, SITE_NUM := SITE_NUM.1,
    TEST_FLG := TEST_FLG.1, PARM_FLG := PARM_FLG.1, RESULT := RESULT.1,
    TEST_TXT := TEST_TXT.1, ALARM_ID := ALARM_ID.1, OPT_FLAG := OPT_FLAG.1 },
    OPT_FLAG.2)

/-- The indicator `[c]` of a condition. -/
def ind (c : Bool) : Nat := if c then 1 else 0

/-- The payload size of a Parametric Test record as the specification counts it
from the set bits of `OPT_FLAG`. -/
def ptrPayloadSize (r : PTRRecord) : Nat :=
  15 + r.TEST_TXT.length + r.ALARM_ID.length +
    ind (r.OPT_FLAG.testBit 0) +
    5 * ind (r.OPT_FLAG.testBit 1 || r.OPT_FLAG.testBit 2) +
    5 * ind (r.OPT_FLAG.testBit 3 || r.OPT_FLAG.testBit 4) +
    (1 + r.UNITS.length) * ind (r.OPT_FLAG.testBit 5) +
    (1 + r.C_RESFMT.length) * ind (r.OPT_FLAG.testBit 6) +
    (2 + r.C_LLMFMT.length + r.C_HLMFMT.length) * ind (r.OPT_FLAG.testBit 7)

/-- The bytes an optional group occupies, counted from the decoded record. -/
def groupBytes (r : PTRRecord) : PTRGroup → Nat
  | .resScal => 1
  | .lowLimit => 1 + 4
  | .highLimit => 1 + 4
  | .units => r.UNITS.length + 1
  | .resFmt => r.C_RESFMT.length + 1
  | .limFmts => r.C_LLMFMT.length + 1 + r.C_HLMFMT.length + 1

/-- The members of a record that belong to an optional group: scaling byte,
limit, first and second string (a slot the group does not have is left at its
initial value). -/
def groupValue (r : PTRRecord) : PTRGroup → I1 × R4 × Cn × Cn
  | .resScal => (r.RES_SCAL, 0, [], [])
  | .lowLimit => (r.LLM_SCAL, r.LO_LIMIT, [], [])
  | .highLimit => (r.HLM_SCAL, r.HI_LIMIT, [], [])
  | .units => (0, 0, r.UNITS, [])
  | .resFmt => (0, 0, r.C_RESFMT, [])
  | .limFmts => (0, 0, r.C_LLMFMT, r.C_HLMFMT)

/-- A state in which the total size is the length of the file and fits a signed
64-bit stream offset, as it is in every session over a real file. -/
def Sized (s : STDFParser) : Prop :=
  s.fileSize_ = s.file_.data.length ∧ s.file_.data.length < 2 ^ 63

/-- A parser state at offset 0 of the given bytes, without correction. -/
def stateOver (bytes : List Byte) : STDFParser :=
  { file_ := { data := bytes, pos := 0, eofbit := false, failbit := false },
    fileSize_ := bytes.length, endianSwap_ := false, uninit := [] }

/-- A Parametric Test payload with every optional group present (`OPT_FLAG = 0xFF`). -/
def ptrSample : STDFParser :=
  stateOver [1, 0, 0, 0, 1, 1, 0, 0, 0, 0, 128, 63, 1, 65, 0, 255,
    0, 0, 0, 0, 0, 0, 0, 0, 0, 0, 0, 1, 86, 0, 0, 0]

/-- A Functional Test payload with `RTN_ICNT = 2` and `PGM_ICNT = 1`. -/
def ftrSample : STDFParser :=
  stateOver [1, 0, 0, 0, 1, 1, 0, 0, 0, 0, 0, 0, 0, 0, 0, 0, 0, 0, 0, 0, 0, 0, 0, 0,
    0, 0, 0, 0, 0, 0, 0, 0, 0, 0, 2, 0, 1, 0,
    11, 0, 12, 0, 21, 0, 22, 0, 31, 0, 41, 0,
    1, 0, 7, 0, 0, 0, 0, 0, 0, 0, 0, 0, 0]

/-- Sixty-four zero bytes: a complete payload for each of the ten decoders. -/
def zeroSample : STDFParser := stateOver (List.replicate 64 0)

/-- The bytes between the read offset and the end of the file. -/
def remaining (s : STDFParser) : List Byte := s.file_.data.drop s.file_.pos

/-- The stream has met the end of the file and is marked failed. -/
def Failed (s : STDFParser) : Prop := s.file_.eofbit = true ∧ s.file_.failbit = true

/-- A relation between parser states that the two reads of the stream respect: from related
states they deliver the same bytes and lead to related states, and related states have the
same correction flag. -/
structure Respects (R : STDFParser → STDFParser → Prop) : Prop where
  raw : ∀ (n : Nat) (s t : STDFParser), R s t →
    (readRaw n s).1 = (readRaw n t).1 ∧ R (readRaw n s).2 (readRaw n t).2
  into : ∀ (n : Nat) (s t : STDFParser), R s t →
    (readInto n s).1 = (readInto n t).1 ∧ R (readInto n s).2 (readInto n t).2
  swap : ∀ (s t : STDFParser), R s t → s.endianSwap_ = t.endianSwap_

/-- Two results of a read or a decoder agree: equal values, related states. -/
def Agree {α : Type} (R : STDFParser → STDFParser → Prop) (p q : α × STDFParser) : Prop :=
  p.1 = q.1 ∧ R p.2 q.2

/-- Two sessions that are at the same offset, have the same bytes from there on, the same
stream state, correction flag and indeterminate bytes; the bytes before the offset and the
recorded size may differ. -/
def SameAhead (s t : STDFParser) : Prop :=
  s.file_.pos = t.file_.pos ∧
    s.file_.data.drop s.file_.pos = t.file_.data.drop t.file_.pos ∧
    s.file_.eofbit = t.file_.eofbit ∧ s.file_.failbit = t.file_.failbit ∧
    s.endianSwap_ = t.endianSwap_ ∧ s.uninit = t.uninit

/-- A stream that is marked failed has met the end of the file. -/
def Sound (s : STDFParser) : Prop := s.file_.failbit = true → s.file_.eofbit = true

/-- The size the rule "fixed-width members, and one prefix byte plus the content for each
string" gives a Parametric Test record when every member is counted. -/
def PTRRecord.sizeOfAllMembers (r : PTRRecord) : Nat :=
  (4 + 1 + 1 + 1 + 1 + 4 + 1 + 1 + 1 + 1 + 4 + 4 + 4 + 4) +
    (r.TEST_TXT.length + 1) + (r.ALARM_ID.length + 1) + (r.UNITS.length + 1) +
    (r.C_RESFMT.length + 1) + (r.C_LLMFMT.length + 1) + (r.C_HLMFMT.length + 1)

/-- The stream is marked failed without being at the end of the file, and the recorded size
fits a stream offset: every read delivers nothing and `isEndOfFile()` is false. -/
def Stuck (s : STDFParser) : Prop :=
  s.file_.failbit = true ∧ s.file_.eofbit = false ∧ s.fileSize_ < 2 ^ 63

/-! ## The textual rendering: toString -/

/-- The bytes of a string literal of the source (all of them are ASCII). -/
def lit (s : String) : List Byte := s.toList.map fun c => Fin.ofNat c.toNat

/-- The output of `oss << n` for an unsigned integer: its decimal digits. -/
def showNat (n : Nat) : List Byte := (Nat.toDigits 10 n).map fun c => Fin.ofNat c.toNat

/-- The output of `oss << i` for a signed integer. -/
def showInt (i : Int) : List Byte :=
  if i < 0 then lit "-" ++ showNat i.natAbs else showNat i.toNat

/-- The output of `oss << std::hex << n`: lower-case hexadecimal digits. -/
def showHex (n : Nat) : List Byte := (Nat.toDigits 16 n).map fun c => Fin.ofNat c.toNat

/-- The quotient `num / den` rounded to the nearest integer, a tie going to the even one. -/
def roundHalfEven (num den : Nat) : Nat :=
  if 2 * (num % den) < den then num / den
  else if den < 2 * (num % den) then num / den + 1
  else if num / den % 2 = 0 then num / den else num / den + 1

/-- The six digits after the decimal point. -/
def showFraction (n : Nat) : List Byte :=
  List.replicate (6 - (showNat n).length) 48 ++ showNat n

/-- The output of `oss << std::fixed << std::setprecision(6) << x` for the `float` with the
bit pattern `bits`: the exact value rounded to six decimals. -/
def showFixed6 (bits : R4) : List Byte :=
  let sign := if bits / 2 ^ 31 % 2 = 1 then lit "-" else []
  let e := bits / 2 ^ 23 % 256
  let m := bits % 2 ^ 23
  if e = 255 then sign ++ (if m = 0 then lit "inf" else lit "nan")
  else
    let mant := if e = 0 then m else 2 ^ 23 + m
    let q :=
      if e < 150 then roundHalfEven (mant * 10 ^ 6) (2 ^ (if e = 0 then 149 else 150 - e))
      else mant * 10 ^ 6 * 2 ^ (e - 150)
    sign ++ showNat (q / 10 ^ 6) ++ lit "." ++ showFraction (q % 10 ^ 6)

/-- How the value of a member is put on its line: as it is, between double quotes, between
single quotes, or after `0x`. -/
inductive Shown where
  | plain (v : List Byte)
  | quoted (v : List Byte)
  | ticked (v : List Byte)
  | hex (v : List Byte)

/-- One statement `oss << "  NAME: " << value << "\n";`. -/
structure Line where
  name : String
  value : Shown

def Line.render (l : Line) : List Byte :=
  match l.value with
  | .plain v => lit "  " ++ lit l.name ++ lit ": " ++ v ++ lit "\n"
  | .quoted v => lit "  " ++ lit l.name ++ lit ": " ++ [34] ++ v ++ [34] ++ lit "\n"
  | .ticked v => lit "  " ++ lit l.name ++ lit ": " ++ [39] ++ v ++ [39] ++ lit "\n"
  | .hex v => lit "  " ++ lit l.name ++ lit ": 0x" ++ v ++ lit "\n"

/-- The text in the stream at `return oss.str();`: the header line of the kind and the
labelled lines. -/
def render (kind : String) (lines : List Line) : List Byte :=
  lit kind ++ lit " Record:\n" ++ (lines.map Line.render).flatten

/-- The labelled lines of `FARRecord::toString`, one for each `oss << ...;` statement
after the header line. -/
def FARRecord.lines (r : FARRecord) : List Line :=
  [⟨"CPU_TYP", .plain (showNat r.CPU_TYP)⟩,
    ⟨"STDF_VER", .plain (showNat r.STDF_VER)⟩]

def FARRecord.toString (r : FARRecord) : List Byte := render "FAR" r.lines

/-- The labelled lines of `MIRRecord::toString`, one for each `oss << ...;` statement
after the header line. -/
def MIRRecord.lines (r : MIRRecord) : List Line :=
  [⟨"SETUP_T", .plain (showNat r.SETUP_T)⟩,
    ⟨"START_T", .plain (showNat r.START_T)⟩,
    ⟨"STAT_NUM", .plain (showNat r.STAT_NUM)⟩,
    ⟨"MODE_COD", .plain [r.MODE_COD]⟩,
    ⟨"RTST_COD", .plain [r.RTST_COD]⟩,
    ⟨"PROT_COD", .plain [r.PROT_COD]⟩,
    ⟨"BURN_TIM", .plain (showNat r.BURN_TIM)⟩,
    ⟨"CMOD_COD", .plain [r.CMOD_COD]⟩,
    ⟨"LOT_ID", .quoted r.LOT_ID⟩,
    ⟨"PART_TYP", .quoted r.PART_TYP⟩,
    ⟨"NODE_NAM", .quoted r.NODE_NAM⟩,
    ⟨"TSTR_TYP", .quoted r.TSTR_TYP⟩,
    ⟨"JOB_NAM", .quoted r.JOB_NAM⟩,
    ⟨"JOB_REV", .quoted r.JOB_REV⟩,
    ⟨"SBLOT_ID", .quoted r.SBLOT_ID⟩,
    ⟨"OPER_NAM", .quoted r.OPER_NAM⟩,
    ⟨"EXEC_TYP", .quoted r.EXEC_TYP⟩,
    ⟨"EXEC_VER", .quoted r.EXEC_VER⟩,
    ⟨"TEST_COD", .quoted r.TEST_COD⟩,
    ⟨"TST_TEMP", .quoted r.TST_TEMP⟩,
    ⟨"USER_TXT", .quoted r.USER_TXT⟩,
    ⟨"AUX_FILE", .quoted r.AUX_FILE⟩,
    ⟨"PKG_TYP", .quoted r.PKG_TYP⟩,
    ⟨"FAMLY_ID", .quoted r.FAMLY_ID⟩,
    ⟨"DATE_COD", .quoted r.DATE_COD⟩,
    ⟨"FACIL_ID", .quoted r.FACIL_ID⟩,
    ⟨"FLOOR_ID", .quoted r.FLOOR_ID⟩,
    ⟨"PROC_ID", .quoted r.PROC_ID⟩,
    ⟨"OPER_FRQ", .quoted r.OPER_FRQ⟩,
    ⟨"SPEC_NAM", .quoted r.SPEC_NAM⟩,
    ⟨"SPEC_VER", .quoted r.SPEC_VER⟩,
    ⟨"FLOW_ID", .quoted r.FLOW_ID⟩,
    ⟨"SETUP_ID", .quoted r.SETUP_ID⟩,
    ⟨"DSGN_REV", .quoted r.DSGN_REV⟩,
    ⟨"ENG_ID", .quoted r.ENG_ID⟩,
    ⟨"ROM_COD", .quoted r.ROM_COD⟩,
    ⟨"SERL_NUM", .quoted r.SERL_NUM⟩,
    ⟨"SUPR_NAM", .quoted r.SUPR_NAM⟩]

def MIRRecord.toString (r : MIRRecord) : List Byte := render "MIR" r.lines

/-- The labelled lines of `PIRRecord::toString`, one for each `oss << ...;` statement
after the header line. -/
def PIRRecord.lines (r : PIRRecord) : List Line :=
  [⟨"HEAD_NUM", .plain (showNat r.HEAD_NUM)⟩,
    ⟨"SITE_NUM", .plain (showNat r.SITE_NUM)⟩]

def PIRRecord.toString (r : PIRRecord) : List Byte := render "PIR" r.lines

/-- The labelled lines of `PRRRecord::toString`, one for each `oss << ...;` statement
after the header line. -/
def PRRRecord.lines (r : PRRRecord) : List Line :=
  [⟨"HEAD_NUM", .plain (showNat r.HEAD_NUM)⟩,
    ⟨"SITE_NUM", .plain (showNat r.SITE_NUM)⟩,
    ⟨"PART_FLG", .plain (showNat r.PART_FLG)⟩,
    ⟨"NUM_TEST", .plain (showNat r.NUM_TEST)⟩,
    ⟨"HARD_BIN", .plain (showNat r.HARD_BIN)⟩,
    ⟨"SOFT_BIN", .plain (showNat r.SOFT_BIN)⟩,
    ⟨"X_COORD", .plain (showInt r.X_COORD)⟩,
    ⟨"Y_COORD", .plain (showInt r.Y_COORD)⟩,
    ⟨"TEST_T", .plain (showNat r.TEST_T)⟩,
    ⟨"PART_ID", .quoted r.PART_ID⟩,
    ⟨"PART_TXT", .quoted r.PART_TXT⟩]

def PRRRecord.toString (r : PRRRecord) : List Byte := render "PRR" r.lines

/-- The labelled lines of `PTRRecord::toString`, one for each `oss << ...;` statement
after the header line. -/
def PTRRecord.lines (r : PTRRecord) : List Line :=
  [⟨"TEST_NUM", .plain (showNat r.TEST_NUM)⟩,
    ⟨"HEAD_NUM", .plain (showNat r.HEAD_NUM)⟩,
    ⟨"SITE_NUM", .plain (showNat r.SITE_NUM)⟩,
    ⟨"TEST_FLG", .hex (showHex r.TEST_FLG)⟩,
    ⟨"PARM_FLG", .hex (showHex r.PARM_FLG)⟩,
    ⟨"RESULT", .plain (showFixed6 r.RESULT)⟩,
    ⟨"TEST_TXT", .quoted r.TEST_TXT⟩,
    ⟨"ALARM_ID", .quoted r.ALARM_ID⟩] ++
  (if r.OPT_FLAG &&& 0x01 ≠ 0 then
    [⟨"RES_SCAL", .plain (showInt r.RES_SCAL)⟩]
    else []) ++
  (if r.OPT_FLAG &&& 0x06 ≠ 0 then
    [⟨"LLM_SCAL", .plain (showInt r.LLM_SCAL)⟩,
     ⟨"LO_LIMIT", .plain (showFixed6 r.LO_LIMIT)⟩]
    else []) ++
  (if r.OPT_FLAG &&& 0x18 ≠ 0 then
    [⟨"HLM_SCAL", .plain (showInt r.HLM_SCAL)⟩,
     ⟨"HI_LIMIT", .plain (showFixed6 r.HI_LIMIT)⟩]
    else []) ++
  [⟨"UNITS", .quoted r.UNITS⟩]

def PTRRecord.toString (r : PTRRecord) : List Byte := render "PTR" r.lines

/-- The labelled lines of `FTRRecord::toString`, one for each `oss << ...;` statement
after the header line. -/
def FTRRecord.lines (r : FTRRecord) : List Line :=
  [⟨"TEST_NUM", .plain (showNat r.TEST_NUM)⟩,
    ⟨"HEAD_NUM", .plain (showNat r.HEAD_NUM)⟩,
    ⟨"SITE_NUM", .plain (showNat r.SITE_NUM)⟩,
    ⟨"TEST_FLG", .hex (showHex r.TEST_FLG)⟩,
    ⟨"OPT_FLAG", .hex (showHex r.OPT_FLAG)⟩,
    ⟨"CYCL_CNT", .plain (showNat r.CYCL_CNT)⟩,
    ⟨"REL_VADR", .plain (showNat r.REL_VADR)⟩,
    ⟨"REPT_CNT", .plain (showNat r.REPT_CNT)⟩,
    ⟨"NUM_FAIL", .plain (showNat r.NUM_FAIL)⟩,
    ⟨"XFAIL_AD", .plain (showInt r.XFAIL_AD)⟩,
    ⟨"YFAIL_AD", .plain (showInt r.YFAIL_AD)⟩,
    ⟨"VECT_OFF", .plain (showInt r.VECT_OFF)⟩,
    ⟨"RTN_ICNT", .plain (showNat r.RTN_ICNT)⟩,
    ⟨"PGM_ICNT", .plain (showNat r.PGM_ICNT)⟩,
    ⟨"VECT_NAM", .quoted r.VECT_NAM⟩,
    ⟨"TIME_SET", .quoted r.TIME_SET⟩,
    ⟨"OP_CODE", .quoted r.OP_CODE⟩,
    ⟨"TEST_TXT", .quoted r.TEST_TXT⟩,
    ⟨"ALARM_ID", .quoted r.ALARM_ID⟩,
    ⟨"PROG_TXT", .quoted r.PROG_TXT⟩,
    ⟨"RSLT_TXT", .quoted r.RSLT_TXT⟩,
    ⟨"PATG_NUM", .plain (showNat r.PATG_NUM)⟩]

def FTRRecord.toString (r : FTRRecord) : List Byte := render "FTR" r.lines

/-- The labelled lines of `HBRRecord::toString`, one for each `oss << ...;` statement
after the header line. -/
def HBRRecord.lines (r : HBRRecord) : List Line :=
  [⟨"HEAD_NUM", .plain (showNat r.HEAD_NUM)⟩,
    ⟨"SITE_NUM", .plain (showNat r.SITE_NUM)⟩,
    ⟨"HBIN_NUM", .plain (showNat r.HBIN_NUM)⟩,
    ⟨"HBIN_CNT", .plain (showNat r.HBIN_CNT)⟩,
    ⟨"HBIN_PF", .ticked [r.HBIN_PF]⟩,
    ⟨"HBIN_NAM", .quoted r.HBIN_NAM⟩]

def HBRRecord.toString (r : HBRRecord) : List Byte := render "HBR" r.lines

/-- The labelled lines of `SBRRecord::toString`, one for each `oss << ...;` statement
after the header line. -/
def SBRRecord.lines (r : SBRRecord) : List Line :=
  [⟨"HEAD_NUM", .plain (showNat r.HEAD_NUM)⟩,
    ⟨"SITE_NUM", .plain (showNat r.SITE_NUM)⟩,
    ⟨"SBIN_NUM", .plain (showNat r.SBIN_NUM)⟩,
    ⟨"SBIN_CNT", .plain (showNat r.SBIN_CNT)⟩,
    ⟨"SBIN_PF", .ticked [r.SBIN_PF]⟩,
    ⟨"SBIN_NAM", .quoted r.SBIN_NAM⟩]

def SBRRecord.toString (r : SBRRecord) : List Byte := render "SBR" r.lines

/-- The labelled lines of `WIRRecord::toString`, one for each `oss << ...;` statement
after the header line. -/
def WIRRecord.lines (r : WIRRecord) : List Line :=
  [⟨"HEAD_NUM", .plain (showNat r.HEAD_NUM)⟩,
    ⟨"SITE_GRP", .plain (showNat r.SITE_GRP)⟩,
    ⟨"START_T", .plain (showNat r.START_T)⟩,
    ⟨"WAFER_ID", .quoted r.WAFER_ID⟩]

def WIRRecord.toString (r : WIRRecord) : List Byte := render "WIR" r.lines

/-- The labelled lines of `WRRRecord::toString`, one for each `oss << ...;` statement
after the header line. -/
def WRRRecord.lines (r : WRRRecord) : List Line :=
  [⟨"HEAD_NUM", .plain (showNat r.HEAD_NUM)⟩,
    ⟨"SITE_GRP", .plain (showNat r.SITE_GRP)⟩,
    ⟨"FINISH_T", .plain (showNat r.FINISH_T)⟩,
    ⟨"PART_CNT", .plain (showNat r.PART_CNT)⟩,
    ⟨"RTST_CNT", .plain (showNat r.RTST_CNT)⟩,
    ⟨"ABRT_CNT", .plain (showNat r.ABRT_CNT)⟩,
    ⟨"GOOD_CNT", .plain (showNat r.GOOD_CNT)⟩,
    ⟨"FUNC_CNT", .plain (showNat r.FUNC_CNT)⟩,
    ⟨"WAFER_ID", .quoted r.WAFER_ID⟩,
    ⟨"FABWF_ID", .quoted r.FABWF_ID⟩,
    ⟨"FRAME_ID", .quoted r.FRAME_ID⟩,
    ⟨"MASK_ID", .quoted r.MASK_ID⟩,
    ⟨"USR_DESC", .quoted r.USR_DESC⟩,
    ⟨"EXC_DESC", .quoted r.EXC_DESC⟩]

def WRRRecord.toString (r : WRRRecord) : List Byte := render "WRR" r.lines

/-- The virtual `toString()`. -/
def STDFRecord.toString : STDFRecord → List Byte
  | .far r => r.toString
  | .mir r => r.toString
  | .pir r => r.toString
  | .prr r => r.toString
  | .ptr r => r.toString
  | .ftr r => r.toString
  | .hbr r => r.toString
  | .sbr r => r.toString
  | .wir r => r.toString
  | .wrr r => r.toString

/-! ## The database (database.h, database.cpp) -/

/-- A value held by a column of a row, or bound to a parameter of a statement.  A `real` is
kept as the 32-bit pattern of the `float` it was converted from (the conversion to `double`
is exact). -/
inductive Value where
  | null
  | integer (i : Int)
  | real (bits : R4)
  | text (s : List Byte)
deriving DecidableEq

/-- A row of a table: the values of the columns an `INSERT` statement names.  The columns
`id` and `created_at`, which SQLite fills in and no query of the program reads, are left
out. -/
abbrev Row := List (String × Value)

/-- The call `sqlite3_bind_int(stmt, i, v)`: the argument is converted to `int`. -/
def bindInt (v : Int) : Value := .integer (toSigned 32 (toUnsigned 32 v))

/-- The call `sqlite3_bind_double(stmt, i, v)` on a `float`; SQLite stores a NaN as NULL. -/
def bindDouble (bits : R4) : Value :=
  if bits / 2 ^ 23 % 256 = 255 ∧ bits % 2 ^ 23 ≠ 0 then .null else .real bits

/-- The call `sqlite3_bind_text(stmt, i, s.c_str(), -1, SQLITE_STATIC)`: the text ends at the
first zero byte. -/
def bindText (s : Cn) : Value := .text (s.takeWhile fun b => b ≠ 0)

/-- The call `sqlite3_bind_text(stmt, i, &c, 1, SQLITE_STATIC)`: one byte. -/
def bindChar (c : C1) : Value := .text [c]

/-- The class `Database`.  The handle `db_` is `none` for `nullptr`; an open connection is
the list of the tables of the database file, each with its name and its rows in insertion
order. -/
structure Database where
  dbPath_ : String
  db_ : Option (List (String × List Row)) := none
  lastError_ : String := ""

def Database.setLastError (db : Database) (error : String) : Database :=
  { db with lastError_ := error }

/-- The constructor `Database(dbPath)`. -/
def Database.new (dbPath : String) : Database := { dbPath_ := dbPath }

/-- The call `open()`, on a path where `sqlite3_open` succeeds: `file` holds the tables of
the database file, none for a file that is new. -/
def Database.open (db : Database) (file : List (String × List Row)) : Bool × Database :=
  (true, { db with db_ := some file })

/-- One `CREATE TABLE IF NOT EXISTS` statement run by `executeSQL`. -/
def Database.createTable (db : Database) (table : String) : Bool × Database :=
  match db.db_ with
  | none => (false, db.setLastError "Database not open")
  | some tables =>
    if tables.any fun t => t.1 = table then (true, db)
    else (true, { db with db_ := some (tables ++ [(table, [])]) })

/-- The names of the ten tables, in the order `createTables` creates them. -/
def Database.tableNames : List String :=
  ["far_records", "mir_records", "pir_records", "prr_records", "ptr_records", "ftr_records",
   "hbr_records", "sbr_records", "wir_records", "wrr_records"]

/-- The call `createTables()`: the ten statements are run in order until one fails. -/
def Database.createTables (db : Database) : Bool × Database :=
  match db.db_ with
  | none => (false, db.setLastError "Database not open")
  | some _ =>
    Database.tableNames.foldl
      (fun acc table => if acc.1 then acc.2.createTable table else acc) (true, db)

/-- The call `prepareStatement(sql, &stmt)` for a statement on `table`: it fails on a closed
database, and in SQLite when the table does not exist. -/
def Database.prepareStatement (db : Database) (table : String) : Bool × Database :=
  match db.db_ with
  | none => (false, db.setLastError "Database not open")
  | some tables =>
    if tables.any fun t => t.1 = table then (true, db)
    else (false, db.setLastError ("no such table: " ++ table))

/-- The common body of the ten insert routines: prepare the `INSERT` statement of the table,
bind the values, step, finalize.  The step of a prepared `INSERT` appends the row. -/
def Database.insertRow (db : Database) (table : String) (row : Row) : Bool × Database :=
  let prepared := db.prepareStatement table
  if prepared.1 then
    (true, { prepared.2 with
      db_ := prepared.2.db_.map fun tables =>
        tables.map fun t => if t.1 = table then (t.1, t.2 ++ [row]) else t })
  else (false, prepared.2)

/-- The values `insertFAR` binds to the parameters of `INSERT_FAR_SQL`, each under the
column of `far_records` it is inserted into. -/
def FARRecord.row (r : FARRecord) : Row :=
    [("cpu_typ", bindInt (r.CPU_TYP : Nat)), ("stdf_ver", bindInt (r.STDF_VER : Nat))]

def Database.insertFAR (db : Database) (record : FARRecord) : Bool × Database :=
  db.insertRow "far_records" record.row

/-- The values `insertMIR` binds to the parameters of `INSERT_MIR_SQL`, each under the
column of `mir_records` it is inserted into. -/
def MIRRecord.row (r : MIRRecord) : Row :=
    [("setup_t", bindInt (r.SETUP_T : Nat)), ("start_t", bindInt (r.START_T : Nat)),
     ("stat_num", bindInt (r.STAT_NUM : Nat)), ("mode_cod", bindChar r.MODE_COD),
     ("rtst_cod", bindChar r.RTST_COD), ("prot_cod", bindChar r.PROT_COD),
     ("burn_tim", bindInt (r.BURN_TIM : Nat)), ("cmod_cod", bindChar r.CMOD_COD),
     ("lot_id", bindText r.LOT_ID), ("part_typ", bindText r.PART_TYP),
     ("node_nam", bindText r.NODE_NAM), ("tstr_typ", bindText r.TSTR_TYP),
     ("job_nam", bindText r.JOB_NAM), ("job_rev", bindText r.JOB_REV),
     ("sblot_id", bindText r.SBLOT_ID), ("oper_nam", bindText r.OPER_NAM),
     ("exec_typ", bindText r.EXEC_TYP), ("exec_ver", bindText r.EXEC_VER),
     ("test_cod", bindText r.TEST_COD), ("tst_temp", bindText r.TST_TEMP),
     ("user_txt", bindText r.USER_TXT), ("aux_file", bindText r.AUX_FILE),
     ("pkg_typ", bindText r.PKG_TYP), ("famly_id", bindText r.FAMLY_ID),
     ("date_cod", bindText r.DATE_COD), ("facil_id", bindText r.FACIL_ID),
     ("floor_id", bindText r.FLOOR_ID), ("proc_id", bindText r.PROC_ID),
     ("oper_frq", bindText r.OPER_FRQ), ("spec_nam", bindText r.SPEC_NAM),
     ("spec_ver", bindText r.SPEC_VER), ("flow_id", bindText r.FLOW_ID),
     ("setup_id", bindText r.SETUP_ID), ("dsgn_rev", bindText r.DSGN_REV),
     ("eng_id", bindText r.ENG_ID), ("rom_cod", bindText r.ROM_COD),
     ("serl_num", bindText r.SERL_NUM), ("supr_nam", bindText r.SUPR_NAM)]

def Database.insertMIR (db : Database) (record : MIRRecord) : Bool × Database :=
  db.insertRow "mir_records" record.row

/-- The values `insertPIR` binds to the parameters of `INSERT_PIR_SQL`, each under the
column of `pir_records` it is inserted into. -/
def PIRRecord.row (r : PIRRecord) : Row :=
    [("head_num", bindInt (r.HEAD_NUM : Nat)), ("site_num", bindInt (r.SITE_NUM : Nat))]

def Database.insertPIR (db : Database) (record : PIRRecord) : Bool × Database :=
  db.insertRow "pir_records" record.row

/-- The values `insertPRR` binds to the parameters of `INSERT_PRR_SQL`, each under the
column of `prr_records` it is inserted into. -/
def PRRRecord.row (r : PRRRecord) : Row :=
    [("head_num", bindInt (r.HEAD_NUM : Nat)), ("site_num", bindInt (r.SITE_NUM : Nat)),
     ("part_flg", bindInt (r.PART_FLG : Nat)), ("num_test", bindInt (r.NUM_TEST : Nat)),
     ("hard_bin", bindInt (r.HARD_BIN : Nat)), ("soft_bin", bindInt (r.SOFT_BIN : Nat)),
     ("x_coord", bindInt r.X_COORD), ("y_coord", bindInt r.Y_COORD),
     ("test_t", bindInt (r.TEST_T : Nat)), ("part_id", bindText r.PART_ID),
     ("part_txt", bindText r.PART_TXT)]

def Database.insertPRR (db : Database) (record : PRRRecord) : Bool × Database :=
  db.insertRow "prr_records" record.row

/-- The values `insertPTR` binds to the parameters of `INSERT_PTR_SQL`, each under the
column of `ptr_records` it is inserted into. -/
def PTRRecord.row (r : PTRRecord) : Row :=
    [("test_num", bindInt (r.TEST_NUM : Nat)), ("head_num", bindInt (r.HEAD_NUM : Nat)),
     ("site_num", bindInt (r.SITE_NUM : Nat)), ("test_flg", bindInt (r.TEST_FLG : Nat)),
     ("parm_flg", bindInt (r.PARM_FLG : Nat)), ("result", bindDouble r.RESULT),
     ("test_txt", bindText r.TEST_TXT), ("alarm_id", bindText r.ALARM_ID),
     ("opt_flag", bindInt (r.OPT_FLAG : Nat)), ("res_scal", bindInt r.RES_SCAL),
     ("llm_scal", bindInt r.LLM_SCAL), ("hlm_scal", bindInt r.HLM_SCAL),
     ("lo_limit", bindDouble r.LO_LIMIT), ("hi_limit", bindDouble r.HI_LIMIT),
     ("units", bindText r.UNITS), ("c_resfmt", bindText r.C_RESFMT),
     ("c_llmfmt", bindText r.C_LLMFMT), ("c_hlmfmt", bindText r.C_HLMFMT),
     ("lo_spec", bindDouble r.LO_SPEC), ("hi_spec", bindDouble r.HI_SPEC)]

def Database.insertPTR (db : Database) (record : PTRRecord) : Bool × Database :=
  db.insertRow "ptr_records" record.row

/-- The values `insertFTR` binds to the parameters of `INSERT_FTR_SQL`, each under the
column of `ftr_records` it is inserted into. -/
def FTRRecord.row (r : FTRRecord) : Row :=
    [("test_num", bindInt (r.TEST_NUM : Nat)), ("head_num", bindInt (r.HEAD_NUM : Nat)),
     ("site_num", bindInt (r.SITE_NUM : Nat)), ("test_flg", bindInt (r.TEST_FLG : Nat)),
     ("opt_flag", bindInt (r.OPT_FLAG : Nat)), ("cycl_cnt", bindInt (r.CYCL_CNT : Nat)),
     ("rel_vadr", bindInt (r.REL_VADR : Nat)), ("rept_cnt", bindInt (r.REPT_CNT : Nat)),
     ("num_fail", bindInt (r.NUM_FAIL : Nat)), ("xfail_ad", bindInt r.XFAIL_AD),
     ("yfail_ad", bindInt r.YFAIL_AD), ("vect_off", bindInt r.VECT_OFF),
     ("rtn_icnt", bindInt (r.RTN_ICNT : Nat)), ("pgm_icnt", bindInt (r.PGM_ICNT : Nat)),
     ("vect_nam", bindText r.VECT_NAM), ("time_set", bindText r.TIME_SET),
     ("op_code", bindText r.OP_CODE), ("test_txt", bindText r.TEST_TXT),
     ("alarm_id", bindText r.ALARM_ID), ("prog_txt", bindText r.PROG_TXT),
     ("rslt_txt", bindText r.RSLT_TXT), ("patg_num", bindInt (r.PATG_NUM : Nat))]

def Database.insertFTR (db : Database) (record : FTRRecord) : Bool × Database :=
  db.insertRow "ftr_records" record.row

/-- The values `insertHBR` binds to the parameters of `INSERT_HBR_SQL`, each under the
column of `hbr_records` it is inserted into. -/
def HBRRecord.row (r : HBRRecord) : Row :=
    [("head_num", bindInt (r.HEAD_NUM : Nat)), ("site_num", bindInt (r.SITE_NUM : Nat)),
     ("hbin_num", bindInt (r.HBIN_NUM : Nat)), ("hbin_cnt", bindInt (r.HBIN_CNT : Nat)),
     ("hbin_pf", bindChar r.HBIN_PF), ("hbin_nam", bindText r.HBIN_NAM)]

def Database.insertHBR (db : Database) (record : HBRRecord) : Bool × Database :=
  db.insertRow "hbr_records" record.row

/-- The values `insertSBR` binds to the parameters of `INSERT_SBR_SQL`, each under the
column of `sbr_records` it is inserted into. -/
def SBRRecord.row (r : SBRRecord) : Row :=
    [("head_num", bindInt (r.HEAD_NUM : Nat)), ("site_num", bindInt (r.SITE_NUM : Nat)),
     ("sbin_num", bindInt (r.SBIN_NUM : Nat)), ("sbin_cnt", bindInt (r.SBIN_CNT : Nat)),
     ("sbin_pf", bindChar r.SBIN_PF), ("sbin_nam", bindText r.SBIN_NAM)]

def Database.insertSBR (db : Database) (record : SBRRecord) : Bool × Database :=
  db.insertRow "sbr_records" record.row

/-- The values `insertWIR` binds to the parameters of `INSERT_WIR_SQL`, each under the
column of `wir_records` it is inserted into. -/
def WIRRecord.row (r : WIRRecord) : Row :=
    [("head_num", bindInt (r.HEAD_NUM : Nat)), ("site_grp", bindInt (r.SITE_GRP : Nat)),
     ("start_t", bindInt (r.START_T : Nat)), ("wafer_id", bindText r.WAFER_ID)]

def Database.insertWIR (db : Database) (record : WIRRecord) : Bool × Database :=
  db.insertRow "wir_records" record.row

/-- The values `insertWRR` binds to the parameters of `INSERT_WRR_SQL`, each under the
column of `wrr_records` it is inserted into. -/
def WRRRecord.row (r : WRRRecord) : Row :=
    [("head_num", bindInt (r.HEAD_NUM : Nat)), ("site_grp", bindInt (r.SITE_GRP : Nat)),
     ("finish_t", bindInt (r.FINISH_T : Nat)), ("part_cnt", bindInt (r.PART_CNT : Nat)),
     ("rtst_cnt", bindInt (r.RTST_CNT : Nat)), ("abrt_cnt", bindInt (r.ABRT_CNT : Nat)),
     ("good_cnt", bindInt (r.GOOD_CNT : Nat)), ("func_cnt", bindInt (r.FUNC_CNT : Nat)),
     ("wafer_id", bindText r.WAFER_ID), ("fabwf_id", bindText r.FABWF_ID),
     ("frame_id", bindText r.FRAME_ID), ("mask_id", bindText r.MASK_ID),
     ("usr_desc", bindText r.USR_DESC), ("exc_desc", bindText r.EXC_DESC)]

def Database.insertWRR (db : Database) (record : WRRRecord) : Bool × Database :=
  db.insertRow "wrr_records" record.row

/-- The insert routine `insertRecord` calls: the branch of its `switch`. -/
inductive InsertRoutine where
  | insertFAR | insertMIR | insertPIR | insertPRR | insertPTR
  | insertFTR | insertHBR | insertSBR | insertWIR | insertWRR
  | unsupported
deriving DecidableEq

/-- The `switch (record.getRecordType())` of `insertRecord`: ten `case` labels and the
`default` branch. -/
def Database.route : RecordType → InsertRoutine
  | .FAR => .insertFAR
  | .MIR => .insertMIR
  | .PIR => .insertPIR
  | .PRR => .insertPRR
  | .PTR => .insertPTR
  | .FTR => .insertFTR
  | .HBR => .insertHBR
  | .SBR => .insertSBR
  | .WIR => .insertWIR
  | .WRR => .insertWRR
  | _ => .unsupported

/-- The call `insertRecord(record)`: the branch chosen by `route` casts the record to the
class of its case and calls the insert routine of that class.  A `static_cast` to a class
the record does not have is undefined; the result is then `none`. -/
def Database.insertRecord (db : Database) (record : STDFRecord) : Option (Bool × Database) :=
  match Database.route record.getRecordType, record with
  | .insertFAR, .far r => some (db.insertFAR r)
  | .insertMIR, .mir r => some (db.insertMIR r)
  | .insertPIR, .pir r => some (db.insertPIR r)
  | .insertPRR, .prr r => some (db.insertPRR r)
  | .insertPTR, .ptr r => some (db.insertPTR r)
  | .insertFTR, .ftr r => some (db.insertFTR r)
  | .insertHBR, .hbr r => some (db.insertHBR r)
  | .insertSBR, .sbr r => some (db.insertSBR r)
  | .insertWIR, .wir r => some (db.insertWIR r)
  | .insertWRR, .wrr r => some (db.insertWRR r)
  | .unsupported, _ => some (false, db.setLastError "Unsupported record type for insertion")
  | _, _ => none

/-- The rows of a table of the open database. -/
def Database.rows (db : Database) (table : String) : List Row :=
  match db.db_ with
  | none => []
  | some tables => (tables.lookup table).getD []

/-- A `SELECT COUNT(*) FROM table WHERE p` statement, prepared, stepped once and read with
`sqlite3_column_int`, which keeps the low 32 bits of the count; `none` when the statement
cannot be prepared. -/
def Database.countRows (db : Database) (table : String) (p : Row → Bool) :
    Option Int × Database :=
  let prepared := db.prepareStatement table
  if prepared.1 then
    (some (toSigned 32 ((prepared.2.rows table).filter p).length), prepared.2)
  else (none, prepared.2)

/-- Number of binary digits of `n`, by halving at most `fuel` times. -/
def bitLengthAux : Nat → Nat → Nat
  | 0, _ => 0
  | fuel + 1, n => if n = 0 then 0 else bitLengthAux fuel (n / 2) + 1

/-- Number of binary digits of `n`: `2 ^ (bitLength n - 1) ≤ n < 2 ^ bitLength n` for
`n > 0`. -/
def bitLength (n : Nat) : Nat := bitLengthAux n n

/-- A finite value of the type `double`: `(-1) ^ neg * m * 2 ^ e`, with `m < 2 ^ 53`. -/
structure Double where
  neg : Bool
  m : Nat
  e : Int
deriving DecidableEq

/-- The `double` nearest to `num / den` (ties go to the even significand), for a quotient
that is zero or in the range of the normal numbers, as every quotient of two 32-bit integers
and every product of such a quotient and 100 is.  With `e0` the quotient scaled by `2 ^ -e0`
lies between `2 ^ 52` and `2 ^ 54`; `e` is the exponent that brings it between `2 ^ 52` and
`2 ^ 53`, where it is rounded to an integer. -/
def Double.round (neg : Bool) (num den : Nat) : Double :=
  if num = 0 then { neg := neg, m := 0, e := 0 }
  else
    let e0 : Int := (bitLength num : Int) - (bitLength den : Int) - 53
    let e : Int :=
      if num * 2 ^ (-e0).toNat < 2 ^ 53 * (den * 2 ^ e0.toNat) then e0 else e0 + 1
    let m := roundHalfEven (num * 2 ^ (-e).toNat) (den * 2 ^ e.toNat)
    if m = 2 ^ 53 then { neg := neg, m := 2 ^ 52, e := e + 1 } else { neg := neg, m := m, e := e }

/-- The conversion `static_cast<double>(i)` of an `int`, which is exact. -/
def Double.ofInt (i : Int) : Double := { neg := decide (i < 0), m := i.natAbs, e := 0 }

/-- The quotient `a / b` of two finite doubles, `b` not zero. -/
def Double.div (a b : Double) : Double :=
  Double.round (a.neg != b.neg) (a.m * 2 ^ (a.e - b.e).toNat) (b.m * 2 ^ (b.e - a.e).toNat)

/-- The product `a * b` of two finite doubles. -/
def Double.mul (a b : Double) : Double :=
  Double.round (a.neg != b.neg) (a.m * b.m * 2 ^ (a.e + b.e).toNat) (2 ^ (-(a.e + b.e)).toNat)

/-- The rational number a finite double stands for. -/
def Double.toRat (d : Double) : ℚ := (if d.neg then -1 else 1) * (d.m : ℚ) * (2 : ℚ) ^ d.e

/-- The nested `struct TestStatistics`. -/
structure TestStatistics where
  totalParts : Int
  passedParts : Int
  failedParts : Int
  yieldPercent : Double
  totalTests : Int
deriving DecidableEq

/-- In `getTestStatistics`, `total`, `passed` and `tests` are the three counting queries: the
count read (when the statement could be prepared) and the database after it.  The
subtraction and the conversions are those of `int`. -/
def Database.getTestStatistics (db : Database) : TestStatistics × Database :=
  let total := db.countRows "prr_records" fun _ => true
  let totalParts := total.1.getD 0
  let passed := total.2.countRows "prr_records" fun row =>
    decide (row.lookup "hard_bin" = some (.integer 1))
  let passedParts := passed.1.getD 0
  let failedParts := toSigned 32 (toUnsigned 32 (totalParts - passedParts))
  let yieldPercent :=
    if totalParts > 0 then
      ((Double.ofInt passedParts).div (Double.ofInt totalParts)).mul (Double.ofInt 100)
    else { neg := false, m := 0, e := 0 }
  let tests := passed.2.countRows "ptr_records" fun _ => true
  ({ totalParts := totalParts, passedParts := passedParts, failedParts := failedParts,
     yieldPercent := yieldPercent, totalTests := tests.1.getD 0 }, tests.2)

/-- A database file created by the program: `Database(dbPath)`, `open()` on a path that holds
no database yet, `createTables()`. -/
def Database.fresh (dbPath : String) : Database :=
  (((Database.new dbPath).open []).2.createTables).2

/-- The loop `for (rec : records) db.insertPRR(rec)`. -/
def Database.insertPRRs (db : Database) (records : List PRRRecord) : Database :=
  records.foldl (fun d r => (d.insertPRR r).2) db

/-- The loop of the test `ParseAndInsertAllRecords`: `inserted` counts the calls of
`insertRecord` that return true. -/
def Database.insertAll (db : Database) (records : List STDFRecord) : Nat × Database :=
  records.foldl
    (fun acc rec =>
      match acc.2.insertRecord rec with
      | some result => (if result.1 then acc.1 + 1 else acc.1, result.2)
      | none => acc)
    (0, db)

/-- Every table of the schema exists in the open database. -/
def Database.Ready (db : Database) : Prop :=
  ∃ tables, db.db_ = some tables ∧
    ∀ t ∈ Database.tableNames, (tables.any fun x => decide (x.1 = t)) = true

/-- The ten tables, all empty but `prr_records`, which holds `rows`. -/
def tablesWith (rows : List Row) : List (String × List Row) :=
  [("far_records", []), ("mir_records", []), ("pir_records", []), ("prr_records", rows),
   ("ptr_records", []), ("ftr_records", []), ("hbr_records", []), ("sbr_records", []),
   ("wir_records", []), ("wrr_records", [])]

/-- The statistics `getTestStatistics` returns once `records` have been inserted, in this
order, in a database file created by the program. -/
def statisticsAfter (dbPath : String) (records : List PRRRecord) : TestStatistics :=
  ((Database.fresh dbPath).insertPRRs records).getTestStatistics.1

/-! ## Records in a file, in either byte order -/

/-- The byte with the value `n % 256`. -/
def byteOf (n : Nat) : Byte := ⟨n % 256, Nat.mod_lt n (by decide)⟩

/-- The two bytes of a 16-bit field in a file: least significant byte first, or most
significant byte first in a file written with the other byte order (`be`). -/
def put16 (be : Bool) (n : Nat) : List Byte :=
  if be then [byteOf (n / 256), byteOf n] else [byteOf n, byteOf (n / 256)]

/-- The four bytes of a 32-bit field in a file, in either byte order. -/
def put32 (be : Bool) (n : Nat) : List Byte :=
  if be then [byteOf (n / 2 ^ 24), byteOf (n / 2 ^ 16), byteOf (n / 2 ^ 8), byteOf n]
  else [byteOf n, byteOf (n / 2 ^ 8), byteOf (n / 2 ^ 16), byteOf (n / 2 ^ 24)]

/-- A string field in a file: the length byte, then the characters. -/
def putCn (value : Cn) : List Byte := byteOf value.length :: value

/-- A blob field in a file: the 16-bit length, then the bytes. -/
def putBn (be : Bool) (value : Bn) : List Byte := put16 be value.length ++ value

/-- An array of 16-bit fields in a file. -/
def putWords (be : Bool) (values : List U2) : List Byte := (values.map (put16 be)).flatten

/-- The parser state `s` is `s0` moved on by `k` bytes; the stream is good, the session
corrects the byte order exactly when `be` holds, and `bytes` is what is left to read. -/
structure Ahead (s0 : STDFParser) (be : Bool) (k : Nat) (bytes : List Byte)
    (s : STDFParser) : Prop where
  state : s = advance k s0
  good : s0.file_.good = true
  swap : s0.endianSwap_ = be
  left : s0.file_.data.drop (s0.file_.pos + k) = bytes

/-- The payload of a File Attributes record in a file: its fields in the order `parseFAR` reads
them. -/
def FARRecord.encode (_be : Bool) (r : FARRecord) : List Byte :=
  [byteOf r.CPU_TYP] ++ [byteOf r.STDF_VER]

/-- Every field of the record has a value of its type: the integers are in range and a
string is at most 255 bytes long. -/
def FARRecord.WF (r : FARRecord) : Prop :=
  r.CPU_TYP < 256 ∧ r.STDF_VER < 256

instance (r : FARRecord) : Decidable r.WF := by
  unfold FARRecord.WF
  infer_instance

/-- The payload of a Master Information record in a file: its fields in the order `parseMIR` reads
them. -/
def MIRRecord.encode (be : Bool) (r : MIRRecord) : List Byte :=
  put32 be r.SETUP_T ++ put32 be r.START_T ++ [byteOf r.STAT_NUM] ++ [r.MODE_COD] ++
  [r.RTST_COD] ++ [r.PROT_COD] ++ put16 be r.BURN_TIM ++ [r.CMOD_COD] ++ putCn r.LOT_ID ++
  putCn r.PART_TYP ++ putCn r.NODE_NAM ++ putCn r.TSTR_TYP ++ putCn r.JOB_NAM ++
  putCn r.JOB_REV ++ putCn r.SBLOT_ID ++ putCn r.OPER_NAM ++ putCn r.EXEC_TYP ++
  putCn r.EXEC_VER ++ putCn r.TEST_COD ++ putCn r.TST_TEMP ++ putCn r.USER_TXT ++
  putCn r.AUX_FILE ++ putCn r.PKG_TYP ++ putCn r.FAMLY_ID ++ putCn r.DATE_COD ++
  putCn r.FACIL_ID ++ putCn r.FLOOR_ID ++ putCn r.PROC_ID ++ putCn r.OPER_FRQ ++
  putCn r.SPEC_NAM ++ putCn r.SPEC_VER ++ putCn r.FLOW_ID ++ putCn r.SETUP_ID ++
  putCn r.DSGN_REV ++ putCn r.ENG_ID ++ putCn r.ROM_COD ++ putCn r.SERL_NUM ++ putCn r.SUPR_NAM

/-- Every field of the record has a value of its type: the integers are in range and a
string is at most 255 bytes long. -/
def MIRRecord.WF (r : MIRRecord) : Prop :=
  r.SETUP_T < 2 ^ 32 ∧ r.START_T < 2 ^ 32 ∧ r.STAT_NUM < 256 ∧ r.BURN_TIM < 2 ^ 16 ∧
  r.LOT_ID.length < 256 ∧ r.PART_TYP.length < 256 ∧ r.NODE_NAM.length < 256 ∧
  r.TSTR_TYP.length < 256 ∧ r.JOB_NAM.length < 256 ∧ r.JOB_REV.length < 256 ∧
  r.SBLOT_ID.length < 256 ∧ r.OPER_NAM.length < 256 ∧ r.EXEC_TYP.length < 256 ∧
  r.EXEC_VER.length < 256 ∧ r.TEST_COD.length < 256 ∧ r.TST_TEMP.length < 256 ∧
  r.USER_TXT.length < 256 ∧ r.AUX_FILE.length < 256 ∧ r.PKG_TYP.length < 256 ∧
  r.FAMLY_ID.length < 256 ∧ r.DATE_COD.length < 256 ∧ r.FACIL_ID.length < 256 ∧
  r.FLOOR_ID.length < 256 ∧ r.PROC_ID.length < 256 ∧ r.OPER_FRQ.length < 256 ∧
  r.SPEC_NAM.length < 256 ∧ r.SPEC_VER.length < 256 ∧ r.FLOW_ID.length < 256 ∧
  r.SETUP_ID.length < 256 ∧ r.DSGN_REV.length < 256 ∧ r.ENG_ID.length < 256 ∧
  r.ROM_COD.length < 256 ∧ r.SERL_NUM.length < 256 ∧ r.SUPR_NAM.length < 256

instance (r : MIRRecord) : Decidable r.WF := by
  unfold MIRRecord.WF
  infer_instance

/-- The payload of a Part Information record in a file: its fields in the order `parsePIR` reads
them. -/
def PIRRecord.encode (_be : Bool) (r : PIRRecord) : List Byte :=
  [byteOf r.HEAD_NUM] ++ [byteOf r.SITE_NUM]

/-- Every field of the record has a value of its type: the integers are in range and a
string is at most 255 bytes long. -/
def PIRRecord.WF (r : PIRRecord) : Prop :=
  r.HEAD_NUM < 256 ∧ r.SITE_NUM < 256

instance (r : PIRRecord) : Decidable r.WF := by
  unfold PIRRecord.WF
  infer_instance

/-- The payload of a Part Results record in a file: its fields in the order `parsePRR` reads
them. -/
def PRRRecord.encode (be : Bool) (r : PRRRecord) : List Byte :=
  [byteOf r.HEAD_NUM] ++ [byteOf r.SITE_NUM] ++ [byteOf r.PART_FLG] ++ put16 be r.NUM_TEST ++
  put16 be r.HARD_BIN ++ put16 be r.SOFT_BIN ++ put16 be (toUnsigned 16 r.X_COORD) ++
  put16 be (toUnsigned 16 r.Y_COORD) ++ put32 be r.TEST_T ++ putCn r.PART_ID ++
  putCn r.PART_TXT ++ putBn be r.PART_FIX

/-- Every field of the record has a value of its type: the integers are in range and a
string is at most 255 bytes long. -/
def PRRRecord.WF (r : PRRRecord) : Prop :=
  r.HEAD_NUM < 256 ∧ r.SITE_NUM < 256 ∧ r.PART_FLG < 256 ∧ r.NUM_TEST < 2 ^ 16 ∧
  r.HARD_BIN < 2 ^ 16 ∧ r.SOFT_BIN < 2 ^ 16 ∧ (-2 ^ 15 ≤ r.X_COORD ∧ r.X_COORD < 2 ^ 15) ∧
  (-2 ^ 15 ≤ r.Y_COORD ∧ r.Y_COORD < 2 ^ 15) ∧ r.TEST_T < 2 ^ 32 ∧ r.PART_ID.length < 256 ∧
  r.PART_TXT.length < 256 ∧ r.PART_FIX.length < 2 ^ 16

instance (r : PRRRecord) : Decidable r.WF := by
  unfold PRRRecord.WF
  infer_instance

/-- The payload of a Hardware Bin record in a file: its fields in the order `parseHBR` reads
them. -/
def HBRRecord.encode (be : Bool) (r : HBRRecord) : List Byte :=
  [byteOf r.HEAD_NUM] ++ [byteOf r.SITE_NUM] ++ put16 be r.HBIN_NUM ++ put32 be r.HBIN_CNT ++
  [r.HBIN_PF] ++ putCn r.HBIN_NAM

/-- Every field of the record has a value of its type: the integers are in range and a
string is at most 255 bytes long. -/
def HBRRecord.WF (r : HBRRecord) : Prop :=
  r.HEAD_NUM < 256 ∧ r.SITE_NUM < 256 ∧ r.HBIN_NUM < 2 ^ 16 ∧ r.HBIN_CNT < 2 ^ 32 ∧
  r.HBIN_NAM.length < 256

instance (r : HBRRecord) : Decidable r.WF := by
  unfold HBRRecord.WF
  infer_instance

/-- The payload of a Software Bin record in a file: its fields in the order `parseSBR` reads
them. -/
def SBRRecord.encode (be : Bool) (r : SBRRecord) : List Byte :=
  [byteOf r.HEAD_NUM] ++ [byteOf r.SITE_NUM] ++ put16 be r.SBIN_NUM ++ put32 be r.SBIN_CNT ++
  [r.SBIN_PF] ++ putCn r.SBIN_NAM

/-- Every field of the record has a value of its type: the integers are in range and a
string is at most 255 bytes long. -/
def SBRRecord.WF (r : SBRRecord) : Prop :=
  r.HEAD_NUM < 256 ∧ r.SITE_NUM < 256 ∧ r.SBIN_NUM < 2 ^ 16 ∧ r.SBIN_CNT < 2 ^ 32 ∧
  r.SBIN_NAM.length < 256

instance (r : SBRRecord) : Decidable r.WF := by
  unfold SBRRecord.WF
  infer_instance

/-- The payload of a Wafer Information record in a file: its fields in the order `parseWIR` reads
them. -/
def WIRRecord.encode (be : Bool) (r : WIRRecord) : List Byte :=
  [byteOf r.HEAD_NUM] ++ [byteOf r.SITE_GRP] ++ put32 be r.START_T ++ putCn r.WAFER_ID

/-- Every field of the record has a value of its type: the integers are in range and a
string is at most 255 bytes long. -/
def WIRRecord.WF (r : WIRRecord) : Prop :=
  r.HEAD_NUM < 256 ∧ r.SITE_GRP < 256 ∧ r.START_T < 2 ^ 32 ∧ r.WAFER_ID.length < 256

instance (r : WIRRecord) : Decidable r.WF := by
  unfold WIRRecord.WF
  infer_instance

/-- The payload of a Wafer Results record in a file: its fields in the order `parseWRR` reads
them. -/
def WRRRecord.encode (be : Bool) (r : WRRRecord) : List Byte :=
  [byteOf r.HEAD_NUM] ++ [byteOf r.SITE_GRP] ++ put32 be r.FINISH_T ++ put32 be r.PART_CNT ++
  put32 be r.RTST_CNT ++ put32 be r.ABRT_CNT ++ put32 be r.GOOD_CNT ++ put32 be r.FUNC_CNT ++
  putCn r.WAFER_ID ++ putCn r.FABWF_ID ++ putCn r.FRAME_ID ++ putCn r.MASK_ID ++
  putCn r.USR_DESC ++ putCn r.EXC_DESC

/-- Every field of the record has a value of its type: the integers are in range and a
string is at most 255 bytes long. -/
def WRRRecord.WF (r : WRRRecord) : Prop :=
  r.HEAD_NUM < 256 ∧ r.SITE_GRP < 256 ∧ r.FINISH_T < 2 ^ 32 ∧ r.PART_CNT < 2 ^ 32 ∧
  r.RTST_CNT < 2 ^ 32 ∧ r.ABRT_CNT < 2 ^ 32 ∧ r.GOOD_CNT < 2 ^ 32 ∧ r.FUNC_CNT < 2 ^ 32 ∧
  r.WAFER_ID.length < 256 ∧ r.FABWF_ID.length < 256 ∧ r.FRAME_ID.length < 256 ∧
  r.MASK_ID.length < 256 ∧ r.USR_DESC.length < 256 ∧ r.EXC_DESC.length < 256

instance (r : WRRRecord) : Decidable r.WF := by
  unfold WRRRecord.WF
  infer_instance

/-- The payload of a Functional Test record in a file: its fields in the order `parseFTR`
reads them, each of the four arrays with as many elements as its count field says. -/
def FTRRecord.encode (be : Bool) (r : FTRRecord) : List Byte :=
  put32 be r.TEST_NUM ++ [byteOf r.HEAD_NUM] ++ [byteOf r.SITE_NUM] ++ [byteOf r.TEST_FLG] ++
  [byteOf r.OPT_FLAG] ++ put32 be r.CYCL_CNT ++ put32 be r.REL_VADR ++ put32 be r.REPT_CNT ++
  put32 be r.NUM_FAIL ++ put32 be (toUnsigned 32 r.XFAIL_AD) ++
  put32 be (toUnsigned 32 r.YFAIL_AD) ++ put16 be (toUnsigned 16 r.VECT_OFF) ++
  put16 be r.RTN_ICNT ++ put16 be r.PGM_ICNT ++ putWords be r.RTN_INDX ++
  putWords be r.RTN_STAT ++ putWords be r.PGM_INDX ++ putWords be r.PGM_STAT ++
  putBn be r.FAIL_PIN ++ putCn r.VECT_NAM ++ putCn r.TIME_SET ++ putCn r.OP_CODE ++
  putCn r.TEST_TXT ++ putCn r.ALARM_ID ++ putCn r.PROG_TXT ++ putCn r.RSLT_TXT ++
  [byteOf r.PATG_NUM] ++ putBn be r.SPIN_MAP

/-- Every field of the record has a value of its type, a string is at most 255 bytes long,
and each array has the length its count field gives. -/
def FTRRecord.WF (r : FTRRecord) : Prop :=
  r.TEST_NUM < 2 ^ 32 ∧ r.HEAD_NUM < 256 ∧ r.SITE_NUM < 256 ∧ r.TEST_FLG < 256 ∧
  r.OPT_FLAG < 256 ∧ r.CYCL_CNT < 2 ^ 32 ∧ r.REL_VADR < 2 ^ 32 ∧ r.REPT_CNT < 2 ^ 32 ∧
  r.NUM_FAIL < 2 ^ 32 ∧ (-2 ^ 31 ≤ r.XFAIL_AD ∧ r.XFAIL_AD < 2 ^ 31) ∧
  (-2 ^ 31 ≤ r.YFAIL_AD ∧ r.YFAIL_AD < 2 ^ 31) ∧ (-2 ^ 15 ≤ r.VECT_OFF ∧ r.VECT_OFF < 2 ^ 15) ∧
  r.RTN_ICNT < 2 ^ 16 ∧ r.PGM_ICNT < 2 ^ 16 ∧
  (r.RTN_INDX.length = r.RTN_ICNT ∧ r.RTN_ICNT < 65536 ∧ ∀ v ∈ r.RTN_INDX, v < 2 ^ 16) ∧
  (r.RTN_STAT.length = r.RTN_ICNT ∧ r.RTN_ICNT < 65536 ∧ ∀ v ∈ r.RTN_STAT, v < 2 ^ 16) ∧
  (r.PGM_INDX.length = r.PGM_ICNT ∧ r.PGM_ICNT < 65536 ∧ ∀ v ∈ r.PGM_INDX, v < 2 ^ 16) ∧
  (r.PGM_STAT.length = r.PGM_ICNT ∧ r.PGM_ICNT < 65536 ∧ ∀ v ∈ r.PGM_STAT, v < 2 ^ 16) ∧
  r.FAIL_PIN.length < 2 ^ 16 ∧ r.VECT_NAM.length < 256 ∧ r.TIME_SET.length < 256 ∧
  r.OP_CODE.length < 256 ∧ r.TEST_TXT.length < 256 ∧ r.ALARM_ID.length < 256 ∧
  r.PROG_TXT.length < 256 ∧ r.RSLT_TXT.length < 256 ∧ r.PATG_NUM < 256 ∧
  r.SPIN_MAP.length < 2 ^ 16

instance (r : FTRRecord) : Decidable r.WF := by
  unfold FTRRecord.WF
  infer_instance

/-- The payload of a Parametric Test record in a file: the nine fields up to `OPT_FLAG`, then
the optional fields `parsePTR` reads for the bits of `OPT_FLAG`, in its order. -/
def PTRRecord.encode (be : Bool) (r : PTRRecord) : List Byte :=
  put32 be r.TEST_NUM ++ [byteOf r.HEAD_NUM] ++ [byteOf r.SITE_NUM] ++ [byteOf r.TEST_FLG] ++
  [byteOf r.PARM_FLG] ++ put32 be r.RESULT ++ putCn r.TEST_TXT ++ putCn r.ALARM_ID ++
  [byteOf r.OPT_FLAG] ++
  (if r.OPT_FLAG &&& 0x01 ≠ 0 then [byteOf (toUnsigned 8 r.RES_SCAL)] else []) ++
  (if r.OPT_FLAG &&& 0x06 ≠ 0 then byteOf (toUnsigned 8 r.LLM_SCAL) :: put32 be r.LO_LIMIT
    else []) ++
  (if r.OPT_FLAG &&& 0x18 ≠ 0 then byteOf (toUnsigned 8 r.HLM_SCAL) :: put32 be r.HI_LIMIT
    else []) ++
  (if r.OPT_FLAG &&& 0x20 ≠ 0 then putCn r.UNITS else []) ++
  (if r.OPT_FLAG &&& 0x40 ≠ 0 then putCn r.C_RESFMT else []) ++
  (if r.OPT_FLAG &&& 0x80 ≠ 0 then putCn r.C_LLMFMT ++ putCn r.C_HLMFMT else [])

/-- Every field of the record has a value of its type, a string is at most 255 bytes long,
and a field that `parsePTR` does not read for the bits of `OPT_FLAG` has its initial value
(`LO_SPEC` and `HI_SPEC` are never read). -/
def PTRRecord.WF (r : PTRRecord) : Prop :=
  r.TEST_NUM < 2 ^ 32 ∧ r.HEAD_NUM < 256 ∧ r.SITE_NUM < 256 ∧ r.TEST_FLG < 256 ∧
  r.PARM_FLG < 256 ∧ r.RESULT < 2 ^ 32 ∧ r.TEST_TXT.length < 256 ∧ r.ALARM_ID.length < 256 ∧
  r.OPT_FLAG < 256 ∧
  (if r.OPT_FLAG &&& 0x01 ≠ 0 then -128 ≤ r.RES_SCAL ∧ r.RES_SCAL < 128 else r.RES_SCAL = 0) ∧
  (if r.OPT_FLAG &&& 0x06 ≠ 0 then (-128 ≤ r.LLM_SCAL ∧ r.LLM_SCAL < 128) ∧ r.LO_LIMIT < 2 ^ 32
    else r.LLM_SCAL = 0 ∧ r.LO_LIMIT = 0) ∧
  (if r.OPT_FLAG &&& 0x18 ≠ 0 then (-128 ≤ r.HLM_SCAL ∧ r.HLM_SCAL < 128) ∧ r.HI_LIMIT < 2 ^ 32
    else r.HLM_SCAL = 0 ∧ r.HI_LIMIT = 0) ∧
  (if r.OPT_FLAG &&& 0x20 ≠ 0 then r.UNITS.length < 256 else r.UNITS = []) ∧
  (if r.OPT_FLAG &&& 0x40 ≠ 0 then r.C_RESFMT.length < 256 else r.C_RESFMT = []) ∧
  (if r.OPT_FLAG &&& 0x80 ≠ 0 then r.C_LLMFMT.length < 256 ∧ r.C_HLMFMT.length < 256
    else r.C_LLMFMT = [] ∧ r.C_HLMFMT = []) ∧
  r.LO_SPEC = 0 ∧ r.HI_SPEC = 0

instance (r : PTRRecord) : Decidable r.WF := by
  unfold PTRRecord.WF
  infer_instance

/-- The payload of a record in a file, in either byte order. -/
def STDFRecord.encode (be : Bool) : STDFRecord → List Byte
  | .far r => r.encode be
  | .mir r => r.encode be
  | .pir r => r.encode be
  | .prr r => r.encode be
  | .ptr r => r.encode be
  | .ftr r => r.encode be
  | .hbr r => r.encode be
  | .sbr r => r.encode be
  | .wir r => r.encode be
  | .wrr r => r.encode be

/-- The fields of the record have values of their types and the payload is one its decoder
reads back. -/
def STDFRecord.WF : STDFRecord → Prop
  | .far r => r.WF
  | .mir r => r.WF
  | .pir r => r.WF
  | .prr r => r.WF
  | .ptr r => r.WF
  | .ftr r => r.WF
  | .hbr r => r.WF
  | .sbr r => r.WF
  | .wir r => r.WF
  | .wrr r => r.WF

instance (r : STDFRecord) : Decidable r.WF := by
  cases r <;> (unfold STDFRecord.WF; infer_instance)

/-- The type and subtype bytes in the header of a record of each kind: the rows of the
dispatch table of `parseRecord`. -/
def STDFRecord.code : STDFRecord → Nat × Nat
  | .far _ => (0, 10)
  | .mir _ => (1, 10)
  | .hbr _ => (1, 40)
  | .sbr _ => (1, 50)
  | .wir _ => (2, 10)
  | .wrr _ => (2, 20)
  | .pir _ => (5, 10)
  | .prr _ => (5, 20)
  | .ptr _ => (15, 10)
  | .ftr _ => (15, 20)

/-- A complete record of a file: a record of one of the ten kinds the parser decodes, or a
record of any other type with its payload (`swapped` is the payload as the file written in the
other byte order has it). -/
inductive Item where
  | record (r : STDFRecord)
  | other (typ sub : Nat) (payload swapped : List Byte)

/-- The record a complete record of the file decodes to, if it is of a decoded kind. -/
def Item.record? : Item → Option STDFRecord
  | .record r => some r
  | .other _ _ _ _ => none

/-- The item can be written as a complete record: its fields are well-formed and the payload
fits the 16-bit length field of the header; a record of another type has a type and subtype
that are not in the dispatch table. -/
def Item.WF : Item → Prop
  | .record r => r.WF ∧ (r.encode false).length < 2 ^ 16
  | .other typ sub payload swapped =>
    typ < 256 ∧ sub < 256 ∧ specDispatch typ sub = none ∧ payload.length < 2 ^ 16 ∧
      swapped.length = payload.length

instance (i : Item) : Decidable i.WF := by
  cases i <;> (unfold Item.WF; infer_instance)

/-- The bytes of a complete record: the header (length of the payload, type, subtype) and the
payload. -/
def Item.encode (be : Bool) : Item → List Byte
  | .record r =>
    put16 be (r.encode be).length ++ [byteOf r.code.1, byteOf r.code.2] ++ r.encode be
  | .other typ sub payload swapped =>
    put16 be payload.length ++ [byteOf typ, byteOf sub] ++ (if be then swapped else payload)

/-- The bytes of a file made of complete records, in the byte order of the host (`be` false)
or with the bytes of every 16-bit and 32-bit field reversed (`be` true). -/
def encodeFile (be : Bool) (items : List Item) : List Byte :=
  (items.map (Item.encode be)).flatten

/-- The loop of the test `StreamingParse`, `while (!parser.isEndOfFile()) { auto record =
parser.parseNextRecord(); if (record) ... }`, with the records it sees collected in order.
The result is `none` when the loop is still running after `fuel` iterations. -/
def streamLoop : Nat → List STDFRecord → STDFParser → Option (List STDFRecord × STDFParser)
  | 0, _, _ => none
  | fuel + 1, records, s =>
    let atEnd := isEndOfFile s
    if atEnd.1 then some (records, atEnd.2)
    else
      let record := parseNextRecord atEnd.2
      match record.1 with
      | some r => streamLoop fuel (records ++ [r]) record.2
      | none => streamLoop fuel records record.2

/-! ## The generator (`stdf_generator.cpp`) -/

/-- The writer `writeU1`: the byte of the value converted to `uint8_t`. -/
def writeU1 (value : Nat) : List Byte := [byteOf value]

/-- The writer `writeU2`: the two bytes of the `uint16_t` as the host stores them, least
significant byte first. -/
def writeU2 (value : Nat) : List Byte := [byteOf value, byteOf (value / 2 ^ 8)]

/-- The writer `writeU4`: the four bytes of the `uint32_t` as the host stores them. -/
def writeU4 (value : Nat) : List Byte :=
  [byteOf value, byteOf (value / 2 ^ 8), byteOf (value / 2 ^ 16), byteOf (value / 2 ^ 24)]

/-- The writer `writeI2`: the two bytes of the `int16_t`. -/
def writeI2 (value : Int) : List Byte := writeU2 (toUnsigned 16 value)

/-- The writer `writeI4`: the four bytes of the `int32_t`. -/
def writeI4 (value : Int) : List Byte := writeU4 (toUnsigned 32 value)

/-- The writer `writeR4`: the four bytes of the `float`, given by its bit pattern. -/
def writeR4 (value : R4) : List Byte := writeU4 value

/-- The writer `writeC1`. -/
def writeC1 (value : C1) : List Byte := [value]

/-- The writer `writeCn`: the length converted to `uint8_t`, then all the characters. -/
def writeCn (value : List Byte) : List Byte := writeU1 value.length ++ value

/-- The writer `writeRecordHeader`. -/
def writeRecordHeader (length type subtype : Nat) : List Byte :=
  writeU2 length ++ writeU1 type ++ writeU1 subtype

/-- The expression `std::to_string(n).insert(0, 3 - std::to_string(n).length(), '0')`.  The
count is a `size_t`: for a text of more than three characters it wraps around and `insert`
throws `std::length_error`. -/
def zeroPadded (n : Int) : Except String (List Byte) :=
  if (showInt n).length ≤ 3 then .ok (List.replicate (3 - (showInt n).length) 48 ++ showInt n)
  else .error "std::length_error"

/-- The writer `writeFAR`: the bytes it appends to the file. -/
def writeFAR : List Byte :=
  writeRecordHeader 2 0 10 ++ writeU1 2 ++ writeU1 4

/-- The thirty strings of `writeMIR`; `lot` is the zero-padded lot number. -/
def mirStrings (lot : List Byte) (lotNumber waferNumber : Int) : List (List Byte) :=
  [lit "TEST_LOT_" ++ lot, lit "PART_TYPE_" ++ showInt (Int.tmod lotNumber 5 + 1),
   lit "TESTER_NODE", lit "ATE_TESTER", lit "JOB_" ++ lot, lit "REV_1.0", [], lit "OPERATOR",
   lit "EXEC_SW", lit "VER_2.1", lit "PROD", lit "25C",
   lit "Sample test data " ++ (lit "WFR_" ++ showInt waferNumber), [], lit "QFN48",
   lit "FAMILY_A", lit "2024" ++ lot, lit "FAB_1", lit "FLOOR_2", lit "PROC_90NM", lit "1GHZ",
   lit "SPEC_V1", lit "VER_1.0", lit "FLOW_PROD", lit "SETUP_A", lit "REV_B", lit "ENG_LOT",
   lit "ROM_001", lit "SN_12345", lit "SUPERVISOR"]

/-- The writer `writeMIR`: `setup` and `start` are what the two calls of `std::time` return.
The strings are built before the first write, so that nothing is written when the padding
throws. -/
def writeMIR (setup start : Nat) (lotNumber waferNumber : Int) : Except String (List Byte) :=
  match zeroPadded lotNumber with
  | .error e => .error e
  | .ok lot =>
    let strings := mirStrings lot lotNumber waferNumber
    let length := strings.foldl (fun length str => length + (1 + str.length)) 15
    .ok (writeRecordHeader length 1 10 ++
      writeU4 setup ++ writeU4 start ++ writeU1 1 ++ writeC1 80 ++ writeC1 32 ++ writeC1 32 ++
      writeU2 0 ++ writeC1 32 ++ (strings.map writeCn).flatten)

/-- The writer `writePIR` (the part number is not written). -/
def writePIR (_partNum : Int) : List Byte :=
  writeRecordHeader 2 5 10 ++ writeU1 1 ++ writeU1 1

/-- The writer `writePTR`: `sample` is the bit pattern of the value drawn from the normal
distribution (the only use of `partNum`) and `draw` the next output of the generator `gen_`;
`0.5f` has the bit pattern `0x3F000000`. -/
def writePTR (sample : R4) (draw : Nat) (testNum _partNum lotNumber : Int) : List Byte :=
  let testName := lit "TEST_" ++ showInt testNum ++ lit "_LOT" ++ showInt lotNumber
  let length := 4 + 1 + 1 + 1 + 1 + 4 + (1 + testName.length) + 1 + 1
  let result := if draw % 20 = 0 then 0x3F000000 else sample
  writeRecordHeader length 15 10 ++
    writeU4 (toUnsigned 32 testNum) ++ writeU1 1 ++ writeU1 1 ++ writeU1 0 ++ writeU1 0 ++
    writeR4 result ++ writeCn testName ++ writeCn [] ++ writeU1 0

/-- The writer `writePRR`: `draw1` and `draw2` are the two outputs of the generator `gen_`.
The test time is computed in `unsigned long` and converted to `uint32_t`. -/
def writePRR (draw1 draw2 : Nat) (partNum numTests : Int) : List Byte :=
  let partId := lit "PART_" ++ showInt partNum
  let length := 1 + 1 + 1 + 2 + 2 + 2 + 2 + 2 + 4 + (1 + partId.length) + 1 + 2
  let isPassed := draw1 % 10 ≠ 0
  let hardBin := if isPassed then 1 else 2
  let softBin := if isPassed then 1 else 2
  let testTime := toUnsigned 32 (numTests * 200 + ((draw2 % 500 : Nat) : Int))
  writeRecordHeader length 5 20 ++
    writeU1 1 ++ writeU1 1 ++ writeU1 0 ++ writeU2 (toUnsigned 16 numTests) ++
    writeU2 hardBin ++ writeU2 softBin ++ writeI2 (Int.tmod partNum 10) ++
    writeI2 (Int.tdiv partNum 10) ++ writeU4 testTime ++ writeCn partId ++ writeCn [] ++
    writeU2 0

/-- The writer `writeWIR`: `start` is what `std::time` returns. -/
def writeWIR (start : Nat) (waferNumber : Int) : Except String (List Byte) :=
  match zeroPadded waferNumber with
  | .error e => .error e
  | .ok wafer =>
    let waferId := lit "WFR_" ++ wafer
    let length := 1 + 1 + 4 + 1 + waferId.length
    .ok (writeRecordHeader length 2 10 ++
      writeU1 1 ++ writeU1 1 ++ writeU4 start ++ writeCn waferId)

/-- The writer `writeWRR`: `finish` is what `std::time` returns. -/
def writeWRR (finish : Nat) (waferNumber : Int) (totalParts goodParts : Nat) :
    Except String (List Byte) :=
  match zeroPadded waferNumber with
  | .error e => .error e
  | .ok wafer =>
    let waferId := lit "WFR_" ++ wafer
    let fabWfId := lit "FAB_" ++ showInt waferNumber
    let length := 1 + 1 + 4 + 4 + 4 + 4 + 4 + 4 + (1 + waferId.length) + (1 + fabWfId.length) +
      1 + 1 + 1 + 1
    .ok (writeRecordHeader length 2 20 ++
      writeU1 1 ++ writeU1 1 ++ writeU4 finish ++ writeU4 totalParts ++ writeU4 0 ++
      writeU4 0 ++ writeU4 goodParts ++ writeU4 goodParts ++ writeCn waferId ++
      writeCn fabWfId ++ writeCn [] ++ writeCn [] ++ writeCn [] ++ writeCn [])

/-- The writer `writeHBR`. -/
def writeHBR (binNum binCount : Nat) (isPass : Bool) : List Byte :=
  let binName := if isPass then lit "PASS_BIN_" ++ showNat binNum
    else lit "FAIL_BIN_" ++ showNat binNum
  let length := 1 + 1 + 2 + 4 + 1 + 1 + binName.length
  writeRecordHeader length 1 40 ++
    writeU1 1 ++ writeU1 1 ++ writeU2 binNum ++ writeU4 binCount ++
    writeC1 (if isPass then 80 else 70) ++ writeCn binName

/-- The writer `writeSBR`. -/
def writeSBR (binNum binCount : Nat) (isPass : Bool) : List Byte :=
  let binName := if isPass then lit "SOFT_PASS_" ++ showNat binNum
    else lit "SOFT_FAIL_" ++ showNat binNum
  let length := 1 + 1 + 2 + 4 + 1 + 1 + binName.length
  writeRecordHeader length 1 50 ++
    writeU1 1 ++ writeU1 1 ++ writeU2 binNum ++ writeU4 binCount ++
    writeC1 (if isPass then 80 else 70) ++ writeCn binName

/-- A session without byte-order correction over the file `pre ++ bytes ++ rest`, with the
stream at the first of the `bytes`. -/
def sessionAt (pre bytes rest uninit : List Byte) : STDFParser :=
  { file_ := { data := pre ++ bytes ++ rest, pos := pre.length, eofbit := false,
               failbit := false },
    fileSize_ := (pre ++ bytes ++ rest).length, endianSwap_ := false, uninit := uninit }

/-- The record `writeMIR` writes: `setup` and `start` converted to `uint32_t`, the constants,
and the thirty strings of `mirStrings` in the order of the string fields. -/
def mirWritten (setup start : Nat) (lot : List Byte) (lotNumber waferNumber : Int) :
    MIRRecord :=
  { SETUP_T := setup % 2 ^ 32, START_T := start % 2 ^ 32, STAT_NUM := 1, MODE_COD := 80,
    RTST_COD := 32, PROT_COD := 32, BURN_TIM := 0, CMOD_COD := 32,
    LOT_ID := lit "TEST_LOT_" ++ lot,
    PART_TYP := lit "PART_TYPE_" ++ showInt (Int.tmod lotNumber 5 + 1),
    NODE_NAM := lit "TESTER_NODE", TSTR_TYP := lit "ATE_TESTER",
    JOB_NAM := lit "JOB_" ++ lot, JOB_REV := lit "REV_1.0", SBLOT_ID := [],
    OPER_NAM := lit "OPERATOR", EXEC_TYP := lit "EXEC_SW", EXEC_VER := lit "VER_2.1",
    TEST_COD := lit "PROD", TST_TEMP := lit "25C",
    USER_TXT := lit "Sample test data " ++ (lit "WFR_" ++ showInt waferNumber),
    AUX_FILE := [], PKG_TYP := lit "QFN48", FAMLY_ID := lit "FAMILY_A",
    DATE_COD := lit "2024" ++ lot, FACIL_ID := lit "FAB_1", FLOOR_ID := lit "FLOOR_2",
    PROC_ID := lit "PROC_90NM", OPER_FRQ := lit "1GHZ", SPEC_NAM := lit "SPEC_V1",
    SPEC_VER := lit "VER_1.0", FLOW_ID := lit "FLOW_PROD", SETUP_ID := lit "SETUP_A",
    DSGN_REV := lit "REV_B", ENG_ID := lit "ENG_LOT", ROM_COD := lit "ROM_001",
    SERL_NUM := lit "SN_12345", SUPR_NAM := lit "SUPERVISOR" }

/-- The value is one of the type `int`. -/
def IsInt (i : Int) : Prop := -2 ^ 31 ≤ i ∧ i < 2 ^ 31

/-! ## The length field of a written record -/

/-- The bytes a writer produced are a record header followed by a payload of exactly as many
bytes as the length field of the header says, and `parseRecord`, on a file that holds the
bytes at some offset, reads that length from the header and decodes a record whose
`getSize()` is that length. -/
def LengthAgrees (pre rest uninit bytes : List Byte) : Prop :=
  ∃ (len type subtype : Nat) (payload : List Byte) (r : STDFRecord),
    bytes = writeRecordHeader len type subtype ++ payload ∧ len < 2 ^ 16 ∧
    payload.length = len ∧
    (readRecordHeader (sessionAt pre bytes rest uninit)).1.length = len ∧
    (parseRecord (sessionAt pre bytes rest uninit)).1 = some r ∧ r.getSize = len

/-! ## The states of a session -/

/-- The state `s` lies ahead of `s0` in the same session: the same file, recorded size and
correction flag, a read offset that is not smaller, `eofbit` only together with `failbit`,
and, as long as the stream has not failed, the same supply of indeterminate bytes. -/
def Follows (s0 s : STDFParser) : Prop :=
  s.file_.data = s0.file_.data ∧ s.fileSize_ = s0.fileSize_ ∧ s.endianSwap_ = s0.endianSwap_ ∧
  s0.file_.pos ≤ s.file_.pos ∧ (s.file_.eofbit = true → s.file_.failbit = true) ∧
  (s.file_.failbit = false → s0.file_.failbit = false ∧ s.uninit = s0.uninit)

/-- The state after `k` calls of `parseNextRecord`. -/
def afterCalls (k : Nat) (s : STDFParser) : STDFParser :=
  Nat.iterate (fun t => (parseNextRecord t).2) k s

/-- The states of a session on the file `contents`: the state the constructor leaves, and
every state a public operation leaves when called in such a state. -/
inductive Reachable (contents uninit : List Byte) : STDFParser → Prop
  | opened : Reachable contents uninit (STDFParser.construct contents uninit)
  | next {s : STDFParser} : Reachable contents uninit s →
      Reachable contents uninit (parseNextRecord s).2
  | atEnd {s : STDFParser} : Reachable contents uninit s →
      Reachable contents uninit (isEndOfFile s).2
  | position {s : STDFParser} : Reachable contents uninit s →
      Reachable contents uninit (getCurrentPosition s).2
  | file {s : STDFParser} {fuel : Nat} {out : List STDFRecord × STDFParser} :
      Reachable contents uninit s → parseFile fuel s = some out →
      Reachable contents uninit out.2

/-! # Properties -/

/-! ## The stream and the primitive reads -/

theorem read_failbit (f : IfStream) (n : Nat) (h : (f.read n).2.failbit = false) :
    f.good = true ∧ (f.read n).2 = { f with pos := f.pos + n } ∧
      (f.read n).1 = (f.data.drop f.pos).take n ∧ (f.read n).1.length = n := by
  unfold IfStream.read at h ⊢
  by_cases hg : f.good = true
  · rw [if_pos hg] at h ⊢
    by_cases hl : ((f.data.drop f.pos).take n).length = n
    · rw [if_pos hl]
      exact ⟨hg, rfl, rfl, hl⟩
    · rw [if_neg hl] at h
      exact absurd h (by simp)
  · rw [if_neg hg] at h
    exact absurd h (by simp)

theorem readRaw_eq (n : Nat) (s : STDFParser) :
    readRaw n s = ((s.file_.read n).1 ++ takePad (n - (s.file_.read n).1.length) s.uninit,
      STDFParser.mk (s.file_.read n).2 s.fileSize_ s.endianSwap_
        (s.uninit.drop (n - (s.file_.read n).1.length))) := rfl

theorem readRaw_failbit (n : Nat) (s : STDFParser) (h : (readRaw n s).2.file_.failbit = false) :
    s.file_.good = true ∧ (readRaw n s).2 = advance n s ∧
      (readRaw n s).1 = (s.file_.data.drop s.file_.pos).take n ∧ (readRaw n s).1.length = n := by
  rw [readRaw_eq] at h ⊢
  obtain ⟨hg, h2, h3, h4⟩ := read_failbit s.file_ n h
  refine ⟨hg, ?_, ?_, ?_⟩
  · simp only [h2, h4, advance, Nat.sub_self, List.drop_zero]
  · rw [h4, h3]
    simp only [takePad, Nat.sub_self, List.take_zero, Nat.zero_sub, List.replicate_zero,
      List.append_nil]
  · simp only [h4, takePad, Nat.sub_self, List.take_zero, Nat.zero_sub, List.replicate_zero,
      List.append_nil]

theorem good_iff (f : IfStream) : f.good = true ↔ f.eofbit = false ∧ f.failbit = false := by
  cases f with
  | mk d p e fl => cases e <;> cases fl <;> simp [IfStream.good]

theorem advance_good (k : Nat) (s : STDFParser) : (advance k s).file_.good = s.file_.good := rfl

theorem advance_advance (a b : Nat) (s : STDFParser) :
    advance b (advance a s) = advance (a + b) s := by
  simp [advance, Nat.add_assoc]

theorem advance_zero (s : STDFParser) : advance 0 s = s := rfl

theorem Consumed.refl {s : STDFParser} (h : s.file_.failbit = false) : Consumed s s 0 :=
  ⟨h, rfl⟩

theorem Consumed.trans {s t u : STDFParser} {a b : Nat} (h1 : Consumed s t a)
    (h2 : Consumed t u b) : Consumed s u (a + b) :=
  ⟨h1.ok, by rw [h2.eq, h1.eq, advance_advance]⟩

theorem Consumed.ok_out {s t : STDFParser} {k : Nat} (h : Consumed s t k) :
    t.file_.failbit = false := by
  rw [h.eq]; exact h.ok

theorem failbit_of_good {s : STDFParser} (h : s.file_.good = true) : s.file_.failbit = false :=
  ((good_iff _).1 h).2

theorem Consumed.pos_eq {s t : STDFParser} {k : Nat} (h : Consumed s t k) :
    t.file_.pos = s.file_.pos + k := by
  rw [h.eq]; rfl

theorem Consumed.congr {s t : STDFParser} {a b : Nat} (h : Consumed s t a) (e : a = b) :
    Consumed s t b := e ▸ h

theorem readRaw_consumed {n : Nat} {s t : STDFParser} {bs : List Byte}
    (e : readRaw n s = (bs, t)) (h : t.file_.failbit = false) :
    Consumed s t n ∧ bs = (s.file_.data.drop s.file_.pos).take n ∧ bs.length = n := by
  have e1 : (readRaw n s).1 = bs := by rw [e]
  have e2 : (readRaw n s).2 = t := by rw [e]
  subst e1 e2
  obtain ⟨hg, h2, h3, h4⟩ := readRaw_failbit n s h
  exact ⟨⟨failbit_of_good hg, h2⟩, h3, h4⟩

theorem readU1_consumed {s t : STDFParser} {v : U1} (e : readU1 s = (v, t))
    (h : t.file_.failbit = false) : Consumed s t 1 := by
  unfold readU1 at e
  rcases hr : readRaw 1 s with ⟨bs, u⟩
  rw [hr] at e
  simp only [Prod.mk.injEq] at e
  obtain ⟨-, rfl⟩ := e
  exact (readRaw_consumed hr h).1

theorem readU2_consumed {s t : STDFParser} {v : U2} (e : readU2 s = (v, t))
    (h : t.file_.failbit = false) : Consumed s t 2 := by
  unfold readU2 at e
  rcases hr : readRaw 2 s with ⟨bs, u⟩
  rw [hr] at e
  simp only [Prod.mk.injEq] at e
  obtain ⟨-, rfl⟩ := e
  exact (readRaw_consumed hr h).1

theorem readU4_consumed {s t : STDFParser} {v : U4} (e : readU4 s = (v, t))
    (h : t.file_.failbit = false) : Consumed s t 4 := by
  unfold readU4 at e
  rcases hr : readRaw 4 s with ⟨bs, u⟩
  rw [hr] at e
  simp only [Prod.mk.injEq] at e
  obtain ⟨-, rfl⟩ := e
  exact (readRaw_consumed hr h).1

theorem readI1_consumed {s t : STDFParser} {v : I1} (e : readI1 s = (v, t))
    (h : t.file_.failbit = false) : Consumed s t 1 := by
  unfold readI1 at e
  rcases hr : readRaw 1 s with ⟨bs, u⟩
  rw [hr] at e
  simp only [Prod.mk.injEq] at e
  obtain ⟨-, rfl⟩ := e
  exact (readRaw_consumed hr h).1

theorem readI2_consumed {s t : STDFParser} {v : I2} (e : readI2 s = (v, t))
    (h : t.file_.failbit = false) : Consumed s t 2 := by
  unfold readI2 at e
  rcases hr : readRaw 2 s with ⟨bs, u⟩
  rw [hr] at e
  simp only [Prod.mk.injEq] at e
  obtain ⟨-, rfl⟩ := e
  exact (readRaw_consumed hr h).1

theorem readI4_consumed {s t : STDFParser} {v : I4} (e : readI4 s = (v, t))
    (h : t.file_.failbit = false) : Consumed s t 4 := by
  unfold readI4 at e
  rcases hr : readRaw 4 s with ⟨bs, u⟩
  rw [hr] at e
  simp only [Prod.mk.injEq] at e
  obtain ⟨-, rfl⟩ := e
  exact (readRaw_consumed hr h).1

theorem readR4_consumed {s t : STDFParser} {v : R4} (e : readR4 s = (v, t))
    (h : t.file_.failbit = false) : Consumed s t 4 := by
  unfold readR4 at e
  rcases hr : readRaw 4 s with ⟨bs, u⟩
  rw [hr] at e
  simp only [Prod.mk.injEq] at e
  obtain ⟨-, rfl⟩ := e
  exact (readRaw_consumed hr h).1

theorem readC1_consumed {s t : STDFParser} {v : C1} (e : readC1 s = (v, t))
    (h : t.file_.failbit = false) : Consumed s t 1 := by
  unfold readC1 at e
  rcases hr : readRaw 1 s with ⟨bs, u⟩
  rw [hr] at e
  simp only [Prod.mk.injEq] at e
  obtain ⟨-, rfl⟩ := e
  exact (readRaw_consumed hr h).1

theorem readInto_consumed {n : Nat} {s t : STDFParser} {bs : List Byte}
    (e : readInto n s = (bs, t)) (h : t.file_.failbit = false) :
    Consumed s t n ∧ bs = (s.file_.data.drop s.file_.pos).take n ∧ bs.length = n := by
  have e0 : readInto n s = ((s.file_.read n).1 ++ List.replicate (n - (s.file_.read n).1.length) 0,
      STDFParser.mk (s.file_.read n).2 s.fileSize_ s.endianSwap_ s.uninit) := rfl
  rw [e0] at e
  simp only [Prod.mk.injEq] at e
  obtain ⟨rfl, rfl⟩ := e
  obtain ⟨hg, h2, h3, h4⟩ := read_failbit s.file_ n h
  refine ⟨⟨failbit_of_good hg, ?_⟩, ?_, ?_⟩
  · simp only [h2, advance]
  · rw [h4, h3]; simp
  · rw [h4]; simp [h4]

theorem readCn_consumed {s t : STDFParser} {v : Cn} (e : readCn s = (v, t))
    (h : t.file_.failbit = false) : Consumed s t (v.length + 1) := by
  unfold readCn at e
  rcases hr : readU1 s with ⟨n, u⟩
  rw [hr] at e
  simp only at e
  by_cases hn : n = 0
  · rw [if_pos hn] at e
    simp only [Prod.mk.injEq] at e
    obtain ⟨rfl, rfl⟩ := e
    exact readU1_consumed hr h
  · rw [if_neg hn] at e
    obtain ⟨h1, -, h3⟩ := readInto_consumed e h
    have h0 := readU1_consumed hr h1.ok
    exact (h0.trans h1).congr (by omega)

theorem readBn_consumed {s t : STDFParser} {v : Bn} (e : readBn s = (v, t))
    (h : t.file_.failbit = false) : Consumed s t (v.length + 2) := by
  unfold readBn at e
  rcases hr : readU2 s with ⟨n, u⟩
  rw [hr] at e
  simp only at e
  by_cases hn : n = 0
  · rw [if_pos hn] at e
    simp only [Prod.mk.injEq] at e
    obtain ⟨rfl, rfl⟩ := e
    exact readU2_consumed hr h
  · rw [if_neg hn] at e
    obtain ⟨h1, -, h3⟩ := readInto_consumed e h
    have h0 := readU2_consumed hr h1.ok
    exact (h0.trans h1).congr (by omega)

theorem readU1_adv (s : STDFParser) (h : (readU1 s).2.file_.failbit = false) :
    Consumed s (readU1 s).2 1 := readU1_consumed rfl h

theorem readU2_adv (s : STDFParser) (h : (readU2 s).2.file_.failbit = false) :
    Consumed s (readU2 s).2 2 := readU2_consumed rfl h

theorem readU4_adv (s : STDFParser) (h : (readU4 s).2.file_.failbit = false) :
    Consumed s (readU4 s).2 4 := readU4_consumed rfl h

theorem readI1_adv (s : STDFParser) (h : (readI1 s).2.file_.failbit = false) :
    Consumed s (readI1 s).2 1 := readI1_consumed rfl h

theorem readI2_adv (s : STDFParser) (h : (readI2 s).2.file_.failbit = false) :
    Consumed s (readI2 s).2 2 := readI2_consumed rfl h

theorem readI4_adv (s : STDFParser) (h : (readI4 s).2.file_.failbit = false) :
    Consumed s (readI4 s).2 4 := readI4_consumed rfl h

theorem readR4_adv (s : STDFParser) (h : (readR4 s).2.file_.failbit = false) :
    Consumed s (readR4 s).2 4 := readR4_consumed rfl h

theorem readC1_adv (s : STDFParser) (h : (readC1 s).2.file_.failbit = false) :
    Consumed s (readC1 s).2 1 := readC1_consumed rfl h

theorem readCn_adv (s : STDFParser) (h : (readCn s).2.file_.failbit = false) :
    Consumed s (readCn s).2 ((readCn s).1.length + 1) := readCn_consumed rfl h

theorem readBn_adv (s : STDFParser) (h : (readBn s).2.file_.failbit = false) :
    Consumed s (readBn s).2 ((readBn s).1.length + 2) := readBn_consumed rfl h

/-! ## Values of the two-byte reads -/

theorem swapBytes16_eq (x : Nat) (hx : x < 65536) :
    swapBytes16 x = (x % 256) * 256 + x / 256 := by
  unfold swapBytes16
  have h1 : x &&& 255 = x % 256 := Nat.and_pow_two_sub_one_eq_mod x 8
  have h2 : x >>> 8 = x / 256 := Nat.shiftRight_eq_div_pow x 8
  have h3 : (x / 256) &&& 255 = x / 256 := by
    have h4 : x / 256 % 256 = x / 256 := Nat.mod_eq_of_lt (by omega)
    exact (Nat.and_pow_two_sub_one_eq_mod (x / 256) 8).trans h4
  have h5 : (x % 256) <<< 8 = 2 ^ 8 * (x % 256) := by
    rw [Nat.shiftLeft_eq, Nat.mul_comm]
  have h6 : 2 ^ 8 * (x % 256) ||| x / 256 = 2 ^ 8 * (x % 256) + x / 256 :=
    (Nat.mul_add_lt_is_or (by omega) _).symm
  show ((x &&& 255) <<< 8 ||| x >>> 8 &&& 255) % 2 ^ 16 = _
  rw [h1, h2, h3, h5, h6]
  omega

theorem take_two_of_length {l : List Byte} {p : Nat} (h : ((l.drop p).take 2).length = 2) :
    (l.drop p).take 2 = [l.getD p 0, l.getD (p + 1) 0] := by
  rcases hd : l.drop p with _ | ⟨a, _ | ⟨b, rest⟩⟩
  · rw [hd] at h; simp at h
  · rw [hd] at h; simp at h
  · have ha : l[p]? = some a := by
      have := List.getElem?_drop l p 0
      rw [hd] at this
      simpa using this.symm
    have hb : l[p + 1]? = some b := by
      have := List.getElem?_drop l p 1
      rw [hd] at this
      simpa using this.symm
    simp [List.getD_eq_getElem?_getD, ha, hb]

theorem leValue_pair (a b : Byte) : leValue [a, b] = a.val + 256 * b.val := by
  simp [leValue]

theorem wordAt_advance (k : Nat) (s : STDFParser) (p : Nat) : wordAt (advance k s) p = wordAt s p :=
  rfl

theorem readU2_value (s : STDFParser) (h : (readU2 s).2.file_.failbit = false) :
    (readU2 s).1 = wordAt s s.file_.pos := by
  have e0 : readU2 s = (if (readRaw 2 s).2.endianSwap_ then swapBytes16 (leValue (readRaw 2 s).1)
      else leValue (readRaw 2 s).1, (readRaw 2 s).2) := rfl
  rw [e0] at h ⊢
  obtain ⟨-, h2, h3, h4⟩ := readRaw_failbit 2 s h
  rw [h3] at h4
  have h5 := take_two_of_length h4
  have hb0 : byteAt s s.file_.pos < 256 := (s.file_.data.getD s.file_.pos 0).isLt
  have hb1 : byteAt s (s.file_.pos + 1) < 256 := (s.file_.data.getD (s.file_.pos + 1) 0).isLt
  have hv : leValue (readRaw 2 s).1 = byteAt s s.file_.pos + 256 * byteAt s (s.file_.pos + 1) := by
    rw [h3, h5, leValue_pair]; rfl
  have hsw : (readRaw 2 s).2.endianSwap_ = s.endianSwap_ := by rw [h2]; rfl
  show (if (readRaw 2 s).2.endianSwap_ = true then _ else _) = _
  rw [hsw, hv]
  unfold wordAt
  by_cases hs : s.endianSwap_ = true
  · rw [if_pos hs, if_pos hs, swapBytes16_eq _ (by omega)]
    show @Eq Nat _ _
    omega
  · rw [if_neg hs, if_neg hs]

theorem wordAt_lt (s : STDFParser) (p : Nat) : wordAt s p < 65536 := by
  unfold wordAt
  have hb0 : byteAt s p < 256 := (s.file_.data.getD p 0).isLt
  have hb1 : byteAt s (p + 1) < 256 := (s.file_.data.getD (p + 1) 0).isLt
  split <;> omega

theorem fillLoop_succ (fuel count i : Nat) (arr : List U2) (s : STDFParser) (h : i < count) :
    fillLoop (fuel + 1) count i arr s =
      fillLoop fuel count ((i + 1) % 2 ^ 16) (arr.set i (readU2 s).1) (readU2 s).2 := by
  show (if i < count then _ else _) = _
  rw [if_pos h]

theorem take_succ_set {arr : List U2} {i : Nat} (v : U2) (h : i < arr.length) :
    (arr.set i v).take (i + 1) = arr.take i ++ [v] := by
  apply List.ext_getElem?
  intro k
  by_cases hk : k < i
  · rw [List.getElem?_take_of_lt (by omega), List.getElem?_set_ne (by omega),
      List.getElem?_append_left (by simp; omega), List.getElem?_take_of_lt hk]
  · by_cases hk2 : k = i
    · subst hk2
      rw [List.getElem?_take_of_lt (by omega), List.getElem?_set_self h,
        List.getElem?_append_right (by simp)]
      simp [Nat.min_eq_left (Nat.le_of_lt h)]
    · rw [List.getElem?_eq_none (by simp; omega), List.getElem?_eq_none (by simp; omega)]

theorem fillLoop_spec : ∀ (fuel count i : Nat) (arr : List U2) (s : STDFParser),
    i + fuel = count → count < 65536 → arr.length = count →
    (fillLoop fuel count i arr s).2.file_.failbit = false →
    Consumed s (fillLoop fuel count i arr s).2 (2 * fuel) ∧
      (fillLoop fuel count i arr s).1 =
        arr.take i ++ (List.range fuel).map (fun j => wordAt s (s.file_.pos + 2 * j)) := by
  intro fuel
  induction fuel with
  | zero =>
    intro count i arr s hi _ hl h
    refine ⟨Consumed.refl h, ?_⟩
    show arr = _
    have : i = arr.length := by omega
    subst this
    simp
  | succ fuel ih =>
    intro count i arr s hi hc hl h
    have hlt : i < count := by omega
    have hmod : (i + 1) % 2 ^ 16 = i + 1 := Nat.mod_eq_of_lt (by omega)
    rw [fillLoop_succ fuel count i arr s hlt, hmod] at h ⊢
    obtain ⟨c2, hv⟩ := ih count (i + 1) (arr.set i (readU2 s).1) (readU2 s).2 (by omega) hc
      (by simp [hl]) h
    have c1 := readU2_adv s c2.ok
    have hval := readU2_value s c2.ok
    refine ⟨(c1.trans c2).congr (by omega), ?_⟩
    rw [hv, take_succ_set _ (by omega), List.range_succ_eq_map, List.map_cons, List.map_map,
      List.append_assoc, List.singleton_append, hval, c1.pos_eq]
    congr 2
    apply List.map_congr_left
    intro j _
    simp only [Function.comp, c1.eq, wordAt_advance]
    congr 1
    omega

/-! ## The optional groups of the Parametric Test record -/

set_option maxRecDepth 100000 in
theorem bits_small : ∀ k, k < 256 →
    ((k &&& 0x01 ≠ 0) ↔ k.testBit 0 = true) ∧
    ((k &&& 0x06 ≠ 0) ↔ (k.testBit 1 = true ∨ k.testBit 2 = true)) ∧
    ((k &&& 0x18 ≠ 0) ↔ (k.testBit 3 = true ∨ k.testBit 4 = true)) ∧
    ((k &&& 0x20 ≠ 0) ↔ k.testBit 5 = true) ∧
    ((k &&& 0x40 ≠ 0) ↔ k.testBit 6 = true) ∧
    ((k &&& 0x80 ≠ 0) ↔ k.testBit 7 = true) := by
  decide

theorem and_mask_mod (n m : Nat) (hm : m < 256) : n &&& m = (n % 256) &&& m := by
  have h1 : m = 255 &&& m := by
    apply Nat.eq_of_testBit_eq
    intro i
    rw [Nat.testBit_and]
    by_cases hi : i < 8
    · have : Nat.testBit 255 i = true := by
        interval_cases i <;> decide
      simp [this]
    · have h2 : m.testBit i = false := by
        apply Nat.testBit_lt_two_pow
        calc m < 256 := hm
          _ = 2 ^ 8 := by norm_num
          _ ≤ 2 ^ i := Nat.pow_le_pow_right (by norm_num) (by omega)
      simp [h2]
  have h2 : n % 256 = n &&& 255 := (Nat.and_pow_two_sub_one_eq_mod n 8).symm
  rw [h2, Nat.and_assoc, ← h1]

theorem testBit_mod (n i : Nat) (hi : i < 8) : n.testBit i = (n % 256).testBit i := by
  have := Nat.testBit_mod_two_pow n 8 i
  simp [hi] at this
  exact this.symm

theorem flag_bits (n : Nat) :
    ((n &&& 0x01 ≠ 0) ↔ n.testBit 0 = true) ∧
    ((n &&& 0x06 ≠ 0) ↔ (n.testBit 1 = true ∨ n.testBit 2 = true)) ∧
    ((n &&& 0x18 ≠ 0) ↔ (n.testBit 3 = true ∨ n.testBit 4 = true)) ∧
    ((n &&& 0x20 ≠ 0) ↔ n.testBit 5 = true) ∧
    ((n &&& 0x40 ≠ 0) ↔ n.testBit 6 = true) ∧
    ((n &&& 0x80 ≠ 0) ↔ n.testBit 7 = true) := by
  have h := bits_small (n % 256) (Nat.mod_lt _ (by norm_num))
  rw [and_mask_mod n 0x01 (by norm_num), and_mask_mod n 0x06 (by norm_num),
    and_mask_mod n 0x18 (by norm_num), and_mask_mod n 0x20 (by norm_num),
    and_mask_mod n 0x40 (by norm_num), and_mask_mod n 0x80 (by norm_num),
    testBit_mod n 0 (by norm_num), testBit_mod n 1 (by norm_num), testBit_mod n 2 (by norm_num),
    testBit_mod n 3 (by norm_num), testBit_mod n 4 (by norm_num), testBit_mod n 5 (by norm_num),
    testBit_mod n 6 (by norm_num), testBit_mod n 7 (by norm_num)]
  exact h

theorem ifResScal_eq (p : PTRRecord × STDFParser) :
    parsePTR.ifResScal p = if p.1.OPT_FLAG.testBit 0 = true then readGroup p .resScal else p := by
  unfold parsePTR.ifResScal
  by_cases c : p.1.OPT_FLAG.testBit 0 = true
  · rw [if_pos ((flag_bits _).1.2 c), if_pos c]; rfl
  · rw [if_neg (fun h => c ((flag_bits _).1.1 h)), if_neg c]

theorem ifLowLimit_eq (p : PTRRecord × STDFParser) :
    parsePTR.ifLowLimit p =
      if p.1.OPT_FLAG.testBit 1 = true ∨ p.1.OPT_FLAG.testBit 2 = true then readGroup p .lowLimit
      else p := by
  unfold parsePTR.ifLowLimit
  by_cases c : p.1.OPT_FLAG.testBit 1 = true ∨ p.1.OPT_FLAG.testBit 2 = true
  · rw [if_pos ((flag_bits _).2.1.2 c), if_pos c]; rfl
  · rw [if_neg (fun h => c ((flag_bits _).2.1.1 h)), if_neg c]

theorem ifHighLimit_eq (p : PTRRecord × STDFParser) :
    parsePTR.ifHighLimit p =
      if p.1.OPT_FLAG.testBit 3 = true ∨ p.1.OPT_FLAG.testBit 4 = true then readGroup p .highLimit
      else p := by
  unfold parsePTR.ifHighLimit
  by_cases c : p.1.OPT_FLAG.testBit 3 = true ∨ p.1.OPT_FLAG.testBit 4 = true
  · rw [if_pos ((flag_bits _).2.2.1.2 c), if_pos c]; rfl
  · rw [if_neg (fun h => c ((flag_bits _).2.2.1.1 h)), if_neg c]

theorem ifUnits_eq (p : PTRRecord × STDFParser) :
    parsePTR.ifUnits p = if p.1.OPT_FLAG.testBit 5 = true then readGroup p .units else p := by
  unfold parsePTR.ifUnits
  by_cases c : p.1.OPT_FLAG.testBit 5 = true
  · rw [if_pos ((flag_bits _).2.2.2.1.2 c), if_pos c]; rfl
  · rw [if_neg (fun h => c ((flag_bits _).2.2.2.1.1 h)), if_neg c]

theorem ifResFmt_eq (p : PTRRecord × STDFParser) :
    parsePTR.ifResFmt p = if p.1.OPT_FLAG.testBit 6 = true then readGroup p .resFmt else p := by
  unfold parsePTR.ifResFmt
  by_cases c : p.1.OPT_FLAG.testBit 6 = true
  · rw [if_pos ((flag_bits _).2.2.2.2.1.2 c), if_pos c]; rfl
  · rw [if_neg (fun h => c ((flag_bits _).2.2.2.2.1.1 h)), if_neg c]

theorem ifLimFmts_eq (p : PTRRecord × STDFParser) :
    parsePTR.ifLimFmts p = if p.1.OPT_FLAG.testBit 7 = true then readGroup p .limFmts else p := by
  unfold parsePTR.ifLimFmts
  by_cases c : p.1.OPT_FLAG.testBit 7 = true
  · rw [if_pos ((flag_bits _).2.2.2.2.2.2 c), if_pos c]; rfl
  · rw [if_neg (fun h => c ((flag_bits _).2.2.2.2.2.1 h)), if_neg c]

theorem parsePTR_eq_steps (s : STDFParser) :
    parsePTR s = parsePTR.ifLimFmts (parsePTR.ifResFmt (parsePTR.ifUnits (parsePTR.ifHighLimit
      (parsePTR.ifLowLimit (parsePTR.ifResScal (ptrMandatory s)))))) := rfl

theorem readGroup_frame (p : PTRRecord × STDFParser) (g : PTRGroup) :
    (readGroup p g).1.OPT_FLAG = p.1.OPT_FLAG ∧ (readGroup p g).1.TEST_TXT = p.1.TEST_TXT ∧
      (readGroup p g).1.ALARM_ID = p.1.ALARM_ID ∧ (readGroup p g).1.LO_SPEC = p.1.LO_SPEC ∧
      (readGroup p g).1.HI_SPEC = p.1.HI_SPEC := by
  cases g <;> exact ⟨rfl, rfl, rfl, rfl, rfl⟩

theorem foldl_opt (c : Prop) [Decidable c] (g : PTRGroup) (p : PTRRecord × STDFParser)
    (rest : List PTRGroup) :
    List.foldl readGroup p ((if c then [g] else []) ++ rest) =
      List.foldl readGroup (if c then readGroup p g else p) rest := by
  split <;> rfl

theorem opt_flag (c : Prop) [Decidable c] (g : PTRGroup) (p : PTRRecord × STDFParser) :
    (if c then readGroup p g else p).1.OPT_FLAG = p.1.OPT_FLAG := by
  split
  · exact (readGroup_frame p g).1
  · rfl

theorem parsePTR_eq_foldl (s : STDFParser) :
    parsePTR s = List.foldl readGroup (ptrMandatory s) (ptrGroups (ptrMandatory s).1.OPT_FLAG) := by
  rw [parsePTR_eq_steps]
  generalize ptrMandatory s = p
  unfold ptrGroups
  simp only [List.append_assoc]
  rw [foldl_opt, foldl_opt, foldl_opt, foldl_opt, foldl_opt]
  rw [ifResScal_eq, ifLowLimit_eq, ifHighLimit_eq, ifUnits_eq, ifResFmt_eq, ifLimFmts_eq]
  simp only [opt_flag]
  have h : ∀ (c : Prop) [Decidable c] (g : PTRGroup) (q : PTRRecord × STDFParser),
      List.foldl readGroup q (if c then [g] else []) = if c then readGroup q g else q := by
    intro c _ g q; split <;> rfl
  rw [h]

theorem readGroup_adv (p : PTRRecord × STDFParser) (g : PTRGroup)
    (h : (readGroup p g).2.file_.failbit = false) :
    Consumed p.2 (readGroup p g).2 (groupBytes (readGroup p g).1 g) := by
  cases g with
  | resScal => exact readI1_adv p.2 h
  | lowLimit =>
    have c2 := readR4_adv (readI1 p.2).2 h
    exact (readI1_adv p.2 c2.ok).trans c2
  | highLimit =>
    have c2 := readR4_adv (readI1 p.2).2 h
    exact (readI1_adv p.2 c2.ok).trans c2
  | units => exact readCn_adv p.2 h
  | resFmt => exact readCn_adv p.2 h
  | limFmts =>
    have c2 := readCn_adv (readCn p.2).2 h
    exact ((readCn_adv p.2 c2.ok).trans c2).congr (by simp only [groupBytes]; rfl)

theorem readGroup_other (p : PTRRecord × STDFParser) (g g' : PTRGroup) (hne : g' ≠ g) :
    groupBytes (readGroup p g).1 g' = groupBytes p.1 g' ∧
      groupValue (readGroup p g).1 g' = groupValue p.1 g' := by
  cases g <;> cases g' <;> first | exact absurd rfl hne | exact ⟨rfl, rfl⟩

theorem foldl_other (gs : List PTRGroup) (g : PTRGroup) (hg : g ∉ gs) :
    ∀ p : PTRRecord × STDFParser,
      groupBytes (List.foldl readGroup p gs).1 g = groupBytes p.1 g ∧
        groupValue (List.foldl readGroup p gs).1 g = groupValue p.1 g := by
  induction gs with
  | nil => intro p; exact ⟨rfl, rfl⟩
  | cons a gs ih =>
    intro p
    have ha : g ≠ a := fun e => hg (e ▸ List.mem_cons_self _ _)
    have hgs : g ∉ gs := fun e => hg (List.mem_cons_of_mem _ e)
    obtain ⟨h1, h2⟩ := ih hgs (readGroup p a)
    obtain ⟨h3, h4⟩ := readGroup_other p a g ha
    exact ⟨h1.trans h3, h2.trans h4⟩

theorem foldl_frame (gs : List PTRGroup) :
    ∀ p : PTRRecord × STDFParser,
      (List.foldl readGroup p gs).1.OPT_FLAG = p.1.OPT_FLAG ∧
      (List.foldl readGroup p gs).1.TEST_TXT = p.1.TEST_TXT ∧
      (List.foldl readGroup p gs).1.ALARM_ID = p.1.ALARM_ID ∧
      (List.foldl readGroup p gs).1.LO_SPEC = p.1.LO_SPEC ∧
      (List.foldl readGroup p gs).1.HI_SPEC = p.1.HI_SPEC := by
  induction gs with
  | nil => intro p; exact ⟨rfl, rfl, rfl, rfl, rfl⟩
  | cons a gs ih =>
    intro p
    obtain ⟨h1, h2, h3, h4, h5⟩ := ih (readGroup p a)
    obtain ⟨k1, k2, k3, k4, k5⟩ := readGroup_frame p a
    exact ⟨h1.trans k1, h2.trans k2, h3.trans k3, h4.trans k4, h5.trans k5⟩

theorem foldl_adv (gs : List PTRGroup) (hn : gs.Nodup) :
    ∀ p : PTRRecord × STDFParser, (List.foldl readGroup p gs).2.file_.failbit = false →
      Consumed p.2 (List.foldl readGroup p gs).2
        ((gs.map (groupBytes (List.foldl readGroup p gs).1)).sum) := by
  induction gs with
  | nil => intro p h; exact Consumed.refl h
  | cons a gs ih =>
    intro p h
    have hn' := List.nodup_cons.1 hn
    have c2 := ih hn'.2 (readGroup p a) h
    have c1 := readGroup_adv p a c2.ok
    refine (c1.trans c2).congr ?_
    show _ = ((a :: gs).map (groupBytes (List.foldl readGroup (readGroup p a) gs).1)).sum
    rw [List.map_cons, List.sum_cons, (foldl_other gs a hn'.1 (readGroup p a)).1]

theorem ptrGroups_nodup (flag : Nat) : (ptrGroups flag).Nodup := by
  have h : (ptrGroups flag).Sublist [.resScal, .lowLimit, .highLimit, .units, .resFmt, .limFmts] := by
    unfold ptrGroups
    have one : ∀ (c : Prop) [Decidable c] (g : PTRGroup), (if c then [g] else []).Sublist [g] := by
      intro c _ g; split
      · exact List.Sublist.refl _
      · exact List.nil_sublist _
    exact ((((((one _ _).append (one _ _)).append (one _ _)).append (one _ _)).append
      (one _ _)).append (one _ _))
  exact h.nodup (by decide)

theorem ptrMandatory_adv (s : STDFParser) (h : (ptrMandatory s).2.file_.failbit = false) :
    Consumed s (ptrMandatory s).2
      (15 + (ptrMandatory s).1.TEST_TXT.length + (ptrMandatory s).1.ALARM_ID.length) := by
  unfold ptrMandatory at h ⊢
  simp only [] at h ⊢
  have c9 := readU1_adv _ h
  have c8 := readCn_adv _ c9.ok
  have c7 := readCn_adv _ c8.ok
  have c6 := readR4_adv _ c7.ok
  have c5 := readU1_adv _ c6.ok
  have c4 := readU1_adv _ c5.ok
  have c3 := readU1_adv _ c4.ok
  have c2 := readU1_adv _ c3.ok
  have c1 := readU4_adv _ c2.ok
  have c := c1.trans (c2.trans (c3.trans (c4.trans (c5.trans (c6.trans (c7.trans (c8.trans c9)))))))
  exact c.congr (by omega)

theorem ite_add_nat (c : Prop) [Decidable c] (a k : Nat) :
    (if c then a + k else a) = a + if c then k else 0 := by
  split <;> rfl

theorem ind_eq (b : Bool) : ind b = if b = true then 1 else 0 := by
  cases b <;> rfl

theorem sum_opt (c : Prop) [Decidable c] (g : PTRGroup) (f : PTRGroup → Nat) :
    ((if c then [g] else []).map f).sum = if c then f g else 0 := by
  split <;> simp

theorem ptr_size_arith (a b u v w x : Nat) (c1 c2 c3 c4 c5 c6 : Prop) [Decidable c1]
    [Decidable c2] [Decidable c3] [Decidable c4] [Decidable c5] [Decidable c6] :
    15 + a + b + (if c1 then 1 else 0) + 5 * (if c2 then 1 else 0) + 5 * (if c3 then 1 else 0) +
      (1 + u) * (if c4 then 1 else 0) + (1 + v) * (if c5 then 1 else 0) +
      (2 + w + x) * (if c6 then 1 else 0) =
      4 + 1 + 1 + 1 + 1 + 4 + (a + 1) + (b + 1) + 1 + (if c1 then 1 else 0) +
        (if c2 then 1 + 4 else 0) + (if c3 then 1 + 4 else 0) + (if c4 then u + 1 else 0) +
        (if c5 then v + 1 else 0) + (if c6 then w + 1 + x + 1 else 0) := by
  have e : ∀ (c : Prop) [Decidable c] (k : Nat), k * (if c then 1 else 0) = if c then k else 0 := by
    intro c _ k; split <;> simp
  rw [e, e, e, e, e]
  generalize (if c1 then 1 else 0) = i1
  have e2 : (if c2 then 5 else 0) = if c2 then 1 + 4 else 0 := rfl
  have e3 : (if c3 then 5 else 0) = if c3 then 1 + 4 else 0 := rfl
  have e4 : (if c4 then 1 + u else 0) = if c4 then u + 1 else 0 := by rw [Nat.add_comm]
  have e5 : (if c5 then 1 + v else 0) = if c5 then v + 1 else 0 := by rw [Nat.add_comm]
  have e6 : (if c6 then 2 + w + x else 0) = if c6 then w + 1 + x + 1 else 0 := by
    have : 2 + w + x = w + 1 + x + 1 := by omega
    rw [this]
  rw [e2, e3, e4, e5, e6]
  generalize (if c2 then 1 + 4 else 0) = i2
  generalize (if c3 then 1 + 4 else 0) = i3
  generalize (if c4 then u + 1 else 0) = i4
  generalize (if c5 then v + 1 else 0) = i5
  generalize (if c6 then w + 1 + x + 1 else 0) = i6
  omega

theorem ptr_sum_getSize (r : PTRRecord) :
    15 + r.TEST_TXT.length + r.ALARM_ID.length +
      ((ptrGroups r.OPT_FLAG).map (groupBytes r)).sum = r.getSize := by
  obtain ⟨b1, b2, b3, b4, b5, b6⟩ := flag_bits r.OPT_FLAG
  unfold PTRRecord.getSize ptrGroups
  simp only [b1, b2, b3, b4, b5, b6, List.map_append, List.sum_append, sum_opt, ite_add_nat,
    groupBytes]
  omega

theorem ptr_payload_getSize (r : PTRRecord) : ptrPayloadSize r = r.getSize := by
  obtain ⟨b1, b2, b3, b4, b5, b6⟩ := flag_bits r.OPT_FLAG
  unfold PTRRecord.getSize ptrPayloadSize
  simp only [b1, b2, b3, b4, b5, b6, ite_add_nat, ind_eq, Bool.or_eq_true]
  exact (ptr_size_arith r.TEST_TXT.length r.ALARM_ID.length r.UNITS.length r.C_RESFMT.length
    r.C_LLMFMT.length r.C_HLMFMT.length (r.OPT_FLAG.testBit 0 = true)
    (r.OPT_FLAG.testBit 1 = true ∨ r.OPT_FLAG.testBit 2 = true)
    (r.OPT_FLAG.testBit 3 = true ∨ r.OPT_FLAG.testBit 4 = true) (r.OPT_FLAG.testBit 5 = true)
    (r.OPT_FLAG.testBit 6 = true) (r.OPT_FLAG.testBit 7 = true))

theorem parsePTR_consumed (s : STDFParser) (h : (parsePTR s).2.file_.failbit = false) :
    Consumed s (parsePTR s).2 (parsePTR s).1.getSize := by
  rw [← ptr_sum_getSize]
  have hf := foldl_frame (ptrGroups (ptrMandatory s).1.OPT_FLAG) (ptrMandatory s)
  rw [parsePTR_eq_foldl] at h ⊢
  have c2 := foldl_adv _ (ptrGroups_nodup _) (ptrMandatory s) h
  have c1 := ptrMandatory_adv s c2.ok
  refine (c1.trans c2).congr ?_
  rw [hf.1, hf.2.1, hf.2.2.1]

/-! ## The decoders consume what `getSize` counts -/

theorem parseFAR_consumed (s : STDFParser) (h : (parseFAR s).2.file_.failbit = false) :
    Consumed s (parseFAR s).2 (parseFAR s).1.getSize := by
  unfold parseFAR at h ⊢
  simp only [] at h ⊢
  have c2 := readU1_adv _ h
  have c1 := readU1_adv _ c2.ok
  have c :=
    c1.trans (c2)
  exact c.congr (by simp only [FARRecord.getSize])

theorem parseMIR_consumed (s : STDFParser) (h : (parseMIR s).2.file_.failbit = false) :
    Consumed s (parseMIR s).2 (parseMIR s).1.getSize := by
  unfold parseMIR at h ⊢
  simp only [] at h ⊢
  have c38 := readCn_adv _ h
  have c37 := readCn_adv _ c38.ok
  have c36 := readCn_adv _ c37.ok
  have c35 := readCn_adv _ c36.ok
  have c34 := readCn_adv _ c35.ok
  have c33 := readCn_adv _ c34.ok
  have c32 := readCn_adv _ c33.ok
  have c31 := readCn_adv _ c32.ok
  have c30 := readCn_adv _ c31.ok
  have c29 := readCn_adv _ c30.ok
  have c28 := readCn_adv _ c29.ok
  have c27 := readCn_adv _ c28.ok
  have c26 := readCn_adv _ c27.ok
  have c25 := readCn_adv _ c26.ok
  have c24 := readCn_adv _ c25.ok
  have c23 := readCn_adv _ c24.ok
  have c22 := readCn_adv _ c23.ok
  have c21 := readCn_adv _ c22.ok
  have c20 := readCn_adv _ c21.ok
  have c19 := readCn_adv _ c20.ok
  have c18 := readCn_adv _ c19.ok
  have c17 := readCn_adv _ c18.ok
  have c16 := readCn_adv _ c17.ok
  have c15 := readCn_adv _ c16.ok
  have c14 := readCn_adv _ c15.ok
  have c13 := readCn_adv _ c14.ok
  have c12 := readCn_adv _ c13.ok
  have c11 := readCn_adv _ c12.ok
  have c10 := readCn_adv _ c11.ok
  have c9 := readCn_adv _ c10.ok
  have c8 := readC1_adv _ c9.ok
  have c7 := readU2_adv _ c8.ok
  have c6 := readC1_adv _ c7.ok
  have c5 := readC1_adv _ c6.ok
  have c4 := readC1_adv _ c5.ok
  have c3 := readU1_adv _ c4.ok
  have c2 := readU4_adv _ c3.ok
  have c1 := readU4_adv _ c2.ok
  have c :=
    c1.trans (c2.trans (c3.trans (c4.trans (c5.trans (c6.trans (c7.trans (c8.trans (c9.trans (
      c10.trans (c11.trans (c12.trans (c13.trans (c14.trans (c15.trans (c16.trans (c17.trans (
      c18.trans (c19.trans (c20.trans (c21.trans (c22.trans (c23.trans (c24.trans (c25.trans (
      c26.trans (c27.trans (c28.trans (c29.trans (c30.trans (c31.trans (c32.trans (c33.trans (
      c34.trans (c35.trans (c36.trans (c37.trans (c38)))))))))))))))))))))))))))))))))))))
  exact c.congr (by simp only [MIRRecord.getSize]; omega)

theorem parsePIR_consumed (s : STDFParser) (h : (parsePIR s).2.file_.failbit = false) :
    Consumed s (parsePIR s).2 (parsePIR s).1.getSize := by
  unfold parsePIR at h ⊢
  simp only [] at h ⊢
  have c2 := readU1_adv _ h
  have c1 := readU1_adv _ c2.ok
  have c :=
    c1.trans (c2)
  exact c.congr (by simp only [PIRRecord.getSize])

theorem parsePRR_consumed (s : STDFParser) (h : (parsePRR s).2.file_.failbit = false) :
    Consumed s (parsePRR s).2 (parsePRR s).1.getSize := by
  unfold parsePRR at h ⊢
  simp only [] at h ⊢
  have c12 := readBn_adv _ h
  have c11 := readCn_adv _ c12.ok
  have c10 := readCn_adv _ c11.ok
  have c9 := readU4_adv _ c10.ok
  have c8 := readI2_adv _ c9.ok
  have c7 := readI2_adv _ c8.ok
  have c6 := readU2_adv _ c7.ok
  have c5 := readU2_adv _ c6.ok
  have c4 := readU2_adv _ c5.ok
  have c3 := readU1_adv _ c4.ok
  have c2 := readU1_adv _ c3.ok
  have c1 := readU1_adv _ c2.ok
  have c :=
    c1.trans (c2.trans (c3.trans (c4.trans (c5.trans (c6.trans (c7.trans (c8.trans (c9.trans (
      c10.trans (c11.trans (c12)))))))))))
  exact c.congr (by simp only [PRRRecord.getSize]; omega)

theorem parseHBR_consumed (s : STDFParser) (h : (parseHBR s).2.file_.failbit = false) :
    Consumed s (parseHBR s).2 (parseHBR s).1.getSize := by
  unfold parseHBR at h ⊢
  simp only [] at h ⊢
  have c6 := readCn_adv _ h
  have c5 := readC1_adv _ c6.ok
  have c4 := readU4_adv _ c5.ok
  have c3 := readU2_adv _ c4.ok
  have c2 := readU1_adv _ c3.ok
  have c1 := readU1_adv _ c2.ok
  have c :=
    c1.trans (c2.trans (c3.trans (c4.trans (c5.trans (c6)))))
  exact c.congr (by simp only [HBRRecord.getSize]; omega)

theorem parseSBR_consumed (s : STDFParser) (h : (parseSBR s).2.file_.failbit = false) :
    Consumed s (parseSBR s).2 (parseSBR s).1.getSize := by
  unfold parseSBR at h ⊢
  simp only [] at h ⊢
  have c6 := readCn_adv _ h
  have c5 := readC1_adv _ c6.ok
  have c4 := readU4_adv _ c5.ok
  have c3 := readU2_adv _ c4.ok
  have c2 := readU1_adv _ c3.ok
  have c1 := readU1_adv _ c2.ok
  have c :=
    c1.trans (c2.trans (c3.trans (c4.trans (c5.trans (c6)))))
  exact c.congr (by simp only [SBRRecord.getSize]; omega)

theorem parseWIR_consumed (s : STDFParser) (h : (parseWIR s).2.file_.failbit = false) :
    Consumed s (parseWIR s).2 (parseWIR s).1.getSize := by
  unfold parseWIR at h ⊢
  simp only [] at h ⊢
  have c4 := readCn_adv _ h
  have c3 := readU4_adv _ c4.ok
  have c2 := readU1_adv _ c3.ok
  have c1 := readU1_adv _ c2.ok
  have c :=
    c1.trans (c2.trans (c3.trans (c4)))
  exact c.congr (by simp only [WIRRecord.getSize]; omega)

theorem parseWRR_consumed (s : STDFParser) (h : (parseWRR s).2.file_.failbit = false) :
    Consumed s (parseWRR s).2 (parseWRR s).1.getSize := by
  unfold parseWRR at h ⊢
  simp only [] at h ⊢
  have c14 := readCn_adv _ h
  have c13 := readCn_adv _ c14.ok
  have c12 := readCn_adv _ c13.ok
  have c11 := readCn_adv _ c12.ok
  have c10 := readCn_adv _ c11.ok
  have c9 := readCn_adv _ c10.ok
  have c8 := readU4_adv _ c9.ok
  have c7 := readU4_adv _ c8.ok
  have c6 := readU4_adv _ c7.ok
  have c5 := readU4_adv _ c6.ok
  have c4 := readU4_adv _ c5.ok
  have c3 := readU4_adv _ c4.ok
  have c2 := readU1_adv _ c3.ok
  have c1 := readU1_adv _ c2.ok
  have c :=
    c1.trans (c2.trans (c3.trans (c4.trans (c5.trans (c6.trans (c7.trans (c8.trans (c9.trans (
      c10.trans (c11.trans (c12.trans (c13.trans (c14)))))))))))))
  exact c.congr (by simp only [WRRRecord.getSize]; omega)

/-! ## The Functional Test record -/

theorem read_length_le (f : IfStream) (n : Nat) : (f.read n).1.length ≤ n := by
  unfold IfStream.read
  by_cases hg : f.good = true
  · rw [if_pos hg]
    have hle : ((f.data.drop f.pos).take n).length ≤ n := by
      rw [List.length_take]; exact Nat.min_le_left _ _
    by_cases hl : ((f.data.drop f.pos).take n).length = n
    · show (if _ then _ else _ : List Byte × IfStream).1.length ≤ n
      rw [if_pos hl]; exact hle
    · show (if _ then _ else _ : List Byte × IfStream).1.length ≤ n
      rw [if_neg hl]; exact hle
  · rw [if_neg hg]; simp

theorem readRaw_length (n : Nat) (s : STDFParser) : (readRaw n s).1.length = n := by
  rw [readRaw_eq]
  have := read_length_le s.file_ n
  simp only [takePad, List.length_append, List.length_take, List.length_replicate]
  omega

theorem leValue_lt (bs : List Byte) : leValue bs < 256 ^ bs.length := by
  induction bs with
  | nil => simp [leValue]
  | cons b bs ih =>
    have hb := b.isLt
    simp only [leValue, List.length_cons, Nat.pow_succ]
    omega

theorem readU2_lt (s : STDFParser) : (readU2 s).1 < 65536 := by
  have e0 : readU2 s = (if (readRaw 2 s).2.endianSwap_ then swapBytes16 (leValue (readRaw 2 s).1)
      else leValue (readRaw 2 s).1, (readRaw 2 s).2) := rfl
  rw [e0]
  show (if (readRaw 2 s).2.endianSwap_ = true then _ else _) < 65536
  split
  · unfold swapBytes16
    exact Nat.mod_lt _ (by norm_num)
  · have := leValue_lt (readRaw 2 s).1
    rw [readRaw_length] at this
    exact this

theorem resize_nil (n : Nat) : resize [] n = List.replicate n 0 := by
  simp [resize]

theorem words_of_consumed {s t : STDFParser} {k : Nat} (c : Consumed s t k) (n : Nat) :
    (List.range n).map (fun j => wordAt t (t.file_.pos + 2 * j)) =
      (List.range n).map (fun j => wordAt s (s.file_.pos + k + 2 * j)) := by
  rw [c.eq]; rfl

theorem word_of_consumed {s t : STDFParser} {k : Nat} (c : Consumed s t k) :
    wordAt t t.file_.pos = wordAt s (s.file_.pos + k) := by
  rw [c.eq]; rfl

theorem readInto_adv (n : Nat) (s : STDFParser) (h : (readInto n s).2.file_.failbit = false) :
    Consumed s (readInto n s).2 n ∧ (readInto n s).1.length = n := by
  have e : readInto n s = ((readInto n s).1, (readInto n s).2) := rfl
  obtain ⟨c, -, hl⟩ := readInto_consumed e h
  exact ⟨c, hl⟩

theorem readBn_length (s : STDFParser) (h : (readBn s).2.file_.failbit = false) :
    (readBn s).1.length = wordAt s s.file_.pos := by
  have e0 : readBn s = if (readU2 s).1 = 0 then ([], (readU2 s).2)
      else readInto (readU2 s).1 (readU2 s).2 := rfl
  rw [e0] at h ⊢
  by_cases hn : (readU2 s).1 = 0
  · rw [if_pos hn] at h ⊢
    rw [← readU2_value s h, hn]; rfl
  · rw [if_neg hn] at h ⊢
    obtain ⟨c, hl⟩ := readInto_adv _ _ h
    rw [hl, readU2_value s c.ok]

theorem fillLoop_full (n : Nat) (s : STDFParser)
    (h : (fillLoop n n 0 (resize [] n) s).2.file_.failbit = false) (hn : n < 65536) :
    Consumed s (fillLoop n n 0 (resize [] n) s).2 (2 * n) ∧
      (fillLoop n n 0 (resize [] n) s).1 =
        (List.range n).map (fun j => wordAt s (s.file_.pos + 2 * j)) := by
  obtain ⟨c, hv⟩ := fillLoop_spec n n 0 (resize [] n) s (by omega) hn (by simp [resize_nil]) h
  exact ⟨c, by rw [hv]; simp⟩

theorem parseFTR_layout (s : STDFParser) (h : (parseFTR s).2.file_.failbit = false) :
    Consumed s (parseFTR s).2 (parseFTR s).1.getSize ∧
    (parseFTR s).1.RTN_ICNT = wordAt s (s.file_.pos + 34) ∧
    (parseFTR s).1.PGM_ICNT = wordAt s (s.file_.pos + 36) ∧
    (parseFTR s).1.RTN_INDX = (List.range (parseFTR s).1.RTN_ICNT).map
      (fun j => wordAt s (s.file_.pos + 38 + 2 * j)) ∧
    (parseFTR s).1.RTN_STAT = (List.range (parseFTR s).1.RTN_ICNT).map
      (fun j => wordAt s (s.file_.pos + (38 + 2 * (parseFTR s).1.RTN_ICNT) + 2 * j)) ∧
    (parseFTR s).1.PGM_INDX = (List.range (parseFTR s).1.PGM_ICNT).map
      (fun j => wordAt s (s.file_.pos + (38 + 4 * (parseFTR s).1.RTN_ICNT) + 2 * j)) ∧
    (parseFTR s).1.PGM_STAT = (List.range (parseFTR s).1.PGM_ICNT).map
      (fun j => wordAt s (s.file_.pos +
        (38 + 4 * (parseFTR s).1.RTN_ICNT + 2 * (parseFTR s).1.PGM_ICNT) + 2 * j)) ∧
    (parseFTR s).1.FAIL_PIN.length = wordAt s (s.file_.pos +
        (38 + 4 * (parseFTR s).1.RTN_ICNT + 4 * (parseFTR s).1.PGM_ICNT)) := by
  unfold parseFTR at h ⊢
  simp only [] at h ⊢
  generalize e1 : readU4 s = a1 at h ⊢
  generalize e2 : readU1 a1.2 = a2 at h ⊢
  generalize e3 : readU1 a2.2 = a3 at h ⊢
  generalize e4 : readU1 a3.2 = a4 at h ⊢
  generalize e5 : readU1 a4.2 = a5 at h ⊢
  generalize e6 : readU4 a5.2 = a6 at h ⊢
  generalize e7 : readU4 a6.2 = a7 at h ⊢
  generalize e8 : readU4 a7.2 = a8 at h ⊢
  generalize e9 : readU4 a8.2 = a9 at h ⊢
  generalize e10 : readI4 a9.2 = a10 at h ⊢
  generalize e11 : readI4 a10.2 = a11 at h ⊢
  generalize e12 : readI2 a11.2 = a12 at h ⊢
  generalize e13 : readU2 a12.2 = a13 at h ⊢
  generalize e14 : readU2 a13.2 = a14 at h ⊢
  generalize e15 : fillLoop a13.1 a13.1 0 (resize [] a13.1) a14.2 = a15 at h ⊢
  generalize e16 : fillLoop a13.1 a13.1 0 (resize [] a13.1) a15.2 = a16 at h ⊢
  generalize e17 : fillLoop a14.1 a14.1 0 (resize [] a14.1) a16.2 = a17 at h ⊢
  generalize e18 : fillLoop a14.1 a14.1 0 (resize [] a14.1) a17.2 = a18 at h ⊢
  generalize e19 : readBn a18.2 = a19 at h ⊢
  generalize e20 : readCn a19.2 = a20 at h ⊢
  generalize e21 : readCn a20.2 = a21 at h ⊢
  generalize e22 : readCn a21.2 = a22 at h ⊢
  generalize e23 : readCn a22.2 = a23 at h ⊢
  generalize e24 : readCn a23.2 = a24 at h ⊢
  generalize e25 : readCn a24.2 = a25 at h ⊢
  generalize e26 : readCn a25.2 = a26 at h ⊢
  generalize e27 : readU1 a26.2 = a27 at h ⊢
  generalize e28 : readBn a27.2 = a28 at h ⊢
  have hN : a13.1 < 65536 := e13 ▸ readU2_lt _
  have hM : a14.1 < 65536 := e14 ▸ readU2_lt _
  have c28 : Consumed a27.2 a28.2 (a28.1.length + 2) := by subst e28; exact readBn_adv _ h
  have c27 : Consumed a26.2 a27.2 1 := by subst e27; exact readU1_adv _ c28.ok
  have c26 : Consumed a25.2 a26.2 (a26.1.length + 1) := by subst e26; exact readCn_adv _ c27.ok
  have c25 : Consumed a24.2 a25.2 (a25.1.length + 1) := by subst e25; exact readCn_adv _ c26.ok
  have c24 : Consumed a23.2 a24.2 (a24.1.length + 1) := by subst e24; exact readCn_adv _ c25.ok
  have c23 : Consumed a22.2 a23.2 (a23.1.length + 1) := by subst e23; exact readCn_adv _ c24.ok
  have c22 : Consumed a21.2 a22.2 (a22.1.length + 1) := by subst e22; exact readCn_adv _ c23.ok
  have c21 : Consumed a20.2 a21.2 (a21.1.length + 1) := by subst e21; exact readCn_adv _ c22.ok
  have c20 : Consumed a19.2 a20.2 (a20.1.length + 1) := by subst e20; exact readCn_adv _ c21.ok
  have c19 : Consumed a18.2 a19.2 (a19.1.length + 2) := by subst e19; exact readBn_adv _ c20.ok
  have f18 : Consumed a17.2 a18.2 (2 * a14.1) ∧ a18.1 = (List.range a14.1).map
      (fun j => wordAt a17.2 (a17.2.file_.pos + 2 * j)) := by
    subst e18; exact fillLoop_full _ _ c19.ok hM
  have c18 := f18.1
  have f17 : Consumed a16.2 a17.2 (2 * a14.1) ∧ a17.1 = (List.range a14.1).map
      (fun j => wordAt a16.2 (a16.2.file_.pos + 2 * j)) := by
    subst e17; exact fillLoop_full _ _ c18.ok hM
  have c17 := f17.1
  have f16 : Consumed a15.2 a16.2 (2 * a13.1) ∧ a16.1 = (List.range a13.1).map
      (fun j => wordAt a15.2 (a15.2.file_.pos + 2 * j)) := by
    subst e16; exact fillLoop_full _ _ c17.ok hN
  have c16 := f16.1
  have f15 : Consumed a14.2 a15.2 (2 * a13.1) ∧ a15.1 = (List.range a13.1).map
      (fun j => wordAt a14.2 (a14.2.file_.pos + 2 * j)) := by
    subst e15; exact fillLoop_full _ _ c16.ok hN
  have c15 := f15.1
  have c14 : Consumed a13.2 a14.2 2 := by subst e14; exact readU2_adv _ c15.ok
  have c13 : Consumed a12.2 a13.2 2 := by subst e13; exact readU2_adv _ c14.ok
  have c12 : Consumed a11.2 a12.2 2 := by subst e12; exact readI2_adv _ c13.ok
  have c11 : Consumed a10.2 a11.2 4 := by subst e11; exact readI4_adv _ c12.ok
  have c10 : Consumed a9.2 a10.2 4 := by subst e10; exact readI4_adv _ c11.ok
  have c9 : Consumed a8.2 a9.2 4 := by subst e9; exact readU4_adv _ c10.ok
  have c8 : Consumed a7.2 a8.2 4 := by subst e8; exact readU4_adv _ c9.ok
  have c7 : Consumed a6.2 a7.2 4 := by subst e7; exact readU4_adv _ c8.ok
  have c6 : Consumed a5.2 a6.2 4 := by subst e6; exact readU4_adv _ c7.ok
  have c5 : Consumed a4.2 a5.2 1 := by subst e5; exact readU1_adv _ c6.ok
  have c4 : Consumed a3.2 a4.2 1 := by subst e4; exact readU1_adv _ c5.ok
  have c3 : Consumed a2.2 a3.2 1 := by subst e3; exact readU1_adv _ c4.ok
  have c2 : Consumed a1.2 a2.2 1 := by subst e2; exact readU1_adv _ c3.ok
  have c1 : Consumed s a1.2 4 := by subst e1; exact readU4_adv _ c2.ok
  have w13 : a13.1 = wordAt a12.2 a12.2.file_.pos := by subst e13; exact readU2_value _ c14.ok
  have w14 : a14.1 = wordAt a13.2 a13.2.file_.pos := by subst e14; exact readU2_value _ c15.ok
  have hlen : a19.1.length = wordAt a18.2 a18.2.file_.pos := by
    subst e19; exact readBn_length _ c20.ok
  have d12 : Consumed s a12.2 34 :=
    c1.trans (c2.trans (c3.trans (c4.trans (c5.trans (c6.trans (c7.trans (c8.trans
      (c9.trans (c10.trans (c11.trans c12))))))))))
  have d13 : Consumed s a13.2 36 := d12.trans c13
  have d14 : Consumed s a14.2 38 := d13.trans c14
  have d15 : Consumed s a15.2 (38 + 2 * a13.1) := d14.trans c15
  have d16 : Consumed s a16.2 (38 + 4 * a13.1) := (d15.trans c16).congr (by omega)
  have d17 : Consumed s a17.2 (38 + 4 * a13.1 + 2 * a14.1) := d16.trans c17
  have d18 : Consumed s a18.2 (38 + 4 * a13.1 + 4 * a14.1) := (d17.trans c18).congr (by omega)
  have dtail := c19.trans (c20.trans (c21.trans (c22.trans (c23.trans (c24.trans (c25.trans
    (c26.trans (c27.trans c28))))))))
  have v15 := f15.2
  have v16 := f16.2
  have v17 := f17.2
  have v18 := f18.2
  rw [word_of_consumed d12] at w13
  rw [word_of_consumed d13] at w14
  rw [words_of_consumed d14] at v15
  rw [words_of_consumed d15] at v16
  rw [words_of_consumed d16] at v17
  rw [words_of_consumed d17] at v18
  rw [word_of_consumed d18] at hlen
  have l15 := congrArg List.length v15
  have l16 := congrArg List.length v16
  have l17 := congrArg List.length v17
  have l18 := congrArg List.length v18
  simp only [List.length_map, List.length_range] at l15 l16 l17 l18
  refine ⟨(d18.trans dtail).congr ?_, w13, w14, v15, v16, v17, v18, hlen⟩
  simp only [FTRRecord.getSize]
  omega

/-! ## Dispatch -/

theorem specDispatch_none {major minor : Nat}
    (h1 : ¬(major = 0 ∧ minor = 10)) (h2 : ¬(major = 1 ∧ minor = 10))
    (h3 : ¬(major = 1 ∧ minor = 40)) (h4 : ¬(major = 1 ∧ minor = 50))
    (h5 : ¬(major = 2 ∧ minor = 10)) (h6 : ¬(major = 2 ∧ minor = 20))
    (h7 : ¬(major = 5 ∧ minor = 10)) (h8 : ¬(major = 5 ∧ minor = 20))
    (h9 : ¬(major = 15 ∧ minor = 10)) (h10 : ¬(major = 15 ∧ minor = 20)) :
    specDispatch major minor = none := by
  have key : ∀ a b : Nat, ¬(major = a ∧ minor = b) → ((major, minor) == (a, b)) = false := by
    intro a b h
    rw [beq_eq_false_iff_ne]
    intro e
    exact h ⟨congrArg Prod.fst e, congrArg Prod.snd e⟩
  simp only [specDispatch, dispatchTable, List.lookup, key _ _ h1, key _ _ h2, key _ _ h3,
    key _ _ h4, key _ _ h5, key _ _ h6, key _ _ h7, key _ _ h8, key _ _ h9, key _ _ h10]

theorem specDispatch_table :
    specDispatch 0 10 = some .FAR ∧
    specDispatch 1 10 = some .MIR ∧
    specDispatch 1 40 = some .HBR ∧
    specDispatch 1 50 = some .SBR ∧
    specDispatch 2 10 = some .WIR ∧
    specDispatch 2 20 = some .WRR ∧
    specDispatch 5 10 = some .PIR ∧
    specDispatch 5 20 = some .PRR ∧
    specDispatch 15 10 = some .PTR ∧
    specDispatch 15 20 = some .FTR := by
  decide

/-- The result of `parseRecord` in terms of the header it reads. -/
theorem parseRecord_eq (s : STDFParser) :
    parseRecord s =
      if (readRecordHeader s).1.recordType = 0 ∧ (readRecordHeader s).1.recordSub = 10 then
        (some (.far (parseFAR (readRecordHeader s).2).1), (parseFAR (readRecordHeader s).2).2)
      else
      if (readRecordHeader s).1.recordType = 1 ∧ (readRecordHeader s).1.recordSub = 10 then
        (some (.mir (parseMIR (readRecordHeader s).2).1), (parseMIR (readRecordHeader s).2).2)
      else
      if (readRecordHeader s).1.recordType = 1 ∧ (readRecordHeader s).1.recordSub = 40 then
        (some (.hbr (parseHBR (readRecordHeader s).2).1), (parseHBR (readRecordHeader s).2).2)
      else
      if (readRecordHeader s).1.recordType = 1 ∧ (readRecordHeader s).1.recordSub = 50 then
        (some (.sbr (parseSBR (readRecordHeader s).2).1), (parseSBR (readRecordHeader s).2).2)
      else
      if (readRecordHeader s).1.recordType = 2 ∧ (readRecordHeader s).1.recordSub = 10 then
        (some (.wir (parseWIR (readRecordHeader s).2).1), (parseWIR (readRecordHeader s).2).2)
      else
      if (readRecordHeader s).1.recordType = 2 ∧ (readRecordHeader s).1.recordSub = 20 then
        (some (.wrr (parseWRR (readRecordHeader s).2).1), (parseWRR (readRecordHeader s).2).2)
      else
      if (readRecordHeader s).1.recordType = 5 ∧ (readRecordHeader s).1.recordSub = 10 then
        (some (.pir (parsePIR (readRecordHeader s).2).1), (parsePIR (readRecordHeader s).2).2)
      else
      if (readRecordHeader s).1.recordType = 5 ∧ (readRecordHeader s).1.recordSub = 20 then
        (some (.prr (parsePRR (readRecordHeader s).2).1), (parsePRR (readRecordHeader s).2).2)
      else
      if (readRecordHeader s).1.recordType = 15 ∧ (readRecordHeader s).1.recordSub = 10 then
        (some (.ptr (parsePTR (readRecordHeader s).2).1), (parsePTR (readRecordHeader s).2).2)
      else
      if (readRecordHeader s).1.recordType = 15 ∧ (readRecordHeader s).1.recordSub = 20 then
        (some (.ftr (parseFTR (readRecordHeader s).2).1), (parseFTR (readRecordHeader s).2).2)
      else
        (none, skipBytes (readRecordHeader s).1.length (readRecordHeader s).2) := rfl

/-- C1: the record `parseRecord` produces is fixed by the (major, minor) pair of the header
it has read, as in the dispatch table: the ten mapped pairs give a record whose
`getRecordType()` is the kind of the table, every other pair gives no record. -/
theorem parseRecord_dispatch (s : STDFParser) :
    (parseRecord s).1.map STDFRecord.getRecordType =
      specDispatch (readRecordHeader s).1.recordType (readRecordHeader s).1.recordSub := by
  rw [parseRecord_eq]
  generalize (readRecordHeader s).1.recordType = t
  generalize (readRecordHeader s).1.recordSub = u
  obtain ⟨t1, t2, t3, t4, t5, t6, t7, t8, t9, t10⟩ := specDispatch_table
  by_cases h1 : t = 0 ∧ u = 10
  · rw [if_pos h1, h1.1, h1.2, t1]; rfl
  rw [if_neg h1]
  by_cases h2 : t = 1 ∧ u = 10
  · rw [if_pos h2, h2.1, h2.2, t2]; rfl
  rw [if_neg h2]
  by_cases h3 : t = 1 ∧ u = 40
  · rw [if_pos h3, h3.1, h3.2, t3]; rfl
  rw [if_neg h3]
  by_cases h4 : t = 1 ∧ u = 50
  · rw [if_pos h4, h4.1, h4.2, t4]; rfl
  rw [if_neg h4]
  by_cases h5 : t = 2 ∧ u = 10
  · rw [if_pos h5, h5.1, h5.2, t5]; rfl
  rw [if_neg h5]
  by_cases h6 : t = 2 ∧ u = 20
  · rw [if_pos h6, h6.1, h6.2, t6]; rfl
  rw [if_neg h6]
  by_cases h7 : t = 5 ∧ u = 10
  · rw [if_pos h7, h7.1, h7.2, t7]; rfl
  rw [if_neg h7]
  by_cases h8 : t = 5 ∧ u = 20
  · rw [if_pos h8, h8.1, h8.2, t8]; rfl
  rw [if_neg h8]
  by_cases h9 : t = 15 ∧ u = 10
  · rw [if_pos h9, h9.1, h9.2, t9]; rfl
  rw [if_neg h9]
  by_cases h10 : t = 15 ∧ u = 20
  · rw [if_pos h10, h10.1, h10.2, t10]; rfl
  rw [if_neg h10]
  rw [specDispatch_none h1 h2 h3 h4 h5 h6 h7 h8 h9 h10]; rfl

/-! ## Reads that find their bytes -/

theorem read_of_bytes (f : IfStream) (bs rest : List Byte) (hg : f.good = true)
    (hd : f.data.drop f.pos = bs ++ rest) :
    f.read bs.length = (bs, { f with pos := f.pos + bs.length }) := by
  unfold IfStream.read
  have ht : (f.data.drop f.pos).take bs.length = bs := by rw [hd]; simp
  rw [if_pos hg]
  simp only [ht, if_true]

theorem readRaw_of_bytes (s : STDFParser) (bs rest : List Byte) (hg : s.file_.good = true)
    (hd : s.file_.data.drop s.file_.pos = bs ++ rest) :
    readRaw bs.length s = (bs, advance bs.length s) := by
  rw [readRaw_eq, read_of_bytes s.file_ bs rest hg hd]
  simp [advance, takePad]

theorem drop_advance (s : STDFParser) (bs rest : List Byte)
    (hd : s.file_.data.drop s.file_.pos = bs ++ rest) :
    (advance bs.length s).file_.data.drop (advance bs.length s).file_.pos = rest := by
  show s.file_.data.drop (s.file_.pos + bs.length) = rest
  rw [← List.drop_drop, hd]
  simp

theorem readU1_of_bytes (s : STDFParser) (b : Byte) (rest : List Byte) (hg : s.file_.good = true)
    (hd : s.file_.data.drop s.file_.pos = b :: rest) :
    readU1 s = (b.val, advance 1 s) := by
  have h := readRaw_of_bytes s [b] rest hg hd
  have e : readU1 s = (leValue (readRaw 1 s).1, (readRaw 1 s).2) := rfl
  rw [e, show readRaw 1 s = ([b], advance 1 s) from h]
  simp [leValue]

theorem readU2_of_bytes (s : STDFParser) (b0 b1 : Byte) (rest : List Byte)
    (hg : s.file_.good = true) (hd : s.file_.data.drop s.file_.pos = b0 :: b1 :: rest) :
    readU2 s = (if s.endianSwap_ then 256 * b0.val + b1.val else b0.val + 256 * b1.val,
      advance 2 s) := by
  have h := readRaw_of_bytes s [b0, b1] rest hg hd
  have e : readU2 s = (if (readRaw 2 s).2.endianSwap_ then swapBytes16 (leValue (readRaw 2 s).1)
      else leValue (readRaw 2 s).1, (readRaw 2 s).2) := rfl
  rw [e, show readRaw 2 s = ([b0, b1], advance 2 s) from h]
  have h0 := b0.isLt
  have h1 := b1.isLt
  simp only [leValue_pair, Prod.mk.injEq, and_true]
  show (if s.endianSwap_ = true then _ else _) = _
  by_cases hs : s.endianSwap_ = true
  · rw [if_pos hs, if_pos hs, swapBytes16_eq _ (by omega)]
    show @Eq Nat _ _
    omega
  · rw [if_neg hs, if_neg hs]

theorem readRecordHeader_of_bytes (s : STDFParser) (b0 b1 t u : Byte) (rest : List Byte)
    (hg : s.file_.good = true) (hd : s.file_.data.drop s.file_.pos = b0 :: b1 :: t :: u :: rest) :
    readRecordHeader s =
      (RecordHeader.mk (if s.endianSwap_ then 256 * b0.val + b1.val else b0.val + 256 * b1.val)
        t.val u.val, advance 4 s) := by
  have e1 := readU2_of_bytes s b0 b1 (t :: u :: rest) hg hd
  have d1 := drop_advance s [b0, b1] (t :: u :: rest) hd
  have e2 := readU1_of_bytes (advance 2 s) t (u :: rest) hg d1
  have d2 := drop_advance (advance 2 s) [t] (u :: rest) d1
  have e3 := readU1_of_bytes (advance 1 (advance 2 s)) u rest hg d2
  have e : readRecordHeader s = (RecordHeader.mk (readU2 s).1 (readU1 (readU2 s).2).1
      (readU1 (readU1 (readU2 s).2).2).1, (readU1 (readU1 (readU2 s).2).2).2) := rfl
  rw [e, e1]
  simp only [List.length_cons, List.length_nil] at e2 e3
  rw [e2, e3]
  rfl

theorem toSigned_small (n : Nat) (h : n < 2 ^ 63) : toSigned 64 n = (n : Int) := by
  unfold toSigned
  have h1 : n % 2 ^ 64 = n := Nat.mod_eq_of_lt (by omega)
  rw [h1, if_pos (by simpa using h)]

theorem toUnsigned_small (n : Nat) (h : n < 2 ^ 64) : toUnsigned 64 (n : Int) = n := by
  unfold toUnsigned
  have : ((n : Int) % ((2 ^ 64 : Nat) : Int)) = ((n % 2 ^ 64 : Nat) : Int) := by
    exact_mod_cast rfl
  rw [this, Nat.mod_eq_of_lt h]
  simp

theorem isEndOfFile_good (s : STDFParser) (hg : s.file_.good = true) (hs : Sized s) :
    isEndOfFile s = (decide (s.file_.data.length ≤ s.file_.pos), s) := by
  obtain ⟨he, hf⟩ := (good_iff _).1 hg
  have hsz : toSigned 64 s.fileSize_ = (s.file_.data.length : Int) := by
    rw [hs.1, toSigned_small _ hs.2]
  unfold isEndOfFile IfStream.eof IfStream.tellg
  rw [he, hg]
  simp only [Bool.false_eq_true, if_false, if_true, hsz, ge_iff_le, Nat.cast_le]

theorem getCurrentPosition_good (s : STDFParser) (hg : s.file_.good = true)
    (hp : s.file_.pos < 2 ^ 64) : getCurrentPosition s = (s.file_.pos, s) := by
  unfold getCurrentPosition IfStream.tellg
  rw [hg]
  simp only [if_true]
  rw [toUnsigned_small _ hp]

theorem not_pair_of_unmapped {major minor a b : Nat} {k : RecordType}
    (hk : specDispatch a b = some k) (hun : specDispatch major minor = none) :
    ¬(major = a ∧ minor = b) := by
  intro h
  rw [h.1, h.2, hk] at hun
  exact Option.noConfusion hun

theorem length_of_drop {l : List Byte} {p : Nat} {bs : List Byte} (h : l.drop p = bs) :
    bs ≠ [] → p + bs.length ≤ l.length := by
  intro hne
  have h1 := congrArg List.length h
  rw [List.length_drop] at h1
  have : bs.length ≠ 0 := fun e => hne (List.length_eq_zero.1 e)
  omega

theorem parseRecord_unmapped (s : STDFParser) (hun : specDispatch (readRecordHeader s).1.recordType
    (readRecordHeader s).1.recordSub = none) :
    parseRecord s = (none, skipBytes (readRecordHeader s).1.length (readRecordHeader s).2) := by
  obtain ⟨t1, t2, t3, t4, t5, t6, t7, t8, t9, t10⟩ := specDispatch_table
  rw [parseRecord_eq]
  rw [if_neg (not_pair_of_unmapped t1 hun), if_neg (not_pair_of_unmapped t2 hun),
    if_neg (not_pair_of_unmapped t3 hun), if_neg (not_pair_of_unmapped t4 hun),
    if_neg (not_pair_of_unmapped t5 hun), if_neg (not_pair_of_unmapped t6 hun),
    if_neg (not_pair_of_unmapped t7 hun), if_neg (not_pair_of_unmapped t8 hun),
    if_neg (not_pair_of_unmapped t9 hun), if_neg (not_pair_of_unmapped t10 hun)]

theorem parseNextRecord_of_more (s : STDFParser) (hg : s.file_.good = true) (hs : Sized s)
    (hp : s.file_.pos < s.file_.data.length) : parseNextRecord s = parseRecord s := by
  have e : parseNextRecord s =
      if (isEndOfFile s).1 then (none, (isEndOfFile s).2) else parseRecord (isEndOfFile s).2 := rfl
  rw [e, isEndOfFile_good s hg hs]
  have : decide (s.file_.data.length ≤ s.file_.pos) = false := by
    rw [decide_eq_false_iff_not]; omega
  rw [this]
  rfl

/-- C2: when the header at the read offset carries a (major, minor) pair that is not in the
dispatch table, `parseNextRecord` returns no record and leaves the read offset exactly
`4 + L` bytes past the start of the header, `L` being the length field after byte-order
correction, whatever its value. -/
theorem parseNextRecord_unmapped (s : STDFParser) (b0 b1 t u : Byte) (rest : List Byte)
    (hg : s.file_.good = true) (hs : Sized s)
    (hd : s.file_.data.drop s.file_.pos = b0 :: b1 :: t :: u :: rest)
    (hun : specDispatch t.val u.val = none) :
    (parseNextRecord s).1 = none ∧
      (getCurrentPosition (parseNextRecord s).2).1 = s.file_.pos + 4 +
        (if s.endianSwap_ then 256 * b0.val + b1.val else b0.val + 256 * b1.val) := by
  have hlen := length_of_drop hd (by simp)
  simp only [List.length_cons] at hlen
  have hh := readRecordHeader_of_bytes s b0 b1 t u rest hg hd
  have hL : (if s.endianSwap_ then 256 * b0.val + b1.val else b0.val + 256 * b1.val) < 65536 := by
    have h0 := b0.isLt
    have h1 := b1.isLt
    split <;> omega
  rw [parseNextRecord_of_more s hg hs (by omega), parseRecord_unmapped s (by rw [hh]; exact hun),
    hh]
  refine ⟨rfl, ?_⟩
  generalize (if s.endianSwap_ then 256 * b0.val + b1.val else b0.val + 256 * b1.val) = L at hL ⊢
  obtain ⟨he, hf⟩ := (good_iff _).1 hg
  have hsk : skipBytes L (advance 4 s) = advance (4 + L) s := by
    unfold skipBytes IfStream.seekgOff IfStream.seekTarget advance
    simp only [hf, Bool.false_eq_true, if_false]
    rw [if_neg (by omega)]
    have : ((s.file_.pos + 4 : Nat) : Int) + (L : Int) = ((s.file_.pos + (4 + L) : Nat) : Int) := by
      push_cast; omega
    simp only [this, Int.toNat_ofNat, he]
  have hpos : s.file_.pos < 2 ^ 63 := by have := hs.2; omega
  show (getCurrentPosition (skipBytes L (advance 4 s))).1 = _
  rw [hsk, getCurrentPosition_good (advance (4 + L) s) hg
    (by show s.file_.pos + (4 + L) < 2 ^ 64; omega)]
  show s.file_.pos + (4 + L) = _
  omega

/-! ## Opening a session -/

/-- The session state right after a successful open of a file of at least four bytes. -/
theorem construct_of_header (b0 b1 t u : Byte) (rest uninit : List Byte) :
    STDFParser.construct (b0 :: b1 :: t :: u :: rest) uninit =
      STDFParser.mk (IfStream.mk (b0 :: b1 :: t :: u :: rest) 0 false false)
        (toUnsigned 64 ((rest.length + 4 : Nat) : Int))
        (decide (t.val = 0 ∧ (u.val = 10 ∨ u.val = 20) ∧ b0.val + 256 * b1.val ≠ 2 ∧
          256 * b0.val + b1.val = 2)) uninit := by
  have h0 := b0.isLt
  have h1 := b1.isLt
  have e0 : STDFParser.construct (b0 :: b1 :: t :: u :: rest) uninit =
      detectEndianness (STDFParser.mk (IfStream.mk (b0 :: b1 :: t :: u :: rest) 0 false false)
        (toUnsigned 64 ((rest.length + 4 : Nat) : Int)) false uninit) := rfl
  rw [e0]
  generalize toUnsigned 64 ((rest.length + 4 : Nat) : Int) = sz
  let s0 := STDFParser.mk (IfStream.mk (b0 :: b1 :: t :: u :: rest) 0 false false) sz false uninit
  have r1 : readRaw 2 s0 = ([b0, b1], advance 2 s0) :=
    readRaw_of_bytes s0 [b0, b1] (t :: u :: rest) rfl rfl
  have r2 : readRaw 1 (advance 2 s0) = ([t], advance 1 (advance 2 s0)) :=
    readRaw_of_bytes (advance 2 s0) [t] (u :: rest) rfl rfl
  have r3 : readRaw 1 (advance 1 (advance 2 s0)) = ([u], advance 1 (advance 1 (advance 2 s0))) :=
    readRaw_of_bytes (advance 1 (advance 2 s0)) [u] rest rfl rfl
  have e1 : detectEndianness s0 =
      (fun (s3 : STDFParser) => STDFParser.mk (s3.file_.seekgPos 0) s3.fileSize_ s3.endianSwap_
        s3.uninit)
      (if leValue (readRaw 2 s0).1 = 2 ∧ leValue (readRaw 1 (readRaw 2 s0).2).1 = 0 ∧
          (leValue (readRaw 1 (readRaw 1 (readRaw 2 s0).2).2).1 = 10 ∨
            leValue (readRaw 1 (readRaw 1 (readRaw 2 s0).2).2).1 = 20) then
        STDFParser.mk (readRaw 1 (readRaw 1 (readRaw 2 s0).2).2).2.file_
          (readRaw 1 (readRaw 1 (readRaw 2 s0).2).2).2.fileSize_ false
          (readRaw 1 (readRaw 1 (readRaw 2 s0).2).2).2.uninit
      else if swapBytes16 (leValue (readRaw 2 s0).1) = 2 ∧
          leValue (readRaw 1 (readRaw 2 s0).2).1 = 0 ∧
          (leValue (readRaw 1 (readRaw 1 (readRaw 2 s0).2).2).1 = 10 ∨
            leValue (readRaw 1 (readRaw 1 (readRaw 2 s0).2).2).1 = 20) then
        STDFParser.mk (readRaw 1 (readRaw 1 (readRaw 2 s0).2).2).2.file_
          (readRaw 1 (readRaw 1 (readRaw 2 s0).2).2).2.fileSize_ true
          (readRaw 1 (readRaw 1 (readRaw 2 s0).2).2).2.uninit
      else
        STDFParser.mk (readRaw 1 (readRaw 1 (readRaw 2 s0).2).2).2.file_
          (readRaw 1 (readRaw 1 (readRaw 2 s0).2).2).2.fileSize_ false
          (readRaw 1 (readRaw 1 (readRaw 2 s0).2).2).2.uninit) := rfl
  show detectEndianness s0 = _
  rw [e1, r1]
  simp only []
  rw [r2]
  simp only []
  rw [r3]
  simp only [leValue_pair, leValue, Nat.mul_zero, Nat.add_zero]
  rw [swapBytes16_eq _ (by omega)]
  have hsw : (b0.val + 256 * b1.val) % 256 * 256 + (b0.val + 256 * b1.val) / 256 =
      256 * b0.val + b1.val := by omega
  rw [hsw]
  by_cases c1 : b0.val + 256 * b1.val = 2 ∧ t.val = 0 ∧ (u.val = 10 ∨ u.val = 20)
  · rw [if_pos c1]
    have : ¬(t.val = 0 ∧ (u.val = 10 ∨ u.val = 20) ∧ b0.val + 256 * b1.val ≠ 2 ∧
        256 * b0.val + b1.val = 2) := fun h => h.2.2.1 c1.1
    rw [decide_eq_false this]
    rfl
  · rw [if_neg c1]
    by_cases c2 : 256 * b0.val + b1.val = 2 ∧ t.val = 0 ∧ (u.val = 10 ∨ u.val = 20)
    · rw [if_pos c2]
      have : t.val = 0 ∧ (u.val = 10 ∨ u.val = 20) ∧ b0.val + 256 * b1.val ≠ 2 ∧
          256 * b0.val + b1.val = 2 := ⟨c2.2.1, c2.2.2, fun h => c1 ⟨h, c2.2⟩, c2.1⟩
      rw [decide_eq_true this]
      rfl
    · rw [if_neg c2]
      have : ¬(t.val = 0 ∧ (u.val = 10 ∨ u.val = 20) ∧ b0.val + 256 * b1.val ≠ 2 ∧
          256 * b0.val + b1.val = 2) := fun h => c2 ⟨h.2.2.2, h.1, h.2.1⟩
      rw [decide_eq_false this]
      rfl

/-! ## Symbolic execution of the dispatcher and the parse loop -/

theorem parseFAR_of_bytes (s : STDFParser) (c v : Byte) (rest : List Byte)
    (hg : s.file_.good = true) (hd : s.file_.data.drop s.file_.pos = c :: v :: rest) :
    parseFAR s = (FARRecord.mk c.val v.val, advance 2 s) := by
  have e : parseFAR s = (FARRecord.mk (readU1 s).1 (readU1 (readU1 s).2).1,
      (readU1 (readU1 s).2).2) := rfl
  have e1 := readU1_of_bytes s c (v :: rest) hg hd
  have e2 := readU1_of_bytes (advance 1 s) v rest hg (drop_advance s [c] (v :: rest) hd)
  rw [e, e1]
  simp only []
  rw [e2]
  rfl

theorem parsePIR_of_bytes (s : STDFParser) (c v : Byte) (rest : List Byte)
    (hg : s.file_.good = true) (hd : s.file_.data.drop s.file_.pos = c :: v :: rest) :
    parsePIR s = (PIRRecord.mk c.val v.val, advance 2 s) := by
  have e : parsePIR s = (PIRRecord.mk (readU1 s).1 (readU1 (readU1 s).2).1,
      (readU1 (readU1 s).2).2) := rfl
  have e1 := readU1_of_bytes s c (v :: rest) hg hd
  have e2 := readU1_of_bytes (advance 1 s) v rest hg (drop_advance s [c] (v :: rest) hd)
  rw [e, e1]
  simp only []
  rw [e2]
  rfl

theorem parseRecord_far (s : STDFParser) (b0 b1 c v : Byte) (rest : List Byte)
    (hg : s.file_.good = true)
    (hd : s.file_.data.drop s.file_.pos = b0 :: b1 :: 0 :: 10 :: c :: v :: rest) :
    parseRecord s = (some (STDFRecord.far (FARRecord.mk c.val v.val)), advance 6 s) := by
  have hh := readRecordHeader_of_bytes s b0 b1 0 10 (c :: v :: rest) hg hd
  have hf := parseFAR_of_bytes (advance 4 s) c v rest hg
    (drop_advance s [b0, b1, 0, 10] (c :: v :: rest) hd)
  rw [parseRecord_eq, hh]
  simp only []
  rw [if_pos ⟨rfl, rfl⟩, hf]
  rfl

theorem parseRecord_pir (s : STDFParser) (b0 b1 c v : Byte) (rest : List Byte)
    (hg : s.file_.good = true)
    (hd : s.file_.data.drop s.file_.pos = b0 :: b1 :: 5 :: 10 :: c :: v :: rest) :
    parseRecord s = (some (STDFRecord.pir (PIRRecord.mk c.val v.val)), advance 6 s) := by
  have hh := readRecordHeader_of_bytes s b0 b1 5 10 (c :: v :: rest) hg hd
  have hf := parsePIR_of_bytes (advance 4 s) c v rest hg
    (drop_advance s [b0, b1, 5, 10] (c :: v :: rest) hd)
  rw [parseRecord_eq, hh]
  simp only []
  rw [if_neg (by decide), if_neg (by decide), if_neg (by decide), if_neg (by decide),
    if_neg (by decide), if_neg (by decide), if_pos ⟨rfl, rfl⟩, hf]
  rfl

theorem skipBytes_advance (L k : Nat) (s : STDFParser) (hg : s.file_.good = true) :
    skipBytes L (advance k s) = advance (k + L) s := by
  obtain ⟨he, hf⟩ := (good_iff _).1 hg
  unfold skipBytes IfStream.seekgOff IfStream.seekTarget advance
  simp only [hf, Bool.false_eq_true, if_false]
  rw [if_neg (by omega)]
  have : ((s.file_.pos + k : Nat) : Int) + (L : Int) = ((s.file_.pos + (k + L) : Nat) : Int) := by
    push_cast; omega
  simp only [this, Int.toNat_ofNat, he]

theorem parseRecord_skip (s : STDFParser) (b0 b1 t u : Byte) (rest : List Byte)
    (hg : s.file_.good = true) (hd : s.file_.data.drop s.file_.pos = b0 :: b1 :: t :: u :: rest)
    (hun : specDispatch t.val u.val = none) :
    parseRecord s = (none, advance
      (4 + if s.endianSwap_ then 256 * b0.val + b1.val else b0.val + 256 * b1.val) s) := by
  have hh := readRecordHeader_of_bytes s b0 b1 t u rest hg hd
  rw [parseRecord_unmapped s (by rw [hh]; exact hun), hh]
  simp only []
  rw [skipBytes_advance _ _ _ hg]

theorem parseFileLoop_more (fuel : Nat) (records : List STDFRecord) (s : STDFParser)
    (hg : s.file_.good = true) (hs : Sized s) (hp : s.file_.pos < s.file_.data.length) :
    parseFileLoop (fuel + 1) records s =
      parseFileLoop fuel
        (match (parseRecord s).1 with
          | some r => records ++ [r]
          | none => records) (parseRecord s).2 := by
  have e : parseFileLoop (fuel + 1) records s =
      if (isEndOfFile s).1 then some (records, (isEndOfFile s).2)
      else parseFileLoop fuel
        (match (parseNextRecord (isEndOfFile s).2).1 with
          | some r => records ++ [r]
          | none => records) (parseNextRecord (isEndOfFile s).2).2 := rfl
  have hd : decide (s.file_.data.length ≤ s.file_.pos) = false := by
    rw [decide_eq_false_iff_not]; omega
  rw [e, isEndOfFile_good s hg hs, hd]
  simp only [Bool.false_eq_true, if_false]
  rw [parseNextRecord_of_more s hg hs hp]

theorem parseFileLoop_done (fuel : Nat) (records : List STDFRecord) (s : STDFParser)
    (hg : s.file_.good = true) (hs : Sized s) (hp : s.file_.data.length ≤ s.file_.pos) :
    parseFileLoop (fuel + 1) records s = some (records, s) := by
  have e : parseFileLoop (fuel + 1) records s =
      if (isEndOfFile s).1 then some (records, (isEndOfFile s).2)
      else parseFileLoop fuel
        (match (parseNextRecord (isEndOfFile s).2).1 with
          | some r => records ++ [r]
          | none => records) (parseNextRecord (isEndOfFile s).2).2 := rfl
  have hd : decide (s.file_.data.length ≤ s.file_.pos) = true := by
    rw [decide_eq_true_iff]; exact hp
  rw [e, isEndOfFile_good s hg hs, hd]
  rfl

/-- C10: on the 21-byte input `02 00 00 0A 02 04 | 02 00 05 0A 01 01 | 05 00 63 63` followed by
any five bytes, `parseFile` returns exactly two records, a FAR with `CPU_TYP = 2` and
`STDF_VER = 4` and then a PIR with `HEAD_NUM = 1` and `SITE_NUM = 1` (the loop needs four
iterations and stops by itself), and `isEndOfFile()` is true afterwards. -/
theorem parseFile_end_to_end (a b c d e : Byte) (uninit : List Byte) (n : Nat) :
    parseFile (n + 4) (STDFParser.construct
        [2, 0, 0, 10, 2, 4, 2, 0, 5, 10, 1, 1, 5, 0, 99, 99, a, b, c, d, e] uninit) =
      some ([STDFRecord.far (FARRecord.mk 2 4), STDFRecord.pir (PIRRecord.mk 1 1)],
        STDFParser.mk (IfStream.mk
          [2, 0, 0, 10, 2, 4, 2, 0, 5, 10, 1, 1, 5, 0, 99, 99, a, b, c, d, e] 21 false false)
          21 false uninit) ∧
    (isEndOfFile (STDFParser.mk (IfStream.mk
          [2, 0, 0, 10, 2, 4, 2, 0, 5, 10, 1, 1, 5, 0, 99, 99, a, b, c, d, e] 21 false false)
          21 false uninit)).1 = true := by
  have h0 : STDFParser.construct
      [2, 0, 0, 10, 2, 4, 2, 0, 5, 10, 1, 1, 5, 0, 99, 99, a, b, c, d, e] uninit =
      STDFParser.mk (IfStream.mk
        [2, 0, 0, 10, 2, 4, 2, 0, 5, 10, 1, 1, 5, 0, 99, 99, a, b, c, d, e] 0 false false)
        21 false uninit := by
    rw [construct_of_header]; rfl
  rw [h0]
  generalize hs0 : STDFParser.mk (IfStream.mk
        [2, 0, 0, 10, 2, 4, 2, 0, 5, 10, 1, 1, 5, 0, 99, 99, a, b, c, d, e] 0 false false)
        21 false uninit = s0
  have hz : Sized s0 := by subst hs0; exact ⟨rfl, (by decide : (21 : Nat) < 2 ^ 63)⟩
  have hg : s0.file_.good = true := by subst hs0; rfl
  have hlen : s0.file_.data.length = 21 := by subst hs0; rfl
  have hpos : s0.file_.pos = 0 := by subst hs0; rfl
  have hsw : s0.endianSwap_ = false := by subst hs0; rfl
  have d0 : s0.file_.data.drop s0.file_.pos =
      2 :: 0 :: 0 :: 10 :: 2 :: 4 :: [2, 0, 5, 10, 1, 1, 5, 0, 99, 99, a, b, c, d, e] := by
    subst hs0; rfl
  have d1 : (advance 6 s0).file_.data.drop (advance 6 s0).file_.pos =
      2 :: 0 :: 5 :: 10 :: 1 :: 1 :: [5, 0, 99, 99, a, b, c, d, e] := by
    subst hs0; rfl
  have d2 : (advance 6 (advance 6 s0)).file_.data.drop (advance 6 (advance 6 s0)).file_.pos =
      5 :: 0 :: 99 :: 99 :: [a, b, c, d, e] := by
    subst hs0; rfl
  have p0 := parseRecord_far s0 2 0 2 4 _ hg d0
  have p1 := parseRecord_pir (advance 6 s0) 2 0 1 1 _ hg d1
  have p2 := parseRecord_skip (advance 6 (advance 6 s0)) 5 0 99 99 _ hg d2
    (by decide : specDispatch (99 : Byte).val (99 : Byte).val = none)
  have hs2 : (advance 6 (advance 6 s0)).endianSwap_ = false := hsw
  rw [hs2] at p2
  simp only [Bool.false_eq_true, if_false] at p2
  have e0 : parseFile (n + 4) s0 = parseFileLoop (n + 3 + 1) [] s0 := by
    subst hs0; rfl
  have l0 := parseFileLoop_more (n + 3) [] s0 hg hz (by rw [hlen, hpos]; decide)
  have l1 := parseFileLoop_more (n + 2) [STDFRecord.far (FARRecord.mk 2 4)] (advance 6 s0) hg hz
    (by show s0.file_.pos + 6 < s0.file_.data.length; rw [hlen, hpos]; decide)
  have l2 := parseFileLoop_more (n + 1)
    [STDFRecord.far (FARRecord.mk 2 4), STDFRecord.pir (PIRRecord.mk 1 1)]
    (advance 6 (advance 6 s0)) hg hz
    (by show s0.file_.pos + 6 + 6 < s0.file_.data.length; rw [hlen, hpos]; decide)
  have l3 := parseFileLoop_done n
    [STDFRecord.far (FARRecord.mk 2 4), STDFRecord.pir (PIRRecord.mk 1 1)]
    (advance (4 + ((5 : Byte).val + 256 * (0 : Byte).val)) (advance 6 (advance 6 s0))) hg hz
    (by show s0.file_.data.length ≤ s0.file_.pos + 6 + 6 + _; rw [hlen, hpos]; decide)
  rw [p0] at l0
  rw [p1] at l1
  rw [p2] at l2
  rw [e0, l0]
  show parseFileLoop (n + 2 + 1) [STDFRecord.far (FARRecord.mk 2 4)] (advance 6 s0) = _ ∧ _
  rw [l1]
  show parseFileLoop (n + 1 + 1)
    [STDFRecord.far (FARRecord.mk 2 4), STDFRecord.pir (PIRRecord.mk 1 1)]
    (advance 6 (advance 6 s0)) = _ ∧ _
  rw [l2]
  show parseFileLoop (n + 1)
    [STDFRecord.far (FARRecord.mk 2 4), STDFRecord.pir (PIRRecord.mk 1 1)]
    (advance (4 + ((5 : Byte).val + 256 * (0 : Byte).val)) (advance 6 (advance 6 s0))) = _ ∧ _
  rw [l3]
  subst hs0
  exact ⟨rfl, rfl⟩

/-- Witness of C2: a header `05 00 63 63` (length 5, pair (99, 99)) at offset 0. -/
theorem parseNextRecord_unmapped_witness :
    (parseNextRecord (STDFParser.construct [5, 0, 99, 99, 1, 2, 3, 4, 5] [])).1 = none ∧
      (getCurrentPosition
        (parseNextRecord (STDFParser.construct [5, 0, 99, 99, 1, 2, 3, 4, 5] [])).2).1 = 9 :=
  parseNextRecord_unmapped (STDFParser.construct [5, 0, 99, 99, 1, 2, 3, 4, 5] []) 5 0 99 99
    [1, 2, 3, 4, 5] (by decide) ⟨by decide, by decide⟩ (by decide) (by decide)

/-- C3: on the 3-byte input `00 02 00` the third read of `detectEndianness` finds no byte,
`recordSub` keeps the indeterminate content of the local; when that is `0x0A` the session is
opened with byte-order correction enabled, although the input has no minor type byte. -/
theorem detectEndianness_short_input :
    (STDFParser.construct [0, 2, 0] [10]).endianSwap_ = true := by
  decide

theorem construct_state (b0 b1 t u : Byte) (rest uninit : List Byte)
    (hfit : rest.length + 4 < 2 ^ 63) :
    (STDFParser.construct (b0 :: b1 :: t :: u :: rest) uninit).file_ =
        IfStream.mk (b0 :: b1 :: t :: u :: rest) 0 false false ∧
      Sized (STDFParser.construct (b0 :: b1 :: t :: u :: rest) uninit) ∧
      (STDFParser.construct (b0 :: b1 :: t :: u :: rest) uninit).endianSwap_ =
        decide (t.val = 0 ∧ (u.val = 10 ∨ u.val = 20) ∧ b0.val + 256 * b1.val ≠ 2 ∧
          256 * b0.val + b1.val = 2) := by
  rw [construct_of_header]
  refine ⟨rfl, ⟨?_, ?_⟩, rfl⟩
  · show toUnsigned 64 ((rest.length + 4 : Nat) : Int) = rest.length + 4
    exact toUnsigned_small _ (by omega)
  · show rest.length + 4 < 2 ^ 63
    exact hfit

theorem first_record_far (b0 b1 c v : Byte) (rest uninit : List Byte)
    (hfit : rest.length + 6 < 2 ^ 63)
    (hL : (if (STDFParser.construct (b0 :: b1 :: 0 :: 10 :: c :: v :: rest) uninit).endianSwap_
      then 256 * b0.val + b1.val else b0.val + 256 * b1.val) = 2) :
    (readRecordHeader
        (isEndOfFile (STDFParser.construct (b0 :: b1 :: 0 :: 10 :: c :: v :: rest) uninit)).2).1.length
        = 2 ∧
      (parseNextRecord (STDFParser.construct (b0 :: b1 :: 0 :: 10 :: c :: v :: rest) uninit)).1 =
        some (STDFRecord.far (FARRecord.mk c.val v.val)) ∧
      (getCurrentPosition (parseNextRecord
        (STDFParser.construct (b0 :: b1 :: 0 :: 10 :: c :: v :: rest) uninit)).2).1 = 6 := by
  obtain ⟨hf, hz, -⟩ := construct_state b0 b1 0 10 (c :: v :: rest) uninit
    (by simp only [List.length_cons]; omega)
  generalize STDFParser.construct (b0 :: b1 :: 0 :: 10 :: c :: v :: rest) uninit = s at *
  have hg : s.file_.good = true := by rw [hf]; rfl
  have hd : s.file_.data.drop s.file_.pos = b0 :: b1 :: 0 :: 10 :: c :: v :: rest := by
    rw [hf]; rfl
  have hp : s.file_.pos < s.file_.data.length := by
    rw [hf]; simp
  have hpos : s.file_.pos = 0 := by rw [hf]
  have e1 : (isEndOfFile s).2 = s := by rw [isEndOfFile_good s hg hz]
  rw [e1, readRecordHeader_of_bytes s b0 b1 0 10 _ hg hd, parseNextRecord_of_more s hg hz hp,
    parseRecord_far s b0 b1 c v rest hg hd,
    getCurrentPosition_good (advance 6 s) hg (by show s.file_.pos + 6 < 2 ^ 64; omega)]
  exact ⟨hL, rfl, by show s.file_.pos + 6 = 6; omega⟩

/-- C4: when the first six bytes of the input are a File Attribute record in either byte
order (`02 00` or `00 02`, then `00 0A`, then `c` and `v`), the session is opened without
correction for `02 00` and with correction for `00 02`, and the first call of
`parseNextRecord` reads a header of length 2, returns the FAR record with `CPU_TYP = c` and
`STDF_VER = v`, and leaves the read offset at 6. -/
theorem first_record_far_either_order (c v : Byte) (rest uninit : List Byte)
    (hfit : rest.length + 6 < 2 ^ 63) :
    ((STDFParser.construct (2 :: 0 :: 0 :: 10 :: c :: v :: rest) uninit).endianSwap_ = false ∧
      (readRecordHeader
        (isEndOfFile (STDFParser.construct (2 :: 0 :: 0 :: 10 :: c :: v :: rest) uninit)).2).1.length
        = 2 ∧
      (parseNextRecord (STDFParser.construct (2 :: 0 :: 0 :: 10 :: c :: v :: rest) uninit)).1 =
        some (STDFRecord.far (FARRecord.mk c.val v.val)) ∧
      (getCurrentPosition (parseNextRecord
        (STDFParser.construct (2 :: 0 :: 0 :: 10 :: c :: v :: rest) uninit)).2).1 = 6) ∧
    ((STDFParser.construct (0 :: 2 :: 0 :: 10 :: c :: v :: rest) uninit).endianSwap_ = true ∧
      (readRecordHeader
        (isEndOfFile (STDFParser.construct (0 :: 2 :: 0 :: 10 :: c :: v :: rest) uninit)).2).1.length
        = 2 ∧
      (parseNextRecord (STDFParser.construct (0 :: 2 :: 0 :: 10 :: c :: v :: rest) uninit)).1 =
        some (STDFRecord.far (FARRecord.mk c.val v.val)) ∧
      (getCurrentPosition (parseNextRecord
        (STDFParser.construct (0 :: 2 :: 0 :: 10 :: c :: v :: rest) uninit)).2).1 = 6) := by
  have h1 : (STDFParser.construct (2 :: 0 :: 0 :: 10 :: c :: v :: rest) uninit).endianSwap_ =
      false := by
    rw [construct_of_header]; rfl
  have h2 : (STDFParser.construct (0 :: 2 :: 0 :: 10 :: c :: v :: rest) uninit).endianSwap_ =
      true := by
    rw [construct_of_header]; rfl
  exact ⟨⟨h1, first_record_far 2 0 c v rest uninit hfit (by rw [h1]; rfl)⟩,
    ⟨h2, first_record_far 0 2 c v rest uninit hfit (by rw [h2]; rfl)⟩⟩

/-- Witness of C4: the inputs `02 00 00 0A 02 04` and `00 02 00 0A 02 04`. -/
theorem first_record_far_either_order_witness :
    ((STDFParser.construct [2, 0, 0, 10, 2, 4] []).endianSwap_ = false ∧
      (readRecordHeader (isEndOfFile (STDFParser.construct [2, 0, 0, 10, 2, 4] [])).2).1.length
        = 2 ∧
      (parseNextRecord (STDFParser.construct [2, 0, 0, 10, 2, 4] [])).1 =
        some (STDFRecord.far (FARRecord.mk 2 4)) ∧
      (getCurrentPosition (parseNextRecord
        (STDFParser.construct [2, 0, 0, 10, 2, 4] [])).2).1 = 6) ∧
    ((STDFParser.construct [0, 2, 0, 10, 2, 4] []).endianSwap_ = true ∧
      (readRecordHeader (isEndOfFile (STDFParser.construct [0, 2, 0, 10, 2, 4] [])).2).1.length
        = 2 ∧
      (parseNextRecord (STDFParser.construct [0, 2, 0, 10, 2, 4] [])).1 =
        some (STDFRecord.far (FARRecord.mk 2 4)) ∧
      (getCurrentPosition (parseNextRecord
        (STDFParser.construct [0, 2, 0, 10, 2, 4] [])).2).1 = 6) :=
  first_record_far_either_order 2 4 [] [] (by decide)

/-! ## The read offset after opening -/

theorem detectEndianness_file (s : STDFParser) :
    (detectEndianness s).file_ =
      (readRaw 1 (readRaw 1 (readRaw 2
        (STDFParser.mk s.file_.tellg.2 s.fileSize_ s.endianSwap_ s.uninit)).2).2).2.file_.seekgPos
        s.file_.tellg.1 := by
  unfold detectEndianness
  simp only []
  split
  · rfl
  · split <;> rfl

theorem seekgPos_failbit (f : IfStream) (p : Int) (h : f.failbit = true) :
    (f.seekgPos p).failbit = true := by
  unfold IfStream.seekgPos
  simp only [h, if_true]

theorem getCurrentPosition_failed (s : STDFParser) (h : s.file_.failbit = true) :
    (getCurrentPosition s).1 = 2 ^ 64 - 1 := by
  have hg : s.file_.good = false := by
    unfold IfStream.good; rw [h]; simp
  unfold getCurrentPosition IfStream.tellg
  rw [hg]
  show toUnsigned 64 (-1) = 2 ^ 64 - 1
  decide

theorem short_reads_fail (contents uninit : List Byte) (sz : Nat) (h : contents.length < 4) :
    (readRaw 1 (readRaw 1 (readRaw 2
      (STDFParser.mk (IfStream.mk contents 0 false false) sz false uninit)).2).2).2.file_.failbit
      = true := by
  rcases contents with _ | ⟨a, _ | ⟨b, _ | ⟨c, _ | ⟨d, rest⟩⟩⟩⟩
  · rfl
  · rfl
  · rfl
  · rfl
  · simp only [List.length_cons] at h; omega

/-- C5: on every input shorter than the four header bytes (the empty input included) the
reads of `detectEndianness` leave the stream failed, the `seekg` that should restore the
position does nothing, and `getCurrentPosition()` right after the session is opened returns
`size_t(-1)`, not 0. -/
theorem getCurrentPosition_after_open_short (contents uninit : List Byte)
    (h : contents.length < 4) :
    (getCurrentPosition (STDFParser.construct contents uninit)).1 = 2 ^ 64 - 1 := by
  apply getCurrentPosition_failed
  have e0 : STDFParser.construct contents uninit =
      detectEndianness (STDFParser.mk (IfStream.mk contents 0 false false)
        (toUnsigned 64 (contents.length : Int)) false uninit) := by
    have e1 : (IfStream.mk contents 0 false false).seekgOff 0 .fin =
        IfStream.mk contents contents.length false false := by
      unfold IfStream.seekgOff IfStream.seekTarget
      simp only [Bool.false_eq_true, if_false, Int.add_zero]
      rw [if_neg (by omega)]
      simp
    unfold STDFParser.construct
    simp only []
    rw [e1]
    rfl
  rw [e0, detectEndianness_file]
  apply seekgPos_failbit
  exact short_reads_fail contents uninit _ h

/-- Witness of C5: the empty input. -/
theorem getCurrentPosition_after_open_short_witness :
    (getCurrentPosition (STDFParser.construct [] [])).1 = 2 ^ 64 - 1 :=
  getCurrentPosition_after_open_short [] [] (by decide)

/-- On an input of at least four bytes the offset after opening is 0. -/
theorem getCurrentPosition_after_open (b0 b1 t u : Byte) (rest uninit : List Byte) :
    (getCurrentPosition (STDFParser.construct (b0 :: b1 :: t :: u :: rest) uninit)).1 = 0 := by
  rw [construct_of_header]
  rfl

/-! ## Parametric Test: optional groups and size -/

theorem ptrGroups_sublist (flag : Nat) :
    (ptrGroups flag).Sublist
      [PTRGroup.resScal, PTRGroup.lowLimit, PTRGroup.highLimit, PTRGroup.units, PTRGroup.resFmt,
        PTRGroup.limFmts] := by
  unfold ptrGroups
  have one : ∀ (c : Prop) [Decidable c] (g : PTRGroup), (if c then [g] else []).Sublist [g] := by
    intro c _ g; split
    · exact List.Sublist.refl _
    · exact List.nil_sublist _
  exact ((((((one _ _).append (one _ _)).append (one _ _)).append (one _ _)).append
    (one _ _)).append (one _ _))

theorem mem_ptrGroups (flag : Nat) :
    (PTRGroup.resScal ∈ ptrGroups flag ↔ flag.testBit 0 = true) ∧
    (PTRGroup.lowLimit ∈ ptrGroups flag ↔ (flag.testBit 1 = true ∨ flag.testBit 2 = true)) ∧
    (PTRGroup.highLimit ∈ ptrGroups flag ↔ (flag.testBit 3 = true ∨ flag.testBit 4 = true)) ∧
    (PTRGroup.units ∈ ptrGroups flag ↔ flag.testBit 5 = true) ∧
    (PTRGroup.resFmt ∈ ptrGroups flag ↔ flag.testBit 6 = true) ∧
    (PTRGroup.limFmts ∈ ptrGroups flag ↔ flag.testBit 7 = true) := by
  have one : ∀ (c : Prop) [Decidable c] (g g' : PTRGroup),
      g' ∈ (if c then [g] else []) ↔ (c ∧ g' = g) := by
    intro c _ g g'; split <;> simp [*]
  unfold ptrGroups
  simp only [List.mem_append, one]
  simp

theorem ptrMandatory_defaults (s : STDFParser) (g : PTRGroup) :
    groupValue (ptrMandatory s).1 g = (0, 0, [], []) := by
  cases g <;> rfl

/-- C6: after `OPT_FLAG`, `parsePTR` decodes exactly the groups the flag selects, in wire
order and each at most once: `RES_SCAL` iff bit 0x01; `LLM_SCAL`, `LO_LIMIT` iff bit 0x02 or
0x04; `HLM_SCAL`, `HI_LIMIT` iff bit 0x08 or 0x10; `UNITS` iff bit 0x20; `C_RESFMT` iff bit
0x40; `C_LLMFMT`, `C_HLMFMT` iff bit 0x80.  The members of a group that is not selected keep
their initial value (0, 0.0 or the empty string). -/
theorem parsePTR_optional_groups (s : STDFParser) :
    parsePTR s =
        List.foldl readGroup (ptrMandatory s) (ptrGroups (ptrMandatory s).1.OPT_FLAG) ∧
      (ptrGroups (ptrMandatory s).1.OPT_FLAG).Sublist
        [PTRGroup.resScal, PTRGroup.lowLimit, PTRGroup.highLimit, PTRGroup.units,
          PTRGroup.resFmt, PTRGroup.limFmts] ∧
      (parsePTR s).1.OPT_FLAG = (ptrMandatory s).1.OPT_FLAG ∧
      ((parsePTR s).1.OPT_FLAG.testBit 0 = false → (parsePTR s).1.RES_SCAL = 0) ∧
      ((parsePTR s).1.OPT_FLAG.testBit 1 = false → (parsePTR s).1.OPT_FLAG.testBit 2 = false →
        (parsePTR s).1.LLM_SCAL = 0 ∧ (parsePTR s).1.LO_LIMIT = 0) ∧
      ((parsePTR s).1.OPT_FLAG.testBit 3 = false → (parsePTR s).1.OPT_FLAG.testBit 4 = false →
        (parsePTR s).1.HLM_SCAL = 0 ∧ (parsePTR s).1.HI_LIMIT = 0) ∧
      ((parsePTR s).1.OPT_FLAG.testBit 5 = false → (parsePTR s).1.UNITS = []) ∧
      ((parsePTR s).1.OPT_FLAG.testBit 6 = false → (parsePTR s).1.C_RESFMT = []) ∧
      ((parsePTR s).1.OPT_FLAG.testBit 7 = false →
        (parsePTR s).1.C_LLMFMT = [] ∧ (parsePTR s).1.C_HLMFMT = []) := by
  have hfold := parsePTR_eq_foldl s
  have hflag : (parsePTR s).1.OPT_FLAG = (ptrMandatory s).1.OPT_FLAG := by
    rw [hfold]; exact (foldl_frame _ _).1
  have hdef : ∀ g, g ∉ ptrGroups (parsePTR s).1.OPT_FLAG →
      groupValue (parsePTR s).1 g = (0, 0, [], []) := by
    intro g hg
    rw [hflag] at hg
    rw [hfold, (foldl_other _ g hg _).2]
    exact ptrMandatory_defaults s g
  obtain ⟨m1, m2, m3, m4, m5, m6⟩ := mem_ptrGroups (parsePTR s).1.OPT_FLAG
  refine ⟨hfold, ptrGroups_sublist _, hflag, ?_, ?_, ?_, ?_, ?_, ?_⟩
  · intro h
    have := hdef .resScal (fun hm => by rw [m1.1 hm] at h; exact Bool.noConfusion h)
    exact congrArg (fun x => x.1) this
  · intro h1 h2
    have := hdef .lowLimit (fun hm => by
      rcases m2.1 hm with e | e
      · rw [e] at h1; exact Bool.noConfusion h1
      · rw [e] at h2; exact Bool.noConfusion h2)
    exact ⟨congrArg (fun x => x.1) this, congrArg (fun x => x.2.1) this⟩
  · intro h1 h2
    have := hdef .highLimit (fun hm => by
      rcases m3.1 hm with e | e
      · rw [e] at h1; exact Bool.noConfusion h1
      · rw [e] at h2; exact Bool.noConfusion h2)
    exact ⟨congrArg (fun x => x.1) this, congrArg (fun x => x.2.1) this⟩
  · intro h
    have := hdef .units (fun hm => by rw [m4.1 hm] at h; exact Bool.noConfusion h)
    exact congrArg (fun x => x.2.2.1) this
  · intro h
    have := hdef .resFmt (fun hm => by rw [m5.1 hm] at h; exact Bool.noConfusion h)
    exact congrArg (fun x => x.2.2.1) this
  · intro h
    have := hdef .limFmts (fun hm => by rw [m6.1 hm] at h; exact Bool.noConfusion h)
    exact ⟨congrArg (fun x => x.2.2.1) this, congrArg (fun x => x.2.2.2) this⟩

theorem readU1_lt (s : STDFParser) : (readU1 s).1 < 256 := by
  have e : readU1 s = (leValue (readRaw 1 s).1, (readRaw 1 s).2) := rfl
  rw [e]
  have := leValue_lt (readRaw 1 s).1
  rw [readRaw_length] at this
  exact this

theorem ptrMandatory_flag_lt (s : STDFParser) : (ptrMandatory s).1.OPT_FLAG < 256 := by
  unfold ptrMandatory
  simp only []
  exact readU1_lt _

/-- C7: on a complete payload `parsePTR` advances the read offset by exactly
`15 + |TEST_TXT| + |ALARM_ID| + [0x01] + 5 [0x02 or 0x04] + 5 [0x08 or 0x10] +
(1 + |UNITS|) [0x20] + (1 + |C_RESFMT|) [0x40] + (2 + |C_LLMFMT| + |C_HLMFMT|) [0x80]` bytes,
which is `getSize()` of the record it returns; `OPT_FLAG` is one of the 256 byte values. -/
theorem parsePTR_advance (s : STDFParser) (h : (parsePTR s).2.file_.failbit = false) :
    (parsePTR s).2.file_.pos = s.file_.pos + ptrPayloadSize (parsePTR s).1 ∧
      ptrPayloadSize (parsePTR s).1 = (parsePTR s).1.getSize ∧
      (parsePTR s).1.OPT_FLAG < 256 := by
  have c := parsePTR_consumed s h
  refine ⟨?_, ptr_payload_getSize _, ?_⟩
  · rw [ptr_payload_getSize]; exact c.pos_eq
  · rw [parsePTR_eq_foldl, (foldl_frame _ _).1]
    exact ptrMandatory_flag_lt s

/-- Witness of C7: a payload with `OPT_FLAG = 0xFF`, 32 bytes long. -/
theorem parsePTR_advance_witness :
    (parsePTR ptrSample).2.file_.failbit = false ∧
      ((parsePTR ptrSample).2.file_.pos = ptrSample.file_.pos + ptrPayloadSize (parsePTR ptrSample).1 ∧
      ptrPayloadSize (parsePTR ptrSample).1 = (parsePTR ptrSample).1.getSize ∧
      (parsePTR ptrSample).1.OPT_FLAG < 256) :=
  ⟨by decide, parsePTR_advance ptrSample (by decide)⟩

/-! ## Functional Test arrays, and `getSize` against the bytes consumed -/

/-- C8: on a complete payload with `RTN_ICNT = N` and `PGM_ICNT = M` (the 16-bit values at
payload offsets 34 and 36), `parseFTR` fills `RTN_INDX` with the `N` 16-bit values that start
at payload offset 38, `RTN_STAT` with the next `N`, `PGM_INDX` with the next `M` and
`PGM_STAT` with the next `M` (blocks, not interleaved pairs); the four arrays take exactly
`4 N + 4 M` bytes, the length prefix of `FAIL_PIN` being read right after them.  When
`N = 0` and `M = 0` the arrays are empty and the `FAIL_PIN` prefix is at offset 38. -/
theorem parseFTR_arrays (s : STDFParser) (h : (parseFTR s).2.file_.failbit = false) :
    (parseFTR s).1.RTN_ICNT = wordAt s (s.file_.pos + 34) ∧
    (parseFTR s).1.PGM_ICNT = wordAt s (s.file_.pos + 36) ∧
    (parseFTR s).1.RTN_INDX = (List.range (parseFTR s).1.RTN_ICNT).map
      (fun j => wordAt s (s.file_.pos + 38 + 2 * j)) ∧
    (parseFTR s).1.RTN_STAT = (List.range (parseFTR s).1.RTN_ICNT).map
      (fun j => wordAt s (s.file_.pos + (38 + 2 * (parseFTR s).1.RTN_ICNT) + 2 * j)) ∧
    (parseFTR s).1.PGM_INDX = (List.range (parseFTR s).1.PGM_ICNT).map
      (fun j => wordAt s (s.file_.pos + (38 + 4 * (parseFTR s).1.RTN_ICNT) + 2 * j)) ∧
    (parseFTR s).1.PGM_STAT = (List.range (parseFTR s).1.PGM_ICNT).map
      (fun j => wordAt s (s.file_.pos +
        (38 + 4 * (parseFTR s).1.RTN_ICNT + 2 * (parseFTR s).1.PGM_ICNT) + 2 * j)) ∧
    (parseFTR s).1.FAIL_PIN.length = wordAt s (s.file_.pos +
        (38 + 4 * (parseFTR s).1.RTN_ICNT + 4 * (parseFTR s).1.PGM_ICNT)) ∧
    (parseFTR s).2.file_.pos = s.file_.pos + 38 +
        (4 * (parseFTR s).1.RTN_ICNT + 4 * (parseFTR s).1.PGM_ICNT) +
        ((parseFTR s).1.FAIL_PIN.length + 2 + ((parseFTR s).1.VECT_NAM.length + 1) +
          ((parseFTR s).1.TIME_SET.length + 1) + ((parseFTR s).1.OP_CODE.length + 1) +
          ((parseFTR s).1.TEST_TXT.length + 1) + ((parseFTR s).1.ALARM_ID.length + 1) +
          ((parseFTR s).1.PROG_TXT.length + 1) + ((parseFTR s).1.RSLT_TXT.length + 1) + 1 +
          ((parseFTR s).1.SPIN_MAP.length + 2)) ∧
    ((parseFTR s).1.RTN_ICNT = 0 → (parseFTR s).1.PGM_ICNT = 0 →
      (parseFTR s).1.RTN_INDX = [] ∧ (parseFTR s).1.RTN_STAT = [] ∧
      (parseFTR s).1.PGM_INDX = [] ∧ (parseFTR s).1.PGM_STAT = [] ∧
      (parseFTR s).1.FAIL_PIN.length = wordAt s (s.file_.pos + 38)) := by
  obtain ⟨c, hN, hM, v1, v2, v3, v4, hl⟩ := parseFTR_layout s h
  have l1 := congrArg List.length v1
  have l2 := congrArg List.length v2
  have l3 := congrArg List.length v3
  have l4 := congrArg List.length v4
  simp only [List.length_map, List.length_range] at l1 l2 l3 l4
  refine ⟨hN, hM, v1, v2, v3, v4, hl, ?_, ?_⟩
  · rw [c.pos_eq]
    simp only [FTRRecord.getSize]
    omega
  · intro h0 h1
    rw [h0] at v1 v2
    rw [h1] at v3 v4
    rw [h0, h1] at hl
    exact ⟨v1, v2, v3, v4, hl⟩

set_option maxRecDepth 100000 in
/-- Witness of C8: a payload with two return entries and one programmed entry. -/
theorem parseFTR_arrays_witness :
    (parseFTR ftrSample).2.file_.failbit = false ∧
    (parseFTR ftrSample).1.RTN_INDX = [11, 12] ∧ (parseFTR ftrSample).1.RTN_STAT = [21, 22] ∧
    (parseFTR ftrSample).1.PGM_INDX = [31] ∧ (parseFTR ftrSample).1.PGM_STAT = [41] ∧
    (parseFTR ftrSample).1.FAIL_PIN.length = wordAt ftrSample (ftrSample.file_.pos +
        (38 + 4 * (parseFTR ftrSample).1.RTN_ICNT + 4 * (parseFTR ftrSample).1.PGM_ICNT)) :=
  ⟨by decide, by decide, by decide, by decide, by decide,
    (parseFTR_arrays ftrSample (by decide)).2.2.2.2.2.2.1⟩

/-- C9: for each of the ten record kinds, when the payload is complete (no read of the
decoder ran short), the decoder has advanced the read offset by exactly `getSize()` of the
record it returns. -/
theorem decoders_advance_by_getSize (s : STDFParser) :
    ((parseFAR s).2.file_.failbit = false →
      (parseFAR s).2.file_.pos = s.file_.pos + (parseFAR s).1.getSize) ∧
    ((parseMIR s).2.file_.failbit = false →
      (parseMIR s).2.file_.pos = s.file_.pos + (parseMIR s).1.getSize) ∧
    ((parsePIR s).2.file_.failbit = false →
      (parsePIR s).2.file_.pos = s.file_.pos + (parsePIR s).1.getSize) ∧
    ((parsePRR s).2.file_.failbit = false →
      (parsePRR s).2.file_.pos = s.file_.pos + (parsePRR s).1.getSize) ∧
    ((parsePTR s).2.file_.failbit = false →
      (parsePTR s).2.file_.pos = s.file_.pos + (parsePTR s).1.getSize) ∧
    ((parseFTR s).2.file_.failbit = false →
      (parseFTR s).2.file_.pos = s.file_.pos + (parseFTR s).1.getSize) ∧
    ((parseHBR s).2.file_.failbit = false →
      (parseHBR s).2.file_.pos = s.file_.pos + (parseHBR s).1.getSize) ∧
    ((parseSBR s).2.file_.failbit = false →
      (parseSBR s).2.file_.pos = s.file_.pos + (parseSBR s).1.getSize) ∧
    ((parseWIR s).2.file_.failbit = false →
      (parseWIR s).2.file_.pos = s.file_.pos + (parseWIR s).1.getSize) ∧
    ((parseWRR s).2.file_.failbit = false →
      (parseWRR s).2.file_.pos = s.file_.pos + (parseWRR s).1.getSize) :=
  ⟨fun h => (parseFAR_consumed s h).pos_eq,
    fun h => (parseMIR_consumed s h).pos_eq,
    fun h => (parsePIR_consumed s h).pos_eq,
    fun h => (parsePRR_consumed s h).pos_eq,
    fun h => (parsePTR_consumed s h).pos_eq,
    fun h => (parseFTR_layout s h).1.pos_eq,
    fun h => (parseHBR_consumed s h).pos_eq,
    fun h => (parseSBR_consumed s h).pos_eq,
    fun h => (parseWIR_consumed s h).pos_eq,
    fun h => (parseWRR_consumed s h).pos_eq⟩

set_option maxRecDepth 100000 in
/-- Witness of C9: sixty-four zero bytes are a complete payload for every decoder. -/
theorem decoders_advance_by_getSize_witness :
    ((parseFAR zeroSample).2.file_.failbit = false ∧
      (parseFAR zeroSample).2.file_.pos = zeroSample.file_.pos + (parseFAR zeroSample).1.getSize) ∧
    ((parseMIR zeroSample).2.file_.failbit = false ∧
      (parseMIR zeroSample).2.file_.pos = zeroSample.file_.pos + (parseMIR zeroSample).1.getSize) ∧
    ((parsePIR zeroSample).2.file_.failbit = false ∧
      (parsePIR zeroSample).2.file_.pos = zeroSample.file_.pos + (parsePIR zeroSample).1.getSize) ∧
    ((parsePRR zeroSample).2.file_.failbit = false ∧
      (parsePRR zeroSample).2.file_.pos = zeroSample.file_.pos + (parsePRR zeroSample).1.getSize) ∧
    ((parsePTR zeroSample).2.file_.failbit = false ∧
      (parsePTR zeroSample).2.file_.pos = zeroSample.file_.pos + (parsePTR zeroSample).1.getSize) ∧
    ((parseFTR zeroSample).2.file_.failbit = false ∧
      (parseFTR zeroSample).2.file_.pos = zeroSample.file_.pos + (parseFTR zeroSample).1.getSize) ∧
    ((parseHBR zeroSample).2.file_.failbit = false ∧
      (parseHBR zeroSample).2.file_.pos = zeroSample.file_.pos + (parseHBR zeroSample).1.getSize) ∧
    ((parseSBR zeroSample).2.file_.failbit = false ∧
      (parseSBR zeroSample).2.file_.pos = zeroSample.file_.pos + (parseSBR zeroSample).1.getSize) ∧
    ((parseWIR zeroSample).2.file_.failbit = false ∧
      (parseWIR zeroSample).2.file_.pos = zeroSample.file_.pos + (parseWIR zeroSample).1.getSize) ∧
    ((parseWRR zeroSample).2.file_.failbit = false ∧
      (parseWRR zeroSample).2.file_.pos = zeroSample.file_.pos + (parseWRR zeroSample).1.getSize) :=
  ⟨⟨by decide, (decoders_advance_by_getSize zeroSample).1 (by decide)⟩,
    ⟨by decide, (decoders_advance_by_getSize zeroSample).2.1 (by decide)⟩,
    ⟨by decide, (decoders_advance_by_getSize zeroSample).2.2.1 (by decide)⟩,
    ⟨by decide, (decoders_advance_by_getSize zeroSample).2.2.2.1 (by decide)⟩,
    ⟨by decide, (decoders_advance_by_getSize zeroSample).2.2.2.2.1 (by decide)⟩,
    ⟨by decide, (decoders_advance_by_getSize zeroSample).2.2.2.2.2.1 (by decide)⟩,
    ⟨by decide, (decoders_advance_by_getSize zeroSample).2.2.2.2.2.2.1 (by decide)⟩,
    ⟨by decide, (decoders_advance_by_getSize zeroSample).2.2.2.2.2.2.2.1 (by decide)⟩,
    ⟨by decide, (decoders_advance_by_getSize zeroSample).2.2.2.2.2.2.2.2.1 (by decide)⟩,
    ⟨by decide, (decoders_advance_by_getSize zeroSample).2.2.2.2.2.2.2.2.2 (by decide)⟩⟩

/-! ## End of file -/

theorem isEndOfFile_state (s : STDFParser) : (isEndOfFile s).2 = s := by
  rcases s with ⟨⟨d, p, e, f⟩, sz, sw, u⟩
  cases e <;> cases f <;> rfl

theorem detectEndianness_fileSize (s : STDFParser) :
    (detectEndianness s).fileSize_ = s.fileSize_ := by
  unfold detectEndianness
  simp only []
  split
  · rfl
  · split <;> rfl

theorem seekgPos_eofbit (f : IfStream) (p : Int) : (f.seekgPos p).eofbit = false := by
  unfold IfStream.seekgPos
  simp only []
  split
  · rfl
  · split <;> rfl

theorem isEndOfFile_failed (s : STDFParser) (he : s.file_.eofbit = false)
    (hf : s.file_.failbit = true) (hs : s.fileSize_ < 2 ^ 63) : (isEndOfFile s).1 = false := by
  have hg : s.file_.good = false := by
    unfold IfStream.good; rw [hf]; simp
  unfold isEndOfFile IfStream.eof IfStream.tellg
  rw [he, hg]
  simp only [Bool.false_eq_true, if_false, toSigned_small _ hs]
  rw [decide_eq_false_iff_not]
  omega

theorem construct_short (contents uninit : List Byte) (h : contents.length < 4) :
    (STDFParser.construct contents uninit).file_.eofbit = false ∧
      (STDFParser.construct contents uninit).file_.failbit = true ∧
      (STDFParser.construct contents uninit).fileSize_ = contents.length := by
  have e1 : (IfStream.mk contents 0 false false).seekgOff 0 .fin =
      IfStream.mk contents contents.length false false := by
    unfold IfStream.seekgOff IfStream.seekTarget
    simp only [Bool.false_eq_true, if_false, Int.add_zero]
    rw [if_neg (by omega)]
    simp
  have e0 : STDFParser.construct contents uninit =
      detectEndianness (STDFParser.mk (IfStream.mk contents 0 false false)
        (toUnsigned 64 (contents.length : Int)) false uninit) := by
    unfold STDFParser.construct
    simp only []
    rw [e1]
    rfl
  rw [e0, detectEndianness_file, detectEndianness_fileSize]
  refine ⟨seekgPos_eofbit _ _, seekgPos_failbit _ _ (short_reads_fail contents uninit _ h), ?_⟩
  exact toUnsigned_small _ (by omega)

/-- C13: on every input shorter than the four header bytes, the empty input included, the
stream is left failed by `detectEndianness`, `tellg()` answers -1 and `isEndOfFile()` is false
right after the session is opened, although the input size (at most 3) has been reached. -/
theorem isEndOfFile_after_open_short (contents uninit : List Byte) (h : contents.length < 4) :
    (isEndOfFile (STDFParser.construct contents uninit)).1 = false ∧
      getFileSize (STDFParser.construct contents uninit) = contents.length := by
  obtain ⟨he, hf, hs⟩ := construct_short contents uninit h
  exact ⟨isEndOfFile_failed _ he hf (by rw [hs]; omega), hs⟩

/-- Witness of C13: the empty input. -/
theorem isEndOfFile_after_open_short_witness :
    (isEndOfFile (STDFParser.construct [] [])).1 = false ∧
      getFileSize (STDFParser.construct [] []) = 0 :=
  isEndOfFile_after_open_short [] [] (by decide)

/-- C14: whenever `isEndOfFile()` is true, `parseNextRecord` returns no record and leaves the
session state as it was: the read offset reported by `getCurrentPosition()` and the
byte-order correction flag are unchanged. -/
theorem parseNextRecord_at_end (s : STDFParser) (h : (isEndOfFile s).1 = true) :
    (parseNextRecord s).1 = none ∧ (parseNextRecord s).2 = s ∧
      (getCurrentPosition (parseNextRecord s).2).1 = (getCurrentPosition s).1 ∧
      (parseNextRecord s).2.endianSwap_ = s.endianSwap_ := by
  have e : parseNextRecord s =
      if (isEndOfFile s).1 then (none, (isEndOfFile s).2) else parseRecord (isEndOfFile s).2 := rfl
  have e2 : parseNextRecord s = (none, s) := by
    rw [e, h, isEndOfFile_state]
    rfl
  rw [e2]
  exact ⟨rfl, rfl, rfl, rfl⟩

/-- Witness of C14: a six-byte input with the read offset at 6. -/
theorem parseNextRecord_at_end_witness :
    (isEndOfFile (advance 6 (stateOver [2, 0, 0, 10, 2, 4]))).1 = true ∧
      (parseNextRecord (advance 6 (stateOver [2, 0, 0, 10, 2, 4]))).1 = none ∧
      (parseNextRecord (advance 6 (stateOver [2, 0, 0, 10, 2, 4]))).2 =
        advance 6 (stateOver [2, 0, 0, 10, 2, 4]) :=
  ⟨by decide, (parseNextRecord_at_end _ (by decide)).1, (parseNextRecord_at_end _ (by decide)).2.1⟩

/-! ## The header and the length-prefixed reads -/

/-- C15: `readRecordHeader` consumes exactly the four bytes `b0 b1 b2 b3` at the read offset
and returns `recordType = b2` and `recordSub = b3` in both correction modes, and
`length = b0 + 256 * b1` when correction is off and `256 * b0 + b1` when it is on. -/
theorem readRecordHeader_fields (s : STDFParser) (b0 b1 b2 b3 : Byte) (rest : List Byte)
    (hg : s.file_.good = true)
    (hd : s.file_.data.drop s.file_.pos = b0 :: b1 :: b2 :: b3 :: rest) :
    (readRecordHeader s).1.recordType = b2.val ∧ (readRecordHeader s).1.recordSub = b3.val ∧
      (s.endianSwap_ = false → (readRecordHeader s).1.length = b0.val + 256 * b1.val) ∧
      (s.endianSwap_ = true → (readRecordHeader s).1.length = 256 * b0.val + b1.val) ∧
      (readRecordHeader s).2 = advance 4 s ∧
      (readRecordHeader s).2.file_.pos = s.file_.pos + 4 := by
  rw [readRecordHeader_of_bytes s b0 b1 b2 b3 rest hg hd]
  refine ⟨rfl, rfl, ?_, ?_, rfl, rfl⟩
  · intro h
    show (if s.endianSwap_ = true then _ else _) = _
    rw [h]; rfl
  · intro h
    show (if s.endianSwap_ = true then _ else _) = _
    rw [h]; rfl

/-- Witness of C15: the header `01 02 0F 14` read with correction on. -/
theorem readRecordHeader_fields_witness :
    (readRecordHeader (STDFParser.mk (IfStream.mk [1, 2, 15, 20, 7] 0 false false) 5 true [])).1
      = RecordHeader.mk 258 15 20 :=
  have h := readRecordHeader_fields
    (STDFParser.mk (IfStream.mk [1, 2, 15, 20, 7] 0 false false) 5 true []) 1 2 15 20 [7]
    (by decide) (by decide)
  by
    have e : ∀ r : RecordHeader, r = RecordHeader.mk r.length r.recordType r.recordSub :=
      fun _ => rfl
    rw [e (readRecordHeader _).1, h.1, h.2.1, h.2.2.2.1 rfl]
    rfl

theorem readInto_of_bytes (s : STDFParser) (bs rest : List Byte) (hg : s.file_.good = true)
    (hd : s.file_.data.drop s.file_.pos = bs ++ rest) :
    readInto bs.length s = (bs, advance bs.length s) := by
  have e : readInto bs.length s =
      ((s.file_.read bs.length).1 ++ List.replicate (bs.length - (s.file_.read bs.length).1.length) 0,
        STDFParser.mk (s.file_.read bs.length).2 s.fileSize_ s.endianSwap_ s.uninit) := rfl
  rw [e, read_of_bytes s.file_ bs rest hg hd]
  simp [advance]

theorem readCn_of_bytes (s : STDFParser) (n : Byte) (content rest : List Byte)
    (hg : s.file_.good = true) (hd : s.file_.data.drop s.file_.pos = n :: (content ++ rest))
    (hn : content.length = n.val) : readCn s = (content, advance (1 + n.val) s) := by
  have e : readCn s = if (readU1 s).1 = 0 then ([], (readU1 s).2)
      else readInto (readU1 s).1 (readU1 s).2 := rfl
  rw [e, readU1_of_bytes s n (content ++ rest) hg hd]
  simp only []
  by_cases h0 : n.val = 0
  · rw [if_pos h0]
    rw [h0] at hn
    rw [List.length_eq_zero.1 hn, h0]
  · rw [if_neg h0, ← hn]
    rw [readInto_of_bytes (advance 1 s) content rest hg (drop_advance s [n] (content ++ rest) hd),
      advance_advance]

/-- C16: when the byte at the read offset is `n` and at least `n` bytes follow it, `readCn`
returns exactly those `n` bytes and advances the read offset by `1 + n`; for `n = 0` the
result is the empty string and the offset advances by exactly 1.  The correction flag of
the state plays no part. -/
theorem readCn_value (s : STDFParser) (n : Byte) (content rest : List Byte)
    (hg : s.file_.good = true) (hd : s.file_.data.drop s.file_.pos = n :: (content ++ rest))
    (hn : content.length = n.val) :
    (readCn s).1 = content ∧ (readCn s).2 = advance (1 + n.val) s ∧
      (readCn s).2.file_.pos = s.file_.pos + (1 + n.val) ∧
      (n.val = 0 → (readCn s).1 = [] ∧ (readCn s).2.file_.pos = s.file_.pos + 1) ∧
      (readCn (STDFParser.mk s.file_ s.fileSize_ (!s.endianSwap_) s.uninit)).1 = content := by
  have h2 := readCn_of_bytes (STDFParser.mk s.file_ s.fileSize_ (!s.endianSwap_) s.uninit)
    n content rest hg hd hn
  rw [readCn_of_bytes s n content rest hg hd hn, h2]
  refine ⟨rfl, rfl, rfl, ?_, rfl⟩
  intro h0
  rw [h0] at hn
  exact ⟨List.length_eq_zero.1 hn, by show s.file_.pos + (1 + n.val) = _; rw [h0]⟩

/-- Witness of C16: the string `"AB"` with correction on. -/
theorem readCn_value_witness :
    (readCn (STDFParser.mk (IfStream.mk [2, 65, 66, 9] 0 false false) 4 true [])).1 = [65, 66] :=
  (readCn_value (STDFParser.mk (IfStream.mk [2, 65, 66, 9] 0 false false) 4 true [])
    2 [65, 66] [9] (by decide) (by decide) (by decide)).1

theorem readBn_of_bytes (s : STDFParser) (b0 b1 : Byte) (content rest : List Byte)
    (hg : s.file_.good = true)
    (hd : s.file_.data.drop s.file_.pos = b0 :: b1 :: (content ++ rest))
    (hn : content.length = if s.endianSwap_ then 256 * b0.val + b1.val else b0.val + 256 * b1.val) :
    readBn s = (content, advance (2 + content.length) s) := by
  have e : readBn s = if (readU2 s).1 = 0 then ([], (readU2 s).2)
      else readInto (readU2 s).1 (readU2 s).2 := rfl
  rw [e, readU2_of_bytes s b0 b1 (content ++ rest) hg hd, ← hn]
  simp only []
  by_cases h0 : content.length = 0
  · rw [if_pos h0, List.length_eq_zero.1 h0]
    rfl
  · rw [if_neg h0]
    rw [readInto_of_bytes (advance 2 s) content rest hg
        (drop_advance s [b0, b1] (content ++ rest) hd), advance_advance]

/-- C17: when at least two bytes `b0 b1` remain, `n` is their 16-bit value in the byte order
of the session (`b0 + 256 * b1` without correction, `256 * b0 + b1` with it) and at least `n`
bytes follow, `readBn` returns exactly those `n` bytes and advances the read offset by
`2 + n`; for `n = 0` the result is empty and the offset advances by exactly 2. -/
theorem readBn_value (s : STDFParser) (b0 b1 : Byte) (content rest : List Byte)
    (hg : s.file_.good = true)
    (hd : s.file_.data.drop s.file_.pos = b0 :: b1 :: (content ++ rest))
    (hn : content.length = if s.endianSwap_ then 256 * b0.val + b1.val else b0.val + 256 * b1.val) :
    (readBn s).1 = content ∧ (readBn s).2 = advance (2 + content.length) s ∧
      (readBn s).2.file_.pos = s.file_.pos + (2 + content.length) ∧
      (content.length = 0 → (readBn s).1 = [] ∧ (readBn s).2.file_.pos = s.file_.pos + 2) := by
  rw [readBn_of_bytes s b0 b1 content rest hg hd hn]
  refine ⟨rfl, rfl, rfl, ?_⟩
  intro h0
  exact ⟨List.length_eq_zero.1 h0, by show s.file_.pos + (2 + content.length) = _; rw [h0]⟩

/-- Witness of C17: a blob of three bytes whose length prefix `00 03` is read with correction. -/
theorem readBn_value_witness :
    (readBn (STDFParser.mk (IfStream.mk [0, 3, 7, 8, 9, 1] 0 false false) 6 true [])).1 = [7, 8, 9] ∧
      (readBn (STDFParser.mk (IfStream.mk [0, 3, 7, 8, 9, 1] 0 false false) 6 true [])).2.file_.pos
        = 5 :=
  ⟨(readBn_value (STDFParser.mk (IfStream.mk [0, 3, 7, 8, 9, 1] 0 false false) 6 true [])
      0 3 [7, 8, 9] [1] (by decide) (by decide) (by decide)).1,
    (readBn_value (STDFParser.mk (IfStream.mk [0, 3, 7, 8, 9, 1] 0 false false) 6 true [])
      0 3 [7, 8, 9] [1] (by decide) (by decide) (by decide)).2.2.1⟩

/-! ## Signed reads and floating-point patterns -/

theorem swapBytes32_eq (x : Nat) (hx : x < 2 ^ 32) :
    swapBytes32 x =
      (x % 256) * 2 ^ 24 + (x / 256 % 256) * 2 ^ 16 + (x / 65536 % 256) * 2 ^ 8 + x / 2 ^ 24 := by
  unfold swapBytes32
  have m : ∀ y : Nat, y &&& 255 = y % 256 := fun y => Nat.and_pow_two_sub_one_eq_mod y 8
  have d8 : x >>> 8 = x / 256 := Nat.shiftRight_eq_div_pow x 8
  have d16 : x >>> 16 = x / 65536 := Nat.shiftRight_eq_div_pow x 16
  have d24 : x >>> 24 = x / 2 ^ 24 := Nat.shiftRight_eq_div_pow x 24
  have h3 : x / 2 ^ 24 % 256 = x / 2 ^ 24 := Nat.mod_eq_of_lt (by omega)
  show (((x &&& 255) <<< 24 % 2 ^ 32 ||| (x >>> 8 &&& 255) <<< 16 % 2 ^ 32 |||
    (x >>> 16 &&& 255) <<< 8 % 2 ^ 32 ||| x >>> 24 &&& 255)) % 2 ^ 32 = _
  rw [m, m, m, m, d8, d16, d24, h3, Nat.shiftLeft_eq, Nat.shiftLeft_eq, Nat.shiftLeft_eq]
  have a0 : x % 256 * 2 ^ 24 % 2 ^ 32 = 2 ^ 24 * (x % 256) := by omega
  have a1 : x / 256 % 256 * 2 ^ 16 % 2 ^ 32 = 2 ^ 16 * (x / 256 % 256) := by omega
  have a2 : x / 65536 % 256 * 2 ^ 8 % 2 ^ 32 = 2 ^ 8 * (x / 65536 % 256) := by omega
  rw [a0, a1, a2, Nat.or_assoc, Nat.or_assoc]
  rw [← Nat.mul_add_lt_is_or (by omega) (x / 65536 % 256)]
  rw [← Nat.mul_add_lt_is_or (by omega) (x / 256 % 256)]
  rw [← Nat.mul_add_lt_is_or (by omega) (x % 256)]
  omega

theorem toUnsigned_toSigned16 (x : Nat) (hx : x < 2 ^ 16) : toUnsigned 16 (toSigned 16 x) = x := by
  unfold toUnsigned toSigned
  have h1 : x % 2 ^ 16 = x := Nat.mod_eq_of_lt hx
  rw [h1]
  split <;> omega

theorem toUnsigned_toSigned32 (x : Nat) (hx : x < 2 ^ 32) : toUnsigned 32 (toSigned 32 x) = x := by
  unfold toUnsigned toSigned
  have h1 : x % 2 ^ 32 = x := Nat.mod_eq_of_lt hx
  rw [h1]
  split <;> omega

theorem readI2_eq (s : STDFParser) : readI2 s = (toSigned 16 (readU2 s).1, (readU2 s).2) := by
  have e1 : readI2 s = (if (readRaw 2 s).2.endianSwap_
      then toSigned 16 (swapBytes16 (toUnsigned 16 (toSigned 16 (leValue (readRaw 2 s).1))))
      else toSigned 16 (leValue (readRaw 2 s).1), (readRaw 2 s).2) := rfl
  have e2 : readU2 s = (if (readRaw 2 s).2.endianSwap_ then swapBytes16 (leValue (readRaw 2 s).1)
      else leValue (readRaw 2 s).1, (readRaw 2 s).2) := rfl
  have hl : leValue (readRaw 2 s).1 < 2 ^ 16 := by
    have := leValue_lt (readRaw 2 s).1
    rw [readRaw_length] at this
    exact this
  rw [e1, e2, toUnsigned_toSigned16 _ hl]
  simp only [Prod.mk.injEq, and_true]
  split <;> rfl

theorem readI4_eq (s : STDFParser) : readI4 s = (toSigned 32 (readU4 s).1, (readU4 s).2) := by
  have e1 : readI4 s = (if (readRaw 4 s).2.endianSwap_
      then toSigned 32 (swapBytes32 (toUnsigned 32 (toSigned 32 (leValue (readRaw 4 s).1))))
      else toSigned 32 (leValue (readRaw 4 s).1), (readRaw 4 s).2) := rfl
  have e2 : readU4 s = (if (readRaw 4 s).2.endianSwap_ then swapBytes32 (leValue (readRaw 4 s).1)
      else leValue (readRaw 4 s).1, (readRaw 4 s).2) := rfl
  have hl : leValue (readRaw 4 s).1 < 2 ^ 32 := by
    have := leValue_lt (readRaw 4 s).1
    rw [readRaw_length] at this
    exact this
  rw [e1, e2, toUnsigned_toSigned32 _ hl]
  simp only [Prod.mk.injEq, and_true]
  split <;> rfl

/-- C18: in both correction modes and in every state, `readI2` returns the two's-complement
16-bit reinterpretation of what `readU2` returns on the same bytes and leaves the same state,
and `readI4` the 32-bit reinterpretation of what `readU4` returns; the sign is taken after
the bytes are swapped (bytes `FF FE` give -2 with correction on and -257 with it off). -/
theorem readI2_readI4_reinterpret (s : STDFParser) :
    readI2 s = (toSigned 16 (readU2 s).1, (readU2 s).2) ∧
      readI4 s = (toSigned 32 (readU4 s).1, (readU4 s).2) ∧
      (readI2 (STDFParser.mk (IfStream.mk [255, 254] 0 false false) 2 true [])).1 = -2 ∧
      (readI2 (STDFParser.mk (IfStream.mk [255, 254] 0 false false) 2 false [])).1 = -257 ∧
      (readI4 (STDFParser.mk (IfStream.mk [255, 255, 255, 254] 0 false false) 4 true [])).1 = -2 :=
  ⟨readI2_eq s, readI4_eq s, by decide, by decide, by decide⟩

theorem readU4_of_bytes (s : STDFParser) (b0 b1 b2 b3 : Byte) (rest : List Byte)
    (hg : s.file_.good = true)
    (hd : s.file_.data.drop s.file_.pos = b0 :: b1 :: b2 :: b3 :: rest) :
    readU4 s = (if s.endianSwap_ then 2 ^ 24 * b0.val + 2 ^ 16 * b1.val + 2 ^ 8 * b2.val + b3.val
      else b0.val + 2 ^ 8 * b1.val + 2 ^ 16 * b2.val + 2 ^ 24 * b3.val, advance 4 s) := by
  have h := readRaw_of_bytes s [b0, b1, b2, b3] rest hg hd
  have e : readU4 s = (if (readRaw 4 s).2.endianSwap_ then swapBytes32 (leValue (readRaw 4 s).1)
      else leValue (readRaw 4 s).1, (readRaw 4 s).2) := rfl
  rw [e, show readRaw 4 s = ([b0, b1, b2, b3], advance 4 s) from h]
  have h0 := b0.isLt
  have h1 := b1.isLt
  have h2 := b2.isLt
  have h3 := b3.isLt
  have hv : leValue [b0, b1, b2, b3] =
      b0.val + 2 ^ 8 * b1.val + 2 ^ 16 * b2.val + 2 ^ 24 * b3.val := by
    simp only [leValue]; omega
  simp only [hv, Prod.mk.injEq, and_true]
  show (if s.endianSwap_ = true then _ else _) = _
  by_cases hs : s.endianSwap_ = true
  · rw [if_pos hs, if_pos hs, swapBytes32_eq _ (by omega)]
    show @Eq Nat _ _
    omega
  · rw [if_neg hs, if_neg hs]

theorem readR8_of_bytes (s : STDFParser) (bs rest : List Byte) (hg : s.file_.good = true)
    (hd : s.file_.data.drop s.file_.pos = bs ++ rest) (hl : bs.length = 8) :
    readR8 s = (leValue bs, advance 8 s) := by
  have h := readRaw_of_bytes s bs rest hg hd
  rw [hl] at h
  have e : readR8 s = (leValue (readRaw 8 s).1, (readRaw 8 s).2) := rfl
  rw [e, h]

/-- C19: `readR4` is `readU4` on the bit pattern: on the four bytes `b0 b1 b2 b3` it returns
the pattern `b0 + 2^8 b1 + 2^16 b2 + 2^24 b3` without correction and the byte-reversed
pattern `2^24 b0 + 2^16 b1 + 2^8 b2 + b3` with it, advancing the read offset by 4; `readR8`
returns the pattern of the eight bytes as they are stored, the same with correction on and
off, advancing the read offset by 8. -/
theorem readR4_readR8_patterns (s : STDFParser) (hg : s.file_.good = true) :
    readR4 s = readU4 s ∧
    (∀ (b0 b1 b2 b3 : Byte) (rest : List Byte),
      s.file_.data.drop s.file_.pos = b0 :: b1 :: b2 :: b3 :: rest →
      (readR4 s).1 = (if s.endianSwap_
          then 2 ^ 24 * b0.val + 2 ^ 16 * b1.val + 2 ^ 8 * b2.val + b3.val
          else b0.val + 2 ^ 8 * b1.val + 2 ^ 16 * b2.val + 2 ^ 24 * b3.val) ∧
        (readR4 s).2.file_.pos = s.file_.pos + 4) ∧
    (∀ (bs rest : List Byte), s.file_.data.drop s.file_.pos = bs ++ rest → bs.length = 8 →
      (readR8 s).1 = leValue bs ∧
        (readR8 (STDFParser.mk s.file_ s.fileSize_ (!s.endianSwap_) s.uninit)).1 = leValue bs ∧
        (readR8 s).2.file_.pos = s.file_.pos + 8) := by
  have e : readR4 s = readU4 s := rfl
  refine ⟨e, ?_, ?_⟩
  · intro b0 b1 b2 b3 rest hd
    rw [e, readU4_of_bytes s b0 b1 b2 b3 rest hg hd]
    exact ⟨rfl, rfl⟩
  · intro bs rest hd hl
    rw [readR8_of_bytes s bs rest hg hd hl,
      readR8_of_bytes (STDFParser.mk s.file_ s.fileSize_ (!s.endianSwap_) s.uninit) bs rest hg hd hl]
    exact ⟨rfl, rfl, rfl⟩

/-- Witness of C19: the bytes `3F 80 00 00` (1.0 in big-endian order) read with correction
on give the pattern `0x3F800000`. -/
theorem readR4_readR8_patterns_witness :
    (readR4 (STDFParser.mk (IfStream.mk [63, 128, 0, 0] 0 false false) 4 true [])).1 = 0x3F800000 :=
  ((readR4_readR8_patterns (STDFParser.mk (IfStream.mk [63, 128, 0, 0] 0 false false) 4 true [])
    (by decide)).2.1 63 128 0 0 [] (by decide)).1


/-! ## Reads that run short -/

theorem read_short (f : IfStream) (n : Nat) (hg : f.good = true)
    (h : (f.data.drop f.pos).length < n) :
    f.read n = (f.data.drop f.pos,
      IfStream.mk f.data (f.pos + (f.data.drop f.pos).length) true true) := by
  unfold IfStream.read
  have ht : (f.data.drop f.pos).take n = f.data.drop f.pos := List.take_of_length_le (by omega)
  rw [if_pos hg]
  simp only [ht]
  rw [if_neg (by omega)]

theorem read_failed (f : IfStream) (n : Nat) (hf : f.failbit = true) :
    f.read n = ([], f) := by
  unfold IfStream.read
  have hg : ¬ f.good = true := by
    unfold IfStream.good; rw [hf]; simp
  rw [if_neg hg]
  cases f with
  | mk d p e fl => cases hf; rfl

theorem readRaw_short (n : Nat) (s : STDFParser) (hg : s.file_.good = true)
    (h : (remaining s).length < n) :
    (readRaw n s).1 = remaining s ++ takePad (n - (remaining s).length) s.uninit ∧
      Failed (readRaw n s).2 := by
  rw [readRaw_eq, read_short s.file_ n hg h]
  exact ⟨rfl, rfl, rfl⟩

theorem readInto_failed (n : Nat) (s : STDFParser) (h : Failed s) :
    readInto n s = (List.replicate n 0, s) := by
  have e : readInto n s = ((s.file_.read n).1 ++ List.replicate (n - (s.file_.read n).1.length) 0,
      STDFParser.mk (s.file_.read n).2 s.fileSize_ s.endianSwap_ s.uninit) := rfl
  rw [e, read_failed s.file_ n h.2]
  simp

theorem readInto_short (n : Nat) (s : STDFParser) (hg : s.file_.good = true)
    (h : (remaining s).length < n) :
    (readInto n s).1 = remaining s ++ List.replicate (n - (remaining s).length) 0 ∧
      Failed (readInto n s).2 := by
  have e : readInto n s = ((s.file_.read n).1 ++ List.replicate (n - (s.file_.read n).1.length) 0,
      STDFParser.mk (s.file_.read n).2 s.fileSize_ s.endianSwap_ s.uninit) := rfl
  rw [e, read_short s.file_ n hg h]
  exact ⟨rfl, rfl, rfl⟩

theorem readCn_failed_prefix (s : STDFParser) (hg : s.file_.good = true)
    (h : (remaining s).length < 1) : Failed (readCn s).2 := by
  have e : readCn s = if (readU1 s).1 = 0 then ([], (readU1 s).2)
      else readInto (readU1 s).1 (readU1 s).2 := rfl
  have hf : Failed (readU1 s).2 := (readRaw_short 1 s hg h).2
  rw [e]
  split
  · exact hf
  · rw [readInto_failed _ _ hf]; exact hf

theorem readBn_failed_prefix (s : STDFParser) (hg : s.file_.good = true)
    (h : (remaining s).length < 2) : Failed (readBn s).2 := by
  have e : readBn s = if (readU2 s).1 = 0 then ([], (readU2 s).2)
      else readInto (readU2 s).1 (readU2 s).2 := rfl
  have hf : Failed (readU2 s).2 := (readRaw_short 2 s hg h).2
  rw [e]
  split
  · exact hf
  · rw [readInto_failed _ _ hf]; exact hf

theorem readCn_short_content (s : STDFParser) (n : Byte) (content : List Byte)
    (hg : s.file_.good = true) (hd : remaining s = n :: content) (hn : content.length < n.val) :
    (readCn s).1 = content ++ List.replicate (n.val - content.length) 0 ∧ Failed (readCn s).2 := by
  have e : readCn s = if (readU1 s).1 = 0 then ([], (readU1 s).2)
      else readInto (readU1 s).1 (readU1 s).2 := rfl
  have hr : remaining (advance 1 s) = content := drop_advance s [n] content hd
  rw [e, readU1_of_bytes s n content hg hd]
  simp only []
  have hn0 : n.val ≠ 0 := by omega
  rw [if_neg hn0]
  have := readInto_short n.val (advance 1 s) hg (by rw [hr]; exact hn)
  rw [hr] at this
  exact this

theorem readBn_short_content (s : STDFParser) (b0 b1 : Byte) (content : List Byte)
    (hg : s.file_.good = true) (hd : remaining s = b0 :: b1 :: content)
    (hn : content.length <
      if s.endianSwap_ then 256 * b0.val + b1.val else b0.val + 256 * b1.val) :
    (readBn s).1 = content ++ List.replicate
        ((if s.endianSwap_ then 256 * b0.val + b1.val else b0.val + 256 * b1.val) - content.length) 0
      ∧ Failed (readBn s).2 := by
  have e : readBn s = if (readU2 s).1 = 0 then ([], (readU2 s).2)
      else readInto (readU2 s).1 (readU2 s).2 := rfl
  have hr : remaining (advance 2 s) = content := drop_advance s [b0, b1] content hd
  rw [e, readU2_of_bytes s b0 b1 content hg hd]
  simp only []
  generalize (if s.endianSwap_ then 256 * b0.val + b1.val else b0.val + 256 * b1.val) = L at hn ⊢
  have hn0 : L ≠ 0 := by omega
  rw [if_neg hn0]
  have := readInto_short L (advance 2 s) hg (by rw [hr]; exact hn)
  rw [hr] at this
  exact this

theorem isEndOfFile_of_failed (s : STDFParser) (h : Failed s) : (isEndOfFile s).1 = true := by
  unfold isEndOfFile IfStream.eof
  rw [h.1]
  rfl

/-- C11 (as the code has it): no primitive read fails with an error.  In a state whose stream
is still good and in which fewer bytes remain than the read needs, each of the eleven reads
returns and leaves the stream at the end of the file with `eofbit` and `failbit` set, so
that `isEndOfFile()` is true afterwards; `readCn` and `readBn` whose length prefix `n > 0` is
present but followed by fewer than `n` bytes return those bytes padded with zero bytes to
length `n`. -/
theorem primitive_reads_short (s : STDFParser) (hg : s.file_.good = true) :
    ((remaining s).length < 1 →
      Failed (readU1 s).2 ∧ Failed (readI1 s).2 ∧ Failed (readC1 s).2 ∧ Failed (readCn s).2) ∧
    ((remaining s).length < 2 →
      Failed (readU2 s).2 ∧ Failed (readI2 s).2 ∧ Failed (readBn s).2) ∧
    ((remaining s).length < 4 →
      Failed (readU4 s).2 ∧ Failed (readI4 s).2 ∧ Failed (readR4 s).2) ∧
    ((remaining s).length < 8 → Failed (readR8 s).2) ∧
    (∀ (n : Byte) (content : List Byte), remaining s = n :: content → content.length < n.val →
      (readCn s).1 = content ++ List.replicate (n.val - content.length) 0 ∧
        Failed (readCn s).2) ∧
    (∀ (b0 b1 : Byte) (content : List Byte), remaining s = b0 :: b1 :: content →
      content.length < (if s.endianSwap_ then 256 * b0.val + b1.val else b0.val + 256 * b1.val) →
      (readBn s).1 = content ++ List.replicate
          ((if s.endianSwap_ then 256 * b0.val + b1.val else b0.val + 256 * b1.val)
            - content.length) 0 ∧
        Failed (readBn s).2) ∧
    (∀ t : STDFParser, Failed t → (isEndOfFile t).1 = true) := by
  refine ⟨fun h => ?_, fun h => ?_, fun h => ?_, fun h => ?_, ?_, ?_, isEndOfFile_of_failed⟩
  · exact ⟨(readRaw_short 1 s hg h).2, (readRaw_short 1 s hg h).2, (readRaw_short 1 s hg h).2,
      readCn_failed_prefix s hg h⟩
  · exact ⟨(readRaw_short 2 s hg h).2, (readRaw_short 2 s hg h).2, readBn_failed_prefix s hg h⟩
  · exact ⟨(readRaw_short 4 s hg h).2, (readRaw_short 4 s hg h).2, (readRaw_short 4 s hg h).2⟩
  · exact (readRaw_short 8 s hg h).2
  · exact fun n content hd hn => readCn_short_content s n content hg hd hn
  · exact fun b0 b1 content hd hn => readBn_short_content s b0 b1 content hg hd hn

/-- Witness of C11: a string announced with three bytes of which one is present. -/
theorem primitive_reads_short_witness :
    (stateOver [3, 65]).file_.good = true ∧
      (readCn (stateOver [3, 65])).1 = [65, 0, 0] ∧ Failed (readCn (stateOver [3, 65])).2 :=
  ⟨by decide, (primitive_reads_short (stateOver [3, 65]) (by decide)).2.2.2.2.1 3 [65]
    (by decide) (by decide)⟩

/-- Counterexample of C11: on a stream with no byte left `readU1` returns a value (the
indeterminate content of its local, here `0x2A`), and `readU4` on three bytes returns a
value assembled from them and one indeterminate byte; neither fails with an error. -/
theorem primitive_read_no_error :
    readU1 (STDFParser.mk (IfStream.mk [] 0 false false) 0 false [42]) =
        (42, STDFParser.mk (IfStream.mk [] 0 true true) 0 false []) ∧
      readU4 (STDFParser.mk (IfStream.mk [1, 0, 0] 0 false false) 3 false [42]) =
        (1 + 42 * 2 ^ 24, STDFParser.mk (IfStream.mk [1, 0, 0] 3 true true) 3 false []) := by
  decide

/-! ## Relations the reads respect -/

theorem readU1_respects {R : STDFParser → STDFParser → Prop} (hR : Respects R)
    {s t : STDFParser} (h : R s t) :
    Agree R (readU1 s) (readU1 t) := by
  have a := hR.raw 1 s t h
  have e : ∀ u, readU1 u = (leValue (readRaw 1 u).1, (readRaw 1 u).2) := fun _ => rfl
  rw [e s, e t]
  exact ⟨by show leValue _ = leValue _; rw [a.1], a.2⟩

theorem readI1_respects {R : STDFParser → STDFParser → Prop} (hR : Respects R)
    {s t : STDFParser} (h : R s t) :
    Agree R (readI1 s) (readI1 t) := by
  have a := hR.raw 1 s t h
  have e : ∀ u, readI1 u = (toSigned 8 (leValue (readRaw 1 u).1), (readRaw 1 u).2) := fun _ => rfl
  rw [e s, e t]
  exact ⟨by show toSigned 8 (leValue _) = toSigned 8 (leValue _); rw [a.1], a.2⟩

theorem readC1_respects {R : STDFParser → STDFParser → Prop} (hR : Respects R)
    {s t : STDFParser} (h : R s t) :
    Agree R (readC1 s) (readC1 t) := by
  have a := hR.raw 1 s t h
  have e : ∀ u, readC1 u = ((readRaw 1 u).1.headD 0, (readRaw 1 u).2) := fun _ => rfl
  rw [e s, e t]
  exact ⟨by show List.headD _ _ = List.headD _ _; rw [a.1], a.2⟩

theorem readU2_respects {R : STDFParser → STDFParser → Prop} (hR : Respects R)
    {s t : STDFParser} (h : R s t) :
    Agree R (readU2 s) (readU2 t) := by
  have a := hR.raw 2 s t h
  have w := hR.swap _ _ a.2
  have e : ∀ u, readU2 u = (if (readRaw 2 u).2.endianSwap_ then swapBytes16 (leValue (readRaw 2 u).1)
      else leValue (readRaw 2 u).1, (readRaw 2 u).2) := fun _ => rfl
  rw [e s, e t]
  exact ⟨by show (if _ then _ else _) = (if _ then _ else _); rw [a.1, w], a.2⟩

theorem readU4_respects {R : STDFParser → STDFParser → Prop} (hR : Respects R)
    {s t : STDFParser} (h : R s t) :
    Agree R (readU4 s) (readU4 t) := by
  have a := hR.raw 4 s t h
  have w := hR.swap _ _ a.2
  have e : ∀ u, readU4 u = (if (readRaw 4 u).2.endianSwap_ then swapBytes32 (leValue (readRaw 4 u).1)
      else leValue (readRaw 4 u).1, (readRaw 4 u).2) := fun _ => rfl
  rw [e s, e t]
  exact ⟨by show (if _ then _ else _) = (if _ then _ else _); rw [a.1, w], a.2⟩

theorem readR4_respects {R : STDFParser → STDFParser → Prop} (hR : Respects R)
    {s t : STDFParser} (h : R s t) :
    Agree R (readR4 s) (readR4 t) := readU4_respects hR h

theorem readI2_respects {R : STDFParser → STDFParser → Prop} (hR : Respects R)
    {s t : STDFParser} (h : R s t) :
    Agree R (readI2 s) (readI2 t) := by
  have a := hR.raw 2 s t h
  have w := hR.swap _ _ a.2
  have e : ∀ u, readI2 u = (if (readRaw 2 u).2.endianSwap_
      then toSigned 16 (swapBytes16 (toUnsigned 16 (toSigned 16 (leValue (readRaw 2 u).1))))
      else toSigned 16 (leValue (readRaw 2 u).1), (readRaw 2 u).2) := fun _ => rfl
  rw [e s, e t]
  exact ⟨by show (if _ then _ else _) = (if _ then _ else _); rw [a.1, w], a.2⟩

theorem readI4_respects {R : STDFParser → STDFParser → Prop} (hR : Respects R)
    {s t : STDFParser} (h : R s t) :
    Agree R (readI4 s) (readI4 t) := by
  have a := hR.raw 4 s t h
  have w := hR.swap _ _ a.2
  have e : ∀ u, readI4 u = (if (readRaw 4 u).2.endianSwap_
      then toSigned 32 (swapBytes32 (toUnsigned 32 (toSigned 32 (leValue (readRaw 4 u).1))))
      else toSigned 32 (leValue (readRaw 4 u).1), (readRaw 4 u).2) := fun _ => rfl
  rw [e s, e t]
  exact ⟨by show (if _ then _ else _) = (if _ then _ else _); rw [a.1, w], a.2⟩

theorem readCn_respects {R : STDFParser → STDFParser → Prop} (hR : Respects R)
    {s t : STDFParser} (h : R s t) :
    Agree R (readCn s) (readCn t) := by
  have a := readU1_respects hR h
  have e : ∀ u, readCn u = if (readU1 u).1 = 0 then ([], (readU1 u).2)
      else readInto (readU1 u).1 (readU1 u).2 := fun _ => rfl
  rw [e s, e t, a.1]
  split
  · exact ⟨rfl, a.2⟩
  · exact hR.into _ _ _ a.2

theorem readBn_respects {R : STDFParser → STDFParser → Prop} (hR : Respects R)
    {s t : STDFParser} (h : R s t) :
    Agree R (readBn s) (readBn t) := by
  have a := readU2_respects hR h
  have e : ∀ u, readBn u = if (readU2 u).1 = 0 then ([], (readU2 u).2)
      else readInto (readU2 u).1 (readU2 u).2 := fun _ => rfl
  rw [e s, e t, a.1]
  split
  · exact ⟨rfl, a.2⟩
  · exact hR.into _ _ _ a.2

theorem fillLoop_respects {R : STDFParser → STDFParser → Prop} (hR : Respects R)
    (count : Nat) :
    ∀ (fuel i : Nat) (arr : List U2) (s t : STDFParser), R s t →
      Agree R (fillLoop fuel count i arr s) (fillLoop fuel count i arr t) := by
  intro fuel
  induction fuel with
  | zero => intro i arr s t h; exact ⟨rfl, h⟩
  | succ fuel ih =>
    intro i arr s t h
    by_cases hi : i < count
    · rw [fillLoop_succ _ _ _ _ _ hi, fillLoop_succ _ _ _ _ _ hi]
      have a := readU2_respects hR h
      rw [a.1]
      exact ih _ _ _ _ a.2
    · have e : ∀ u, fillLoop (fuel + 1) count i arr u = (arr, u) := by
        intro u
        show (if i < count then _ else _) = _
        rw [if_neg hi]
      rw [e s, e t]
      exact ⟨rfl, h⟩

theorem parseFAR_respects {R : STDFParser → STDFParser → Prop} (hR : Respects R)
    {s t : STDFParser} (h : R s t) : Agree R (parseFAR s) (parseFAR t) := by
  unfold parseFAR
  simp only []
  have a1 := readU1_respects hR h
  generalize readU1 s = x1 at a1 ⊢
  generalize readU1 t = y1 at a1 ⊢
  have a2 := readU1_respects hR a1.2
  generalize readU1 x1.2 = x2 at a2 ⊢
  generalize readU1 y1.2 = y2 at a2 ⊢
  refine ⟨?_, a2.2⟩
  rw [a1.1, a2.1]

theorem parseMIR_respects {R : STDFParser → STDFParser → Prop} (hR : Respects R)
    {s t : STDFParser} (h : R s t) : Agree R (parseMIR s) (parseMIR t) := by
  unfold parseMIR
  simp only []
  have a1 := readU4_respects hR h
  generalize readU4 s = x1 at a1 ⊢
  generalize readU4 t = y1 at a1 ⊢
  have a2 := readU4_respects hR a1.2
  generalize readU4 x1.2 = x2 at a2 ⊢
  generalize readU4 y1.2 = y2 at a2 ⊢
  have a3 := readU1_respects hR a2.2
  generalize readU1 x2.2 = x3 at a3 ⊢
  generalize readU1 y2.2 = y3 at a3 ⊢
  have a4 := readC1_respects hR a3.2
  generalize readC1 x3.2 = x4 at a4 ⊢
  generalize readC1 y3.2 = y4 at a4 ⊢
  have a5 := readC1_respects hR a4.2
  generalize readC1 x4.2 = x5 at a5 ⊢
  generalize readC1 y4.2 = y5 at a5 ⊢
  have a6 := readC1_respects hR a5.2
  generalize readC1 x5.2 = x6 at a6 ⊢
  generalize readC1 y5.2 = y6 at a6 ⊢
  have a7 := readU2_respects hR a6.2
  generalize readU2 x6.2 = x7 at a7 ⊢
  generalize readU2 y6.2 = y7 at a7 ⊢
  have a8 := readC1_respects hR a7.2
  generalize readC1 x7.2 = x8 at a8 ⊢
  generalize readC1 y7.2 = y8 at a8 ⊢
  have a9 := readCn_respects hR a8.2
  generalize readCn x8.2 = x9 at a9 ⊢
  generalize readCn y8.2 = y9 at a9 ⊢
  have a10 := readCn_respects hR a9.2
  generalize readCn x9.2 = x10 at a10 ⊢
  generalize readCn y9.2 = y10 at a10 ⊢
  have a11 := readCn_respects hR a10.2
  generalize readCn x10.2 = x11 at a11 ⊢
  generalize readCn y10.2 = y11 at a11 ⊢
  have a12 := readCn_respects hR a11.2
  generalize readCn x11.2 = x12 at a12 ⊢
  generalize readCn y11.2 = y12 at a12 ⊢
  have a13 := readCn_respects hR a12.2
  generalize readCn x12.2 = x13 at a13 ⊢
  generalize readCn y12.2 = y13 at a13 ⊢
  have a14 := readCn_respects hR a13.2
  generalize readCn x13.2 = x14 at a14 ⊢
  generalize readCn y13.2 = y14 at a14 ⊢
  have a15 := readCn_respects hR a14.2
  generalize readCn x14.2 = x15 at a15 ⊢
  generalize readCn y14.2 = y15 at a15 ⊢
  have a16 := readCn_respects hR a15.2
  generalize readCn x15.2 = x16 at a16 ⊢
  generalize readCn y15.2 = y16 at a16 ⊢
  have a17 := readCn_respects hR a16.2
  generalize readCn x16.2 = x17 at a17 ⊢
  generalize readCn y16.2 = y17 at a17 ⊢
  have a18 := readCn_respects hR a17.2
  generalize readCn x17.2 = x18 at a18 ⊢
  generalize readCn y17.2 = y18 at a18 ⊢
  have a19 := readCn_respects hR a18.2
  generalize readCn x18.2 = x19 at a19 ⊢
  generalize readCn y18.2 = y19 at a19 ⊢
  have a20 := readCn_respects hR a19.2
  generalize readCn x19.2 = x20 at a20 ⊢
  generalize readCn y19.2 = y20 at a20 ⊢
  have a21 := readCn_respects hR a20.2
  generalize readCn x20.2 = x21 at a21 ⊢
  generalize readCn y20.2 = y21 at a21 ⊢
  have a22 := readCn_respects hR a21.2
  generalize readCn x21.2 = x22 at a22 ⊢
  generalize readCn y21.2 = y22 at a22 ⊢
  have a23 := readCn_respects hR a22.2
  generalize readCn x22.2 = x23 at a23 ⊢
  generalize readCn y22.2 = y23 at a23 ⊢
  have a24 := readCn_respects hR a23.2
  generalize readCn x23.2 = x24 at a24 ⊢
  generalize readCn y23.2 = y24 at a24 ⊢
  have a25 := readCn_respects hR a24.2
  generalize readCn x24.2 = x25 at a25 ⊢
  generalize readCn y24.2 = y25 at a25 ⊢
  have a26 := readCn_respects hR a25.2
  generalize readCn x25.2 = x26 at a26 ⊢
  generalize readCn y25.2 = y26 at a26 ⊢
  have a27 := readCn_respects hR a26.2
  generalize readCn x26.2 = x27 at a27 ⊢
  generalize readCn y26.2 = y27 at a27 ⊢
  have a28 := readCn_respects hR a27.2
  generalize readCn x27.2 = x28 at a28 ⊢
  generalize readCn y27.2 = y28 at a28 ⊢
  have a29 := readCn_respects hR a28.2
  generalize readCn x28.2 = x29 at a29 ⊢
  generalize readCn y28.2 = y29 at a29 ⊢
  have a30 := readCn_respects hR a29.2
  generalize readCn x29.2 = x30 at a30 ⊢
  generalize readCn y29.2 = y30 at a30 ⊢
  have a31 := readCn_respects hR a30.2
  generalize readCn x30.2 = x31 at a31 ⊢
  generalize readCn y30.2 = y31 at a31 ⊢
  have a32 := readCn_respects hR a31.2
  generalize readCn x31.2 = x32 at a32 ⊢
  generalize readCn y31.2 = y32 at a32 ⊢
  have a33 := readCn_respects hR a32.2
  generalize readCn x32.2 = x33 at a33 ⊢
  generalize readCn y32.2 = y33 at a33 ⊢
  have a34 := readCn_respects hR a33.2
  generalize readCn x33.2 = x34 at a34 ⊢
  generalize readCn y33.2 = y34 at a34 ⊢
  have a35 := readCn_respects hR a34.2
  generalize readCn x34.2 = x35 at a35 ⊢
  generalize readCn y34.2 = y35 at a35 ⊢
  have a36 := readCn_respects hR a35.2
  generalize readCn x35.2 = x36 at a36 ⊢
  generalize readCn y35.2 = y36 at a36 ⊢
  have a37 := readCn_respects hR a36.2
  generalize readCn x36.2 = x37 at a37 ⊢
  generalize readCn y36.2 = y37 at a37 ⊢
  have a38 := readCn_respects hR a37.2
  generalize readCn x37.2 = x38 at a38 ⊢
  generalize readCn y37.2 = y38 at a38 ⊢
  refine ⟨?_, a38.2⟩
  rw [a1.1, a2.1, a3.1, a4.1, a5.1, a6.1, a7.1, a8.1, a9.1, a10.1, a11.1, a12.1, a13.1, a14.1,
    a15.1, a16.1, a17.1, a18.1, a19.1, a20.1, a21.1, a22.1, a23.1, a24.1, a25.1, a26.1, a27.1,
    a28.1, a29.1, a30.1, a31.1, a32.1, a33.1, a34.1, a35.1, a36.1, a37.1, a38.1]

theorem parsePIR_respects {R : STDFParser → STDFParser → Prop} (hR : Respects R)
    {s t : STDFParser} (h : R s t) : Agree R (parsePIR s) (parsePIR t) := by
  unfold parsePIR
  simp only []
  have a1 := readU1_respects hR h
  generalize readU1 s = x1 at a1 ⊢
  generalize readU1 t = y1 at a1 ⊢
  have a2 := readU1_respects hR a1.2
  generalize readU1 x1.2 = x2 at a2 ⊢
  generalize readU1 y1.2 = y2 at a2 ⊢
  refine ⟨?_, a2.2⟩
  rw [a1.1, a2.1]

theorem parsePRR_respects {R : STDFParser → STDFParser → Prop} (hR : Respects R)
    {s t : STDFParser} (h : R s t) : Agree R (parsePRR s) (parsePRR t) := by
  unfold parsePRR
  simp only []
  have a1 := readU1_respects hR h
  generalize readU1 s = x1 at a1 ⊢
  generalize readU1 t = y1 at a1 ⊢
  have a2 := readU1_respects hR a1.2
  generalize readU1 x1.2 = x2 at a2 ⊢
  generalize readU1 y1.2 = y2 at a2 ⊢
  have a3 := readU1_respects hR a2.2
  generalize readU1 x2.2 = x3 at a3 ⊢
  generalize readU1 y2.2 = y3 at a3 ⊢
  have a4 := readU2_respects hR a3.2
  generalize readU2 x3.2 = x4 at a4 ⊢
  generalize readU2 y3.2 = y4 at a4 ⊢
  have a5 := readU2_respects hR a4.2
  generalize readU2 x4.2 = x5 at a5 ⊢
  generalize readU2 y4.2 = y5 at a5 ⊢
  have a6 := readU2_respects hR a5.2
  generalize readU2 x5.2 = x6 at a6 ⊢
  generalize readU2 y5.2 = y6 at a6 ⊢
  have a7 := readI2_respects hR a6.2
  generalize readI2 x6.2 = x7 at a7 ⊢
  generalize readI2 y6.2 = y7 at a7 ⊢
  have a8 := readI2_respects hR a7.2
  generalize readI2 x7.2 = x8 at a8 ⊢
  generalize readI2 y7.2 = y8 at a8 ⊢
  have a9 := readU4_respects hR a8.2
  generalize readU4 x8.2 = x9 at a9 ⊢
  generalize readU4 y8.2 = y9 at a9 ⊢
  have a10 := readCn_respects hR a9.2
  generalize readCn x9.2 = x10 at a10 ⊢
  generalize readCn y9.2 = y10 at a10 ⊢
  have a11 := readCn_respects hR a10.2
  generalize readCn x10.2 = x11 at a11 ⊢
  generalize readCn y10.2 = y11 at a11 ⊢
  have a12 := readBn_respects hR a11.2
  generalize readBn x11.2 = x12 at a12 ⊢
  generalize readBn y11.2 = y12 at a12 ⊢
  refine ⟨?_, a12.2⟩
  rw [a1.1, a2.1, a3.1, a4.1, a5.1, a6.1, a7.1, a8.1, a9.1, a10.1, a11.1, a12.1]

theorem parseHBR_respects {R : STDFParser → STDFParser → Prop} (hR : Respects R)
    {s t : STDFParser} (h : R s t) : Agree R (parseHBR s) (parseHBR t) := by
  unfold parseHBR
  simp only []
  have a1 := readU1_respects hR h
  generalize readU1 s = x1 at a1 ⊢
  generalize readU1 t = y1 at a1 ⊢
  have a2 := readU1_respects hR a1.2
  generalize readU1 x1.2 = x2 at a2 ⊢
  generalize readU1 y1.2 = y2 at a2 ⊢
  have a3 := readU2_respects hR a2.2
  generalize readU2 x2.2 = x3 at a3 ⊢
  generalize readU2 y2.2 = y3 at a3 ⊢
  have a4 := readU4_respects hR a3.2
  generalize readU4 x3.2 = x4 at a4 ⊢
  generalize readU4 y3.2 = y4 at a4 ⊢
  have a5 := readC1_respects hR a4.2
  generalize readC1 x4.2 = x5 at a5 ⊢
  generalize readC1 y4.2 = y5 at a5 ⊢
  have a6 := readCn_respects hR a5.2
  generalize readCn x5.2 = x6 at a6 ⊢
  generalize readCn y5.2 = y6 at a6 ⊢
  refine ⟨?_, a6.2⟩
  rw [a1.1, a2.1, a3.1, a4.1, a5.1, a6.1]

theorem parseSBR_respects {R : STDFParser → STDFParser → Prop} (hR : Respects R)
    {s t : STDFParser} (h : R s t) : Agree R (parseSBR s) (parseSBR t) := by
  unfold parseSBR
  simp only []
  have a1 := readU1_respects hR h
  generalize readU1 s = x1 at a1 ⊢
  generalize readU1 t = y1 at a1 ⊢
  have a2 := readU1_respects hR a1.2
  generalize readU1 x1.2 = x2 at a2 ⊢
  generalize readU1 y1.2 = y2 at a2 ⊢
  have a3 := readU2_respects hR a2.2
  generalize readU2 x2.2 = x3 at a3 ⊢
  generalize readU2 y2.2 = y3 at a3 ⊢
  have a4 := readU4_respects hR a3.2
  generalize readU4 x3.2 = x4 at a4 ⊢
  generalize readU4 y3.2 = y4 at a4 ⊢
  have a5 := readC1_respects hR a4.2
  generalize readC1 x4.2 = x5 at a5 ⊢
  generalize readC1 y4.2 = y5 at a5 ⊢
  have a6 := readCn_respects hR a5.2
  generalize readCn x5.2 = x6 at a6 ⊢
  generalize readCn y5.2 = y6 at a6 ⊢
  refine ⟨?_, a6.2⟩
  rw [a1.1, a2.1, a3.1, a4.1, a5.1, a6.1]

theorem parseWIR_respects {R : STDFParser → STDFParser → Prop} (hR : Respects R)
    {s t : STDFParser} (h : R s t) : Agree R (parseWIR s) (parseWIR t) := by
  unfold parseWIR
  simp only []
  have a1 := readU1_respects hR h
  generalize readU1 s = x1 at a1 ⊢
  generalize readU1 t = y1 at a1 ⊢
  have a2 := readU1_respects hR a1.2
  generalize readU1 x1.2 = x2 at a2 ⊢
  generalize readU1 y1.2 = y2 at a2 ⊢
  have a3 := readU4_respects hR a2.2
  generalize readU4 x2.2 = x3 at a3 ⊢
  generalize readU4 y2.2 = y3 at a3 ⊢
  have a4 := readCn_respects hR a3.2
  generalize readCn x3.2 = x4 at a4 ⊢
  generalize readCn y3.2 = y4 at a4 ⊢
  refine ⟨?_, a4.2⟩
  rw [a1.1, a2.1, a3.1, a4.1]

theorem parseWRR_respects {R : STDFParser → STDFParser → Prop} (hR : Respects R)
    {s t : STDFParser} (h : R s t) : Agree R (parseWRR s) (parseWRR t) := by
  unfold parseWRR
  simp only []
  have a1 := readU1_respects hR h
  generalize readU1 s = x1 at a1 ⊢
  generalize readU1 t = y1 at a1 ⊢
  have a2 := readU1_respects hR a1.2
  generalize readU1 x1.2 = x2 at a2 ⊢
  generalize readU1 y1.2 = y2 at a2 ⊢
  have a3 := readU4_respects hR a2.2
  generalize readU4 x2.2 = x3 at a3 ⊢
  generalize readU4 y2.2 = y3 at a3 ⊢
  have a4 := readU4_respects hR a3.2
  generalize readU4 x3.2 = x4 at a4 ⊢
  generalize readU4 y3.2 = y4 at a4 ⊢
  have a5 := readU4_respects hR a4.2
  generalize readU4 x4.2 = x5 at a5 ⊢
  generalize readU4 y4.2 = y5 at a5 ⊢
  have a6 := readU4_respects hR a5.2
  generalize readU4 x5.2 = x6 at a6 ⊢
  generalize readU4 y5.2 = y6 at a6 ⊢
  have a7 := readU4_respects hR a6.2
  generalize readU4 x6.2 = x7 at a7 ⊢
  generalize readU4 y6.2 = y7 at a7 ⊢
  have a8 := readU4_respects hR a7.2
  generalize readU4 x7.2 = x8 at a8 ⊢
  generalize readU4 y7.2 = y8 at a8 ⊢
  have a9 := readCn_respects hR a8.2
  generalize readCn x8.2 = x9 at a9 ⊢
  generalize readCn y8.2 = y9 at a9 ⊢
  have a10 := readCn_respects hR a9.2
  generalize readCn x9.2 = x10 at a10 ⊢
  generalize readCn y9.2 = y10 at a10 ⊢
  have a11 := readCn_respects hR a10.2
  generalize readCn x10.2 = x11 at a11 ⊢
  generalize readCn y10.2 = y11 at a11 ⊢
  have a12 := readCn_respects hR a11.2
  generalize readCn x11.2 = x12 at a12 ⊢
  generalize readCn y11.2 = y12 at a12 ⊢
  have a13 := readCn_respects hR a12.2
  generalize readCn x12.2 = x13 at a13 ⊢
  generalize readCn y12.2 = y13 at a13 ⊢
  have a14 := readCn_respects hR a13.2
  generalize readCn x13.2 = x14 at a14 ⊢
  generalize readCn y13.2 = y14 at a14 ⊢
  refine ⟨?_, a14.2⟩
  rw [a1.1, a2.1, a3.1, a4.1, a5.1, a6.1, a7.1, a8.1, a9.1, a10.1, a11.1, a12.1, a13.1, a14.1]

theorem ptrMandatory_respects {R : STDFParser → STDFParser → Prop} (hR : Respects R)
    {s t : STDFParser} (h : R s t) : Agree R (ptrMandatory s) (ptrMandatory t) := by
  unfold ptrMandatory
  simp only []
  have a1 := readU4_respects hR h
  generalize readU4 s = x1 at a1 ⊢
  generalize readU4 t = y1 at a1 ⊢
  have a2 := readU1_respects hR a1.2
  generalize readU1 x1.2 = x2 at a2 ⊢
  generalize readU1 y1.2 = y2 at a2 ⊢
  have a3 := readU1_respects hR a2.2
  generalize readU1 x2.2 = x3 at a3 ⊢
  generalize readU1 y2.2 = y3 at a3 ⊢
  have a4 := readU1_respects hR a3.2
  generalize readU1 x3.2 = x4 at a4 ⊢
  generalize readU1 y3.2 = y4 at a4 ⊢
  have a5 := readU1_respects hR a4.2
  generalize readU1 x4.2 = x5 at a5 ⊢
  generalize readU1 y4.2 = y5 at a5 ⊢
  have a6 := readR4_respects hR a5.2
  generalize readR4 x5.2 = x6 at a6 ⊢
  generalize readR4 y5.2 = y6 at a6 ⊢
  have a7 := readCn_respects hR a6.2
  generalize readCn x6.2 = x7 at a7 ⊢
  generalize readCn y6.2 = y7 at a7 ⊢
  have a8 := readCn_respects hR a7.2
  generalize readCn x7.2 = x8 at a8 ⊢
  generalize readCn y7.2 = y8 at a8 ⊢
  have a9 := readU1_respects hR a8.2
  generalize readU1 x8.2 = x9 at a9 ⊢
  generalize readU1 y8.2 = y9 at a9 ⊢
  refine ⟨?_, a9.2⟩
  rw [a1.1, a2.1, a3.1, a4.1, a5.1, a6.1, a7.1, a8.1, a9.1]

theorem parseFTR_respects {R : STDFParser → STDFParser → Prop} (hR : Respects R)
    {s t : STDFParser} (h : R s t) : Agree R (parseFTR s) (parseFTR t) := by
  unfold parseFTR
  simp only []
  have a1 := readU4_respects hR h
  generalize readU4 s = x1 at a1 ⊢
  generalize readU4 t = y1 at a1 ⊢
  have a2 := readU1_respects hR a1.2
  generalize readU1 x1.2 = x2 at a2 ⊢
  generalize readU1 y1.2 = y2 at a2 ⊢
  have a3 := readU1_respects hR a2.2
  generalize readU1 x2.2 = x3 at a3 ⊢
  generalize readU1 y2.2 = y3 at a3 ⊢
  have a4 := readU1_respects hR a3.2
  generalize readU1 x3.2 = x4 at a4 ⊢
  generalize readU1 y3.2 = y4 at a4 ⊢
  have a5 := readU1_respects hR a4.2
  generalize readU1 x4.2 = x5 at a5 ⊢
  generalize readU1 y4.2 = y5 at a5 ⊢
  have a6 := readU4_respects hR a5.2
  generalize readU4 x5.2 = x6 at a6 ⊢
  generalize readU4 y5.2 = y6 at a6 ⊢
  have a7 := readU4_respects hR a6.2
  generalize readU4 x6.2 = x7 at a7 ⊢
  generalize readU4 y6.2 = y7 at a7 ⊢
  have a8 := readU4_respects hR a7.2
  generalize readU4 x7.2 = x8 at a8 ⊢
  generalize readU4 y7.2 = y8 at a8 ⊢
  have a9 := readU4_respects hR a8.2
  generalize readU4 x8.2 = x9 at a9 ⊢
  generalize readU4 y8.2 = y9 at a9 ⊢
  have a10 := readI4_respects hR a9.2
  generalize readI4 x9.2 = x10 at a10 ⊢
  generalize readI4 y9.2 = y10 at a10 ⊢
  have a11 := readI4_respects hR a10.2
  generalize readI4 x10.2 = x11 at a11 ⊢
  generalize readI4 y10.2 = y11 at a11 ⊢
  have a12 := readI2_respects hR a11.2
  generalize readI2 x11.2 = x12 at a12 ⊢
  generalize readI2 y11.2 = y12 at a12 ⊢
  have a13 := readU2_respects hR a12.2
  generalize readU2 x12.2 = x13 at a13 ⊢
  generalize readU2 y12.2 = y13 at a13 ⊢
  rw [a13.1]
  have a14 := readU2_respects hR a13.2
  generalize readU2 x13.2 = x14 at a14 ⊢
  generalize readU2 y13.2 = y14 at a14 ⊢
  rw [a14.1]
  have b1 := fillLoop_respects hR y13.1 y13.1 0 (resize [] y13.1) x14.2 y14.2 a14.2
  generalize fillLoop y13.1 y13.1 0 (resize [] y13.1) x14.2 = u1 at b1 ⊢
  generalize fillLoop y13.1 y13.1 0 (resize [] y13.1) y14.2 = v1 at b1 ⊢
  have b2 := fillLoop_respects hR y13.1 y13.1 0 (resize [] y13.1) u1.2 v1.2 b1.2
  generalize fillLoop y13.1 y13.1 0 (resize [] y13.1) u1.2 = u2 at b2 ⊢
  generalize fillLoop y13.1 y13.1 0 (resize [] y13.1) v1.2 = v2 at b2 ⊢
  have b3 := fillLoop_respects hR y14.1 y14.1 0 (resize [] y14.1) u2.2 v2.2 b2.2
  generalize fillLoop y14.1 y14.1 0 (resize [] y14.1) u2.2 = u3 at b3 ⊢
  generalize fillLoop y14.1 y14.1 0 (resize [] y14.1) v2.2 = v3 at b3 ⊢
  have b4 := fillLoop_respects hR y14.1 y14.1 0 (resize [] y14.1) u3.2 v3.2 b3.2
  generalize fillLoop y14.1 y14.1 0 (resize [] y14.1) u3.2 = u4 at b4 ⊢
  generalize fillLoop y14.1 y14.1 0 (resize [] y14.1) v3.2 = v4 at b4 ⊢
  have a15 := readBn_respects hR b4.2
  generalize readBn u4.2 = x15 at a15 ⊢
  generalize readBn v4.2 = y15 at a15 ⊢
  have a16 := readCn_respects hR a15.2
  generalize readCn x15.2 = x16 at a16 ⊢
  generalize readCn y15.2 = y16 at a16 ⊢
  have a17 := readCn_respects hR a16.2
  generalize readCn x16.2 = x17 at a17 ⊢
  generalize readCn y16.2 = y17 at a17 ⊢
  have a18 := readCn_respects hR a17.2
  generalize readCn x17.2 = x18 at a18 ⊢
  generalize readCn y17.2 = y18 at a18 ⊢
  have a19 := readCn_respects hR a18.2
  generalize readCn x18.2 = x19 at a19 ⊢
  generalize readCn y18.2 = y19 at a19 ⊢
  have a20 := readCn_respects hR a19.2
  generalize readCn x19.2 = x20 at a20 ⊢
  generalize readCn y19.2 = y20 at a20 ⊢
  have a21 := readCn_respects hR a20.2
  generalize readCn x20.2 = x21 at a21 ⊢
  generalize readCn y20.2 = y21 at a21 ⊢
  have a22 := readCn_respects hR a21.2
  generalize readCn x21.2 = x22 at a22 ⊢
  generalize readCn y21.2 = y22 at a22 ⊢
  have a23 := readU1_respects hR a22.2
  generalize readU1 x22.2 = x23 at a23 ⊢
  generalize readU1 y22.2 = y23 at a23 ⊢
  have a24 := readBn_respects hR a23.2
  generalize readBn x23.2 = x24 at a24 ⊢
  generalize readBn y23.2 = y24 at a24 ⊢
  refine ⟨?_, a24.2⟩
  rw [a1.1, a2.1, a3.1, a4.1, a5.1, a6.1, a7.1, a8.1, a9.1, a10.1, a11.1, a12.1, b1.1, b2.1,
    b3.1, b4.1, a15.1, a16.1, a17.1, a18.1, a19.1, a20.1, a21.1, a22.1, a23.1, a24.1]

theorem readGroup_respects {R : STDFParser → STDFParser → Prop} (hR : Respects R)
    {p q : PTRRecord × STDFParser} (h : Agree R p q) (g : PTRGroup) :
    Agree R (readGroup p g) (readGroup q g) := by
  obtain ⟨r, s⟩ := p
  obtain ⟨r', t⟩ := q
  obtain ⟨h1, h2⟩ := h
  have h1 : r = r' := h1
  have h2 : R s t := h2
  subst h1
  cases g with
  | resScal =>
    have a := readI1_respects hR h2
    exact ⟨by show ({ r with RES_SCAL := (readI1 s).1 } : PTRRecord) = _; rw [a.1]; rfl, a.2⟩
  | lowLimit =>
    have a := readI1_respects hR h2
    have b := readR4_respects hR a.2
    exact ⟨by
      show ({ r with LLM_SCAL := (readI1 s).1, LO_LIMIT := (readR4 (readI1 s).2).1 } : PTRRecord) = _
      rw [a.1, b.1]; rfl, b.2⟩
  | highLimit =>
    have a := readI1_respects hR h2
    have b := readR4_respects hR a.2
    exact ⟨by
      show ({ r with HLM_SCAL := (readI1 s).1, HI_LIMIT := (readR4 (readI1 s).2).1 } : PTRRecord) = _
      rw [a.1, b.1]; rfl, b.2⟩
  | units =>
    have a := readCn_respects hR h2
    exact ⟨by show ({ r with UNITS := (readCn s).1 } : PTRRecord) = _; rw [a.1]; rfl, a.2⟩
  | resFmt =>
    have a := readCn_respects hR h2
    exact ⟨by show ({ r with C_RESFMT := (readCn s).1 } : PTRRecord) = _; rw [a.1]; rfl, a.2⟩
  | limFmts =>
    have a := readCn_respects hR h2
    have b := readCn_respects hR a.2
    exact ⟨by
      show ({ r with C_LLMFMT := (readCn s).1, C_HLMFMT := (readCn (readCn s).2).1 } : PTRRecord) = _
      rw [a.1, b.1]; rfl, b.2⟩

theorem foldl_respects {R : STDFParser → STDFParser → Prop} (hR : Respects R)
    (gs : List PTRGroup) : ∀ p q : PTRRecord × STDFParser, Agree R p q →
      Agree R (List.foldl readGroup p gs) (List.foldl readGroup q gs) := by
  induction gs with
  | nil => intro p q h; exact h
  | cons g gs ih => intro p q h; exact ih _ _ (readGroup_respects hR h g)

theorem parsePTR_respects {R : STDFParser → STDFParser → Prop} (hR : Respects R)
    {s t : STDFParser} (h : R s t) : Agree R (parsePTR s) (parsePTR t) := by
  have a := ptrMandatory_respects hR h
  rw [parsePTR_eq_foldl, parsePTR_eq_foldl, a.1]
  exact foldl_respects hR _ _ _ a

/-- On a mapped header `parseRecord` respects every relation the reads respect: from headers
with the same type pair and related states after them it returns the same record, of the
kind of the dispatch table, and related states. -/
theorem parseRecord_respects {R : STDFParser → STDFParser → Prop} (hR : Respects R)
    {s t : STDFParser} {k : RecordType}
    (ht : (readRecordHeader s).1.recordType = (readRecordHeader t).1.recordType)
    (hu : (readRecordHeader s).1.recordSub = (readRecordHeader t).1.recordSub)
    (h : R (readRecordHeader s).2 (readRecordHeader t).2)
    (hk : specDispatch (readRecordHeader s).1.recordType (readRecordHeader s).1.recordSub =
      some k) :
    ∃ r, (parseRecord s).1 = some r ∧ (parseRecord t).1 = some r ∧ r.getRecordType = k ∧
      R (parseRecord s).2 (parseRecord t).2 := by
  rw [parseRecord_eq, parseRecord_eq, ← ht, ← hu]
  generalize (readRecordHeader s).1.recordType = ty at hk ⊢
  generalize (readRecordHeader s).1.recordSub = su at hk ⊢
  generalize (readRecordHeader s).2 = S at h ⊢
  generalize (readRecordHeader t).2 = T at h ⊢
  obtain ⟨t1, t2, t3, t4, t5, t6, t7, t8, t9, t10⟩ := specDispatch_table
  by_cases h1 : ty = 0 ∧ su = 10
  · rw [if_pos h1, if_pos h1]
    rw [h1.1, h1.2, t1] at hk
    cases hk
    have a := parseFAR_respects hR h
    dsimp only [Agree] at a ⊢
    exact ⟨_, rfl, by rw [a.1], rfl, a.2⟩
  rw [if_neg h1, if_neg h1]
  by_cases h2 : ty = 1 ∧ su = 10
  · rw [if_pos h2, if_pos h2]
    rw [h2.1, h2.2, t2] at hk
    cases hk
    have a := parseMIR_respects hR h
    dsimp only [Agree] at a ⊢
    exact ⟨_, rfl, by rw [a.1], rfl, a.2⟩
  rw [if_neg h2, if_neg h2]
  by_cases h3 : ty = 1 ∧ su = 40
  · rw [if_pos h3, if_pos h3]
    rw [h3.1, h3.2, t3] at hk
    cases hk
    have a := parseHBR_respects hR h
    dsimp only [Agree] at a ⊢
    exact ⟨_, rfl, by rw [a.1], rfl, a.2⟩
  rw [if_neg h3, if_neg h3]
  by_cases h4 : ty = 1 ∧ su = 50
  · rw [if_pos h4, if_pos h4]
    rw [h4.1, h4.2, t4] at hk
    cases hk
    have a := parseSBR_respects hR h
    dsimp only [Agree] at a ⊢
    exact ⟨_, rfl, by rw [a.1], rfl, a.2⟩
  rw [if_neg h4, if_neg h4]
  by_cases h5 : ty = 2 ∧ su = 10
  · rw [if_pos h5, if_pos h5]
    rw [h5.1, h5.2, t5] at hk
    cases hk
    have a := parseWIR_respects hR h
    dsimp only [Agree] at a ⊢
    exact ⟨_, rfl, by rw [a.1], rfl, a.2⟩
  rw [if_neg h5, if_neg h5]
  by_cases h6 : ty = 2 ∧ su = 20
  · rw [if_pos h6, if_pos h6]
    rw [h6.1, h6.2, t6] at hk
    cases hk
    have a := parseWRR_respects hR h
    dsimp only [Agree] at a ⊢
    exact ⟨_, rfl, by rw [a.1], rfl, a.2⟩
  rw [if_neg h6, if_neg h6]
  by_cases h7 : ty = 5 ∧ su = 10
  · rw [if_pos h7, if_pos h7]
    rw [h7.1, h7.2, t7] at hk
    cases hk
    have a := parsePIR_respects hR h
    dsimp only [Agree] at a ⊢
    exact ⟨_, rfl, by rw [a.1], rfl, a.2⟩
  rw [if_neg h7, if_neg h7]
  by_cases h8 : ty = 5 ∧ su = 20
  · rw [if_pos h8, if_pos h8]
    rw [h8.1, h8.2, t8] at hk
    cases hk
    have a := parsePRR_respects hR h
    dsimp only [Agree] at a ⊢
    exact ⟨_, rfl, by rw [a.1], rfl, a.2⟩
  rw [if_neg h8, if_neg h8]
  by_cases h9 : ty = 15 ∧ su = 10
  · rw [if_pos h9, if_pos h9]
    rw [h9.1, h9.2, t9] at hk
    cases hk
    have a := parsePTR_respects hR h
    dsimp only [Agree] at a ⊢
    exact ⟨_, rfl, by rw [a.1], rfl, a.2⟩
  rw [if_neg h9, if_neg h9]
  by_cases h10 : ty = 15 ∧ su = 20
  · rw [if_pos h10, if_pos h10]
    rw [h10.1, h10.2, t10] at hk
    cases hk
    have a := parseFTR_respects hR h
    dsimp only [Agree] at a ⊢
    exact ⟨_, rfl, by rw [a.1], rfl, a.2⟩
  rw [if_neg h10, if_neg h10]
  rw [specDispatch_none h1 h2 h3 h4 h5 h6 h7 h8 h9 h10] at hk
  exact Option.noConfusion hk

theorem read_same (f g : IfStream) (n : Nat) (hp : f.pos = g.pos)
    (hd : f.data.drop f.pos = g.data.drop g.pos) (he : f.eofbit = g.eofbit)
    (hf : f.failbit = g.failbit) :
    (f.read n).1 = (g.read n).1 ∧ (f.read n).2.pos = (g.read n).2.pos ∧
      (f.read n).2.data.drop (f.read n).2.pos = (g.read n).2.data.drop (g.read n).2.pos ∧
      (f.read n).2.eofbit = (g.read n).2.eofbit ∧
      (f.read n).2.failbit = (g.read n).2.failbit := by
  have hg : g.good = f.good := by unfold IfStream.good; rw [he, hf]
  unfold IfStream.read
  rw [hg, ← hd]
  by_cases c : f.good = true
  · rw [if_pos c, if_pos c]
    by_cases l : ((f.data.drop f.pos).take n).length = n
    · simp only [l, if_true]
      refine ⟨trivial, by rw [hp], ?_, he, hf⟩
      rw [← List.drop_drop, ← List.drop_drop, hd]
    · simp only [l, if_false]
      refine ⟨trivial, by rw [hp], ?_, trivial, trivial⟩
      rw [← List.drop_drop, ← List.drop_drop, hd]
  · rw [if_neg c, if_neg c]
    exact ⟨rfl, hp, hd, he, rfl⟩

theorem respects_sameAhead : Respects SameAhead := by
  refine ⟨?_, ?_, fun s t h => h.2.2.2.2.1⟩
  · intro n s t h
    obtain ⟨hp, hd, he, hf, hw, hu⟩ := h
    obtain ⟨r1, r2, r3, r4, r5⟩ := read_same s.file_ t.file_ n hp hd he hf
    rw [readRaw_eq, readRaw_eq]
    refine ⟨?_, r2, r3, r4, r5, hw, ?_⟩
    · show _ ++ _ = _ ++ _
      rw [r1, hu]
    · show List.drop _ _ = List.drop _ _
      rw [r1, hu]
  · intro n s t h
    obtain ⟨hp, hd, he, hf, hw, hu⟩ := h
    obtain ⟨r1, r2, r3, r4, r5⟩ := read_same s.file_ t.file_ n hp hd he hf
    have e : ∀ u, readInto n u =
        ((u.file_.read n).1 ++ List.replicate (n - (u.file_.read n).1.length) 0,
          STDFParser.mk (u.file_.read n).2 u.fileSize_ u.endianSwap_ u.uninit) := fun _ => rfl
    rw [e s, e t]
    refine ⟨?_, r2, r3, r4, r5, hw, hu⟩
    show _ ++ _ = _ ++ _
    rw [r1]

theorem read_sound (f : IfStream) (n : Nat) (h : f.failbit = true → f.eofbit = true) :
    (f.read n).2.failbit = true → (f.read n).2.eofbit = true := by
  unfold IfStream.read
  by_cases c : f.good = true
  · rw [if_pos c]
    obtain ⟨he, hf⟩ := (good_iff f).1 c
    by_cases l : ((f.data.drop f.pos).take n).length = n
    · simp only [l, if_true]
      intro x; rw [hf] at x; exact Bool.noConfusion x
    · simp only [l, if_false]
      intro _; trivial
  · rw [if_neg c]
    intro _
    show f.eofbit = true
    cases hfl : f.failbit
    · cases hef : f.eofbit
      · exact absurd ((good_iff f).2 ⟨hef, hfl⟩) c
      · rfl
    · exact h hfl

theorem respects_sound : Respects (fun s t => s = t ∧ Sound s) := by
  refine ⟨?_, ?_, fun s t h => by rw [h.1]⟩
  · intro n s t h
    obtain ⟨rfl, hs⟩ := h
    refine ⟨rfl, rfl, ?_⟩
    rw [readRaw_eq]
    exact read_sound s.file_ n hs
  · intro n s t h
    obtain ⟨rfl, hs⟩ := h
    exact ⟨rfl, rfl, read_sound s.file_ n hs⟩

theorem parseFileLoop_eof (fuel : Nat) (records : List STDFRecord) (s : STDFParser)
    (h : s.file_.eofbit = true) : parseFileLoop (fuel + 1) records s = some (records, s) := by
  have e : parseFileLoop (fuel + 1) records s =
      if (isEndOfFile s).1 then some (records, (isEndOfFile s).2)
      else parseFileLoop fuel
        (match (parseNextRecord (isEndOfFile s).2).1 with
          | some r => records ++ [r]
          | none => records) (parseNextRecord (isEndOfFile s).2).2 := rfl
  have h1 : isEndOfFile s = (true, s) := by
    unfold isEndOfFile IfStream.eof
    rw [h]; rfl
  rw [e, h1]
  rfl

/-! ## Truncated records, and the length field of mapped records -/

/-- Counterexample of C12: the input is a complete File Attribute record followed by a Part
Information record cut after its first payload byte; `parseFile` returns both records, the
second with `SITE_NUM` taken from the indeterminate content of a local (here `0x09`). -/
theorem parseFile_returns_truncated_record :
    (parseFile 3 (STDFParser.construct [2, 0, 0, 10, 2, 4, 2, 0, 5, 10, 1] [9])).map Prod.fst =
      some [STDFRecord.far (FARRecord.mk 2 4), STDFRecord.pir (PIRRecord.mk 1 9)] := by
  decide

/-- C12 (as the code has it): when the header of a mapped record is present at the read
offset and its decoder runs out of bytes, `parseNextRecord` still returns a record of the
header's kind, the stream is left failed at the end of the file so that `isEndOfFile()` is
true, and the loop of `parseFile` returns the records collected before followed by that
record and stops there. -/
theorem parseFile_truncated_record (fuel : Nat) (records : List STDFRecord) (s : STDFParser)
    (b0 b1 t u : Byte) (rest : List Byte) (k : RecordType)
    (hg : s.file_.good = true) (hs : Sized s)
    (hd : remaining s = b0 :: b1 :: t :: u :: rest)
    (hk : specDispatch t.val u.val = some k)
    (hshort : (parseRecord s).2.file_.failbit = true) :
    ∃ r : STDFRecord, r.getRecordType = k ∧ (parseNextRecord s).1 = some r ∧
      Failed (parseNextRecord s).2 ∧ (isEndOfFile (parseNextRecord s).2).1 = true ∧
      parseFileLoop (fuel + 2) records s = some (records ++ [r], (parseNextRecord s).2) := by
  have hlen := length_of_drop hd (by simp)
  simp only [List.length_cons] at hlen
  have hp : s.file_.pos < s.file_.data.length := by omega
  have hh := readRecordHeader_of_bytes s b0 b1 t u rest hg hd
  have hsound : (readRecordHeader s).2 = (readRecordHeader s).2 ∧ Sound (readRecordHeader s).2 := by
    refine ⟨rfl, fun x => ?_⟩
    rw [hh] at x
    have hf : (advance 4 s).file_.failbit = false := failbit_of_good hg
    rw [hf] at x
    exact Bool.noConfusion x
  obtain ⟨r, h1, -, h3, -, h5⟩ :=
    parseRecord_respects respects_sound rfl rfl hsound (by rw [hh]; exact hk)
  have hf : Failed (parseRecord s).2 := ⟨h5 hshort, hshort⟩
  have l := parseFileLoop_more (fuel + 1) records s hg hs hp
  rw [h1] at l
  rw [parseNextRecord_of_more s hg hs hp]
  refine ⟨r, h3, h1, hf, isEndOfFile_of_failed _ hf, ?_⟩
  show parseFileLoop (fuel + 1 + 1) records s = _
  rw [l]
  exact parseFileLoop_eof fuel _ _ hf.1

set_option maxRecDepth 100000 in
/-- Witness of C12: a Part Information record cut after its first payload byte, met after one
complete record. -/
theorem parseFile_truncated_record_witness :
    ∃ r : STDFRecord, r.getRecordType = RecordType.PIR ∧
      (parseNextRecord
        (STDFParser.mk (IfStream.mk [2, 0, 0, 10, 2, 4, 2, 0, 5, 10, 1] 6 false false)
          11 false [9])).1 = some r ∧
      Failed (parseNextRecord
        (STDFParser.mk (IfStream.mk [2, 0, 0, 10, 2, 4, 2, 0, 5, 10, 1] 6 false false)
          11 false [9])).2 ∧
      (isEndOfFile (parseNextRecord
        (STDFParser.mk (IfStream.mk [2, 0, 0, 10, 2, 4, 2, 0, 5, 10, 1] 6 false false)
          11 false [9])).2).1 = true ∧
      parseFileLoop (0 + 2) [STDFRecord.far (FARRecord.mk 2 4)]
        (STDFParser.mk (IfStream.mk [2, 0, 0, 10, 2, 4, 2, 0, 5, 10, 1] 6 false false)
          11 false [9]) =
        some ([STDFRecord.far (FARRecord.mk 2 4)] ++ [r], (parseNextRecord
          (STDFParser.mk (IfStream.mk [2, 0, 0, 10, 2, 4, 2, 0, 5, 10, 1] 6 false false)
            11 false [9])).2) :=
  parseFile_truncated_record 0 [STDFRecord.far (FARRecord.mk 2 4)]
    (STDFParser.mk (IfStream.mk [2, 0, 0, 10, 2, 4, 2, 0, 5, 10, 1] 6 false false) 11 false [9])
    2 0 5 10 [1] RecordType.PIR (by decide) ⟨by decide, by decide⟩ (by decide) (by decide)
    (by decide)

theorem tellg_fst (f : IfStream) : f.tellg.1 = if f.good then (f.pos : Int) else -1 := by
  unfold IfStream.tellg
  split <;> rfl

theorem getCurrentPosition_same {s t : STDFParser} (h : SameAhead s t) :
    (getCurrentPosition s).1 = (getCurrentPosition t).1 := by
  obtain ⟨hp, -, he, hf, -, -⟩ := h
  have hg : s.file_.good = t.file_.good := by unfold IfStream.good; rw [he, hf]
  have e : ∀ u : STDFParser, (getCurrentPosition u).1 = toUnsigned 64 u.file_.tellg.1 :=
    fun _ => rfl
  rw [e s, e t, tellg_fst, tellg_fst, hg, hp]

/-- C20: for every mapped (major, minor) pair, the record `parseRecord` returns and the read
offset it leaves do not depend on the length field of the header: two sessions at the same
offset and with the same correction flag, whose inputs from the offset on differ at most in
the two length bytes, get the same record, of the kind of the pair, and the same offset. -/
theorem parseRecord_ignores_length (s1 s2 : STDFParser) (a0 a1 c0 c1 t u : Byte)
    (rest : List Byte) (k : RecordType)
    (hg1 : s1.file_.good = true) (hg2 : s2.file_.good = true)
    (hpos : s1.file_.pos = s2.file_.pos) (hsw : s1.endianSwap_ = s2.endianSwap_)
    (hun : s1.uninit = s2.uninit)
    (hd1 : remaining s1 = a0 :: a1 :: t :: u :: rest)
    (hd2 : remaining s2 = c0 :: c1 :: t :: u :: rest)
    (hk : specDispatch t.val u.val = some k) :
    ∃ r : STDFRecord, (parseRecord s1).1 = some r ∧ (parseRecord s2).1 = some r ∧
      r.getRecordType = k ∧
      (parseRecord s1).2.file_.pos = (parseRecord s2).2.file_.pos ∧
      (getCurrentPosition (parseRecord s1).2).1 = (getCurrentPosition (parseRecord s2).2).1 := by
  have hh1 := readRecordHeader_of_bytes s1 a0 a1 t u rest hg1 hd1
  have hh2 := readRecordHeader_of_bytes s2 c0 c1 t u rest hg2 hd2
  obtain ⟨he1, hf1⟩ := (good_iff _).1 hg1
  obtain ⟨he2, hf2⟩ := (good_iff _).1 hg2
  have hsame : SameAhead (readRecordHeader s1).2 (readRecordHeader s2).2 := by
    rw [hh1, hh2]
    refine ⟨?_, ?_, ?_, ?_, hsw, hun⟩
    · show s1.file_.pos + 4 = s2.file_.pos + 4
      rw [hpos]
    · exact (drop_advance s1 [a0, a1, t, u] rest hd1).trans
        (drop_advance s2 [c0, c1, t, u] rest hd2).symm
    · show s1.file_.eofbit = s2.file_.eofbit
      rw [he1, he2]
    · show s1.file_.failbit = s2.file_.failbit
      rw [hf1, hf2]
  obtain ⟨r, h1, h2, h3, h4⟩ := parseRecord_respects respects_sameAhead
    (by rw [hh1, hh2]) (by rw [hh1, hh2]) hsame (by rw [hh1]; exact hk)
  exact ⟨r, h1, h2, h3, h4.1, getCurrentPosition_same h4⟩

set_option maxRecDepth 100000 in
/-- Witness of C20: a Part Information record after one complete record, once with the
length field `02 00` and once with `4D 09`. -/
theorem parseRecord_ignores_length_witness :
    ∃ r : STDFRecord,
      (parseRecord (STDFParser.mk
        (IfStream.mk [2, 0, 0, 10, 2, 4, 2, 0, 5, 10, 1, 1] 6 false false) 12 false [])).1 = some r ∧
      (parseRecord (STDFParser.mk
        (IfStream.mk [2, 0, 0, 10, 2, 4, 77, 9, 5, 10, 1, 1] 6 false false) 12 false [])).1 = some r ∧
      r.getRecordType = RecordType.PIR ∧
      (parseRecord (STDFParser.mk
        (IfStream.mk [2, 0, 0, 10, 2, 4, 2, 0, 5, 10, 1, 1] 6 false false) 12 false [])).2.file_.pos =
      (parseRecord (STDFParser.mk
        (IfStream.mk [2, 0, 0, 10, 2, 4, 77, 9, 5, 10, 1, 1] 6 false false) 12 false [])).2.file_.pos ∧
      (getCurrentPosition (parseRecord (STDFParser.mk
        (IfStream.mk [2, 0, 0, 10, 2, 4, 2, 0, 5, 10, 1, 1] 6 false false) 12 false [])).2).1 =
      (getCurrentPosition (parseRecord (STDFParser.mk
        (IfStream.mk [2, 0, 0, 10, 2, 4, 77, 9, 5, 10, 1, 1] 6 false false) 12 false [])).2).1 :=
  parseRecord_ignores_length
    (STDFParser.mk (IfStream.mk [2, 0, 0, 10, 2, 4, 2, 0, 5, 10, 1, 1] 6 false false) 12 false [])
    (STDFParser.mk (IfStream.mk [2, 0, 0, 10, 2, 4, 77, 9, 5, 10, 1, 1] 6 false false) 12 false [])
    2 0 77 9 5 10 [1, 1] RecordType.PIR (by decide) (by decide) (by decide) (by decide)
    (by decide) (by decide) (by decide) (by decide)

/-! ## Opening a session, and the size of a record -/

/-- C27: opening a session on a file that cannot be opened fails with the
`std::runtime_error` "Failed to open file: <name>" and yields no session; opening a file that
can be opened never fails, whatever its contents, and yields the session the constructor
body builds. -/
theorem new_fails_iff_not_opened (filename : String) (file : Option (List Byte))
    (uninit : List Byte) :
    STDFParser.new filename none uninit = .error ("Failed to open file: " ++ filename) ∧
      (∀ contents : List Byte, STDFParser.new filename (some contents) uninit =
        .ok (STDFParser.construct contents uninit)) ∧
      ((STDFParser.new filename file uninit).toOption.isSome = file.isSome) := by
  refine ⟨rfl, fun _ => rfl, ?_⟩
  cases file <;> rfl

/-- Counterexample of C24: a Parametric Test record with `OPT_FLAG = 0` and empty strings has
`getSize() = 15`, less than the 38 bytes of its fixed-width members and string prefixes. -/
theorem getSize_ptr_default :
    PTRRecord.getSize {} = 15 ∧ PTRRecord.sizeOfAllMembers {} = 38 := by
  decide

theorem STDFRecord.getSize_pos (r : STDFRecord) : 0 < r.getSize := by
  cases r with
  | far r => show 0 < 2; decide
  | pir r => show 0 < 2; decide
  | mir r => simp only [STDFRecord.getSize, MIRRecord.getSize]; omega
  | prr r => simp only [STDFRecord.getSize, PRRRecord.getSize]; omega
  | ptr r =>
    simp only [STDFRecord.getSize]
    rw [← ptr_payload_getSize]
    simp only [ptrPayloadSize]
    omega
  | ftr r => simp only [STDFRecord.getSize, FTRRecord.getSize]; omega
  | hbr r => simp only [STDFRecord.getSize, HBRRecord.getSize]; omega
  | sbr r => simp only [STDFRecord.getSize, SBRRecord.getSize]; omega
  | wir r => simp only [STDFRecord.getSize, WIRRecord.getSize]; omega
  | wrr r => simp only [STDFRecord.getSize, WRRRecord.getSize]; omega

/-- C24 (as the code has it): `getSize()` is strictly positive for every record; it is 2 for
every FAR and PIR record; for MIR, PRR, FTR, HBR, SBR, WIR and WRR it is the byte count of
the fixed-width members plus 1 + length for each string, 2 + length for each blob and 2 bytes
per array element; for PTR it is the 13 bytes of the members up to `OPT_FLAG`, the two
mandatory strings, and the members of the optional groups only when `OPT_FLAG` selects them
(`LO_SPEC` and `HI_SPEC` never count). -/
theorem getSize_formulas :
    (∀ r : STDFRecord, 0 < r.getSize) ∧
    (∀ r : FARRecord, r.getSize = 2) ∧ (∀ r : PIRRecord, r.getSize = 2) ∧
    (∀ r : MIRRecord, r.getSize = 15 +
      ((1 + r.LOT_ID.length) + (1 + r.PART_TYP.length) + (1 + r.NODE_NAM.length) +
       (1 + r.TSTR_TYP.length) + (1 + r.JOB_NAM.length) + (1 + r.JOB_REV.length) +
       (1 + r.SBLOT_ID.length) + (1 + r.OPER_NAM.length) + (1 + r.EXEC_TYP.length) +
       (1 + r.EXEC_VER.length) + (1 + r.TEST_COD.length) + (1 + r.TST_TEMP.length) +
       (1 + r.USER_TXT.length) + (1 + r.AUX_FILE.length) + (1 + r.PKG_TYP.length) +
       (1 + r.FAMLY_ID.length) + (1 + r.DATE_COD.length) + (1 + r.FACIL_ID.length) +
       (1 + r.FLOOR_ID.length) + (1 + r.PROC_ID.length) + (1 + r.OPER_FRQ.length) +
       (1 + r.SPEC_NAM.length) + (1 + r.SPEC_VER.length) + (1 + r.FLOW_ID.length) +
       (1 + r.SETUP_ID.length) + (1 + r.DSGN_REV.length) + (1 + r.ENG_ID.length) +
       (1 + r.ROM_COD.length) + (1 + r.SERL_NUM.length) + (1 + r.SUPR_NAM.length))) ∧
    (∀ r : PRRRecord, r.getSize =
      17 + (1 + r.PART_ID.length) + (1 + r.PART_TXT.length) + (2 + r.PART_FIX.length)) ∧
    (∀ r : FTRRecord, r.getSize = 39 +
      2 * (r.RTN_INDX.length + r.RTN_STAT.length + r.PGM_INDX.length + r.PGM_STAT.length) +
      (2 + r.FAIL_PIN.length) + (2 + r.SPIN_MAP.length) +
      ((1 + r.VECT_NAM.length) + (1 + r.TIME_SET.length) + (1 + r.OP_CODE.length) +
       (1 + r.TEST_TXT.length) + (1 + r.ALARM_ID.length) + (1 + r.PROG_TXT.length) +
       (1 + r.RSLT_TXT.length))) ∧
    (∀ r : HBRRecord, r.getSize = 9 + (1 + r.HBIN_NAM.length)) ∧
    (∀ r : SBRRecord, r.getSize = 9 + (1 + r.SBIN_NAM.length)) ∧
    (∀ r : WIRRecord, r.getSize = 6 + (1 + r.WAFER_ID.length)) ∧
    (∀ r : WRRRecord, r.getSize = 26 +
      ((1 + r.WAFER_ID.length) + (1 + r.FABWF_ID.length) + (1 + r.FRAME_ID.length) +
       (1 + r.MASK_ID.length) + (1 + r.USR_DESC.length) + (1 + r.EXC_DESC.length))) ∧
    (∀ r : PTRRecord, r.getSize = 13 + (1 + r.TEST_TXT.length) + (1 + r.ALARM_ID.length) +
      ind (r.OPT_FLAG.testBit 0) +
      5 * ind (r.OPT_FLAG.testBit 1 || r.OPT_FLAG.testBit 2) +
      5 * ind (r.OPT_FLAG.testBit 3 || r.OPT_FLAG.testBit 4) +
      (1 + r.UNITS.length) * ind (r.OPT_FLAG.testBit 5) +
      (1 + r.C_RESFMT.length) * ind (r.OPT_FLAG.testBit 6) +
      (2 + r.C_LLMFMT.length + r.C_HLMFMT.length) * ind (r.OPT_FLAG.testBit 7)) := by
  refine ⟨STDFRecord.getSize_pos, fun _ => rfl, fun _ => rfl, ?_, ?_, ?_, ?_, ?_, ?_, ?_, ?_⟩
  · intro r; simp only [MIRRecord.getSize]; omega
  · intro r; simp only [PRRRecord.getSize]; omega
  · intro r; simp only [FTRRecord.getSize]; omega
  · intro r; simp only [HBRRecord.getSize]; omega
  · intro r; simp only [SBRRecord.getSize]; omega
  · intro r; simp only [WIRRecord.getSize]; omega
  · intro r; simp only [WRRRecord.getSize]; omega
  · intro r
    rw [← ptr_payload_getSize]
    simp only [ptrPayloadSize]
    omega


/-! ## The loop of `parseFile` on a failed stream -/

theorem respects_stuck : Respects (fun s t => s = t ∧ Stuck s) := by
  refine ⟨?_, ?_, fun s t h => by rw [h.1]⟩
  · intro n s t h
    obtain ⟨rfl, hf, he, hs⟩ := h
    refine ⟨rfl, rfl, ?_⟩
    rw [readRaw_eq, read_failed s.file_ n hf]
    exact ⟨hf, he, hs⟩
  · intro n s t h
    obtain ⟨rfl, hf, he, hs⟩ := h
    refine ⟨rfl, rfl, ?_⟩
    have e : readInto n s =
        ((s.file_.read n).1 ++ List.replicate (n - (s.file_.read n).1.length) 0,
          STDFParser.mk (s.file_.read n).2 s.fileSize_ s.endianSwap_ s.uninit) := rfl
    rw [e, read_failed s.file_ n hf]
    exact ⟨hf, he, hs⟩

theorem readRecordHeader_stuck (s : STDFParser) (h : Stuck s) : Stuck (readRecordHeader s).2 := by
  have a := readU2_respects respects_stuck (s := s) (t := s) ⟨rfl, h⟩
  have b := readU1_respects respects_stuck a.2
  have c := readU1_respects respects_stuck b.2
  exact c.2.2

theorem skipBytes_stuck (count : Nat) (s : STDFParser) (h : Stuck s) :
    Stuck (skipBytes count s) := by
  obtain ⟨hf, he, hs⟩ := h
  unfold skipBytes IfStream.seekgOff
  simp only [hf, if_true]
  exact ⟨rfl, rfl, hs⟩

theorem parseRecord_stuck (s : STDFParser) (h : Stuck s) : Stuck (parseRecord s).2 := by
  have hh := readRecordHeader_stuck s h
  cases hk : specDispatch (readRecordHeader s).1.recordType (readRecordHeader s).1.recordSub with
  | none =>
    rw [parseRecord_unmapped s hk]
    exact skipBytes_stuck _ _ hh
  | some k =>
    obtain ⟨r, -, -, -, h4⟩ := parseRecord_respects respects_stuck (s := s) (t := s) rfl rfl
      ⟨rfl, hh⟩ hk
    exact h4.2

theorem parseFileLoop_stuck (fuel : Nat) :
    ∀ (records : List STDFRecord) (s : STDFParser), Stuck s →
      parseFileLoop fuel records s = none := by
  induction fuel with
  | zero => intro records s _; rfl
  | succ fuel ih =>
    intro records s h
    have e : parseFileLoop (fuel + 1) records s =
        if (isEndOfFile s).1 then some (records, (isEndOfFile s).2)
        else parseFileLoop fuel
          (match (parseNextRecord (isEndOfFile s).2).1 with
            | some r => records ++ [r]
            | none => records) (parseNextRecord (isEndOfFile s).2).2 := rfl
    have h0 : (isEndOfFile s).1 = false := isEndOfFile_failed s h.2.1 h.1 h.2.2
    have e2 : parseNextRecord s =
        if (isEndOfFile s).1 then (none, (isEndOfFile s).2)
        else parseRecord (isEndOfFile s).2 := rfl
    rw [e, h0, isEndOfFile_state]
    simp only [Bool.false_eq_true, if_false]
    apply ih
    rw [e2, h0, isEndOfFile_state]
    exact parseRecord_stuck s h

theorem parseFile_stuck (fuel : Nat) (s : STDFParser) (h : Stuck s) :
    parseFile fuel s = none := by
  have e : parseFile fuel s = parseFileLoop fuel []
      (STDFParser.mk (s.file_.seekgOff 0 .beg) s.fileSize_ s.endianSwap_ s.uninit) := rfl
  rw [e]
  apply parseFileLoop_stuck
  obtain ⟨hf, he, hs⟩ := h
  unfold IfStream.seekgOff
  simp only [hf, if_true]
  exact ⟨rfl, rfl, hs⟩

/-- C28: on every input shorter than the four header bytes, the empty input included,
`parseFile` does not terminate: the stream is failed from the start, `isEndOfFile()` stays
false and the read offset never moves, so that the loop is still running after any number of
iterations.  The same happens on the 7-byte input `02 00 00 0A 02 04 FF` (one complete record
and one stray byte): the header read runs short, the pair read is unmapped and the `seekg`
of `skipBytes` clears `eofbit`. -/
theorem parseFile_never_ends (contents uninit : List Byte) (fuel : Nat)
    (h : contents.length < 4) :
    parseFile fuel (STDFParser.construct contents uninit) = none ∧
      parseFile fuel (STDFParser.construct [2, 0, 0, 10, 2, 4, 255] []) = none := by
  constructor
  · obtain ⟨he, hf, hs⟩ := construct_short contents uninit h
    exact parseFile_stuck fuel _ ⟨hf, he, by rw [hs]; omega⟩
  · cases fuel with
    | zero => rfl
    | succ fuel =>
      cases fuel with
      | zero => rfl
      | succ fuel =>
        have e : parseFile (fuel + 1 + 1) (STDFParser.construct [2, 0, 0, 10, 2, 4, 255] []) =
            parseFileLoop fuel [STDFRecord.far (FARRecord.mk 2 4)]
              (STDFParser.mk (IfStream.mk [2, 0, 0, 10, 2, 4, 255] 7 false true) 7 false []) := by
          rfl
        rw [e]
        exact parseFileLoop_stuck fuel _ _ ⟨rfl, rfl, by decide⟩

/-- Witness of C28: the empty input. -/
theorem parseFile_never_ends_witness :
    parseFile 1000 (STDFParser.construct [] []) = none :=
  (parseFile_never_ends [] [] 1000 (by decide)).1

/-! ## The textual rendering of a record -/

theorem lit_append (a b : String) : lit (a ++ b) = lit a ++ lit b := by
  simp [lit, String.toList]

theorem render_starts (kind : String) (lines : List Line) :
    lit (kind ++ " Record:\n") <+: render kind lines := by
  unfold render
  rw [lit_append]
  exact List.prefix_append _ _

theorem render_ne_nil (kind : String) (lines : List Line) : render kind lines ≠ [] := by
  unfold render
  intro h
  have h2 := (List.append_eq_nil.1 h).1
  have h3 := (List.append_eq_nil.1 h2).2
  exact absurd h3 (by decide)

theorem name_infix_render (l : Line) : lit l.name <:+: l.render := by
  unfold Line.render
  cases l.value with
  | plain v => exact ⟨lit "  ", lit ": " ++ v ++ lit "\n", by simp only [List.append_assoc]⟩
  | quoted v =>
    exact ⟨lit "  ", lit ": " ++ [34] ++ v ++ [34] ++ lit "\n", by simp only [List.append_assoc]⟩
  | ticked v =>
    exact ⟨lit "  ", lit ": " ++ [39] ++ v ++ [39] ++ lit "\n", by simp only [List.append_assoc]⟩
  | hex v => exact ⟨lit "  ", lit ": 0x" ++ v ++ lit "\n", by simp only [List.append_assoc]⟩

theorem line_infix_render (kind : String) (lines : List Line) (l : Line) (h : l ∈ lines) :
    lit l.name <:+: render kind lines := by
  have h1 : l.render <:+: (lines.map Line.render).flatten :=
    List.infix_of_mem_flatten (List.mem_map_of_mem _ h)
  have h2 : (lines.map Line.render).flatten <:+: render kind lines :=
    (List.suffix_append _ _).isInfix
  exact (name_infix_render l).trans (h1.trans h2)

/-- C22: for every record of each of the ten kinds and every assignment of its members,
`toString()` is not empty and begins with the header line of the kind, `FAR Record:`,
`MIR Record:`, `PIR Record:`, `PRR Record:`, `PTR Record:`, `FTR Record:`, `HBR Record:`,
`SBR Record:`, `WIR Record:` or `WRR Record:`, followed by a newline. -/
theorem toString_header (r : STDFRecord) :
    r.toString ≠ [] ∧
      lit ((match r.getRecordType with
        | .FAR => "FAR" | .MIR => "MIR" | .PIR => "PIR" | .PRR => "PRR" | .PTR => "PTR"
        | .FTR => "FTR" | .HBR => "HBR" | .SBR => "SBR" | .WIR => "WIR" | .WRR => "WRR"
        | _ => "") ++ " Record:\n") <+: r.toString := by
  cases r <;> exact ⟨render_ne_nil _ _, render_starts _ _⟩

set_option maxRecDepth 1000000 in
/-- Counterexample of C23: the rendering of a Part Results record (here the one with every
member at its initial value) does not contain the name `PART_FIX`. -/
theorem toString_prr_omits_part_fix : ¬ (lit "PART_FIX" <:+: PRRRecord.toString {}) := by
  decide

/-- C23 (as the code has it): after the header line `toString()` renders one labelled line
for each member in the lists below, in this order, and no other labelled line; the name of
each of them is contained in the text.  FAR, MIR, PIR, HBR, SBR, WIR and WRR render every
member; PRR renders every member but `PART_FIX`; PTR renders the eight members before
`OPT_FLAG`, `RES_SCAL` when bit 0x01 is set, `LLM_SCAL` and `LO_LIMIT` when 0x02 or 0x04 is
set, `HLM_SCAL` and `HI_LIMIT` when 0x08 or 0x10 is set, and `UNITS`; FTR renders every member
but the four arrays, `FAIL_PIN` and `SPIN_MAP`. -/
theorem toString_names :
    (∀ r : FARRecord, r.lines.map Line.name =
      ["CPU_TYP", "STDF_VER"]) ∧
    (∀ r : MIRRecord, r.lines.map Line.name =
      ["SETUP_T", "START_T", "STAT_NUM", "MODE_COD", "RTST_COD", "PROT_COD",
        "BURN_TIM", "CMOD_COD", "LOT_ID", "PART_TYP", "NODE_NAM", "TSTR_TYP",
        "JOB_NAM", "JOB_REV", "SBLOT_ID", "OPER_NAM", "EXEC_TYP", "EXEC_VER",
        "TEST_COD", "TST_TEMP", "USER_TXT", "AUX_FILE", "PKG_TYP", "FAMLY_ID",
        "DATE_COD", "FACIL_ID", "FLOOR_ID", "PROC_ID", "OPER_FRQ", "SPEC_NAM",
        "SPEC_VER", "FLOW_ID", "SETUP_ID", "DSGN_REV", "ENG_ID", "ROM_COD", "SERL_NUM",
        "SUPR_NAM"]) ∧
    (∀ r : PIRRecord, r.lines.map Line.name =
      ["HEAD_NUM", "SITE_NUM"]) ∧
    (∀ r : PRRRecord, r.lines.map Line.name =
      ["HEAD_NUM", "SITE_NUM", "PART_FLG", "NUM_TEST", "HARD_BIN", "SOFT_BIN",
        "X_COORD", "Y_COORD", "TEST_T", "PART_ID", "PART_TXT"]) ∧
    (∀ r : PTRRecord, r.lines.map Line.name =
      ["TEST_NUM", "HEAD_NUM", "SITE_NUM", "TEST_FLG", "PARM_FLG", "RESULT",
        "TEST_TXT", "ALARM_ID"] ++
      (if r.OPT_FLAG &&& 0x01 ≠ 0 then ["RES_SCAL"] else []) ++
      (if r.OPT_FLAG &&& 0x06 ≠ 0 then ["LLM_SCAL", "LO_LIMIT"] else []) ++
      (if r.OPT_FLAG &&& 0x18 ≠ 0 then ["HLM_SCAL", "HI_LIMIT"] else []) ++
      ["UNITS"]) ∧
    (∀ r : FTRRecord, r.lines.map Line.name =
      ["TEST_NUM", "HEAD_NUM", "SITE_NUM", "TEST_FLG", "OPT_FLAG", "CYCL_CNT",
        "REL_VADR", "REPT_CNT", "NUM_FAIL", "XFAIL_AD", "YFAIL_AD", "VECT_OFF",
        "RTN_ICNT", "PGM_ICNT", "VECT_NAM", "TIME_SET", "OP_CODE", "TEST_TXT",
        "ALARM_ID", "PROG_TXT", "RSLT_TXT", "PATG_NUM"]) ∧
    (∀ r : HBRRecord, r.lines.map Line.name =
      ["HEAD_NUM", "SITE_NUM", "HBIN_NUM", "HBIN_CNT", "HBIN_PF", "HBIN_NAM"]) ∧
    (∀ r : SBRRecord, r.lines.map Line.name =
      ["HEAD_NUM", "SITE_NUM", "SBIN_NUM", "SBIN_CNT", "SBIN_PF", "SBIN_NAM"]) ∧
    (∀ r : WIRRecord, r.lines.map Line.name =
      ["HEAD_NUM", "SITE_GRP", "START_T", "WAFER_ID"]) ∧
    (∀ r : WRRRecord, r.lines.map Line.name =
      ["HEAD_NUM", "SITE_GRP", "FINISH_T", "PART_CNT", "RTST_CNT", "ABRT_CNT",
        "GOOD_CNT", "FUNC_CNT", "WAFER_ID", "FABWF_ID", "FRAME_ID", "MASK_ID",
        "USR_DESC", "EXC_DESC"]) ∧
    (∀ (r : STDFRecord) (l : Line),
      (l ∈ (match r with
        | .far x => x.lines | .mir x => x.lines | .pir x => x.lines | .prr x => x.lines
        | .ptr x => x.lines | .ftr x => x.lines | .hbr x => x.lines | .sbr x => x.lines
        | .wir x => x.lines | .wrr x => x.lines)) →
      lit l.name <:+: r.toString) := by
  refine ⟨fun _ => rfl, fun _ => rfl, fun _ => rfl, fun _ => rfl, ?_, fun _ => rfl,
    fun _ => rfl, fun _ => rfl, fun _ => rfl, fun _ => rfl, ?_⟩
  · intro r
    unfold PTRRecord.lines
    simp only [List.map_append, apply_ite (List.map Line.name), List.map_cons, List.map_nil]
  · intro r l h
    cases r <;> exact line_infix_render _ _ l h

/-! ## The dispatch of insertRecord -/

theorem route_getRecordType (r : STDFRecord) :
    Database.route r.getRecordType ≠ .unsupported := by
  cases r <;> simp [STDFRecord.getRecordType, Database.route]

theorem insertRow_ready (db : Database) (table : String) (row : Row) (h : db.Ready)
    (ht : table ∈ Database.tableNames) :
    (db.insertRow table row).1 = true ∧ (db.insertRow table row).2.Ready := by
  obtain ⟨tables, e, all⟩ := h
  have hp : db.prepareStatement table = (true, db) := by
    simp only [Database.prepareStatement, e, all table ht, if_true]
  refine ⟨by simp only [Database.insertRow, hp, if_true], ?_⟩
  simp only [Database.insertRow, hp, if_true, e, Option.map_some']
  refine ⟨_, rfl, fun t mt => ?_⟩
  have a := all t mt
  simp only [List.any_eq_true, decide_eq_true_eq] at a ⊢
  obtain ⟨x, mx, ex⟩ := a
  refine ⟨_, List.mem_map_of_mem _ mx, ?_⟩
  split <;> exact ex

theorem fresh_ready (dbPath : String) : (Database.fresh dbPath).Ready :=
  ⟨_, rfl, by decide⟩

theorem insertRecord_ready (db : Database) (r : STDFRecord) (h : db.Ready) :
    ∃ d, db.insertRecord r = some (true, d) ∧ d.Ready := by
  cases r with
  | far x =>
    have a := insertRow_ready db "far_records" x.row h (by decide)
    exact ⟨(db.insertFAR x).2, congrArg some (Prod.ext a.1 rfl), a.2⟩
  | mir x =>
    have a := insertRow_ready db "mir_records" x.row h (by decide)
    exact ⟨(db.insertMIR x).2, congrArg some (Prod.ext a.1 rfl), a.2⟩
  | pir x =>
    have a := insertRow_ready db "pir_records" x.row h (by decide)
    exact ⟨(db.insertPIR x).2, congrArg some (Prod.ext a.1 rfl), a.2⟩
  | prr x =>
    have a := insertRow_ready db "prr_records" x.row h (by decide)
    exact ⟨(db.insertPRR x).2, congrArg some (Prod.ext a.1 rfl), a.2⟩
  | ptr x =>
    have a := insertRow_ready db "ptr_records" x.row h (by decide)
    exact ⟨(db.insertPTR x).2, congrArg some (Prod.ext a.1 rfl), a.2⟩
  | ftr x =>
    have a := insertRow_ready db "ftr_records" x.row h (by decide)
    exact ⟨(db.insertFTR x).2, congrArg some (Prod.ext a.1 rfl), a.2⟩
  | hbr x =>
    have a := insertRow_ready db "hbr_records" x.row h (by decide)
    exact ⟨(db.insertHBR x).2, congrArg some (Prod.ext a.1 rfl), a.2⟩
  | sbr x =>
    have a := insertRow_ready db "sbr_records" x.row h (by decide)
    exact ⟨(db.insertSBR x).2, congrArg some (Prod.ext a.1 rfl), a.2⟩
  | wir x =>
    have a := insertRow_ready db "wir_records" x.row h (by decide)
    exact ⟨(db.insertWIR x).2, congrArg some (Prod.ext a.1 rfl), a.2⟩
  | wrr x =>
    have a := insertRow_ready db "wrr_records" x.row h (by decide)
    exact ⟨(db.insertWRR x).2, congrArg some (Prod.ext a.1 rfl), a.2⟩

theorem insertAll_ready (records : List STDFRecord) :
    ∀ (n : Nat) (db : Database), db.Ready →
      (records.foldl
        (fun acc rec =>
          match acc.2.insertRecord rec with
          | some result => (if result.1 then acc.1 + 1 else acc.1, result.2)
          | none => acc)
        (n, db)).1 = n + records.length := by
  induction records with
  | nil => intro n db _; rfl
  | cons r rs ih =>
    intro n db h
    obtain ⟨d, e, hd⟩ := insertRecord_ready db r h
    rw [List.foldl_cons]
    simp only [e, if_true]
    rw [ih _ _ hd, List.length_cons]
    omega

/-- C25: every record is accepted by the dispatch of `Database::insertRecord`.  For a record
of each of the ten kinds (the only kinds `parseRecord` produces) the `switch` chooses the
insert routine of that kind, the call is the call of that routine on the record, and the
`default` branch with "Unsupported record type for insertion" is not reached.  So of the
records returned by `parseFile` all are routed, and on a database with the ten tables every
call returns true: the number of records inserted is the number of records parsed. -/
theorem insertRecord_routes (db : Database) :
    (∀ r : STDFRecord,
      Database.route r.getRecordType ≠ .unsupported ∧
      Database.route r.getRecordType =
        (match r with
          | .far _ => .insertFAR | .mir _ => .insertMIR | .pir _ => .insertPIR
          | .prr _ => .insertPRR | .ptr _ => .insertPTR | .ftr _ => .insertFTR
          | .hbr _ => .insertHBR | .sbr _ => .insertSBR | .wir _ => .insertWIR
          | .wrr _ => .insertWRR) ∧
      db.insertRecord r = some
        (match r with
          | .far x => db.insertFAR x | .mir x => db.insertMIR x | .pir x => db.insertPIR x
          | .prr x => db.insertPRR x | .ptr x => db.insertPTR x | .ftr x => db.insertFTR x
          | .hbr x => db.insertHBR x | .sbr x => db.insertSBR x | .wir x => db.insertWIR x
          | .wrr x => db.insertWRR x)) ∧
    (∀ (fuel : Nat) (s : STDFParser) (out : List STDFRecord × STDFParser),
      parseFile fuel s = some out →
      (out.1.filter fun r => decide (Database.route r.getRecordType ≠ .unsupported)).length =
        out.1.length ∧
      ∀ dbPath, ((Database.fresh dbPath).insertAll out.1).1 = out.1.length) := by
  refine ⟨fun r => ⟨route_getRecordType r, ?_⟩, fun fuel s out _ => ⟨?_, fun dbPath => ?_⟩⟩
  · cases r <;> exact ⟨rfl, rfl⟩
  · rw [List.filter_eq_self.2]
    intro r _
    exact decide_eq_true (route_getRecordType r)
  · have a := insertAll_ready out.1 0 _ (fresh_ready dbPath)
    rw [Nat.zero_add] at a
    exact a

/-! ## Statistics of the parts inserted -/

theorem fresh_db (dbPath : String) : (Database.fresh dbPath).db_ = some (tablesWith []) := rfl

theorem insertPRR_tables (db : Database) (rows : List Row) (r : PRRRecord)
    (h : db.db_ = some (tablesWith rows)) :
    (db.insertPRR r).2.db_ = some (tablesWith (rows ++ [r.row])) := by
  simp [Database.insertPRR, Database.insertRow, Database.prepareStatement, h, tablesWith]

theorem insertPRRs_tables (records : List PRRRecord) :
    ∀ (db : Database) (rows : List Row), db.db_ = some (tablesWith rows) →
      (db.insertPRRs records).db_ = some (tablesWith (rows ++ records.map PRRRecord.row)) := by
  induction records with
  | nil => intro db rows h; simpa [Database.insertPRRs] using h
  | cons r rs ih =>
    intro db rows h
    have a := ih _ _ (insertPRR_tables db rows r h)
    simp only [Database.insertPRRs, List.foldl_cons, List.map_cons] at a ⊢
    rw [a, List.append_assoc]
    rfl

theorem countRows_prr (db : Database) (rows : List Row) (p : Row → Bool)
    (h : db.db_ = some (tablesWith rows)) :
    db.countRows "prr_records" p = (some (toSigned 32 (rows.filter p).length), db) := by
  simp [Database.countRows, Database.prepareStatement, Database.rows, h, tablesWith, List.lookup]

theorem countRows_ptr (db : Database) (rows : List Row) (p : Row → Bool)
    (h : db.db_ = some (tablesWith rows)) :
    db.countRows "ptr_records" p = (some 0, db) := by
  simp [Database.countRows, Database.prepareStatement, Database.rows, h, tablesWith, List.lookup,
    toSigned]

theorem bitLengthAux_spec : ∀ (fuel n : Nat), n ≤ fuel → 0 < n →
    2 ^ (bitLengthAux fuel n - 1) ≤ n ∧ n < 2 ^ bitLengthAux fuel n ∧ 0 < bitLengthAux fuel n
  | 0, n, h, hn => by omega
  | fuel + 1, n, h, hn => by
    have hn0 : n ≠ 0 := by omega
    simp only [bitLengthAux, if_neg hn0]
    by_cases h2 : n / 2 = 0
    · have e : bitLengthAux fuel (n / 2) = 0 := by
        rw [h2]; cases fuel <;> simp [bitLengthAux]
      rw [e]
      simp
      omega
    · obtain ⟨a, b, c⟩ := bitLengthAux_spec fuel (n / 2) (by omega) (by omega)
      refine ⟨?_, ?_, by omega⟩
      · have : bitLengthAux fuel (n / 2) + 1 - 1 = (bitLengthAux fuel (n / 2) - 1) + 1 := by omega
        rw [this, pow_succ]
        omega
      · rw [pow_succ]
        omega

theorem bitLength_spec (n : Nat) (hn : 0 < n) :
    2 ^ (bitLength n - 1) ≤ n ∧ n < 2 ^ bitLength n ∧ 0 < bitLength n :=
  bitLengthAux_spec n n (le_refl n) hn


theorem roundHalfEven_err (n d : Nat) (hd : 0 < d) :
    |((roundHalfEven n d : Nat) : ℚ) - (n : ℚ) / (d : ℚ)| ≤ 1 / 2 := by
  have hdq : (0 : ℚ) < (d : ℚ) := by exact_mod_cast hd
  have e : (n : ℚ) = (d : ℚ) * ((n / d : Nat) : ℚ) + ((n % d : Nat) : ℚ) := by
    exact_mod_cast (Nat.div_add_mod n d).symm
  have key : (n : ℚ) / (d : ℚ) = ((n / d : Nat) : ℚ) + ((n % d : Nat) : ℚ) / (d : ℚ) := by
    rw [eq_comm, ← sub_eq_zero]
    field_simp
    linarith
  have hf0 : (0 : ℚ) ≤ ((n % d : Nat) : ℚ) / (d : ℚ) := by positivity
  rw [key, abs_le]
  unfold roundHalfEven
  by_cases h1 : 2 * (n % d) < d
  · rw [if_pos h1]
    have : ((n % d : Nat) : ℚ) / (d : ℚ) ≤ 1 / 2 := by
      rw [div_le_iff₀ hdq]
      have : (2 : ℚ) * ((n % d : Nat) : ℚ) < (d : ℚ) := by exact_mod_cast h1
      linarith
    constructor <;> linarith
  · rw [if_neg h1]
    by_cases h2 : d < 2 * (n % d)
    · rw [if_pos h2]
      have a : 1 / 2 ≤ ((n % d : Nat) : ℚ) / (d : ℚ) := by
        rw [le_div_iff₀ hdq]
        have : (d : ℚ) < (2 : ℚ) * ((n % d : Nat) : ℚ) := by exact_mod_cast h2
        linarith
      have b : ((n % d : Nat) : ℚ) / (d : ℚ) ≤ 1 := by
        rw [div_le_iff₀ hdq]
        have : ((n % d : Nat) : ℚ) < (d : ℚ) := by exact_mod_cast Nat.mod_lt n hd
        linarith
      push_cast
      constructor <;> linarith
    · rw [if_neg h2]
      have h3 : 2 * (n % d) = d := by omega
      have a : ((n % d : Nat) : ℚ) / (d : ℚ) = 1 / 2 := by
        rw [div_eq_iff (ne_of_gt hdq)]
        have : (2 : ℚ) * ((n % d : Nat) : ℚ) = (d : ℚ) := by exact_mod_cast h3
        linarith
      split
      · constructor <;> linarith
      · push_cast
        constructor <;> linarith

theorem two_zpow_split (e : Int) :
    (2 : ℚ) ^ e.toNat / (2 : ℚ) ^ (-e).toNat = (2 : ℚ) ^ e := by
  rcases le_total 0 e with h | h
  · have a : (-e).toNat = 0 := Int.toNat_eq_zero.2 (by omega)
    rw [a, pow_zero, div_one]
    conv_rhs => rw [← Int.toNat_of_nonneg h]
    rw [zpow_natCast]
  · have a : e.toNat = 0 := Int.toNat_eq_zero.2 h
    have b : e = -(((-e).toNat : Nat) : Int) := by
      rw [Int.toNat_of_nonneg (by omega)]; omega
    rw [a, pow_zero]
    conv_rhs => rw [b]
    rw [zpow_neg, zpow_natCast, one_div]

theorem scaled_eq (num den : Nat) (e : Int) :
    ((num * 2 ^ (-e).toNat : Nat) : ℚ) / ((den * 2 ^ e.toNat : Nat) : ℚ) =
      (num : ℚ) / (den : ℚ) * (2 : ℚ) ^ (-e) := by
  have a := two_zpow_split (-e)
  rw [neg_neg] at a
  rw [← a]
  push_cast
  have h1 : (2 : ℚ) ^ e.toNat ≠ 0 := by positivity
  by_cases hd : (den : ℚ) = 0
  · simp [hd]
  · field_simp

theorem round_at (neg : Bool) (num den : Nat) (e : Int) (hd : 0 < den)
    (hlo : (2 : ℚ) ^ 52 ≤ (num : ℚ) / (den : ℚ) * (2 : ℚ) ^ (-e))
    (hhi : (num : ℚ) / (den : ℚ) * (2 : ℚ) ^ (-e) < (2 : ℚ) ^ 53)
    (r : Double)
    (hr : r = if roundHalfEven (num * 2 ^ (-e).toNat) (den * 2 ^ e.toNat) = 2 ^ 53 then
        { neg := neg, m := 2 ^ 52, e := e + 1 }
      else { neg := neg, m := roundHalfEven (num * 2 ^ (-e).toNat) (den * 2 ^ e.toNat), e := e }) :
    r.neg = neg ∧ 2 ^ 52 ≤ r.m ∧ r.m < 2 ^ 53 ∧
      |(r.m : ℚ) * (2 : ℚ) ^ r.e - (num : ℚ) / (den : ℚ)| ≤ (num : ℚ) / (den : ℚ) / 2 ^ 53 := by
  have hB : 0 < den * 2 ^ e.toNat := Nat.mul_pos hd (by positivity)
  have err := roundHalfEven_err (num * 2 ^ (-e).toNat) (den * 2 ^ e.toNat) hB
  rw [scaled_eq] at err
  generalize roundHalfEven (num * 2 ^ (-e).toNat) (den * 2 ^ e.toNat) = m at err hr
  generalize hx : (num : ℚ) / (den : ℚ) = x at *
  have he : (0 : ℚ) < (2 : ℚ) ^ e := by positivity
  have hS : x * (2 : ℚ) ^ (-e) * (2 : ℚ) ^ e = x := by
    rw [mul_assoc, ← zpow_add₀ (by norm_num : (2 : ℚ) ≠ 0)]; simp
  rw [abs_le] at err
  have m_lo : 2 ^ 52 ≤ m := by
    by_contra hc
    have : m + 1 ≤ 2 ^ 52 := by omega
    have : ((m + 1 : Nat) : ℚ) ≤ ((2 ^ 52 : Nat) : ℚ) := by exact_mod_cast this
    push_cast at this
    linarith [err.1, err.2]
  have m_hi : m ≤ 2 ^ 53 := by
    by_contra hc
    have : 2 ^ 53 + 1 ≤ m := by omega
    have : ((2 ^ 53 + 1 : Nat) : ℚ) ≤ (m : ℚ) := by exact_mod_cast this
    push_cast at this
    linarith [err.1, err.2]
  have val : |(m : ℚ) * (2 : ℚ) ^ e - x| ≤ x / 2 ^ 53 := by
    have e1 : (m : ℚ) * (2 : ℚ) ^ e - x = ((m : ℚ) - x * (2 : ℚ) ^ (-e)) * (2 : ℚ) ^ e := by
      rw [sub_mul, hS]
    have e2 : x / 2 ^ 53 = x * (2 : ℚ) ^ (-e) / 2 ^ 53 * (2 : ℚ) ^ e := by
      rw [div_mul_eq_mul_div, hS]
    rw [e1, e2, abs_mul, abs_of_pos he]
    apply mul_le_mul_of_nonneg_right _ (le_of_lt he)
    rw [abs_le]
    have : (1 : ℚ) / 2 ≤ x * (2 : ℚ) ^ (-e) / 2 ^ 53 := by
      rw [le_div_iff₀ (by positivity)]
      linarith
    constructor <;> linarith [err.1, err.2]
  by_cases h53 : m = 2 ^ 53
  · rw [if_pos h53] at hr
    subst hr
    refine ⟨rfl, le_refl _, by norm_num, ?_⟩
    have : ((2 ^ 52 : Nat) : ℚ) * (2 : ℚ) ^ (e + 1) = (m : ℚ) * (2 : ℚ) ^ e := by
      rw [h53, zpow_add₀ (by norm_num : (2 : ℚ) ≠ 0)]
      push_cast
      ring
    show |((2 ^ 52 : Nat) : ℚ) * (2 : ℚ) ^ (e + 1) - x| ≤ _
    rw [this]
    exact val
  · rw [if_neg h53] at hr
    subst hr
    exact ⟨rfl, m_lo, lt_of_le_of_ne m_hi h53, val⟩

theorem natCast_bounds (n : Nat) (hn : 0 < n) :
    (2 : ℚ) ^ ((bitLength n : Int) - 1) ≤ (n : ℚ) ∧ (n : ℚ) < (2 : ℚ) ^ (bitLength n : Int) := by
  obtain ⟨a, b, c⟩ := bitLength_spec n hn
  constructor
  · have e : ((bitLength n : Int) - 1) = ((bitLength n - 1 : Nat) : Int) := by omega
    rw [e, zpow_natCast]
    exact_mod_cast a
  · rw [zpow_natCast]
    exact_mod_cast b

theorem round_spec (neg : Bool) (num den : Nat) (hn : 0 < num) (hd : 0 < den) :
    (Double.round neg num den).neg = neg ∧ 2 ^ 52 ≤ (Double.round neg num den).m ∧
      (Double.round neg num den).m < 2 ^ 53 ∧
      |((Double.round neg num den).m : ℚ) * (2 : ℚ) ^ (Double.round neg num den).e -
        (num : ℚ) / (den : ℚ)| ≤ (num : ℚ) / (den : ℚ) / 2 ^ 53 := by
  have two : (2 : ℚ) ≠ 0 := by norm_num
  obtain ⟨n1, n2⟩ := natCast_bounds num hn
  obtain ⟨d1, d2⟩ := natCast_bounds den hd
  have hdq : (0 : ℚ) < (den : ℚ) := by exact_mod_cast hd
  unfold Double.round
  rw [if_neg (by omega : ¬ num = 0)]
  dsimp only
  generalize (bitLength num : Int) = L1 at n1 n2 ⊢
  generalize (bitLength den : Int) = L2 at d1 d2 ⊢
  have hn0 : num ≠ 0 := by omega
  -- the quotient scaled by the first exponent
  have lo0 : (2 : ℚ) ^ 52 < (num : ℚ) / (den : ℚ) * (2 : ℚ) ^ (-(L1 - L2 - 53)) := by
    have p : (0 : ℚ) < (2 : ℚ) ^ (-(L1 - L2 - 53)) := by positivity
    have a : (2 : ℚ) ^ (L1 - 1 - L2) < (num : ℚ) / (den : ℚ) := by
      rw [lt_div_iff₀ hdq]
      calc (2 : ℚ) ^ (L1 - 1 - L2) * (den : ℚ) < (2 : ℚ) ^ (L1 - 1 - L2) * (2 : ℚ) ^ L2 :=
            mul_lt_mul_of_pos_left d2 (by positivity)
        _ = (2 : ℚ) ^ (L1 - 1) := by rw [← zpow_add₀ two]; congr 1; omega
        _ ≤ (num : ℚ) := n1
    calc (2 : ℚ) ^ 52 = (2 : ℚ) ^ (L1 - 1 - L2) * (2 : ℚ) ^ (-(L1 - L2 - 53)) := by
          rw [← zpow_add₀ two]
          have : L1 - 1 - L2 + -(L1 - L2 - 53) = ((52 : Nat) : Int) := by omega
          rw [this, zpow_natCast]
      _ < _ := mul_lt_mul_of_pos_right a p
  have hi0 : (num : ℚ) / (den : ℚ) * (2 : ℚ) ^ (-(L1 - L2 - 53)) < (2 : ℚ) ^ 54 := by
    have p : (0 : ℚ) < (2 : ℚ) ^ (-(L1 - L2 - 53)) := by positivity
    have a : (num : ℚ) / (den : ℚ) < (2 : ℚ) ^ (L1 - L2 + 1) := by
      rw [div_lt_iff₀ hdq]
      calc (num : ℚ) < (2 : ℚ) ^ L1 := n2
        _ = (2 : ℚ) ^ (L1 - L2 + 1) * (2 : ℚ) ^ (L2 - 1) := by
          rw [← zpow_add₀ two]; congr 1; omega
        _ ≤ (2 : ℚ) ^ (L1 - L2 + 1) * (den : ℚ) :=
          mul_le_mul_of_nonneg_left d1 (by positivity)
    calc _ < (2 : ℚ) ^ (L1 - L2 + 1) * (2 : ℚ) ^ (-(L1 - L2 - 53)) :=
          mul_lt_mul_of_pos_right a p
      _ = (2 : ℚ) ^ 54 := by
          rw [← zpow_add₀ two]
          have : L1 - L2 + 1 + -(L1 - L2 - 53) = ((54 : Nat) : Int) := by omega
          rw [this, zpow_natCast]
  have cond : (num * 2 ^ (-(L1 - L2 - 53)).toNat < 2 ^ 53 * (den * 2 ^ (L1 - L2 - 53).toNat)) ↔
      (num : ℚ) / (den : ℚ) * (2 : ℚ) ^ (-(L1 - L2 - 53)) < (2 : ℚ) ^ 53 := by
    rw [← scaled_eq]
    have hB : (0 : ℚ) < ((den * 2 ^ (L1 - L2 - 53).toNat : Nat) : ℚ) := by
      have : 0 < den * 2 ^ (L1 - L2 - 53).toNat := Nat.mul_pos hd (by positivity)
      exact_mod_cast this
    rw [div_lt_iff₀ hB]
    constructor
    · intro h; exact_mod_cast h
    · intro h; exact_mod_cast h
  have half : (num : ℚ) / (den : ℚ) * (2 : ℚ) ^ (-(L1 - L2 - 53 + 1)) =
      (num : ℚ) / (den : ℚ) * (2 : ℚ) ^ (-(L1 - L2 - 53)) / 2 := by
    have : -(L1 - L2 - 53 + 1) = -(L1 - L2 - 53) + (-1) := by omega
    rw [this, zpow_add₀ two]
    simp only [zpow_neg, zpow_one]
    ring
  by_cases c : num * 2 ^ (-(L1 - L2 - 53)).toNat < 2 ^ 53 * (den * 2 ^ (L1 - L2 - 53).toNat)
  · simp only [if_pos c]
    exact round_at neg num den _ hd (le_of_lt lo0) (cond.1 c) _ rfl
  · simp only [if_neg c]
    have c2 : ¬ _ := fun h => c (cond.2 h)
    refine round_at neg num den _ hd ?_ ?_ _ rfl
    · rw [half]; linarith
    · rw [half]; linarith

theorem ofInt_natCast (n : Nat) : Double.ofInt (n : Int) = { neg := false, m := n, e := 0 } := by
  have h : decide ((n : Int) < 0) = false := decide_eq_false (by omega)
  simp only [Double.ofInt, h, Int.natAbs_ofNat]

theorem yield_zero (t : Nat) :
    ((Double.ofInt ((0 : Nat) : Int)).div (Double.ofInt (t : Int))).mul (Double.ofInt 100) =
      { neg := false, m := 0, e := 0 } := by
  rw [ofInt_natCast, ofInt_natCast]
  have a : Double.div { neg := false, m := 0, e := 0 } { neg := false, m := t, e := 0 } =
      { neg := false, m := 0, e := 0 } := by
    simp [Double.div, Double.round]
  rw [a]
  simp [Double.mul, Double.ofInt, Double.round]

theorem yield_err (p t : Nat) (hp : 0 < p) (ht : 0 < t) (y : Double)
    (hy : y = ((Double.ofInt (p : Int)).div (Double.ofInt (t : Int))).mul (Double.ofInt 100)) :
    y.neg = false ∧ 2 ^ 52 ≤ y.m ∧ y.m < 2 ^ 53 ∧
      |y.toRat - 100 * (p : ℚ) / (t : ℚ)| ≤ 100 * (p : ℚ) / (t : ℚ) / 2 ^ 51 := by
  have hq : (Double.ofInt (p : Int)).div (Double.ofInt (t : Int)) = Double.round false p t := by
    rw [ofInt_natCast, ofInt_natCast]
    simp [Double.div]
  obtain ⟨q1, q2, q3, q4⟩ := round_spec false p t hp ht
  rw [hq] at hy
  generalize Double.round false p t = q at q1 q2 q3 q4 hy
  have hy2 : y = Double.round false (q.m * 100 * 2 ^ q.e.toNat) (2 ^ (-q.e).toNat) := by
    rw [hy]
    simp [Double.mul, Double.ofInt, q1]
  have hnum : 0 < q.m * 100 * 2 ^ q.e.toNat :=
    Nat.mul_pos (Nat.mul_pos (by omega) (by norm_num)) (by positivity)
  obtain ⟨y1, y2, y3, y4⟩ := round_spec false (q.m * 100 * 2 ^ q.e.toNat) (2 ^ (-q.e).toNat)
    hnum (by positivity)
  rw [← hy2] at y1 y2 y3 y4
  have hv : ((q.m * 100 * 2 ^ q.e.toNat : Nat) : ℚ) / ((2 ^ (-q.e).toNat : Nat) : ℚ) =
      100 * ((q.m : ℚ) * (2 : ℚ) ^ q.e) := by
    rw [← two_zpow_split q.e]
    push_cast
    ring
  rw [hv] at y4
  have hx : (0 : ℚ) < (p : ℚ) / (t : ℚ) := by
    have : (0 : ℚ) < (p : ℚ) := by exact_mod_cast hp
    have : (0 : ℚ) < (t : ℚ) := by exact_mod_cast ht
    positivity
  have ht : y.toRat = (y.m : ℚ) * (2 : ℚ) ^ y.e := by
    simp [Double.toRat, y1]
  refine ⟨y1, y2, y3, ?_⟩
  rw [ht]
  have e100 : 100 * (p : ℚ) / (t : ℚ) = 100 * ((p : ℚ) / (t : ℚ)) := by ring
  rw [e100]
  generalize (p : ℚ) / (t : ℚ) = x at q4 hx ⊢
  generalize (q.m : ℚ) * (2 : ℚ) ^ q.e = qv at q4 y4
  generalize (y.m : ℚ) * (2 : ℚ) ^ y.e = yv at y4 ⊢
  rw [abs_le] at q4 y4 ⊢
  have u1 : x / 2 ^ 53 = x * (1 / 2 ^ 53) := by ring
  have u2 : 100 * qv / 2 ^ 53 = 100 * qv * (1 / 2 ^ 53) := by ring
  have u3 : 100 * x / 2 ^ 51 = 100 * x * (4 / 2 ^ 53) := by ring
  rw [u1] at q4
  rw [u2] at y4
  rw [u3]
  have hu : (0 : ℚ) < 1 / 2 ^ 53 := by positivity
  have hu1 : (1 : ℚ) / 2 ^ 53 ≤ 1 := by norm_num
  generalize (1 : ℚ) / 2 ^ 53 = u at *
  have hxu : 0 ≤ x * u := by positivity
  have hxuu : x * u * u ≤ x * u := by
    have := mul_le_mul_of_nonneg_left hu1 hxu
    linarith
  constructor <;> nlinarith [q4.1, q4.2, y4.1, y4.2]

theorem toSigned_small32 (n : Nat) (h : n < 2 ^ 31) : toSigned 32 n = (n : Int) := by
  unfold toSigned
  have e : n % 2 ^ 32 = n := Nat.mod_eq_of_lt (by omega)
  rw [e, if_pos (by simpa using h)]

theorem bindInt_eq_one (v : Nat) (h : v < 2 ^ 16) :
    bindInt (v : Int) = .integer 1 ↔ v = 1 := by
  have e : toUnsigned 32 (v : Int) = v := by
    unfold toUnsigned
    have : ((v : Int) % ((2 ^ 32 : Nat) : Int)) = (v : Int) := by
      apply Int.emod_eq_of_lt <;> omega
    rw [this, Int.toNat_ofNat]
  unfold bindInt
  rw [e, toSigned_small32 v (by omega)]
  constructor
  · intro a
    injection a with a
    exact_mod_cast a
  · intro a; rw [a]; rfl

theorem statistics_of_rows (db : Database) (rows : List Row)
    (h : db.db_ = some (tablesWith rows)) :
    db.getTestStatistics.1 =
      { totalParts := toSigned 32 rows.length,
        passedParts := toSigned 32
          (rows.filter fun row => decide (row.lookup "hard_bin" = some (.integer 1))).length,
        failedParts := toSigned 32 (toUnsigned 32 (toSigned 32 rows.length - toSigned 32
          (rows.filter fun row => decide (row.lookup "hard_bin" = some (.integer 1))).length)),
        yieldPercent :=
          if toSigned 32 rows.length > 0 then
            ((Double.ofInt (toSigned 32 (rows.filter fun row =>
              decide (row.lookup "hard_bin" = some (.integer 1))).length)).div
              (Double.ofInt (toSigned 32 rows.length))).mul (Double.ofInt 100)
          else { neg := false, m := 0, e := 0 },
        totalTests := 0 } := by
  unfold Database.getTestStatistics
  simp only [countRows_prr db rows _ h, countRows_ptr db rows _ h, Option.getD_some,
    List.filter_true]

theorem lookup_hard_bin (r : PRRRecord) :
    r.row.lookup "hard_bin" = some (bindInt (r.HARD_BIN : Nat)) := by
  simp [PRRRecord.row, List.lookup]

theorem passed_rows (records : List PRRRecord) (hb : ∀ r ∈ records, r.HARD_BIN < 2 ^ 16) :
    ((records.map PRRRecord.row).filter fun row =>
      decide (row.lookup "hard_bin" = some (.integer 1))).length =
    (records.filter fun r => decide (r.HARD_BIN = 1)).length := by
  induction records with
  | nil => rfl
  | cons r rs ih =>
    have ih2 := ih fun x hx => hb x (List.mem_cons_of_mem _ hx)
    have hr := bindInt_eq_one r.HARD_BIN (hb r (List.mem_cons_self _ _))
    rw [List.map_cons, List.filter_cons, List.filter_cons, lookup_hard_bin]
    by_cases c : r.HARD_BIN = 1
    · have c2 : bindInt ((r.HARD_BIN : Nat) : Int) = .integer 1 := hr.2 c
      have c4 : decide (r.HARD_BIN = 1) = true := decide_eq_true c
      rw [c2, c4]
      simp only [decide_True, if_true, List.length_cons, ih2]
    · have c2 : ¬ bindInt ((r.HARD_BIN : Nat) : Int) = .integer 1 := fun a => c (hr.1 a)
      have c3 : ¬ some (bindInt ((r.HARD_BIN : Nat) : Int)) = some (.integer 1) :=
        fun a => c2 (Option.some.inj a)
      have c4 : decide (r.HARD_BIN = 1) = false := decide_eq_false c
      rw [c4, decide_eq_false c3]
      simp only [Bool.false_eq_true, if_false, ih2]

theorem statistics_of_records (dbPath : String) (records : List PRRRecord) :
    ((Database.fresh dbPath).insertPRRs records).db_ =
      some (tablesWith (records.map PRRRecord.row)) := by
  have a := insertPRRs_tables records _ [] (fresh_db dbPath)
  rwa [List.nil_append] at a

theorem statisticsAfter_eq (dbPath : String) (records : List PRRRecord) :
    (statisticsAfter dbPath records).totalParts = toSigned 32 records.length := by
  unfold statisticsAfter
  rw [statistics_of_rows _ _ (statistics_of_records dbPath records), List.length_map]

/-- Counterexample of C26: after 2^31 Part Results records have been inserted in a new
database, `totalParts` is -2147483648, not the number of records inserted; the count is read
with `sqlite3_column_int` into an `int`. -/
theorem getTestStatistics_total_wraps :
    (statisticsAfter "parts.db" (List.replicate (2 ^ 31) {})).totalParts = -2147483648 ∧
      ((List.replicate (2 ^ 31) ({} : PRRRecord)).length : Int) = 2147483648 := by
  rw [statisticsAfter_eq, List.length_replicate]
  exact ⟨by decide, by norm_num⟩

/-- C26 (as the code has it): after fewer than 2^31 Part Results records have been inserted
in a new database, `getTestStatistics` returns `totalParts` equal to the number of records
inserted, `passedParts` equal to the number of them with `HARD_BIN = 1`, `failedParts`
equal to their difference and `totalTests` zero; the yield is 0.0 when there is no record,
and otherwise it is the double obtained from `passedParts / totalParts * 100.0`, which is
not negative, has a 53-bit significand and differs from the exact percentage
`100 * passedParts / totalParts` by at most that percentage divided by 2^51. -/
theorem getTestStatistics_prr (dbPath : String) (records : List PRRRecord)
    (hn : records.length < 2 ^ 31) (hb : ∀ r ∈ records, r.HARD_BIN < 2 ^ 16) :
    (statisticsAfter dbPath records).totalParts = (records.length : Int) ∧
    (statisticsAfter dbPath records).passedParts =
      ((records.filter fun r => decide (r.HARD_BIN = 1)).length : Int) ∧
    (statisticsAfter dbPath records).failedParts =
      (statisticsAfter dbPath records).totalParts -
        (statisticsAfter dbPath records).passedParts ∧
    (statisticsAfter dbPath records).totalTests = 0 ∧
    (records = [] →
      (statisticsAfter dbPath records).yieldPercent = { neg := false, m := 0, e := 0 }) ∧
    (statisticsAfter dbPath records).yieldPercent.neg = false ∧
    (statisticsAfter dbPath records).yieldPercent.m < 2 ^ 53 ∧
    |(statisticsAfter dbPath records).yieldPercent.toRat -
        100 * ((records.filter fun r => decide (r.HARD_BIN = 1)).length : ℚ) /
          (records.length : ℚ)| ≤
      100 * ((records.filter fun r => decide (r.HARD_BIN = 1)).length : ℚ) /
        (records.length : ℚ) / 2 ^ 51 := by
  have hk : (records.filter fun r => decide (r.HARD_BIN = 1)).length ≤ records.length :=
    List.length_filter_le _ _
  have e : statisticsAfter dbPath records = _ :=
    statistics_of_rows _ _ (statistics_of_records dbPath records)
  rw [passed_rows records hb, List.length_map, toSigned_small32 _ hn,
    toSigned_small32 _ (lt_of_le_of_lt hk hn)] at e
  generalize (records.filter fun r => decide (r.HARD_BIN = 1)).length = k at hk e ⊢
  have hf : toSigned 32 (toUnsigned 32 ((records.length : Int) - (k : Int))) =
      (records.length : Int) - (k : Int) := by
    have e1 : (records.length : Int) - (k : Int) = ((records.length - k : Nat) : Int) := by
      omega
    have e2 : toUnsigned 32 (((records.length - k : Nat) : Int)) = records.length - k := by
      unfold toUnsigned
      have : (((records.length - k : Nat) : Int) % ((2 ^ 32 : Nat) : Int)) =
          ((records.length - k : Nat) : Int) := by
        apply Int.emod_eq_of_lt <;> omega
      rw [this, Int.toNat_ofNat]
    rw [e1, e2, toSigned_small32 _ (by omega)]
  rw [hf] at e
  rw [e]
  refine ⟨rfl, rfl, rfl, rfl, ?_, ?_⟩
  · intro h0
    have : ¬ ((records.length : Int) > 0) := by rw [h0]; simp
    simp only [if_neg this]
  · by_cases hl : records.length = 0
    · have : ¬ ((records.length : Int) > 0) := by omega
      simp only [if_neg this]
      simp [Double.toRat, hl]
    · have hp : (records.length : Int) > 0 := by omega
      simp only [if_pos hp]
      by_cases hk0 : k = 0
      · subst hk0
        rw [yield_zero]
        simp [Double.toRat]
      · obtain ⟨a, _, c, d⟩ := yield_err k records.length (by omega) (by omega) _ rfl
        exact ⟨a, c, d⟩

set_option maxRecDepth 100000 in
/-- Witness of C26: ten records, eight of them with `HARD_BIN = 1`, as in the test
`GetTestStatistics`. -/
theorem getTestStatistics_prr_witness :
    (statisticsAfter "parts.db"
        (List.replicate 8 (PRRRecord.mk 1 1 0 5 1 1 0 0 0 [] [] []) ++
          List.replicate 2 (PRRRecord.mk 1 1 0 5 2 2 0 0 0 [] [] []))).totalParts = 10 ∧
      (statisticsAfter "parts.db"
        (List.replicate 8 (PRRRecord.mk 1 1 0 5 1 1 0 0 0 [] [] []) ++
          List.replicate 2 (PRRRecord.mk 1 1 0 5 2 2 0 0 0 [] [] []))).passedParts = 8 :=
  have h := getTestStatistics_prr "parts.db"
    (List.replicate 8 (PRRRecord.mk 1 1 0 5 1 1 0 0 0 [] [] []) ++
      List.replicate 2 (PRRRecord.mk 1 1 0 5 2 2 0 0 0 [] [] []))
    (by decide) (by decide)
  ⟨h.1, h.2.1⟩

/-! ## Decoding what was encoded -/

theorem byteOf_val (n : Nat) (h : n < 256) : (byteOf n).val = n := Nat.mod_eq_of_lt h

theorem byteOf_val_mod (n : Nat) : (byteOf n).val = n % 256 := rfl

theorem Ahead.shift {s0 : STDFParser} {be : Bool} {k k2 : Nat} {bytes : List Byte}
    {s : STDFParser} (a : Ahead s0 be k bytes s) (h : k = k2) : Ahead s0 be k2 bytes s :=
  h ▸ a

theorem Ahead.read {s0 : STDFParser} {be : Bool} {k : Nat} {rest : List Byte} {s : STDFParser}
    (bs : List Byte) (a : Ahead s0 be k (bs ++ rest) s) :
    s.file_.good = true ∧ s.file_.data.drop s.file_.pos = bs ++ rest ∧ s.endianSwap_ = be ∧
      Ahead s0 be (k + bs.length) rest (advance bs.length s) := by
  obtain ⟨e, g, w, l⟩ := a
  subst e
  refine ⟨g, l, w, ⟨advance_advance _ _ _, g, w, ?_⟩⟩
  rw [← Nat.add_assoc, ← List.drop_drop, l]
  simp

theorem readU1_step {s0 : STDFParser} {be : Bool} {k : Nat} {rest : List Byte}
    {s : STDFParser} {n : Nat} (a : Ahead s0 be k (byteOf n :: rest) s) (h : n < 256) :
    (readU1 s).1 = n ∧ Ahead s0 be (k + 1) rest (readU1 s).2 := by
  obtain ⟨g, d, _, a2⟩ := Ahead.read [byteOf n] a
  rw [readU1_of_bytes s (byteOf n) rest g d]
  exact ⟨byteOf_val n h, a2⟩

theorem readC1_step {s0 : STDFParser} {be : Bool} {k : Nat} {rest : List Byte}
    {s : STDFParser} {c : Byte} (a : Ahead s0 be k (c :: rest) s) :
    (readC1 s).1 = c ∧ Ahead s0 be (k + 1) rest (readC1 s).2 := by
  obtain ⟨g, d, _, a2⟩ := Ahead.read [c] a
  have e : readC1 s = ((readRaw 1 s).1.headD 0, (readRaw 1 s).2) := rfl
  rw [e, show readRaw 1 s = ([c], advance 1 s) from readRaw_of_bytes s [c] rest g d]
  exact ⟨rfl, a2⟩

theorem readI1_step {s0 : STDFParser} {be : Bool} {k : Nat} {rest : List Byte}
    {s : STDFParser} {i : Int} (a : Ahead s0 be k (byteOf (toUnsigned 8 i) :: rest) s)
    (h : -128 ≤ i ∧ i < 128) :
    (readI1 s).1 = i ∧ Ahead s0 be (k + 1) rest (readI1 s).2 := by
  obtain ⟨g, d, _, a2⟩ := Ahead.read [byteOf (toUnsigned 8 i)] a
  have e : readI1 s = (toSigned 8 (leValue (readRaw 1 s).1), (readRaw 1 s).2) := rfl
  rw [e, show readRaw 1 s = ([byteOf (toUnsigned 8 i)], advance 1 s) from
    readRaw_of_bytes s [byteOf (toUnsigned 8 i)] rest g d]
  refine ⟨?_, a2⟩
  show toSigned 8 (leValue [byteOf (toUnsigned 8 i)]) = i
  simp only [leValue, byteOf_val_mod, toSigned, toUnsigned]
  have h1 := h.1
  have h2 := h.2
  split <;> omega

theorem readU2_step {s0 : STDFParser} {be : Bool} {k : Nat} {rest : List Byte}
    {s : STDFParser} {n : Nat} (a : Ahead s0 be k (put16 be n ++ rest) s) (h : n < 2 ^ 16) :
    (readU2 s).1 = n ∧ Ahead s0 be (k + 2) rest (readU2 s).2 := by
  cases be with
  | false =>
    obtain ⟨g, d, w, a2⟩ := Ahead.read [byteOf n, byteOf (n / 256)] a
    rw [readU2_of_bytes s _ _ rest g d, w]
    refine ⟨?_, a2⟩
    simp only [Bool.false_eq_true, if_false, byteOf_val_mod]
    show @Eq Nat _ _
    omega
  | true =>
    obtain ⟨g, d, w, a2⟩ := Ahead.read [byteOf (n / 256), byteOf n] a
    rw [readU2_of_bytes s _ _ rest g d, w]
    refine ⟨?_, a2⟩
    simp only [if_true, byteOf_val_mod]
    show @Eq Nat _ _
    omega

theorem readU4_step {s0 : STDFParser} {be : Bool} {k : Nat} {rest : List Byte}
    {s : STDFParser} {n : Nat} (a : Ahead s0 be k (put32 be n ++ rest) s) (h : n < 2 ^ 32) :
    (readU4 s).1 = n ∧ Ahead s0 be (k + 4) rest (readU4 s).2 := by
  cases be with
  | false =>
    obtain ⟨g, d, w, a2⟩ := Ahead.read
      [byteOf n, byteOf (n / 2 ^ 8), byteOf (n / 2 ^ 16), byteOf (n / 2 ^ 24)] a
    rw [readU4_of_bytes s _ _ _ _ rest g d, w]
    refine ⟨?_, a2⟩
    simp only [Bool.false_eq_true, if_false, byteOf_val_mod]
    show @Eq Nat _ _
    omega
  | true =>
    obtain ⟨g, d, w, a2⟩ := Ahead.read
      [byteOf (n / 2 ^ 24), byteOf (n / 2 ^ 16), byteOf (n / 2 ^ 8), byteOf n] a
    rw [readU4_of_bytes s _ _ _ _ rest g d, w]
    refine ⟨?_, a2⟩
    simp only [if_true, byteOf_val_mod]
    show @Eq Nat _ _
    omega

theorem readR4_step {s0 : STDFParser} {be : Bool} {k : Nat} {rest : List Byte}
    {s : STDFParser} {n : Nat} (a : Ahead s0 be k (put32 be n ++ rest) s) (h : n < 2 ^ 32) :
    (readR4 s).1 = n ∧ Ahead s0 be (k + 4) rest (readR4 s).2 :=
  readU4_step a h

theorem toSigned_toUnsigned16 (i : Int) (h : -2 ^ 15 ≤ i ∧ i < 2 ^ 15) :
    toSigned 16 (toUnsigned 16 i) = i := by
  unfold toSigned toUnsigned
  have h1 := h.1
  have h2 := h.2
  norm_num at h1 h2 ⊢
  split <;> omega

theorem toSigned_toUnsigned32 (i : Int) (h : -2 ^ 31 ≤ i ∧ i < 2 ^ 31) :
    toSigned 32 (toUnsigned 32 i) = i := by
  unfold toSigned toUnsigned
  have h1 := h.1
  have h2 := h.2
  norm_num at h1 h2 ⊢
  split <;> omega

theorem toUnsigned_lt (w : Nat) (i : Int) : toUnsigned w i < 2 ^ w := by
  unfold toUnsigned
  have p : (0 : Int) < ((2 ^ w : Nat) : Int) := by positivity
  have h1 := Int.emod_lt_of_pos i p
  have h2 := Int.emod_nonneg i (ne_of_gt p)
  omega

theorem readI2_step {s0 : STDFParser} {be : Bool} {k : Nat} {rest : List Byte}
    {s : STDFParser} {i : Int} (a : Ahead s0 be k (put16 be (toUnsigned 16 i) ++ rest) s)
    (h : -2 ^ 15 ≤ i ∧ i < 2 ^ 15) :
    (readI2 s).1 = i ∧ Ahead s0 be (k + 2) rest (readI2 s).2 := by
  obtain ⟨e, a2⟩ := readU2_step a (toUnsigned_lt 16 i)
  rw [readI2_eq]
  exact ⟨by show toSigned 16 (readU2 s).1 = i; rw [e, toSigned_toUnsigned16 i h], a2⟩

theorem readI4_step {s0 : STDFParser} {be : Bool} {k : Nat} {rest : List Byte}
    {s : STDFParser} {i : Int} (a : Ahead s0 be k (put32 be (toUnsigned 32 i) ++ rest) s)
    (h : -2 ^ 31 ≤ i ∧ i < 2 ^ 31) :
    (readI4 s).1 = i ∧ Ahead s0 be (k + 4) rest (readI4 s).2 := by
  obtain ⟨e, a2⟩ := readU4_step a (toUnsigned_lt 32 i)
  rw [readI4_eq]
  exact ⟨by show toSigned 32 (readU4 s).1 = i; rw [e, toSigned_toUnsigned32 i h], a2⟩

theorem readCn_step {s0 : STDFParser} {be : Bool} {k : Nat} {rest : List Byte}
    {s : STDFParser} {c : Cn} (a : Ahead s0 be k (putCn c ++ rest) s) (h : c.length < 256) :
    (readCn s).1 = c ∧ Ahead s0 be (k + (1 + c.length)) rest (readCn s).2 := by
  obtain ⟨g, d, _, a2⟩ := Ahead.read (putCn c) a
  have hv := byteOf_val c.length h
  rw [readCn_of_bytes s (byteOf c.length) c rest g d hv.symm, hv]
  refine ⟨rfl, ?_⟩
  have : (putCn c).length = 1 + c.length := by simp [putCn]; omega
  rw [this] at a2
  exact a2

theorem put16_length (be : Bool) (n : Nat) : (put16 be n).length = 2 := by
  cases be <;> rfl

theorem put32_length (be : Bool) (n : Nat) : (put32 be n).length = 4 := by
  cases be <;> rfl

theorem putCn_length (c : Cn) : (putCn c).length = 1 + c.length := by
  simp [putCn]; omega

theorem putBn_length (be : Bool) (b : Bn) : (putBn be b).length = 2 + b.length := by
  simp [putBn, put16_length]

theorem readBn_step {s0 : STDFParser} {be : Bool} {k : Nat} {rest : List Byte}
    {s : STDFParser} {b : Bn} (a : Ahead s0 be k (putBn be b ++ rest) s) (h : b.length < 2 ^ 16) :
    (readBn s).1 = b ∧ Ahead s0 be (k + (2 + b.length)) rest (readBn s).2 := by
  obtain ⟨g, d, w, a2⟩ := Ahead.read (putBn be b) a
  rw [putBn_length] at a2
  have e : readBn s = (b, advance (2 + b.length) s) := by
    cases be with
    | false =>
      refine readBn_of_bytes s (byteOf b.length) (byteOf (b.length / 256)) b rest g
        (by rw [d]; simp [putBn, put16]) ?_
      rw [w]
      simp only [Bool.false_eq_true, if_false, byteOf_val_mod]
      omega
    | true =>
      refine readBn_of_bytes s (byteOf (b.length / 256)) (byteOf b.length) b rest g
        (by rw [d]; simp [putBn, put16]) ?_
      rw [w]
      simp only [if_true, byteOf_val_mod]
      omega
  rw [e]
  exact ⟨rfl, a2⟩

theorem parseFAR_encode {s0 : STDFParser} {be : Bool} {k : Nat} {rest : List Byte}
    {s : STDFParser} (r : FARRecord) (w : r.WF)
    (a : Ahead s0 be k (r.encode be ++ rest) s) :
    (parseFAR s).1 = r ∧ Ahead s0 be (k + (r.encode be).length) rest (parseFAR s).2 := by
  have len : (r.encode be).length =
      1 + 1 := by
    simp only [FARRecord.encode, List.length_append, List.length_cons, List.length_nil,
      put16_length, put32_length, putCn_length, putBn_length]
  unfold FARRecord.WF at w
  obtain ⟨w0, w1⟩ := w
  simp only [FARRecord.encode, List.append_assoc, List.singleton_append] at a
  unfold parseFAR
  simp only []
  obtain ⟨e0, a0⟩ := readU1_step a w0
  generalize readU1 s = x0 at e0 a0 ⊢
  obtain ⟨e1, a1⟩ := readU1_step a0 w1
  generalize readU1 x0.2 = x1 at e1 a1 ⊢
  refine ⟨?_, a1.shift (by omega)⟩
  simp only [e0, e1]

theorem parseMIR_encode {s0 : STDFParser} {be : Bool} {k : Nat} {rest : List Byte}
    {s : STDFParser} (r : MIRRecord) (w : r.WF)
    (a : Ahead s0 be k (r.encode be ++ rest) s) :
    (parseMIR s).1 = r ∧ Ahead s0 be (k + (r.encode be).length) rest (parseMIR s).2 := by
  have len : (r.encode be).length =
      4 + 4 + 1 + 1 + 1 + 1 + 2 + 1 + (1 + r.LOT_ID.length) + (1 + r.PART_TYP.length) +
      (1 + r.NODE_NAM.length) + (1 + r.TSTR_TYP.length) + (1 + r.JOB_NAM.length) +
      (1 + r.JOB_REV.length) + (1 + r.SBLOT_ID.length) + (1 + r.OPER_NAM.length) +
      (1 + r.EXEC_TYP.length) + (1 + r.EXEC_VER.length) + (1 + r.TEST_COD.length) +
      (1 + r.TST_TEMP.length) + (1 + r.USER_TXT.length) + (1 + r.AUX_FILE.length) +
      (1 + r.PKG_TYP.length) + (1 + r.FAMLY_ID.length) + (1 + r.DATE_COD.length) +
      (1 + r.FACIL_ID.length) + (1 + r.FLOOR_ID.length) + (1 + r.PROC_ID.length) +
      (1 + r.OPER_FRQ.length) + (1 + r.SPEC_NAM.length) + (1 + r.SPEC_VER.length) +
      (1 + r.FLOW_ID.length) + (1 + r.SETUP_ID.length) + (1 + r.DSGN_REV.length) +
      (1 + r.ENG_ID.length) + (1 + r.ROM_COD.length) + (1 + r.SERL_NUM.length) +
      (1 + r.SUPR_NAM.length) := by
    simp only [MIRRecord.encode, List.length_append, List.length_cons, List.length_nil,
      put16_length, put32_length, putCn_length, putBn_length]
  unfold MIRRecord.WF at w
  obtain ⟨w0, w1, w2, w3, w4, w5, w6, w7, w8, w9, w10, w11, w12, w13, w14, w15, w16, w17, w18, w19, w20, w21, w22, w23, w24, w25, w26, w27, w28, w29, w30, w31, w32, w33⟩ := w
  simp only [MIRRecord.encode, List.append_assoc, List.singleton_append] at a
  unfold parseMIR
  simp only []
  obtain ⟨e0, a0⟩ := readU4_step a w0
  generalize readU4 s = x0 at e0 a0 ⊢
  obtain ⟨e1, a1⟩ := readU4_step a0 w1
  generalize readU4 x0.2 = x1 at e1 a1 ⊢
  obtain ⟨e2, a2⟩ := readU1_step a1 w2
  generalize readU1 x1.2 = x2 at e2 a2 ⊢
  obtain ⟨e3, a3⟩ := readC1_step a2
  generalize readC1 x2.2 = x3 at e3 a3 ⊢
  obtain ⟨e4, a4⟩ := readC1_step a3
  generalize readC1 x3.2 = x4 at e4 a4 ⊢
  obtain ⟨e5, a5⟩ := readC1_step a4
  generalize readC1 x4.2 = x5 at e5 a5 ⊢
  obtain ⟨e6, a6⟩ := readU2_step a5 w3
  generalize readU2 x5.2 = x6 at e6 a6 ⊢
  obtain ⟨e7, a7⟩ := readC1_step a6
  generalize readC1 x6.2 = x7 at e7 a7 ⊢
  obtain ⟨e8, a8⟩ := readCn_step a7 w4
  generalize readCn x7.2 = x8 at e8 a8 ⊢
  obtain ⟨e9, a9⟩ := readCn_step a8 w5
  generalize readCn x8.2 = x9 at e9 a9 ⊢
  obtain ⟨e10, a10⟩ := readCn_step a9 w6
  generalize readCn x9.2 = x10 at e10 a10 ⊢
  obtain ⟨e11, a11⟩ := readCn_step a10 w7
  generalize readCn x10.2 = x11 at e11 a11 ⊢
  obtain ⟨e12, a12⟩ := readCn_step a11 w8
  generalize readCn x11.2 = x12 at e12 a12 ⊢
  obtain ⟨e13, a13⟩ := readCn_step a12 w9
  generalize readCn x12.2 = x13 at e13 a13 ⊢
  obtain ⟨e14, a14⟩ := readCn_step a13 w10
  generalize readCn x13.2 = x14 at e14 a14 ⊢
  obtain ⟨e15, a15⟩ := readCn_step a14 w11
  generalize readCn x14.2 = x15 at e15 a15 ⊢
  obtain ⟨e16, a16⟩ := readCn_step a15 w12
  generalize readCn x15.2 = x16 at e16 a16 ⊢
  obtain ⟨e17, a17⟩ := readCn_step a16 w13
  generalize readCn x16.2 = x17 at e17 a17 ⊢
  obtain ⟨e18, a18⟩ := readCn_step a17 w14
  generalize readCn x17.2 = x18 at e18 a18 ⊢
  obtain ⟨e19, a19⟩ := readCn_step a18 w15
  generalize readCn x18.2 = x19 at e19 a19 ⊢
  obtain ⟨e20, a20⟩ := readCn_step a19 w16
  generalize readCn x19.2 = x20 at e20 a20 ⊢
  obtain ⟨e21, a21⟩ := readCn_step a20 w17
  generalize readCn x20.2 = x21 at e21 a21 ⊢
  obtain ⟨e22, a22⟩ := readCn_step a21 w18
  generalize readCn x21.2 = x22 at e22 a22 ⊢
  obtain ⟨e23, a23⟩ := readCn_step a22 w19
  generalize readCn x22.2 = x23 at e23 a23 ⊢
  obtain ⟨e24, a24⟩ := readCn_step a23 w20
  generalize readCn x23.2 = x24 at e24 a24 ⊢
  obtain ⟨e25, a25⟩ := readCn_step a24 w21
  generalize readCn x24.2 = x25 at e25 a25 ⊢
  obtain ⟨e26, a26⟩ := readCn_step a25 w22
  generalize readCn x25.2 = x26 at e26 a26 ⊢
  obtain ⟨e27, a27⟩ := readCn_step a26 w23
  generalize readCn x26.2 = x27 at e27 a27 ⊢
  obtain ⟨e28, a28⟩ := readCn_step a27 w24
  generalize readCn x27.2 = x28 at e28 a28 ⊢
  obtain ⟨e29, a29⟩ := readCn_step a28 w25
  generalize readCn x28.2 = x29 at e29 a29 ⊢
  obtain ⟨e30, a30⟩ := readCn_step a29 w26
  generalize readCn x29.2 = x30 at e30 a30 ⊢
  obtain ⟨e31, a31⟩ := readCn_step a30 w27
  generalize readCn x30.2 = x31 at e31 a31 ⊢
  obtain ⟨e32, a32⟩ := readCn_step a31 w28
  generalize readCn x31.2 = x32 at e32 a32 ⊢
  obtain ⟨e33, a33⟩ := readCn_step a32 w29
  generalize readCn x32.2 = x33 at e33 a33 ⊢
  obtain ⟨e34, a34⟩ := readCn_step a33 w30
  generalize readCn x33.2 = x34 at e34 a34 ⊢
  obtain ⟨e35, a35⟩ := readCn_step a34 w31
  generalize readCn x34.2 = x35 at e35 a35 ⊢
  obtain ⟨e36, a36⟩ := readCn_step a35 w32
  generalize readCn x35.2 = x36 at e36 a36 ⊢
  obtain ⟨e37, a37⟩ := readCn_step a36 w33
  generalize readCn x36.2 = x37 at e37 a37 ⊢
  refine ⟨?_, a37.shift (by omega)⟩
  simp only [e0, e1, e2, e3, e4, e5, e6, e7, e8, e9, e10, e11, e12, e13, e14, e15, e16, e17, e18, e19, e20, e21, e22, e23, e24, e25, e26, e27, e28, e29, e30, e31, e32, e33, e34, e35, e36, e37]

theorem parsePIR_encode {s0 : STDFParser} {be : Bool} {k : Nat} {rest : List Byte}
    {s : STDFParser} (r : PIRRecord) (w : r.WF)
    (a : Ahead s0 be k (r.encode be ++ rest) s) :
    (parsePIR s).1 = r ∧ Ahead s0 be (k + (r.encode be).length) rest (parsePIR s).2 := by
  have len : (r.encode be).length =
      1 + 1 := by
    simp only [PIRRecord.encode, List.length_append, List.length_cons, List.length_nil,
      put16_length, put32_length, putCn_length, putBn_length]
  unfold PIRRecord.WF at w
  obtain ⟨w0, w1⟩ := w
  simp only [PIRRecord.encode, List.append_assoc, List.singleton_append] at a
  unfold parsePIR
  simp only []
  obtain ⟨e0, a0⟩ := readU1_step a w0
  generalize readU1 s = x0 at e0 a0 ⊢
  obtain ⟨e1, a1⟩ := readU1_step a0 w1
  generalize readU1 x0.2 = x1 at e1 a1 ⊢
  refine ⟨?_, a1.shift (by omega)⟩
  simp only [e0, e1]

theorem parsePRR_encode {s0 : STDFParser} {be : Bool} {k : Nat} {rest : List Byte}
    {s : STDFParser} (r : PRRRecord) (w : r.WF)
    (a : Ahead s0 be k (r.encode be ++ rest) s) :
    (parsePRR s).1 = r ∧ Ahead s0 be (k + (r.encode be).length) rest (parsePRR s).2 := by
  have len : (r.encode be).length =
      1 + 1 + 1 + 2 + 2 + 2 + 2 + 2 + 4 + (1 + r.PART_ID.length) + (1 + r.PART_TXT.length) +
      (2 + r.PART_FIX.length) := by
    simp only [PRRRecord.encode, List.length_append, List.length_cons, List.length_nil,
      put16_length, put32_length, putCn_length, putBn_length]
  unfold PRRRecord.WF at w
  obtain ⟨w0, w1, w2, w3, w4, w5, w6, w7, w8, w9, w10, w11⟩ := w
  simp only [PRRRecord.encode, List.append_assoc, List.singleton_append] at a
  unfold parsePRR
  simp only []
  obtain ⟨e0, a0⟩ := readU1_step a w0
  generalize readU1 s = x0 at e0 a0 ⊢
  obtain ⟨e1, a1⟩ := readU1_step a0 w1
  generalize readU1 x0.2 = x1 at e1 a1 ⊢
  obtain ⟨e2, a2⟩ := readU1_step a1 w2
  generalize readU1 x1.2 = x2 at e2 a2 ⊢
  obtain ⟨e3, a3⟩ := readU2_step a2 w3
  generalize readU2 x2.2 = x3 at e3 a3 ⊢
  obtain ⟨e4, a4⟩ := readU2_step a3 w4
  generalize readU2 x3.2 = x4 at e4 a4 ⊢
  obtain ⟨e5, a5⟩ := readU2_step a4 w5
  generalize readU2 x4.2 = x5 at e5 a5 ⊢
  obtain ⟨e6, a6⟩ := readI2_step a5 w6
  generalize readI2 x5.2 = x6 at e6 a6 ⊢
  obtain ⟨e7, a7⟩ := readI2_step a6 w7
  generalize readI2 x6.2 = x7 at e7 a7 ⊢
  obtain ⟨e8, a8⟩ := readU4_step a7 w8
  generalize readU4 x7.2 = x8 at e8 a8 ⊢
  obtain ⟨e9, a9⟩ := readCn_step a8 w9
  generalize readCn x8.2 = x9 at e9 a9 ⊢
  obtain ⟨e10, a10⟩ := readCn_step a9 w10
  generalize readCn x9.2 = x10 at e10 a10 ⊢
  obtain ⟨e11, a11⟩ := readBn_step a10 w11
  generalize readBn x10.2 = x11 at e11 a11 ⊢
  refine ⟨?_, a11.shift (by omega)⟩
  simp only [e0, e1, e2, e3, e4, e5, e6, e7, e8, e9, e10, e11]

theorem parseHBR_encode {s0 : STDFParser} {be : Bool} {k : Nat} {rest : List Byte}
    {s : STDFParser} (r : HBRRecord) (w : r.WF)
    (a : Ahead s0 be k (r.encode be ++ rest) s) :
    (parseHBR s).1 = r ∧ Ahead s0 be (k + (r.encode be).length) rest (parseHBR s).2 := by
  have len : (r.encode be).length =
      1 + 1 + 2 + 4 + 1 + (1 + r.HBIN_NAM.length) := by
    simp only [HBRRecord.encode, List.length_append, List.length_cons, List.length_nil,
      put16_length, put32_length, putCn_length, putBn_length]
  unfold HBRRecord.WF at w
  obtain ⟨w0, w1, w2, w3, w4⟩ := w
  simp only [HBRRecord.encode, List.append_assoc, List.singleton_append] at a
  unfold parseHBR
  simp only []
  obtain ⟨e0, a0⟩ := readU1_step a w0
  generalize readU1 s = x0 at e0 a0 ⊢
  obtain ⟨e1, a1⟩ := readU1_step a0 w1
  generalize readU1 x0.2 = x1 at e1 a1 ⊢
  obtain ⟨e2, a2⟩ := readU2_step a1 w2
  generalize readU2 x1.2 = x2 at e2 a2 ⊢
  obtain ⟨e3, a3⟩ := readU4_step a2 w3
  generalize readU4 x2.2 = x3 at e3 a3 ⊢
  obtain ⟨e4, a4⟩ := readC1_step a3
  generalize readC1 x3.2 = x4 at e4 a4 ⊢
  obtain ⟨e5, a5⟩ := readCn_step a4 w4
  generalize readCn x4.2 = x5 at e5 a5 ⊢
  refine ⟨?_, a5.shift (by omega)⟩
  simp only [e0, e1, e2, e3, e4, e5]

theorem parseSBR_encode {s0 : STDFParser} {be : Bool} {k : Nat} {rest : List Byte}
    {s : STDFParser} (r : SBRRecord) (w : r.WF)
    (a : Ahead s0 be k (r.encode be ++ rest) s) :
    (parseSBR s).1 = r ∧ Ahead s0 be (k + (r.encode be).length) rest (parseSBR s).2 := by
  have len : (r.encode be).length =
      1 + 1 + 2 + 4 + 1 + (1 + r.SBIN_NAM.length) := by
    simp only [SBRRecord.encode, List.length_append, List.length_cons, List.length_nil,
      put16_length, put32_length, putCn_length, putBn_length]
  unfold SBRRecord.WF at w
  obtain ⟨w0, w1, w2, w3, w4⟩ := w
  simp only [SBRRecord.encode, List.append_assoc, List.singleton_append] at a
  unfold parseSBR
  simp only []
  obtain ⟨e0, a0⟩ := readU1_step a w0
  generalize readU1 s = x0 at e0 a0 ⊢
  obtain ⟨e1, a1⟩ := readU1_step a0 w1
  generalize readU1 x0.2 = x1 at e1 a1 ⊢
  obtain ⟨e2, a2⟩ := readU2_step a1 w2
  generalize readU2 x1.2 = x2 at e2 a2 ⊢
  obtain ⟨e3, a3⟩ := readU4_step a2 w3
  generalize readU4 x2.2 = x3 at e3 a3 ⊢
  obtain ⟨e4, a4⟩ := readC1_step a3
  generalize readC1 x3.2 = x4 at e4 a4 ⊢
  obtain ⟨e5, a5⟩ := readCn_step a4 w4
  generalize readCn x4.2 = x5 at e5 a5 ⊢
  refine ⟨?_, a5.shift (by omega)⟩
  simp only [e0, e1, e2, e3, e4, e5]

theorem parseWIR_encode {s0 : STDFParser} {be : Bool} {k : Nat} {rest : List Byte}
    {s : STDFParser} (r : WIRRecord) (w : r.WF)
    (a : Ahead s0 be k (r.encode be ++ rest) s) :
    (parseWIR s).1 = r ∧ Ahead s0 be (k + (r.encode be).length) rest (parseWIR s).2 := by
  have len : (r.encode be).length =
      1 + 1 + 4 + (1 + r.WAFER_ID.length) := by
    simp only [WIRRecord.encode, List.length_append, List.length_cons, List.length_nil,
      put16_length, put32_length, putCn_length, putBn_length]
  unfold WIRRecord.WF at w
  obtain ⟨w0, w1, w2, w3⟩ := w
  simp only [WIRRecord.encode, List.append_assoc, List.singleton_append] at a
  unfold parseWIR
  simp only []
  obtain ⟨e0, a0⟩ := readU1_step a w0
  generalize readU1 s = x0 at e0 a0 ⊢
  obtain ⟨e1, a1⟩ := readU1_step a0 w1
  generalize readU1 x0.2 = x1 at e1 a1 ⊢
  obtain ⟨e2, a2⟩ := readU4_step a1 w2
  generalize readU4 x1.2 = x2 at e2 a2 ⊢
  obtain ⟨e3, a3⟩ := readCn_step a2 w3
  generalize readCn x2.2 = x3 at e3 a3 ⊢
  refine ⟨?_, a3.shift (by omega)⟩
  simp only [e0, e1, e2, e3]

theorem parseWRR_encode {s0 : STDFParser} {be : Bool} {k : Nat} {rest : List Byte}
    {s : STDFParser} (r : WRRRecord) (w : r.WF)
    (a : Ahead s0 be k (r.encode be ++ rest) s) :
    (parseWRR s).1 = r ∧ Ahead s0 be (k + (r.encode be).length) rest (parseWRR s).2 := by
  have len : (r.encode be).length =
      1 + 1 + 4 + 4 + 4 + 4 + 4 + 4 + (1 + r.WAFER_ID.length) + (1 + r.FABWF_ID.length) +
      (1 + r.FRAME_ID.length) + (1 + r.MASK_ID.length) + (1 + r.USR_DESC.length) +
      (1 + r.EXC_DESC.length) := by
    simp only [WRRRecord.encode, List.length_append, List.length_cons, List.length_nil,
      put16_length, put32_length, putCn_length, putBn_length]
  unfold WRRRecord.WF at w
  obtain ⟨w0, w1, w2, w3, w4, w5, w6, w7, w8, w9, w10, w11, w12, w13⟩ := w
  simp only [WRRRecord.encode, List.append_assoc, List.singleton_append] at a
  unfold parseWRR
  simp only []
  obtain ⟨e0, a0⟩ := readU1_step a w0
  generalize readU1 s = x0 at e0 a0 ⊢
  obtain ⟨e1, a1⟩ := readU1_step a0 w1
  generalize readU1 x0.2 = x1 at e1 a1 ⊢
  obtain ⟨e2, a2⟩ := readU4_step a1 w2
  generalize readU4 x1.2 = x2 at e2 a2 ⊢
  obtain ⟨e3, a3⟩ := readU4_step a2 w3
  generalize readU4 x2.2 = x3 at e3 a3 ⊢
  obtain ⟨e4, a4⟩ := readU4_step a3 w4
  generalize readU4 x3.2 = x4 at e4 a4 ⊢
  obtain ⟨e5, a5⟩ := readU4_step a4 w5
  generalize readU4 x4.2 = x5 at e5 a5 ⊢
  obtain ⟨e6, a6⟩ := readU4_step a5 w6
  generalize readU4 x5.2 = x6 at e6 a6 ⊢
  obtain ⟨e7, a7⟩ := readU4_step a6 w7
  generalize readU4 x6.2 = x7 at e7 a7 ⊢
  obtain ⟨e8, a8⟩ := readCn_step a7 w8
  generalize readCn x7.2 = x8 at e8 a8 ⊢
  obtain ⟨e9, a9⟩ := readCn_step a8 w9
  generalize readCn x8.2 = x9 at e9 a9 ⊢
  obtain ⟨e10, a10⟩ := readCn_step a9 w10
  generalize readCn x9.2 = x10 at e10 a10 ⊢
  obtain ⟨e11, a11⟩ := readCn_step a10 w11
  generalize readCn x10.2 = x11 at e11 a11 ⊢
  obtain ⟨e12, a12⟩ := readCn_step a11 w12
  generalize readCn x11.2 = x12 at e12 a12 ⊢
  obtain ⟨e13, a13⟩ := readCn_step a12 w13
  generalize readCn x12.2 = x13 at e13 a13 ⊢
  refine ⟨?_, a13.shift (by omega)⟩
  simp only [e0, e1, e2, e3, e4, e5, e6, e7, e8, e9, e10, e11, e12, e13]

theorem putWords_length (be : Bool) (vals : List U2) : (putWords be vals).length = 2 * vals.length := by
  induction vals with
  | nil => rfl
  | cons v vs ih =>
    simp only [putWords, List.map_cons, List.flatten_cons, List.length_append, put16_length,
      List.length_cons] at ih ⊢
    omega

theorem fillLoop_step {s0 : STDFParser} {be : Bool} {rest : List Byte} (count : Nat)
    (hc : count < 65536) :
    ∀ (vals : List U2) (i k : Nat) (arr : List U2) (s : STDFParser),
      i + vals.length = count → arr.length = count → (∀ v ∈ vals, v < 2 ^ 16) →
      Ahead s0 be k (putWords be vals ++ rest) s →
      (fillLoop vals.length count i arr s).1 = arr.take i ++ vals ∧
        Ahead s0 be (k + 2 * vals.length) rest (fillLoop vals.length count i arr s).2 := by
  intro vals
  induction vals with
  | nil =>
    intro i k arr s hi hl _ a
    refine ⟨?_, a⟩
    show arr = _
    have : i = arr.length := by simpa using hi.trans hl.symm
    subst this
    simp
  | cons v vs ih =>
    intro i k arr s hi hl hv a
    simp only [List.length_cons] at hi ⊢
    rw [fillLoop_succ _ _ _ _ _ (by omega)]
    have a' : Ahead s0 be k (put16 be v ++ (putWords be vs ++ rest)) s := by
      simpa only [putWords, List.map_cons, List.flatten_cons, List.append_assoc] using a
    obtain ⟨e, a2⟩ := readU2_step a' (hv v (List.mem_cons_self _ _))
    rw [e]
    have hmod : (i + 1) % 2 ^ 16 = i + 1 := Nat.mod_eq_of_lt (by omega)
    rw [hmod]
    obtain ⟨e3, a3⟩ := ih (i + 1) (k + 2) (arr.set i v) _ (by omega) (by simpa using hl)
      (fun x hx => hv x (List.mem_cons_of_mem _ hx)) a2
    refine ⟨?_, a3.shift (by omega)⟩
    rw [e3, take_succ_set v (by omega)]
    simp

theorem fillLoop_words {s0 : STDFParser} {be : Bool} {k : Nat} {rest : List Byte}
    {s : STDFParser} {vals : List U2} {n : Nat}
    (a : Ahead s0 be k (putWords be vals ++ rest) s)
    (h : vals.length = n ∧ n < 65536 ∧ ∀ v ∈ vals, v < 2 ^ 16) :
    (fillLoop n n 0 (resize [] n) s).1 = vals ∧
      Ahead s0 be (k + 2 * vals.length) rest (fillLoop n n 0 (resize [] n) s).2 := by
  obtain ⟨hn, hc, hv⟩ := h
  subst hn
  have := fillLoop_step vals.length hc vals 0 k (resize [] vals.length) s (by omega)
    (by simp [resize_nil]) hv a
  simpa using this

theorem parseFTR_encode {s0 : STDFParser} {be : Bool} {k : Nat} {rest : List Byte}
    {s : STDFParser} (r : FTRRecord) (w : r.WF)
    (a : Ahead s0 be k (r.encode be ++ rest) s) :
    (parseFTR s).1 = r ∧ Ahead s0 be (k + (r.encode be).length) rest (parseFTR s).2 := by
  have len : (r.encode be).length =
      4 + 1 + 1 + 1 + 1 + 4 + 4 + 4 + 4 + 4 + 4 + 2 + 2 + 2 + 2 * r.RTN_INDX.length +
      2 * r.RTN_STAT.length + 2 * r.PGM_INDX.length + 2 * r.PGM_STAT.length +
      (2 + r.FAIL_PIN.length) + (1 + r.VECT_NAM.length) + (1 + r.TIME_SET.length) +
      (1 + r.OP_CODE.length) + (1 + r.TEST_TXT.length) + (1 + r.ALARM_ID.length) +
      (1 + r.PROG_TXT.length) + (1 + r.RSLT_TXT.length) + 1 + (2 + r.SPIN_MAP.length) := by
    simp only [FTRRecord.encode, List.length_append, List.length_cons, List.length_nil,
      put16_length, put32_length, putCn_length, putBn_length, putWords_length]
  unfold FTRRecord.WF at w
  obtain ⟨w0, w1, w2, w3, w4, w5, w6, w7, w8, w9, w10, w11, w12, w13, w14, w15, w16, w17, w18, w19, w20, w21, w22, w23, w24, w25, w26, w27⟩ := w
  simp only [FTRRecord.encode, List.append_assoc, List.singleton_append] at a
  unfold parseFTR
  simp only []
  obtain ⟨e0, a0⟩ := readU4_step a w0
  generalize readU4 s = x0 at e0 a0 ⊢
  obtain ⟨e1, a1⟩ := readU1_step a0 w1
  generalize readU1 x0.2 = x1 at e1 a1 ⊢
  obtain ⟨e2, a2⟩ := readU1_step a1 w2
  generalize readU1 x1.2 = x2 at e2 a2 ⊢
  obtain ⟨e3, a3⟩ := readU1_step a2 w3
  generalize readU1 x2.2 = x3 at e3 a3 ⊢
  obtain ⟨e4, a4⟩ := readU1_step a3 w4
  generalize readU1 x3.2 = x4 at e4 a4 ⊢
  obtain ⟨e5, a5⟩ := readU4_step a4 w5
  generalize readU4 x4.2 = x5 at e5 a5 ⊢
  obtain ⟨e6, a6⟩ := readU4_step a5 w6
  generalize readU4 x5.2 = x6 at e6 a6 ⊢
  obtain ⟨e7, a7⟩ := readU4_step a6 w7
  generalize readU4 x6.2 = x7 at e7 a7 ⊢
  obtain ⟨e8, a8⟩ := readU4_step a7 w8
  generalize readU4 x7.2 = x8 at e8 a8 ⊢
  obtain ⟨e9, a9⟩ := readI4_step a8 w9
  generalize readI4 x8.2 = x9 at e9 a9 ⊢
  obtain ⟨e10, a10⟩ := readI4_step a9 w10
  generalize readI4 x9.2 = x10 at e10 a10 ⊢
  obtain ⟨e11, a11⟩ := readI2_step a10 w11
  generalize readI2 x10.2 = x11 at e11 a11 ⊢
  obtain ⟨e12, a12⟩ := readU2_step a11 w12
  generalize readU2 x11.2 = x12 at e12 a12 ⊢
  obtain ⟨e13, a13⟩ := readU2_step a12 w13
  generalize readU2 x12.2 = x13 at e13 a13 ⊢
  simp only [e0, e1, e2, e3, e4, e5, e6, e7, e8, e9, e10, e11, e12, e13]
  obtain ⟨e14, a14⟩ := fillLoop_words a13 w14
  generalize fillLoop r.RTN_ICNT r.RTN_ICNT 0 (resize [] r.RTN_ICNT) x13.2 = x14 at e14 a14 ⊢
  simp only [e0, e1, e2, e3, e4, e5, e6, e7, e8, e9, e10, e11, e12, e13, e14]
  obtain ⟨e15, a15⟩ := fillLoop_words a14 w15
  generalize fillLoop r.RTN_ICNT r.RTN_ICNT 0 (resize [] r.RTN_ICNT) x14.2 = x15 at e15 a15 ⊢
  simp only [e0, e1, e2, e3, e4, e5, e6, e7, e8, e9, e10, e11, e12, e13, e14, e15]
  obtain ⟨e16, a16⟩ := fillLoop_words a15 w16
  generalize fillLoop r.PGM_ICNT r.PGM_ICNT 0 (resize [] r.PGM_ICNT) x15.2 = x16 at e16 a16 ⊢
  simp only [e0, e1, e2, e3, e4, e5, e6, e7, e8, e9, e10, e11, e12, e13, e14, e15, e16]
  obtain ⟨e17, a17⟩ := fillLoop_words a16 w17
  generalize fillLoop r.PGM_ICNT r.PGM_ICNT 0 (resize [] r.PGM_ICNT) x16.2 = x17 at e17 a17 ⊢
  obtain ⟨e18, a18⟩ := readBn_step a17 w18
  generalize readBn x17.2 = x18 at e18 a18 ⊢
  obtain ⟨e19, a19⟩ := readCn_step a18 w19
  generalize readCn x18.2 = x19 at e19 a19 ⊢
  obtain ⟨e20, a20⟩ := readCn_step a19 w20
  generalize readCn x19.2 = x20 at e20 a20 ⊢
  obtain ⟨e21, a21⟩ := readCn_step a20 w21
  generalize readCn x20.2 = x21 at e21 a21 ⊢
  obtain ⟨e22, a22⟩ := readCn_step a21 w22
  generalize readCn x21.2 = x22 at e22 a22 ⊢
  obtain ⟨e23, a23⟩ := readCn_step a22 w23
  generalize readCn x22.2 = x23 at e23 a23 ⊢
  obtain ⟨e24, a24⟩ := readCn_step a23 w24
  generalize readCn x23.2 = x24 at e24 a24 ⊢
  obtain ⟨e25, a25⟩ := readCn_step a24 w25
  generalize readCn x24.2 = x25 at e25 a25 ⊢
  obtain ⟨e26, a26⟩ := readU1_step a25 w26
  generalize readU1 x25.2 = x26 at e26 a26 ⊢
  obtain ⟨e27, a27⟩ := readBn_step a26 w27
  generalize readBn x26.2 = x27 at e27 a27 ⊢
  refine ⟨?_, a27.shift (by omega)⟩
  simp only [e0, e1, e2, e3, e4, e5, e6, e7, e8, e9, e10, e11, e12, e13, e14, e15, e16, e17, e18, e19, e20, e21, e22, e23, e24, e25, e26, e27]

theorem ifResScal_step {s0 : STDFParser} {be : Bool} {k : Nat} {rest : List Byte}
    {s : STDFParser} (r q : PTRRecord) (hf : q.OPT_FLAG = r.OPT_FLAG) (h0 : q.RES_SCAL = 0)
    (w : if r.OPT_FLAG &&& 0x01 ≠ 0 then -128 ≤ r.RES_SCAL ∧ r.RES_SCAL < 128 else r.RES_SCAL = 0)
    (a : Ahead s0 be k ((if r.OPT_FLAG &&& 0x01 ≠ 0 then [byteOf (toUnsigned 8 r.RES_SCAL)]
      else []) ++ rest) s) :
    (parsePTR.ifResScal (q, s)).1 = { q with RES_SCAL := r.RES_SCAL } ∧
      Ahead s0 be (k + (if r.OPT_FLAG &&& 0x01 ≠ 0 then [byteOf (toUnsigned 8 r.RES_SCAL)]
        else []).length) rest (parsePTR.ifResScal (q, s)).2 := by
  have e : parsePTR.ifResScal (q, s) = if q.OPT_FLAG &&& 0x01 ≠ 0 then
      ({ q with RES_SCAL := (readI1 s).1 }, (readI1 s).2) else (q, s) := rfl
  rw [e]
  by_cases c : r.OPT_FLAG &&& 0x01 ≠ 0
  · have c2 : q.OPT_FLAG &&& 0x01 ≠ 0 := by rw [hf]; exact c
    rw [if_pos c] at w a ⊢
    rw [if_pos c2]
    obtain ⟨e1, a1⟩ := readI1_step a w
    exact ⟨by show PTRRecord.mk .. = _; rw [e1], a1⟩
  · have c2 : ¬ q.OPT_FLAG &&& 0x01 ≠ 0 := by rw [hf]; exact c
    rw [if_neg c] at w a ⊢
    rw [if_neg c2]
    refine ⟨?_, a⟩
    show q = PTRRecord.mk ..
    rw [w, ← h0]

theorem ifLowLimit_step {s0 : STDFParser} {be : Bool} {k : Nat} {rest : List Byte}
    {s : STDFParser} (r q : PTRRecord) (hf : q.OPT_FLAG = r.OPT_FLAG)
    (h0 : q.LLM_SCAL = 0 ∧ q.LO_LIMIT = 0)
    (w : if r.OPT_FLAG &&& 0x06 ≠ 0 then (-128 ≤ r.LLM_SCAL ∧ r.LLM_SCAL < 128) ∧
      r.LO_LIMIT < 2 ^ 32 else r.LLM_SCAL = 0 ∧ r.LO_LIMIT = 0)
    (a : Ahead s0 be k ((if r.OPT_FLAG &&& 0x06 ≠ 0 then
      byteOf (toUnsigned 8 r.LLM_SCAL) :: put32 be r.LO_LIMIT else []) ++ rest) s) :
    (parsePTR.ifLowLimit (q, s)).1 = { q with LLM_SCAL := r.LLM_SCAL, LO_LIMIT := r.LO_LIMIT } ∧
      Ahead s0 be (k + (if r.OPT_FLAG &&& 0x06 ≠ 0 then
        byteOf (toUnsigned 8 r.LLM_SCAL) :: put32 be r.LO_LIMIT else []).length) rest
        (parsePTR.ifLowLimit (q, s)).2 := by
  have e : parsePTR.ifLowLimit (q, s) = if q.OPT_FLAG &&& 0x06 ≠ 0 then
      ({ q with LLM_SCAL := (readI1 s).1, LO_LIMIT := (readR4 (readI1 s).2).1 },
        (readR4 (readI1 s).2).2) else (q, s) := rfl
  rw [e]
  by_cases c : r.OPT_FLAG &&& 0x06 ≠ 0
  · have c2 : q.OPT_FLAG &&& 0x06 ≠ 0 := by rw [hf]; exact c
    rw [if_pos c] at w a ⊢
    rw [if_pos c2]
    obtain ⟨e1, a1⟩ := readI1_step a w.1
    obtain ⟨e2, a2⟩ := readR4_step a1 w.2
    refine ⟨by show PTRRecord.mk .. = _; rw [e1, e2], a2.shift ?_⟩
    simp only [List.length_cons, put32_length]
  · have c2 : ¬ q.OPT_FLAG &&& 0x06 ≠ 0 := by rw [hf]; exact c
    rw [if_neg c] at w a ⊢
    rw [if_neg c2]
    refine ⟨?_, a⟩
    show q = PTRRecord.mk ..
    rw [w.1, w.2, ← h0.1, ← h0.2]

theorem ifHighLimit_step {s0 : STDFParser} {be : Bool} {k : Nat} {rest : List Byte}
    {s : STDFParser} (r q : PTRRecord) (hf : q.OPT_FLAG = r.OPT_FLAG)
    (h0 : q.HLM_SCAL = 0 ∧ q.HI_LIMIT = 0)
    (w : if r.OPT_FLAG &&& 0x18 ≠ 0 then (-128 ≤ r.HLM_SCAL ∧ r.HLM_SCAL < 128) ∧
      r.HI_LIMIT < 2 ^ 32 else r.HLM_SCAL = 0 ∧ r.HI_LIMIT = 0)
    (a : Ahead s0 be k ((if r.OPT_FLAG &&& 0x18 ≠ 0 then
      byteOf (toUnsigned 8 r.HLM_SCAL) :: put32 be r.HI_LIMIT else []) ++ rest) s) :
    (parsePTR.ifHighLimit (q, s)).1 = { q with HLM_SCAL := r.HLM_SCAL, HI_LIMIT := r.HI_LIMIT } ∧
      Ahead s0 be (k + (if r.OPT_FLAG &&& 0x18 ≠ 0 then
        byteOf (toUnsigned 8 r.HLM_SCAL) :: put32 be r.HI_LIMIT else []).length) rest
        (parsePTR.ifHighLimit (q, s)).2 := by
  have e : parsePTR.ifHighLimit (q, s) = if q.OPT_FLAG &&& 0x18 ≠ 0 then
      ({ q with HLM_SCAL := (readI1 s).1, HI_LIMIT := (readR4 (readI1 s).2).1 },
        (readR4 (readI1 s).2).2) else (q, s) := rfl
  rw [e]
  by_cases c : r.OPT_FLAG &&& 0x18 ≠ 0
  · have c2 : q.OPT_FLAG &&& 0x18 ≠ 0 := by rw [hf]; exact c
    rw [if_pos c] at w a ⊢
    rw [if_pos c2]
    obtain ⟨e1, a1⟩ := readI1_step a w.1
    obtain ⟨e2, a2⟩ := readR4_step a1 w.2
    refine ⟨by show PTRRecord.mk .. = _; rw [e1, e2], a2.shift ?_⟩
    simp only [List.length_cons, put32_length]
  · have c2 : ¬ q.OPT_FLAG &&& 0x18 ≠ 0 := by rw [hf]; exact c
    rw [if_neg c] at w a ⊢
    rw [if_neg c2]
    refine ⟨?_, a⟩
    show q = PTRRecord.mk ..
    rw [w.1, w.2, ← h0.1, ← h0.2]

theorem ifUnits_step {s0 : STDFParser} {be : Bool} {k : Nat} {rest : List Byte}
    {s : STDFParser} (r q : PTRRecord) (hf : q.OPT_FLAG = r.OPT_FLAG) (h0 : q.UNITS = [])
    (w : if r.OPT_FLAG &&& 0x20 ≠ 0 then r.UNITS.length < 256 else r.UNITS = [])
    (a : Ahead s0 be k ((if r.OPT_FLAG &&& 0x20 ≠ 0 then putCn r.UNITS else []) ++ rest) s) :
    (parsePTR.ifUnits (q, s)).1 = { q with UNITS := r.UNITS } ∧
      Ahead s0 be (k + (if r.OPT_FLAG &&& 0x20 ≠ 0 then putCn r.UNITS else []).length) rest
        (parsePTR.ifUnits (q, s)).2 := by
  have e : parsePTR.ifUnits (q, s) = if q.OPT_FLAG &&& 0x20 ≠ 0 then
      ({ q with UNITS := (readCn s).1 }, (readCn s).2) else (q, s) := rfl
  rw [e]
  by_cases c : r.OPT_FLAG &&& 0x20 ≠ 0
  · have c2 : q.OPT_FLAG &&& 0x20 ≠ 0 := by rw [hf]; exact c
    rw [if_pos c] at w a ⊢
    rw [if_pos c2]
    obtain ⟨e1, a1⟩ := readCn_step a w
    exact ⟨by show PTRRecord.mk .. = _; rw [e1], a1.shift (by rw [putCn_length])⟩
  · have c2 : ¬ q.OPT_FLAG &&& 0x20 ≠ 0 := by rw [hf]; exact c
    rw [if_neg c] at w a ⊢
    rw [if_neg c2]
    refine ⟨?_, a⟩
    show q = PTRRecord.mk ..
    rw [w, ← h0]

theorem ifResFmt_step {s0 : STDFParser} {be : Bool} {k : Nat} {rest : List Byte}
    {s : STDFParser} (r q : PTRRecord) (hf : q.OPT_FLAG = r.OPT_FLAG) (h0 : q.C_RESFMT = [])
    (w : if r.OPT_FLAG &&& 0x40 ≠ 0 then r.C_RESFMT.length < 256 else r.C_RESFMT = [])
    (a : Ahead s0 be k ((if r.OPT_FLAG &&& 0x40 ≠ 0 then putCn r.C_RESFMT else []) ++ rest) s) :
    (parsePTR.ifResFmt (q, s)).1 = { q with C_RESFMT := r.C_RESFMT } ∧
      Ahead s0 be (k + (if r.OPT_FLAG &&& 0x40 ≠ 0 then putCn r.C_RESFMT else []).length) rest
        (parsePTR.ifResFmt (q, s)).2 := by
  have e : parsePTR.ifResFmt (q, s) = if q.OPT_FLAG &&& 0x40 ≠ 0 then
      ({ q with C_RESFMT := (readCn s).1 }, (readCn s).2) else (q, s) := rfl
  rw [e]
  by_cases c : r.OPT_FLAG &&& 0x40 ≠ 0
  · have c2 : q.OPT_FLAG &&& 0x40 ≠ 0 := by rw [hf]; exact c
    rw [if_pos c] at w a ⊢
    rw [if_pos c2]
    obtain ⟨e1, a1⟩ := readCn_step a w
    exact ⟨by show PTRRecord.mk .. = _; rw [e1], a1.shift (by rw [putCn_length])⟩
  · have c2 : ¬ q.OPT_FLAG &&& 0x40 ≠ 0 := by rw [hf]; exact c
    rw [if_neg c] at w a ⊢
    rw [if_neg c2]
    refine ⟨?_, a⟩
    show q = PTRRecord.mk ..
    rw [w, ← h0]

theorem ifLimFmts_step {s0 : STDFParser} {be : Bool} {k : Nat} {rest : List Byte}
    {s : STDFParser} (r q : PTRRecord) (hf : q.OPT_FLAG = r.OPT_FLAG)
    (h0 : q.C_LLMFMT = [] ∧ q.C_HLMFMT = [])
    (w : if r.OPT_FLAG &&& 0x80 ≠ 0 then r.C_LLMFMT.length < 256 ∧ r.C_HLMFMT.length < 256
      else r.C_LLMFMT = [] ∧ r.C_HLMFMT = [])
    (a : Ahead s0 be k ((if r.OPT_FLAG &&& 0x80 ≠ 0 then putCn r.C_LLMFMT ++ putCn r.C_HLMFMT
      else []) ++ rest) s) :
    (parsePTR.ifLimFmts (q, s)).1 = { q with C_LLMFMT := r.C_LLMFMT, C_HLMFMT := r.C_HLMFMT } ∧
      Ahead s0 be (k + (if r.OPT_FLAG &&& 0x80 ≠ 0 then putCn r.C_LLMFMT ++ putCn r.C_HLMFMT
        else []).length) rest (parsePTR.ifLimFmts (q, s)).2 := by
  have e : parsePTR.ifLimFmts (q, s) = if q.OPT_FLAG &&& 0x80 ≠ 0 then
      ({ q with C_LLMFMT := (readCn s).1, C_HLMFMT := (readCn (readCn s).2).1 },
        (readCn (readCn s).2).2) else (q, s) := rfl
  rw [e]
  by_cases c : r.OPT_FLAG &&& 0x80 ≠ 0
  · have c2 : q.OPT_FLAG &&& 0x80 ≠ 0 := by rw [hf]; exact c
    rw [if_pos c] at w a ⊢
    rw [if_pos c2]
    rw [List.append_assoc] at a
    obtain ⟨e1, a1⟩ := readCn_step a w.1
    obtain ⟨e2, a2⟩ := readCn_step a1 w.2
    refine ⟨by show PTRRecord.mk .. = _; rw [e1, e2], a2.shift ?_⟩
    simp only [List.length_append, putCn_length]
    omega
  · have c2 : ¬ q.OPT_FLAG &&& 0x80 ≠ 0 := by rw [hf]; exact c
    rw [if_neg c] at w a ⊢
    rw [if_neg c2]
    refine ⟨?_, a⟩
    show q = PTRRecord.mk ..
    have t1 : r.C_LLMFMT = q.C_LLMFMT := by rw [w.1, h0.1]
    have t2 : r.C_HLMFMT = q.C_HLMFMT := by rw [w.2, h0.2]
    rw [t1, t2]

theorem ptrMandatory_encode {s0 : STDFParser} {be : Bool} {k : Nat} {rest : List Byte}
    {s : STDFParser} (r : PTRRecord)
    (w : r.TEST_NUM < 2 ^ 32 ∧ r.HEAD_NUM < 256 ∧ r.SITE_NUM < 256 ∧ r.TEST_FLG < 256 ∧
      r.PARM_FLG < 256 ∧ r.RESULT < 2 ^ 32 ∧ r.TEST_TXT.length < 256 ∧
      r.ALARM_ID.length < 256 ∧ r.OPT_FLAG < 256)
    (a : Ahead s0 be k (put32 be r.TEST_NUM ++ (byteOf r.HEAD_NUM :: byteOf r.SITE_NUM ::
      byteOf r.TEST_FLG :: byteOf r.PARM_FLG :: (put32 be r.RESULT ++ (putCn r.TEST_TXT ++
      (putCn r.ALARM_ID ++ byteOf r.OPT_FLAG :: rest))))) s) :
    (ptrMandatory s).1 =
        { TEST_NUM := r.TEST_NUM, HEAD_NUM := r.HEAD_NUM, SITE_NUM := r.SITE_NUM,
          TEST_FLG := r.TEST_FLG, PARM_FLG := r.PARM_FLG, RESULT := r.RESULT,
          TEST_TXT := r.TEST_TXT, ALARM_ID := r.ALARM_ID, OPT_FLAG := r.OPT_FLAG } ∧
      Ahead s0 be (k + (15 + r.TEST_TXT.length + r.ALARM_ID.length)) rest (ptrMandatory s).2 := by
  obtain ⟨w0, w1, w2, w3, w4, w5, w6, w7, w8⟩ := w
  unfold ptrMandatory
  simp only []
  obtain ⟨e0, a0⟩ := readU4_step a w0
  generalize readU4 s = x0 at e0 a0 ⊢
  obtain ⟨e1, a1⟩ := readU1_step a0 w1
  generalize readU1 x0.2 = x1 at e1 a1 ⊢
  obtain ⟨e2, a2⟩ := readU1_step a1 w2
  generalize readU1 x1.2 = x2 at e2 a2 ⊢
  obtain ⟨e3, a3⟩ := readU1_step a2 w3
  generalize readU1 x2.2 = x3 at e3 a3 ⊢
  obtain ⟨e4, a4⟩ := readU1_step a3 w4
  generalize readU1 x3.2 = x4 at e4 a4 ⊢
  obtain ⟨e5, a5⟩ := readR4_step a4 w5
  generalize readR4 x4.2 = x5 at e5 a5 ⊢
  obtain ⟨e6, a6⟩ := readCn_step a5 w6
  generalize readCn x5.2 = x6 at e6 a6 ⊢
  obtain ⟨e7, a7⟩ := readCn_step a6 w7
  generalize readCn x6.2 = x7 at e7 a7 ⊢
  obtain ⟨e8, a8⟩ := readU1_step a7 w8
  generalize readU1 x7.2 = x8 at e8 a8 ⊢
  refine ⟨?_, a8.shift (by omega)⟩
  simp only [e0, e1, e2, e3, e4, e5, e6, e7, e8]

theorem parsePTR_encode {s0 : STDFParser} {be : Bool} {k : Nat} {rest : List Byte}
    {s : STDFParser} (r : PTRRecord) (w : r.WF)
    (a : Ahead s0 be k (r.encode be ++ rest) s) :
    (parsePTR s).1 = r ∧ Ahead s0 be (k + (r.encode be).length) rest (parsePTR s).2 := by
  have len : (r.encode be).length = 15 + r.TEST_TXT.length + r.ALARM_ID.length +
      (if r.OPT_FLAG &&& 0x01 ≠ 0 then [byteOf (toUnsigned 8 r.RES_SCAL)] else []).length +
      (if r.OPT_FLAG &&& 0x06 ≠ 0 then byteOf (toUnsigned 8 r.LLM_SCAL) :: put32 be r.LO_LIMIT
        else []).length +
      (if r.OPT_FLAG &&& 0x18 ≠ 0 then byteOf (toUnsigned 8 r.HLM_SCAL) :: put32 be r.HI_LIMIT
        else []).length +
      (if r.OPT_FLAG &&& 0x20 ≠ 0 then putCn r.UNITS else []).length +
      (if r.OPT_FLAG &&& 0x40 ≠ 0 then putCn r.C_RESFMT else []).length +
      (if r.OPT_FLAG &&& 0x80 ≠ 0 then putCn r.C_LLMFMT ++ putCn r.C_HLMFMT else []).length := by
    simp only [PTRRecord.encode, List.length_append, List.length_cons, List.length_nil,
      put32_length, putCn_length]
    omega
  unfold PTRRecord.WF at w
  obtain ⟨w0, w1, w2, w3, w4, w5, w6, w7, w8, g1, g2, g3, g4, g5, g6, z1, z2⟩ := w
  simp only [PTRRecord.encode, List.append_assoc, List.singleton_append] at a
  obtain ⟨e0, a0⟩ := ptrMandatory_encode r ⟨w0, w1, w2, w3, w4, w5, w6, w7, w8⟩ a
  rw [parsePTR_eq_steps]
  generalize ptrMandatory s = p0 at e0 a0 ⊢
  obtain ⟨q0, t0⟩ := p0
  simp only [] at e0 a0
  obtain ⟨e1, a1⟩ := ifResScal_step r q0 (by rw [e0]) (by rw [e0]) g1 a0
  generalize parsePTR.ifResScal (q0, t0) = p1 at e1 a1 ⊢
  obtain ⟨q1, t1⟩ := p1
  simp only [] at e1 a1
  rw [e0] at e1
  simp only [] at e1
  obtain ⟨e2, a2⟩ := ifLowLimit_step r q1 (by rw [e1]) ⟨(by rw [e1]), (by rw [e1])⟩ g2 a1
  generalize parsePTR.ifLowLimit (q1, t1) = p2 at e2 a2 ⊢
  obtain ⟨q2, t2⟩ := p2
  simp only [] at e2 a2
  rw [e1] at e2
  simp only [] at e2
  obtain ⟨e3, a3⟩ := ifHighLimit_step r q2 (by rw [e2]) ⟨(by rw [e2]), (by rw [e2])⟩ g3 a2
  generalize parsePTR.ifHighLimit (q2, t2) = p3 at e3 a3 ⊢
  obtain ⟨q3, t3⟩ := p3
  simp only [] at e3 a3
  rw [e2] at e3
  simp only [] at e3
  obtain ⟨e4, a4⟩ := ifUnits_step r q3 (by rw [e3]) (by rw [e3]) g4 a3
  generalize parsePTR.ifUnits (q3, t3) = p4 at e4 a4 ⊢
  obtain ⟨q4, t4⟩ := p4
  simp only [] at e4 a4
  rw [e3] at e4
  simp only [] at e4
  obtain ⟨e5, a5⟩ := ifResFmt_step r q4 (by rw [e4]) (by rw [e4]) g5 a4
  generalize parsePTR.ifResFmt (q4, t4) = p5 at e5 a5 ⊢
  obtain ⟨q5, t5⟩ := p5
  simp only [] at e5 a5
  rw [e4] at e5
  simp only [] at e5
  obtain ⟨e6, a6⟩ := ifLimFmts_step r q5 (by rw [e5]) ⟨(by rw [e5]), (by rw [e5])⟩ g6 a5
  generalize parsePTR.ifLimFmts (q5, t5) = p6 at e6 a6 ⊢
  obtain ⟨q6, t6⟩ := p6
  simp only [] at e6 a6
  rw [e5] at e6
  simp only [] at e6
  refine ⟨?_, a6.shift (by omega)⟩
  show q6 = r
  rw [e6]
  clear e0 e1 e2 e3 e4 e5 e6 a a0 a1 a2 a3 a4 a5 a6 len g1 g2 g3 g4 g5 g6
  cases r
  simp only [] at z1 z2 ⊢
  subst z1 z2
  rfl

theorem payload_length (r : STDFRecord) (be : Bool) :
    (r.encode be).length = (r.encode false).length := by
  cases r <;>
    simp only [STDFRecord.encode, FARRecord.encode, MIRRecord.encode, PIRRecord.encode,
      PRRRecord.encode, PTRRecord.encode, FTRRecord.encode, HBRRecord.encode, SBRRecord.encode,
      WIRRecord.encode, WRRRecord.encode, List.length_append, List.length_cons, List.length_nil,
      put16_length, put32_length, putCn_length, putBn_length, putWords_length, apply_ite List.length]

theorem item_length (i : Item) (w : i.WF) (be : Bool) :
    (i.encode be).length = (i.encode false).length := by
  cases i with
  | record r =>
    simp only [Item.encode, List.length_append, put16_length, payload_length r be]
  | other typ sub payload swapped =>
    obtain ⟨_, _, _, _, h⟩ := w
    cases be
    · rfl
    · simp [Item.encode, put16_length, h]

theorem encodeFile_length (items : List Item) (w : ∀ i ∈ items, i.WF) (be : Bool) :
    (encodeFile be items).length = (encodeFile false items).length := by
  induction items with
  | nil => rfl
  | cons i is ih =>
    have h := ih fun x hx => w x (List.mem_cons_of_mem _ hx)
    simp only [encodeFile, List.map_cons, List.flatten_cons, List.length_append] at h ⊢
    rw [h, item_length i (w i (List.mem_cons_self _ _))]

theorem parseLoops_agree : ∀ (fuel : Nat) (records : List STDFRecord) (s : STDFParser),
    streamLoop fuel records s = parseFileLoop fuel records s
  | 0, _, _ => rfl
  | fuel + 1, records, s => by
    have e1 : streamLoop (fuel + 1) records s =
        if (isEndOfFile s).1 then some (records, (isEndOfFile s).2)
        else
          match (parseNextRecord (isEndOfFile s).2).1 with
          | some r => streamLoop fuel (records ++ [r]) (parseNextRecord (isEndOfFile s).2).2
          | none => streamLoop fuel records (parseNextRecord (isEndOfFile s).2).2 := rfl
    have e2 : parseFileLoop (fuel + 1) records s =
        if (isEndOfFile s).1 then some (records, (isEndOfFile s).2)
        else parseFileLoop fuel
          (match (parseNextRecord (isEndOfFile s).2).1 with
            | some r => records ++ [r]
            | none => records) (parseNextRecord (isEndOfFile s).2).2 := rfl
    rw [e1, e2]
    split
    · rfl
    · generalize (parseNextRecord (isEndOfFile s).2) = x
      cases hx : x.1 with
      | none => exact parseLoops_agree fuel _ _
      | some r => exact parseLoops_agree fuel _ _

theorem readRecordHeader_step {s0 : STDFParser} {be : Bool} {k : Nat} {rest : List Byte}
    {s : STDFParser} {len typ sub : Nat}
    (a : Ahead s0 be k (put16 be len ++ [byteOf typ, byteOf sub] ++ rest) s)
    (h : len < 2 ^ 16 ∧ typ < 256 ∧ sub < 256) :
    (readRecordHeader s).1 = { length := len, recordType := typ, recordSub := sub } ∧
      Ahead s0 be (k + 4) rest (readRecordHeader s).2 := by
  simp only [List.append_assoc, List.cons_append, List.nil_append] at a
  have e : readRecordHeader s = (RecordHeader.mk (readU2 s).1 (readU1 (readU2 s).2).1
      (readU1 (readU1 (readU2 s).2).2).1, (readU1 (readU1 (readU2 s).2).2).2) := rfl
  rw [e]
  obtain ⟨e0, a0⟩ := readU2_step a h.1
  generalize readU2 s = x0 at e0 a0 ⊢
  obtain ⟨e1, a1⟩ := readU1_step a0 h.2.1
  generalize readU1 x0.2 = x1 at e1 a1 ⊢
  obtain ⟨e2, a2⟩ := readU1_step a1 h.2.2
  generalize readU1 x1.2 = x2 at e2 a2 ⊢
  refine ⟨?_, a2.shift (by omega)⟩
  simp only [e0, e1, e2]

theorem Ahead.of_pair {α : Type} {s0 : STDFParser} {be : Bool} {k : Nat} {rest : List Byte}
    {x : α × STDFParser} {a : α} {b : STDFParser} (h : x = (a, b)) {v : α} (hv : a = v)
    (hb : Ahead s0 be k rest b) : x.1 = v ∧ Ahead s0 be k rest x.2 := by
  subst h
  exact ⟨hv, hb⟩

theorem parseRecord_record {s0 : STDFParser} {be : Bool} {k : Nat} {rest : List Byte}
    {s : STDFParser} (r : STDFRecord) (w : r.WF) (hl : (r.encode false).length < 2 ^ 16)
    (a : Ahead s0 be k (Item.encode be (.record r) ++ rest) s) :
    (parseRecord s).1 = some r ∧
      Ahead s0 be (k + (Item.encode be (.record r)).length) rest (parseRecord s).2 := by
  cases r with
  | far x =>
    have a2 : Ahead s0 be k (put16 be (x.encode be).length ++ [byteOf 0, byteOf 10] ++
        (x.encode be ++ rest)) s := by
      simpa only [Item.encode, STDFRecord.encode, STDFRecord.code, List.append_assoc] using a
    have hl2 : (x.encode be).length < 2 ^ 16 := by
      have := payload_length (.far x) be
      simp only [STDFRecord.encode] at this hl
      omega
    obtain ⟨eh, ah⟩ := readRecordHeader_step a2 ⟨hl2, by decide, by decide⟩
    have ht : (readRecordHeader s).1.recordType = 0 := congrArg RecordHeader.recordType eh
    have hu : (readRecordHeader s).1.recordSub = 10 := congrArg RecordHeader.recordSub eh
    obtain ⟨e, a3⟩ := parseFAR_encode x w ah
    have hp : parseRecord s = (some (.far (parseFAR (readRecordHeader s).2).1),
        (parseFAR (readRecordHeader s).2).2) := by
      rw [parseRecord_eq, if_pos ⟨ht, hu⟩]
    refine Ahead.of_pair hp (congrArg (fun y => some (STDFRecord.far y)) e) (a3.shift ?_)
    simp only [Item.encode, STDFRecord.encode, List.length_append, put16_length,
      List.length_cons, List.length_nil]
    omega
  | mir x =>
    have a2 : Ahead s0 be k (put16 be (x.encode be).length ++ [byteOf 1, byteOf 10] ++
        (x.encode be ++ rest)) s := by
      simpa only [Item.encode, STDFRecord.encode, STDFRecord.code, List.append_assoc] using a
    have hl2 : (x.encode be).length < 2 ^ 16 := by
      have := payload_length (.mir x) be
      simp only [STDFRecord.encode] at this hl
      omega
    obtain ⟨eh, ah⟩ := readRecordHeader_step a2 ⟨hl2, by decide, by decide⟩
    have ht : (readRecordHeader s).1.recordType = 1 := congrArg RecordHeader.recordType eh
    have hu : (readRecordHeader s).1.recordSub = 10 := congrArg RecordHeader.recordSub eh
    obtain ⟨e, a3⟩ := parseMIR_encode x w ah
    have hp : parseRecord s = (some (.mir (parseMIR (readRecordHeader s).2).1),
        (parseMIR (readRecordHeader s).2).2) := by
      rw [parseRecord_eq, if_neg (by rw [ht, hu]; decide), if_pos ⟨ht, hu⟩]
    refine Ahead.of_pair hp (congrArg (fun y => some (STDFRecord.mir y)) e) (a3.shift ?_)
    simp only [Item.encode, STDFRecord.encode, List.length_append, put16_length,
      List.length_cons, List.length_nil]
    omega
  | hbr x =>
    have a2 : Ahead s0 be k (put16 be (x.encode be).length ++ [byteOf 1, byteOf 40] ++
        (x.encode be ++ rest)) s := by
      simpa only [Item.encode, STDFRecord.encode, STDFRecord.code, List.append_assoc] using a
    have hl2 : (x.encode be).length < 2 ^ 16 := by
      have := payload_length (.hbr x) be
      simp only [STDFRecord.encode] at this hl
      omega
    obtain ⟨eh, ah⟩ := readRecordHeader_step a2 ⟨hl2, by decide, by decide⟩
    have ht : (readRecordHeader s).1.recordType = 1 := congrArg RecordHeader.recordType eh
    have hu : (readRecordHeader s).1.recordSub = 40 := congrArg RecordHeader.recordSub eh
    obtain ⟨e, a3⟩ := parseHBR_encode x w ah
    have hp : parseRecord s = (some (.hbr (parseHBR (readRecordHeader s).2).1),
        (parseHBR (readRecordHeader s).2).2) := by
      rw [parseRecord_eq, if_neg (by rw [ht, hu]; decide), if_neg (by rw [ht, hu]; decide), if_pos ⟨ht, hu⟩]
    refine Ahead.of_pair hp (congrArg (fun y => some (STDFRecord.hbr y)) e) (a3.shift ?_)
    simp only [Item.encode, STDFRecord.encode, List.length_append, put16_length,
      List.length_cons, List.length_nil]
    omega
  | sbr x =>
    have a2 : Ahead s0 be k (put16 be (x.encode be).length ++ [byteOf 1, byteOf 50] ++
        (x.encode be ++ rest)) s := by
      simpa only [Item.encode, STDFRecord.encode, STDFRecord.code, List.append_assoc] using a
    have hl2 : (x.encode be).length < 2 ^ 16 := by
      have := payload_length (.sbr x) be
      simp only [STDFRecord.encode] at this hl
      omega
    obtain ⟨eh, ah⟩ := readRecordHeader_step a2 ⟨hl2, by decide, by decide⟩
    have ht : (readRecordHeader s).1.recordType = 1 := congrArg RecordHeader.recordType eh
    have hu : (readRecordHeader s).1.recordSub = 50 := congrArg RecordHeader.recordSub eh
    obtain ⟨e, a3⟩ := parseSBR_encode x w ah
    have hp : parseRecord s = (some (.sbr (parseSBR (readRecordHeader s).2).1),
        (parseSBR (readRecordHeader s).2).2) := by
      rw [parseRecord_eq, if_neg (by rw [ht, hu]; decide), if_neg (by rw [ht, hu]; decide), if_neg (by rw [ht, hu]; decide), if_pos ⟨ht, hu⟩]
    refine Ahead.of_pair hp (congrArg (fun y => some (STDFRecord.sbr y)) e) (a3.shift ?_)
    simp only [Item.encode, STDFRecord.encode, List.length_append, put16_length,
      List.length_cons, List.length_nil]
    omega
  | wir x =>
    have a2 : Ahead s0 be k (put16 be (x.encode be).length ++ [byteOf 2, byteOf 10] ++
        (x.encode be ++ rest)) s := by
      simpa only [Item.encode, STDFRecord.encode, STDFRecord.code, List.append_assoc] using a
    have hl2 : (x.encode be).length < 2 ^ 16 := by
      have := payload_length (.wir x) be
      simp only [STDFRecord.encode] at this hl
      omega
    obtain ⟨eh, ah⟩ := readRecordHeader_step a2 ⟨hl2, by decide, by decide⟩
    have ht : (readRecordHeader s).1.recordType = 2 := congrArg RecordHeader.recordType eh
    have hu : (readRecordHeader s).1.recordSub = 10 := congrArg RecordHeader.recordSub eh
    obtain ⟨e, a3⟩ := parseWIR_encode x w ah
    have hp : parseRecord s = (some (.wir (parseWIR (readRecordHeader s).2).1),
        (parseWIR (readRecordHeader s).2).2) := by
      rw [parseRecord_eq, if_neg (by rw [ht, hu]; decide), if_neg (by rw [ht, hu]; decide), if_neg (by rw [ht, hu]; decide), if_neg (by rw [ht, hu]; decide), if_pos ⟨ht, hu⟩]
    refine Ahead.of_pair hp (congrArg (fun y => some (STDFRecord.wir y)) e) (a3.shift ?_)
    simp only [Item.encode, STDFRecord.encode, List.length_append, put16_length,
      List.length_cons, List.length_nil]
    omega
  | wrr x =>
    have a2 : Ahead s0 be k (put16 be (x.encode be).length ++ [byteOf 2, byteOf 20] ++
        (x.encode be ++ rest)) s := by
      simpa only [Item.encode, STDFRecord.encode, STDFRecord.code, List.append_assoc] using a
    have hl2 : (x.encode be).length < 2 ^ 16 := by
      have := payload_length (.wrr x) be
      simp only [STDFRecord.encode] at this hl
      omega
    obtain ⟨eh, ah⟩ := readRecordHeader_step a2 ⟨hl2, by decide, by decide⟩
    have ht : (readRecordHeader s).1.recordType = 2 := congrArg RecordHeader.recordType eh
    have hu : (readRecordHeader s).1.recordSub = 20 := congrArg RecordHeader.recordSub eh
    obtain ⟨e, a3⟩ := parseWRR_encode x w ah
    have hp : parseRecord s = (some (.wrr (parseWRR (readRecordHeader s).2).1),
        (parseWRR (readRecordHeader s).2).2) := by
      rw [parseRecord_eq, if_neg (by rw [ht, hu]; decide), if_neg (by rw [ht, hu]; decide), if_neg (by rw [ht, hu]; decide), if_neg (by rw [ht, hu]; decide), if_neg (by rw [ht, hu]; decide), if_pos ⟨ht, hu⟩]
    refine Ahead.of_pair hp (congrArg (fun y => some (STDFRecord.wrr y)) e) (a3.shift ?_)
    simp only [Item.encode, STDFRecord.encode, List.length_append, put16_length,
      List.length_cons, List.length_nil]
    omega
  | pir x =>
    have a2 : Ahead s0 be k (put16 be (x.encode be).length ++ [byteOf 5, byteOf 10] ++
        (x.encode be ++ rest)) s := by
      simpa only [Item.encode, STDFRecord.encode, STDFRecord.code, List.append_assoc] using a
    have hl2 : (x.encode be).length < 2 ^ 16 := by
      have := payload_length (.pir x) be
      simp only [STDFRecord.encode] at this hl
      omega
    obtain ⟨eh, ah⟩ := readRecordHeader_step a2 ⟨hl2, by decide, by decide⟩
    have ht : (readRecordHeader s).1.recordType = 5 := congrArg RecordHeader.recordType eh
    have hu : (readRecordHeader s).1.recordSub = 10 := congrArg RecordHeader.recordSub eh
    obtain ⟨e, a3⟩ := parsePIR_encode x w ah
    have hp : parseRecord s = (some (.pir (parsePIR (readRecordHeader s).2).1),
        (parsePIR (readRecordHeader s).2).2) := by
      rw [parseRecord_eq, if_neg (by rw [ht, hu]; decide), if_neg (by rw [ht, hu]; decide), if_neg (by rw [ht, hu]; decide), if_neg (by rw [ht, hu]; decide), if_neg (by rw [ht, hu]; decide), if_neg (by rw [ht, hu]; decide), if_pos ⟨ht, hu⟩]
    refine Ahead.of_pair hp (congrArg (fun y => some (STDFRecord.pir y)) e) (a3.shift ?_)
    simp only [Item.encode, STDFRecord.encode, List.length_append, put16_length,
      List.length_cons, List.length_nil]
    omega
  | prr x =>
    have a2 : Ahead s0 be k (put16 be (x.encode be).length ++ [byteOf 5, byteOf 20] ++
        (x.encode be ++ rest)) s := by
      simpa only [Item.encode, STDFRecord.encode, STDFRecord.code, List.append_assoc] using a
    have hl2 : (x.encode be).length < 2 ^ 16 := by
      have := payload_length (.prr x) be
      simp only [STDFRecord.encode] at this hl
      omega
    obtain ⟨eh, ah⟩ := readRecordHeader_step a2 ⟨hl2, by decide, by decide⟩
    have ht : (readRecordHeader s).1.recordType = 5 := congrArg RecordHeader.recordType eh
    have hu : (readRecordHeader s).1.recordSub = 20 := congrArg RecordHeader.recordSub eh
    obtain ⟨e, a3⟩ := parsePRR_encode x w ah
    have hp : parseRecord s = (some (.prr (parsePRR (readRecordHeader s).2).1),
        (parsePRR (readRecordHeader s).2).2) := by
      rw [parseRecord_eq, if_neg (by rw [ht, hu]; decide), if_neg (by rw [ht, hu]; decide), if_neg (by rw [ht, hu]; decide), if_neg (by rw [ht, hu]; decide), if_neg (by rw [ht, hu]; decide), if_neg (by rw [ht, hu]; decide), if_neg (by rw [ht, hu]; decide), if_pos ⟨ht, hu⟩]
    refine Ahead.of_pair hp (congrArg (fun y => some (STDFRecord.prr y)) e) (a3.shift ?_)
    simp only [Item.encode, STDFRecord.encode, List.length_append, put16_length,
      List.length_cons, List.length_nil]
    omega
  | ptr x =>
    have a2 : Ahead s0 be k (put16 be (x.encode be).length ++ [byteOf 15, byteOf 10] ++
        (x.encode be ++ rest)) s := by
      simpa only [Item.encode, STDFRecord.encode, STDFRecord.code, List.append_assoc] using a
    have hl2 : (x.encode be).length < 2 ^ 16 := by
      have := payload_length (.ptr x) be
      simp only [STDFRecord.encode] at this hl
      omega
    obtain ⟨eh, ah⟩ := readRecordHeader_step a2 ⟨hl2, by decide, by decide⟩
    have ht : (readRecordHeader s).1.recordType = 15 := congrArg RecordHeader.recordType eh
    have hu : (readRecordHeader s).1.recordSub = 10 := congrArg RecordHeader.recordSub eh
    obtain ⟨e, a3⟩ := parsePTR_encode x w ah
    have hp : parseRecord s = (some (.ptr (parsePTR (readRecordHeader s).2).1),
        (parsePTR (readRecordHeader s).2).2) := by
      rw [parseRecord_eq, if_neg (by rw [ht, hu]; decide), if_neg (by rw [ht, hu]; decide), if_neg (by rw [ht, hu]; decide), if_neg (by rw [ht, hu]; decide), if_neg (by rw [ht, hu]; decide), if_neg (by rw [ht, hu]; decide), if_neg (by rw [ht, hu]; decide), if_neg (by rw [ht, hu]; decide), if_pos ⟨ht, hu⟩]
    refine Ahead.of_pair hp (congrArg (fun y => some (STDFRecord.ptr y)) e) (a3.shift ?_)
    simp only [Item.encode, STDFRecord.encode, List.length_append, put16_length,
      List.length_cons, List.length_nil]
    omega
  | ftr x =>
    have a2 : Ahead s0 be k (put16 be (x.encode be).length ++ [byteOf 15, byteOf 20] ++
        (x.encode be ++ rest)) s := by
      simpa only [Item.encode, STDFRecord.encode, STDFRecord.code, List.append_assoc] using a
    have hl2 : (x.encode be).length < 2 ^ 16 := by
      have := payload_length (.ftr x) be
      simp only [STDFRecord.encode] at this hl
      omega
    obtain ⟨eh, ah⟩ := readRecordHeader_step a2 ⟨hl2, by decide, by decide⟩
    have ht : (readRecordHeader s).1.recordType = 15 := congrArg RecordHeader.recordType eh
    have hu : (readRecordHeader s).1.recordSub = 20 := congrArg RecordHeader.recordSub eh
    obtain ⟨e, a3⟩ := parseFTR_encode x w ah
    have hp : parseRecord s = (some (.ftr (parseFTR (readRecordHeader s).2).1),
        (parseFTR (readRecordHeader s).2).2) := by
      rw [parseRecord_eq, if_neg (by rw [ht, hu]; decide), if_neg (by rw [ht, hu]; decide), if_neg (by rw [ht, hu]; decide), if_neg (by rw [ht, hu]; decide), if_neg (by rw [ht, hu]; decide), if_neg (by rw [ht, hu]; decide), if_neg (by rw [ht, hu]; decide), if_neg (by rw [ht, hu]; decide), if_neg (by rw [ht, hu]; decide), if_pos ⟨ht, hu⟩]
    refine Ahead.of_pair hp (congrArg (fun y => some (STDFRecord.ftr y)) e) (a3.shift ?_)
    simp only [Item.encode, STDFRecord.encode, List.length_append, put16_length,
      List.length_cons, List.length_nil]
    omega

theorem parseRecord_other {s0 : STDFParser} {be : Bool} {k : Nat} {rest : List Byte}
    {s : STDFParser} (typ sub : Nat) (payload swapped : List Byte)
    (w : (Item.other typ sub payload swapped).WF)
    (a : Ahead s0 be k (Item.encode be (.other typ sub payload swapped) ++ rest) s) :
    (parseRecord s).1 = none ∧
      Ahead s0 be (k + (Item.encode be (.other typ sub payload swapped)).length) rest
        (parseRecord s).2 := by
  obtain ⟨w1, w2, w3, w4, w5⟩ := w
  have hlen : (if be then swapped else payload).length = payload.length := by
    cases be
    · rfl
    · exact w5
  have el : (Item.encode be (.other typ sub payload swapped)).length = 4 + payload.length := by
    simp only [Item.encode, List.length_append, put16_length, List.length_cons,
      List.length_nil, hlen]
  have a2 : Ahead s0 be k (put16 be payload.length ++ [byteOf typ, byteOf sub] ++
      ((if be then swapped else payload) ++ rest)) s := by
    simpa only [Item.encode, List.append_assoc] using a
  obtain ⟨eh, ah⟩ := readRecordHeader_step a2 ⟨w4, w1, w2⟩
  have hun : specDispatch (readRecordHeader s).1.recordType (readRecordHeader s).1.recordSub =
      none := by rw [eh]; exact w3
  rw [parseRecord_unmapped s hun, eh, el]
  refine ⟨rfl, ?_⟩
  obtain ⟨es, g, sw, l⟩ := ah
  rw [es, skipBytes_advance _ _ _ g]
  refine ⟨?_, g, sw, ?_⟩
  · show advance (k + 4 + payload.length) s0 = _
    congr 1
    omega
  · have e : s0.file_.pos + (k + (4 + payload.length)) =
        s0.file_.pos + (k + 4) + (if be then swapped else payload).length := by
      rw [hlen]; omega
    rw [e, ← List.drop_drop, l]
    simp

theorem parseRecord_item {s0 : STDFParser} {be : Bool} {k : Nat} {rest : List Byte}
    {s : STDFParser} (i : Item) (w : i.WF) (a : Ahead s0 be k (i.encode be ++ rest) s) :
    (parseRecord s).1 = i.record? ∧ Ahead s0 be (k + (i.encode be).length) rest (parseRecord s).2 := by
  cases i with
  | record r => exact parseRecord_record r w.1 w.2 a
  | other typ sub payload swapped => exact parseRecord_other typ sub payload swapped w a

theorem item_encode_ne_nil (be : Bool) (i : Item) : i.encode be ≠ [] := by
  cases i <;> cases be <;> simp [Item.encode, put16]

theorem parseFileLoop_items {s0 : STDFParser} {be : Bool} (hs : Sized s0) :
    ∀ (items : List Item) (k : Nat) (s : STDFParser) (acc : List STDFRecord) (fuel : Nat),
      (∀ i ∈ items, i.WF) → Ahead s0 be k (encodeFile be items) s → items.length < fuel →
      parseFileLoop fuel acc s =
        some (acc ++ items.filterMap Item.record?,
          advance (k + (encodeFile be items).length) s0) := by
  intro items
  induction items with
  | nil =>
    intro k s acc fuel _ a hf
    obtain ⟨es, g, _, l⟩ := a
    subst es
    obtain ⟨n, rfl⟩ : ∃ n, fuel = n + 1 := ⟨fuel - 1, by simp at hf; omega⟩
    have hp : (advance k s0).file_.data.length ≤ (advance k s0).file_.pos := by
      show s0.file_.data.length ≤ s0.file_.pos + k
      have := congrArg List.length l
      simp only [encodeFile, List.map_nil, List.flatten_nil, List.length_nil,
        List.length_drop] at this
      omega
    rw [parseFileLoop_done n acc (advance k s0) g hs hp]
    simp [encodeFile]
  | cons i is ih =>
    intro k s acc fuel w a hf
    obtain ⟨n, rfl⟩ : ∃ n, fuel = n + 1 := ⟨fuel - 1, by simp at hf; omega⟩
    have a2 : Ahead s0 be k (i.encode be ++ encodeFile be is) s := by
      simpa only [encodeFile, List.map_cons, List.flatten_cons] using a
    obtain ⟨e, a3⟩ := parseRecord_item i (w i (List.mem_cons_self _ _)) a2
    have g : s.file_.good = true := by rw [a.state]; exact a.good
    have hsz : Sized s := by rw [a.state]; exact hs
    have hp : s.file_.pos < s.file_.data.length := by
      have l := a2.left
      have h1 := length_of_drop l (by simp [item_encode_ne_nil])
      have h2 : 0 < (i.encode be).length :=
        List.length_pos.2 (item_encode_ne_nil be i)
      rw [a.state]
      show s0.file_.pos + k < s0.file_.data.length
      simp only [List.length_append] at h1
      omega
    rw [parseFileLoop_more n acc s g hsz hp, e]
    rw [ih _ _ _ n (fun x hx => w x (List.mem_cons_of_mem _ hx)) a3
      (by simp only [List.length_cons] at hf; omega)]
    have el : (encodeFile be (i :: is)).length = (i.encode be).length + (encodeFile be is).length := by
      simp [encodeFile]
    rw [el, Nat.add_assoc]
    cases i with
    | record r => simp [Item.record?]
    | other typ sub payload swapped => simp [Item.record?]

theorem encodeFile_header (be : Bool) (i : Item) (is : List Item) :
    ∃ b0 b1 t u rest, encodeFile be (i :: is) = b0 :: b1 :: t :: u :: rest := by
  cases i <;> cases be <;> exact ⟨_, _, _, _, _, rfl⟩

theorem seekg_begin (data : List Byte) :
    (IfStream.mk data 0 false false).seekgOff 0 .beg = IfStream.mk data 0 false false := by
  simp [IfStream.seekgOff, IfStream.seekTarget]

theorem parseFile_items (be : Bool) (items : List Item) (uninit : List Byte) (fuel : Nat)
    (hne : items ≠ []) (hw : ∀ i ∈ items, i.WF) (hlen : (encodeFile be items).length < 2 ^ 63)
    (hdet : (STDFParser.construct (encodeFile be items) uninit).endianSwap_ = be)
    (hfuel : items.length < fuel) :
    parseFile fuel (STDFParser.construct (encodeFile be items) uninit) =
      some (items.filterMap Item.record?,
        advance (encodeFile be items).length
          (STDFParser.construct (encodeFile be items) uninit)) := by
  obtain ⟨i, is, rfl⟩ := List.exists_cons_of_ne_nil hne
  obtain ⟨b0, b1, t, u, rest, hd⟩ := encodeFile_header be i is
  have hfit : rest.length + 4 < 2 ^ 63 := by
    have := congrArg List.length hd
    simp only [List.length_cons] at this
    omega
  obtain ⟨hfile, hsz, _⟩ := construct_state b0 b1 t u rest uninit hfit
  rw [← hd] at hfile hsz
  generalize STDFParser.construct (encodeFile be (i :: is)) uninit = c at hfile hsz hdet ⊢
  have e : parseFile fuel c = parseFileLoop fuel []
      (STDFParser.mk (c.file_.seekgOff 0 .beg) c.fileSize_ c.endianSwap_ c.uninit) := rfl
  have e2 : STDFParser.mk (c.file_.seekgOff 0 .beg) c.fileSize_ c.endianSwap_ c.uninit = c := by
    rw [hfile, seekg_begin, ← hfile]
  rw [e, e2]
  have a : Ahead c be 0 (encodeFile be (i :: is)) c := by
    refine ⟨rfl, by rw [hfile]; rfl, hdet, ?_⟩
    rw [hfile]
    rfl
  have := parseFileLoop_items hsz (i :: is) 0 c [] fuel hw a hfuel
  rw [this]
  simp

theorem construct_far_first (be : Bool) (f : FARRecord) (items : List Item)
    (uninit : List Byte) :
    (STDFParser.construct (encodeFile be (Item.record (.far f) :: items)) uninit).endianSwap_ =
      be := by
  cases be with
  | false =>
    have hd : encodeFile false (Item.record (.far f) :: items) =
        byteOf 2 :: byteOf 0 :: byteOf 0 :: byteOf 10 :: ([byteOf f.CPU_TYP, byteOf f.STDF_VER] ++
          encodeFile false items) := by
      simp [encodeFile, Item.encode, STDFRecord.encode, FARRecord.encode, put16, STDFRecord.code]
    rw [hd, construct_of_header]
    rfl
  | true =>
    have hd : encodeFile true (Item.record (.far f) :: items) =
        byteOf 0 :: byteOf 2 :: byteOf 0 :: byteOf 10 :: ([byteOf f.CPU_TYP, byteOf f.STDF_VER] ++
          encodeFile true items) := by
      simp [encodeFile, Item.encode, STDFRecord.encode, FARRecord.encode, put16, STDFRecord.code]
    rw [hd, construct_of_header]
    rfl

theorem seekg_constructed (contents uninit : List Byte) :
    (STDFParser.construct contents uninit).file_.seekgOff 0 .beg =
      (STDFParser.construct contents uninit).file_ := by
  by_cases h : contents.length < 4
  · obtain ⟨he, hf, _⟩ := construct_short contents uninit h
    generalize (STDFParser.construct contents uninit).file_ = f at he hf
    obtain ⟨d, p, e, fl⟩ := f
    simp only [] at he hf
    subst he hf
    simp [IfStream.seekgOff]
  · match contents, h with
    | b0 :: b1 :: t :: u :: rest, _ =>
      rw [construct_of_header]
      exact seekg_begin _
    | [], h => exact absurd (by simp) h
    | [_], h => exact absurd (by simp) h
    | [_, _], h => exact absurd (by simp) h
    | [_, _, _], h => exact absurd (by simp) h

theorem streamLoop_eq_parseFile (contents uninit : List Byte) (fuel : Nat) :
    streamLoop fuel [] (STDFParser.construct contents uninit) =
      parseFile fuel (STDFParser.construct contents uninit) := by
  have e : parseFile fuel (STDFParser.construct contents uninit) = parseFileLoop fuel []
      (STDFParser.mk ((STDFParser.construct contents uninit).file_.seekgOff 0 .beg)
        (STDFParser.construct contents uninit).fileSize_
        (STDFParser.construct contents uninit).endianSwap_
        (STDFParser.construct contents uninit).uninit) := rfl
  rw [e, seekg_constructed, parseLoops_agree]

/-- C29: byte order is transparent to decoding.  Take a file that starts with a File
Attributes record and is made of complete records (`encodeFile false`), and the file with the
same records in which the two bytes of every 16-bit field and the four bytes of every 32-bit
field are reversed, header lengths and blob length prefixes included, single bytes and the
contents of strings and blobs left as they are (`encodeFile true`).  With enough fuel
`parseFile` returns on both, and returns the same sequence: the records of the file, in
order. -/
theorem parseFile_byte_order (f : FARRecord) (items : List Item) (uninit : List Byte)
    (fuel : Nat)
    (hw : ∀ i ∈ Item.record (.far f) :: items, i.WF)
    (hlen : (encodeFile false (Item.record (.far f) :: items)).length < 2 ^ 63)
    (hfuel : items.length + 1 < fuel) :
    (∀ n, put16 true n = (put16 false n).reverse) ∧
    (∀ n, put32 true n = (put32 false n).reverse) ∧
    (parseFile fuel (STDFParser.construct
        (encodeFile false (Item.record (.far f) :: items)) uninit)).map Prod.fst =
      some ((Item.record (.far f) :: items).filterMap Item.record?) ∧
    (parseFile fuel (STDFParser.construct
        (encodeFile true (Item.record (.far f) :: items)) uninit)).map Prod.fst =
      (parseFile fuel (STDFParser.construct
        (encodeFile false (Item.record (.far f) :: items)) uninit)).map Prod.fst := by
  have hlen2 : (encodeFile true (Item.record (.far f) :: items)).length < 2 ^ 63 := by
    rw [encodeFile_length _ hw]; exact hlen
  have h1 := parseFile_items false _ uninit fuel (List.cons_ne_nil _ _) hw hlen
    (construct_far_first false f items uninit) (by simpa using hfuel)
  have h2 := parseFile_items true _ uninit fuel (List.cons_ne_nil _ _) hw hlen2
    (construct_far_first true f items uninit) (by simpa using hfuel)
  have r1 := congrArg (Option.map Prod.fst) h1
  have r2 := congrArg (Option.map Prod.fst) h2
  rw [Option.map_some'] at r1 r2
  exact ⟨fun _ => rfl, fun _ => rfl, r1, r2.trans r1.symm⟩

set_option maxRecDepth 100000 in
/-- Witness of C29: a file of four records (File Attributes, Part Information, a record of the
unmapped type (1, 20) with a two-byte payload, and a Parametric Test record with the result
scaling field), written with the bytes of its multi-byte fields reversed. -/
theorem parseFile_byte_order_witness :
    (parseFile 5 (STDFParser.construct
        (encodeFile true [.record (.far (FARRecord.mk 2 4)), .record (.pir (PIRRecord.mk 1 1)),
          .other 1 20 [7, 8] [8, 7],
          .record (.ptr (PTRRecord.mk 1000 1 1 0 0 1065353216 [84] [] 1 (-3) 0 0 0 0 [] [] []
            [] 0 0))]) [])).map Prod.fst =
      some [.far (FARRecord.mk 2 4), .pir (PIRRecord.mk 1 1),
        .ptr (PTRRecord.mk 1000 1 1 0 0 1065353216 [84] [] 1 (-3) 0 0 0 0 [] [] [] [] 0 0)] :=
  have h := parseFile_byte_order (FARRecord.mk 2 4)
    [.record (.pir (PIRRecord.mk 1 1)), .other 1 20 [7, 8] [8, 7],
      .record (.ptr (PTRRecord.mk 1000 1 1 0 0 1065353216 [84] [] 1 (-3) 0 0 0 0 [] [] []
        [] 0 0))] [] 5 (by decide) (by decide) (by decide)
  h.2.2.2.trans h.2.2.1

/-- C30: streaming and bulk parsing agree.  On a fresh session over any input the loop that
calls `parseNextRecord` until `isEndOfFile()` is true and `parseFile` are the same computation:
either both are still running after `fuel` iterations or both return the same records and
leave the same state.  On a file made of complete records, of which there is at least one,
in a byte order the session has detected, both return with enough fuel, and what they return
is the records of the file in file order, one for each header of a decoded kind. -/
theorem streaming_agrees_with_parseFile (be : Bool) (items : List Item) (uninit : List Byte)
    (fuel : Nat) (hne : items ≠ []) (hw : ∀ i ∈ items, i.WF)
    (hlen : (encodeFile be items).length < 2 ^ 63)
    (hdet : (STDFParser.construct (encodeFile be items) uninit).endianSwap_ = be)
    (hfuel : items.length < fuel) :
    (∀ (contents u : List Byte) (n : Nat),
      streamLoop n [] (STDFParser.construct contents u) =
        parseFile n (STDFParser.construct contents u)) ∧
    (streamLoop fuel [] (STDFParser.construct (encodeFile be items) uninit)).map Prod.fst =
      some (items.filterMap Item.record?) ∧
    (parseFile fuel (STDFParser.construct (encodeFile be items) uninit)).map Prod.fst =
      some (items.filterMap Item.record?) := by
  have h := parseFile_items be items uninit fuel hne hw hlen hdet hfuel
  have r := congrArg (Option.map Prod.fst) h
  rw [Option.map_some'] at r
  refine ⟨streamLoop_eq_parseFile, ?_, r⟩
  rw [streamLoop_eq_parseFile]
  exact r

set_option maxRecDepth 100000 in
/-- Witness of C30: a file of three records in the byte order of the host that does not start
with a File Attributes record. -/
theorem streaming_agrees_with_parseFile_witness :
    (streamLoop 4 [] (STDFParser.construct
        (encodeFile false [.record (.pir (PIRRecord.mk 1 1)), .other 1 20 [7, 8] [8, 7],
          .record (.hbr (HBRRecord.mk 1 1 3 40 80 [66, 73, 78]))]) [])).map Prod.fst =
      some [.pir (PIRRecord.mk 1 1), .hbr (HBRRecord.mk 1 1 3 40 80 [66, 73, 78])] :=
  (streaming_agrees_with_parseFile false
    [.record (.pir (PIRRecord.mk 1 1)), .other 1 20 [7, 8] [8, 7],
      .record (.hbr (HBRRecord.mk 1 1 3 40 80 [66, 73, 78]))] [] 4
    (List.cons_ne_nil _ _) (by decide) (by decide) (by decide) (by decide)).2.1

/-! ## The writers of the generator -/

theorem writeU2_eq (v : Nat) : writeU2 v = put16 false v := rfl

theorem writeU4_eq (v : Nat) : writeU4 v = put32 false v := rfl

theorem writeCn_eq (v : List Byte) : writeCn v = putCn v := rfl

theorem byteOf_mod (n k : Nat) (h : 8 ≤ k) : byteOf (n % 2 ^ k) = byteOf n := by
  apply Fin.ext
  show n % 2 ^ k % 256 = n % 256
  have : (256 : Nat) ∣ 2 ^ k := by
    have : (256 : Nat) = 2 ^ 8 := by norm_num
    rw [this]
    exact pow_dvd_pow 2 h
  exact Nat.mod_mod_of_dvd n this

theorem put32_mod (be : Bool) (n : Nat) : put32 be (n % 2 ^ 32) = put32 be n := by
  have e0 : byteOf (n % 2 ^ 32) = byteOf n := byteOf_mod n 32 (by norm_num)
  have e1 : byteOf (n % 2 ^ 32 / 2 ^ 8) = byteOf (n / 2 ^ 8) := by
    apply Fin.ext
    show n % 2 ^ 32 / 2 ^ 8 % 256 = n / 2 ^ 8 % 256
    omega
  have e2 : byteOf (n % 2 ^ 32 / 2 ^ 16) = byteOf (n / 2 ^ 16) := by
    apply Fin.ext
    show n % 2 ^ 32 / 2 ^ 16 % 256 = n / 2 ^ 16 % 256
    omega
  have e3 : byteOf (n % 2 ^ 32 / 2 ^ 24) = byteOf (n / 2 ^ 24) := by
    apply Fin.ext
    show n % 2 ^ 32 / 2 ^ 24 % 256 = n / 2 ^ 24 % 256
    omega
  unfold put32
  rw [e0, e1, e2, e3]

theorem showNat_length (n e : Nat) (he : 0 < e) (h : n < 10 ^ e) : (showNat n).length ≤ e := by
  unfold showNat
  rw [List.length_map]
  exact Nat.toDigitsCore_length 10 (by norm_num) (n + 1) n e h he

theorem showInt_length (i : Int) (h : -2 ^ 31 ≤ i ∧ i < 2 ^ 31) : (showInt i).length ≤ 11 := by
  unfold showInt
  have h1 := h.1
  have h2 := h.2
  split
  · have : (showNat i.natAbs).length ≤ 10 := showNat_length _ 10 (by norm_num) (by omega)
    simp only [List.length_append]
    have : (lit "-").length = 1 := by decide
    omega
  · have : (showNat i.toNat).length ≤ 10 := showNat_length _ 10 (by norm_num) (by omega)
    omega

theorem zeroPadded_length (n : Int) (p : List Byte) (h : zeroPadded n = .ok p) : p.length = 3 := by
  unfold zeroPadded at h
  split at h
  · injection h with h
    rw [← h]
    simp only [List.length_append, List.length_replicate]
    omega
  · exact Except.noConfusion h

theorem drop_pre (pre bytes rest : List Byte) :
    (pre ++ bytes ++ rest).drop (pre.length + 0) = bytes ++ rest := by
  simp

theorem parseRecord_written (pre rest uninit : List Byte) (r : STDFRecord) (w : r.WF)
    (hl : (r.encode false).length < 2 ^ 16) :
    parseRecord (sessionAt pre (Item.encode false (.record r)) rest uninit) =
      (some r, advance (Item.encode false (.record r)).length
        (sessionAt pre (Item.encode false (.record r)) rest uninit)) := by
  have a : Ahead (sessionAt pre (Item.encode false (.record r)) rest uninit) false 0
      (Item.encode false (.record r) ++ rest)
      (sessionAt pre (Item.encode false (.record r)) rest uninit) :=
    ⟨rfl, rfl, rfl, drop_pre _ _ _⟩
  obtain ⟨e, a2⟩ := parseRecord_record r w hl a
  have := a2.state
  rw [Nat.zero_add] at this
  exact Prod.ext e this

theorem far_written :
    writeFAR = Item.encode false (.record (.far { CPU_TYP := 2, STDF_VER := 4 })) := by
  decide

theorem pir_written (partNum : Int) :
    writePIR partNum = Item.encode false (.record (.pir { HEAD_NUM := 1, SITE_NUM := 1 })) :=
  rfl

theorem ptr_written (sample : R4) (draw : Nat) (testNum partNum lotNumber : Int)
    (hs : sample < 2 ^ 32) (ht : IsInt testNum) (hl : IsInt lotNumber) (r : PTRRecord)
    (hr : r =
      { TEST_NUM := toUnsigned 32 testNum, HEAD_NUM := 1, SITE_NUM := 1, TEST_FLG := 0,
        PARM_FLG := 0, RESULT := if draw % 20 = 0 then 0x3F000000 else sample,
        TEST_TXT := lit "TEST_" ++ showInt testNum ++ lit "_LOT" ++ showInt lotNumber,
        ALARM_ID := [], OPT_FLAG := 0 }) :
    writePTR sample draw testNum partNum lotNumber = Item.encode false (.record (.ptr r)) ∧
      (STDFRecord.ptr r).WF ∧ ((STDFRecord.ptr r).encode false).length < 2 ^ 16 := by
  subst hr
  have l1 := showInt_length testNum ht
  have l2 := showInt_length lotNumber hl
  have l3 : (lit "TEST_").length = 5 := by decide
  have l4 : (lit "_LOT").length = 4 := by decide
  have hr : (if draw % 20 = 0 then 0x3F000000 else sample) < 2 ^ 32 := by
    split
    · norm_num
    · exact hs
  have tl := toUnsigned_lt 32 testNum
  refine ⟨?_, ?_, ?_⟩
  · simp only [writePTR, Item.encode, STDFRecord.encode, PTRRecord.encode, STDFRecord.code,
      writeRecordHeader, writeU1, writeCn_eq, writeU2_eq, writeU4_eq, writeR4,
      List.length_append, List.length_cons, List.length_nil, put32_length, putCn_length,
      Nat.zero_and, ne_eq, not_true_eq_false, if_false, List.append_nil, List.append_assoc,
      List.singleton_append, List.cons_append, List.nil_append]
    congr 2
    omega
  · simp only [STDFRecord.WF, PTRRecord.WF, List.length_append, List.length_nil, Nat.zero_and,
      ne_eq, not_true_eq_false, if_false, and_self, and_true, tl, hr, true_and]
    constructorm* _ ∧ _ <;> first | decide | omega
  · simp only [STDFRecord.encode, PTRRecord.encode, List.length_append, List.length_cons,
      List.length_nil, put32_length, putCn_length, Nat.zero_and, ne_eq, not_true_eq_false,
      if_false]
    omega

theorem tmod_ten (i : Int) : -2 ^ 15 ≤ Int.tmod i 10 ∧ Int.tmod i 10 < 2 ^ 15 := by
  cases i with
  | ofNat n =>
    have e : Int.tmod (Int.ofNat n) 10 = ((n % 10 : Nat) : Int) := rfl
    rw [e]
    constructor <;> omega
  | negSucc n =>
    have e : Int.tmod (Int.negSucc n) 10 = -(((n + 1) % 10 : Nat) : Int) := rfl
    rw [e]
    constructor <;> omega

theorem put16_toUnsigned (be : Bool) (i : Int) :
    put16 be (toUnsigned 16 (toSigned 16 (toUnsigned 16 i))) = put16 be (toUnsigned 16 i) := by
  rw [toUnsigned_toSigned16 _ (toUnsigned_lt 16 i)]

theorem toSigned16_range (u : Nat) : -2 ^ 15 ≤ toSigned 16 u ∧ toSigned 16 u < 2 ^ 15 := by
  unfold toSigned
  have := Nat.mod_lt u (by norm_num : 0 < 2 ^ 16)
  split <;> constructor <;> omega

theorem prr_written (draw1 draw2 : Nat) (partNum numTests : Int) (hp : IsInt partNum)
    (r : PRRRecord)
    (hr : r =
      { HEAD_NUM := 1, SITE_NUM := 1, PART_FLG := 0, NUM_TEST := toUnsigned 16 numTests,
        HARD_BIN := if draw1 % 10 ≠ 0 then 1 else 2,
        SOFT_BIN := if draw1 % 10 ≠ 0 then 1 else 2, X_COORD := Int.tmod partNum 10,
        Y_COORD := toSigned 16 (toUnsigned 16 (Int.tdiv partNum 10)),
        TEST_T := toUnsigned 32 (numTests * 200 + ((draw2 % 500 : Nat) : Int)),
        PART_ID := lit "PART_" ++ showInt partNum, PART_TXT := [], PART_FIX := [] }) :
    writePRR draw1 draw2 partNum numTests = Item.encode false (.record (.prr r)) ∧
      (STDFRecord.prr r).WF ∧ ((STDFRecord.prr r).encode false).length < 2 ^ 16 := by
  subst hr
  have l1 := showInt_length partNum hp
  have l3 : (lit "PART_").length = 5 := by decide
  have t1 := toUnsigned_lt 16 numTests
  have t2 := toUnsigned_lt 32 (numTests * 200 + ((draw2 % 500 : Nat) : Int))
  have hb : (if draw1 % 10 ≠ 0 then 1 else 2) < 2 ^ 16 := by split <;> norm_num
  have hx := tmod_ten partNum
  have hy := toSigned16_range (toUnsigned 16 (Int.tdiv partNum 10))
  refine ⟨?_, ?_, ?_⟩
  · simp only [writePRR, Item.encode, STDFRecord.encode, PRRRecord.encode, STDFRecord.code,
      writeRecordHeader, writeU1, writeCn_eq, writeU2_eq, writeU4_eq, writeI2, putBn,
      List.length_append, List.length_cons, List.length_nil, put32_length, put16_length,
      putCn_length, List.append_nil, List.append_assoc, put16_toUnsigned,
      List.singleton_append, List.cons_append, List.nil_append]
    congr 2
    omega
  · simp only [STDFRecord.WF, PRRRecord.WF, List.length_append, List.length_nil, t1, t2, hb,
      hx, hy, and_self, and_true, true_and]
    constructorm* _ ∧ _ <;> first | decide | omega
  · simp only [STDFRecord.encode, PRRRecord.encode, List.length_append, List.length_cons,
      List.length_nil, put32_length, put16_length, putCn_length, putBn_length]
    omega

theorem hbr_written (binNum binCount : Nat) (isPass : Bool) (hn : binNum < 2 ^ 16)
    (hc : binCount < 2 ^ 32) (r : HBRRecord)
    (hr : r =
      { HEAD_NUM := 1, SITE_NUM := 1, HBIN_NUM := binNum, HBIN_CNT := binCount,
        HBIN_PF := if isPass then 80 else 70,
        HBIN_NAM := if isPass then lit "PASS_BIN_" ++ showNat binNum else lit "FAIL_BIN_" ++ showNat binNum }) :
    writeHBR binNum binCount isPass = Item.encode false (.record (.hbr r)) ∧
      (STDFRecord.hbr r).WF ∧ ((STDFRecord.hbr r).encode false).length < 2 ^ 16 := by
  subst hr
  have l1 := showNat_length binNum 5 (by norm_num) (by omega)
  have l3 : (lit "PASS_BIN_").length = 9 := by decide
  have l4 : (lit "FAIL_BIN_").length = 9 := by decide
  cases isPass
  all_goals
    refine ⟨?_, ?_, ?_⟩
    · simp only [writeHBR, Item.encode, STDFRecord.encode, HBRRecord.encode, STDFRecord.code,
        writeRecordHeader, writeU1, writeC1, writeCn_eq, writeU2_eq, writeU4_eq,
        List.length_append, List.length_cons, List.length_nil, put32_length, put16_length,
        putCn_length, List.append_nil, List.append_assoc, Bool.false_eq_true, if_false, if_true,
        List.singleton_append, List.cons_append, List.nil_append]
      congr 2
      omega
    · simp only [STDFRecord.WF, HBRRecord.WF, List.length_append, Bool.false_eq_true, if_false,
        if_true, hn, hc, and_self, and_true, true_and]
      constructorm* _ ∧ _ <;> first | decide | omega
    · simp only [STDFRecord.encode, HBRRecord.encode, List.length_append, List.length_cons,
        List.length_nil, put32_length, put16_length, putCn_length, Bool.false_eq_true, if_false,
        if_true]
      omega

theorem sbr_written (binNum binCount : Nat) (isPass : Bool) (hn : binNum < 2 ^ 16)
    (hc : binCount < 2 ^ 32) (r : SBRRecord)
    (hr : r =
      { HEAD_NUM := 1, SITE_NUM := 1, SBIN_NUM := binNum, SBIN_CNT := binCount,
        SBIN_PF := if isPass then 80 else 70,
        SBIN_NAM := if isPass then lit "SOFT_PASS_" ++ showNat binNum else lit "SOFT_FAIL_" ++ showNat binNum }) :
    writeSBR binNum binCount isPass = Item.encode false (.record (.sbr r)) ∧
      (STDFRecord.sbr r).WF ∧ ((STDFRecord.sbr r).encode false).length < 2 ^ 16 := by
  subst hr
  have l1 := showNat_length binNum 5 (by norm_num) (by omega)
  have l3 : (lit "SOFT_PASS_").length = 10 := by decide
  have l4 : (lit "SOFT_FAIL_").length = 10 := by decide
  cases isPass
  all_goals
    refine ⟨?_, ?_, ?_⟩
    · simp only [writeSBR, Item.encode, STDFRecord.encode, SBRRecord.encode, STDFRecord.code,
        writeRecordHeader, writeU1, writeC1, writeCn_eq, writeU2_eq, writeU4_eq,
        List.length_append, List.length_cons, List.length_nil, put32_length, put16_length,
        putCn_length, List.append_nil, List.append_assoc, Bool.false_eq_true, if_false, if_true,
        List.singleton_append, List.cons_append, List.nil_append]
      congr 2
      omega
    · simp only [STDFRecord.WF, SBRRecord.WF, List.length_append, Bool.false_eq_true, if_false,
        if_true, hn, hc, and_self, and_true, true_and]
      constructorm* _ ∧ _ <;> first | decide | omega
    · simp only [STDFRecord.encode, SBRRecord.encode, List.length_append, List.length_cons,
        List.length_nil, put32_length, put16_length, putCn_length, Bool.false_eq_true, if_false,
        if_true]
      omega

theorem wir_written (start : Nat) (waferNumber : Int) (wafer : List Byte)
    (hp : zeroPadded waferNumber = .ok wafer) (r : WIRRecord)
    (hr : r =
      { HEAD_NUM := 1, SITE_GRP := 1, START_T := start % 2 ^ 32,
        WAFER_ID := lit "WFR_" ++ wafer }) :
    writeWIR start waferNumber = .ok (Item.encode false (.record (.wir r))) ∧
      (STDFRecord.wir r).WF ∧ ((STDFRecord.wir r).encode false).length < 2 ^ 16 := by
  subst hr
  have l1 := zeroPadded_length _ _ hp
  have l3 : (lit "WFR_").length = 4 := by decide
  have t1 : start % 2 ^ 32 < 2 ^ 32 := Nat.mod_lt _ (by norm_num)
  refine ⟨?_, ?_, ?_⟩
  · simp only [writeWIR, hp, Item.encode, STDFRecord.encode, WIRRecord.encode, STDFRecord.code,
      writeRecordHeader, writeU1, writeCn_eq, writeU2_eq, writeU4_eq, put32_mod,
      List.length_append, List.length_cons, List.length_nil, put32_length, put16_length,
      putCn_length, List.append_nil, List.append_assoc,
      List.singleton_append, List.cons_append, List.nil_append]
    congr 3
    omega
  · simp only [STDFRecord.WF, WIRRecord.WF, List.length_append, t1, and_self, and_true,
      true_and]
    constructorm* _ ∧ _ <;> first | decide | omega
  · simp only [STDFRecord.encode, WIRRecord.encode, List.length_append, List.length_cons,
      List.length_nil, put32_length, put16_length, putCn_length]
    omega

theorem wrr_written (finish : Nat) (waferNumber : Int) (totalParts goodParts : Nat)
    (wafer : List Byte) (hp : zeroPadded waferNumber = .ok wafer) (hw : IsInt waferNumber)
    (ht : totalParts < 2 ^ 32) (hg : goodParts < 2 ^ 32) (r : WRRRecord)
    (hr : r =
      { HEAD_NUM := 1, SITE_GRP := 1, FINISH_T := finish % 2 ^ 32, PART_CNT := totalParts,
        RTST_CNT := 0, ABRT_CNT := 0, GOOD_CNT := goodParts, FUNC_CNT := goodParts,
        WAFER_ID := lit "WFR_" ++ wafer, FABWF_ID := lit "FAB_" ++ showInt waferNumber,
        FRAME_ID := [], MASK_ID := [], USR_DESC := [], EXC_DESC := [] }) :
    writeWRR finish waferNumber totalParts goodParts =
        .ok (Item.encode false (.record (.wrr r))) ∧
      (STDFRecord.wrr r).WF ∧ ((STDFRecord.wrr r).encode false).length < 2 ^ 16 := by
  subst hr
  have l1 := zeroPadded_length _ _ hp
  have l2 := showInt_length waferNumber hw
  have l3 : (lit "WFR_").length = 4 := by decide
  have l4 : (lit "FAB_").length = 4 := by decide
  have t1 : finish % 2 ^ 32 < 2 ^ 32 := Nat.mod_lt _ (by norm_num)
  refine ⟨?_, ?_, ?_⟩
  · simp only [writeWRR, hp, Item.encode, STDFRecord.encode, WRRRecord.encode, STDFRecord.code,
      writeRecordHeader, writeU1, writeCn_eq, writeU2_eq, writeU4_eq, put32_mod,
      List.length_append, List.length_cons, List.length_nil, put32_length, put16_length,
      putCn_length, List.append_nil, List.append_assoc,
      List.singleton_append, List.cons_append, List.nil_append]
    congr 3
    omega
  · simp only [STDFRecord.WF, WRRRecord.WF, List.length_append, List.length_nil, t1, ht, hg,
      and_self, and_true, true_and]
    constructorm* _ ∧ _ <;> first | decide | omega
  · simp only [STDFRecord.encode, WRRRecord.encode, List.length_append, List.length_cons,
      List.length_nil, put32_length, put16_length, putCn_length]
    omega

theorem tmod_five (i : Int) : IsInt (Int.tmod i 5 + 1) := by
  unfold IsInt
  cases i with
  | ofNat n =>
    have e : Int.tmod (Int.ofNat n) 5 = ((n % 5 : Nat) : Int) := rfl
    rw [e]
    constructor <;> omega
  | negSucc n =>
    have e : Int.tmod (Int.negSucc n) 5 = -(((n + 1) % 5 : Nat) : Int) := rfl
    rw [e]
    constructor <;> omega

theorem mir_payload (r : MIRRecord) (w : r.WF) : (r.encode false).length < 2 ^ 16 := by
  unfold MIRRecord.WF at w
  simp only [MIRRecord.encode, List.length_append, List.length_cons, List.length_nil,
    put32_length, put16_length, putCn_length]
  omega

theorem mir_written (setup start : Nat) (lotNumber waferNumber : Int) (lot : List Byte)
    (hp : zeroPadded lotNumber = .ok lot) (hw : IsInt waferNumber) :
    writeMIR setup start lotNumber waferNumber =
        .ok (Item.encode false (.record (.mir (mirWritten setup start lot lotNumber
          waferNumber)))) ∧
      (STDFRecord.mir (mirWritten setup start lot lotNumber waferNumber)).WF ∧
      ((STDFRecord.mir (mirWritten setup start lot lotNumber waferNumber)).encode false).length <
        2 ^ 16 := by
  have l1 := zeroPadded_length _ _ hp
  have l2 := showInt_length waferNumber hw
  have l5 := showInt_length _ (tmod_five lotNumber)
  have l3 : (lit "TEST_LOT_").length = 9 := by decide
  have l4 : (lit "PART_TYPE_").length = 10 := by decide
  have l6 : (lit "JOB_").length = 4 := by decide
  have l7 : (lit "Sample test data ").length = 17 := by decide
  have l8 : (lit "WFR_").length = 4 := by decide
  have l9 : (lit "2024").length = 4 := by decide
  have t1 : setup % 2 ^ 32 < 2 ^ 32 := Nat.mod_lt _ (by norm_num)
  have t2 : start % 2 ^ 32 < 2 ^ 32 := Nat.mod_lt _ (by norm_num)
  have wf : (STDFRecord.mir (mirWritten setup start lot lotNumber waferNumber)).WF := by
    simp only [STDFRecord.WF, MIRRecord.WF, mirWritten, List.length_append, List.length_nil, t1,
      t2, and_self, and_true, true_and]
    constructorm* _ ∧ _ <;> first | decide | omega
  refine ⟨?_, wf, ?_⟩
  · simp only [writeMIR, hp, mirStrings, mirWritten, Item.encode, STDFRecord.encode,
      MIRRecord.encode, STDFRecord.code, List.foldl_cons, List.foldl_nil, List.map_cons,
      List.map_nil, List.flatten_cons, List.flatten_nil,
      writeRecordHeader, writeU1, writeC1, writeCn_eq, writeU2_eq, writeU4_eq, put32_mod,
      List.length_append, List.length_cons, List.length_nil, put32_length, put16_length,
      putCn_length, List.append_nil, List.append_assoc,
      List.singleton_append, List.cons_append, List.nil_append]
    refine congrArg Except.ok (congrArg₂ (fun a b => a ++ b) (congrArg (put16 false) ?_) rfl)
    omega
  · exact mir_payload _ wf

theorem parseRecord_of_written (pre rest uninit bytes : List Byte) (r : STDFRecord)
    (h : bytes = Item.encode false (.record r) ∧ r.WF ∧ (r.encode false).length < 2 ^ 16) :
    parseRecord (sessionAt pre bytes rest uninit) =
      (some r, advance bytes.length (sessionAt pre bytes rest uninit)) := by
  obtain ⟨e, w, l⟩ := h
  subst e
  exact parseRecord_written pre rest uninit r w l

/-- C21: decode undoes encode for the writers of the generator.  For each of the nine record
writers, every argument tuple of the argument types for which the writer returns (the
zero-padding of `writeMIR`, `writeWIR` and `writeWRR` throws for a number whose decimal text
is longer than three characters) and every file that holds the bytes written at some offset,
`parseRecord` without byte-order correction at that offset returns a record of the kind of
the writer whose fields are the values written, each converted to the type of its field, and
leaves the stream exactly at the end of the bytes written. -/
theorem writers_round_trip (pre rest uninit : List Byte) :
    parseRecord (sessionAt pre writeFAR rest uninit) =
      (some (.far { CPU_TYP := 2, STDF_VER := 4 }),
        advance writeFAR.length (sessionAt pre writeFAR rest uninit)) ∧
    (∀ (setup start : Nat) (lotNumber waferNumber : Int) (bytes : List Byte),
      IsInt waferNumber → writeMIR setup start lotNumber waferNumber = .ok bytes →
      ∃ lot, zeroPadded lotNumber = .ok lot ∧
        parseRecord (sessionAt pre bytes rest uninit) =
          (some (.mir (mirWritten setup start lot lotNumber waferNumber)),
            advance bytes.length (sessionAt pre bytes rest uninit))) ∧
    (∀ partNum : Int,
      parseRecord (sessionAt pre (writePIR partNum) rest uninit) =
        (some (.pir { HEAD_NUM := 1, SITE_NUM := 1 }),
          advance (writePIR partNum).length (sessionAt pre (writePIR partNum) rest uninit))) ∧
    (∀ (sample : R4) (draw : Nat) (testNum partNum lotNumber : Int),
      sample < 2 ^ 32 → IsInt testNum → IsInt lotNumber →
      parseRecord (sessionAt pre (writePTR sample draw testNum partNum lotNumber) rest uninit) =
        (some (.ptr
          { TEST_NUM := toUnsigned 32 testNum, HEAD_NUM := 1, SITE_NUM := 1, TEST_FLG := 0,
            PARM_FLG := 0, RESULT := if draw % 20 = 0 then 0x3F000000 else sample,
            TEST_TXT := lit "TEST_" ++ showInt testNum ++ lit "_LOT" ++ showInt lotNumber,
            ALARM_ID := [], OPT_FLAG := 0 }),
          advance (writePTR sample draw testNum partNum lotNumber).length
            (sessionAt pre (writePTR sample draw testNum partNum lotNumber) rest uninit))) ∧
    (∀ (draw1 draw2 : Nat) (partNum numTests : Int), IsInt partNum →
      parseRecord (sessionAt pre (writePRR draw1 draw2 partNum numTests) rest uninit) =
        (some (.prr
          { HEAD_NUM := 1, SITE_NUM := 1, PART_FLG := 0, NUM_TEST := toUnsigned 16 numTests,
            HARD_BIN := if draw1 % 10 ≠ 0 then 1 else 2,
            SOFT_BIN := if draw1 % 10 ≠ 0 then 1 else 2, X_COORD := Int.tmod partNum 10,
            Y_COORD := toSigned 16 (toUnsigned 16 (Int.tdiv partNum 10)),
            TEST_T := toUnsigned 32 (numTests * 200 + ((draw2 % 500 : Nat) : Int)),
            PART_ID := lit "PART_" ++ showInt partNum, PART_TXT := [], PART_FIX := [] }),
          advance (writePRR draw1 draw2 partNum numTests).length
            (sessionAt pre (writePRR draw1 draw2 partNum numTests) rest uninit))) ∧
    (∀ (start : Nat) (waferNumber : Int) (bytes : List Byte),
      writeWIR start waferNumber = .ok bytes →
      ∃ wafer, zeroPadded waferNumber = .ok wafer ∧
        parseRecord (sessionAt pre bytes rest uninit) =
          (some (.wir
            { HEAD_NUM := 1, SITE_GRP := 1, START_T := start % 2 ^ 32,
              WAFER_ID := lit "WFR_" ++ wafer }),
            advance bytes.length (sessionAt pre bytes rest uninit))) ∧
    (∀ (finish : Nat) (waferNumber : Int) (totalParts goodParts : Nat) (bytes : List Byte),
      IsInt waferNumber → totalParts < 2 ^ 32 → goodParts < 2 ^ 32 →
      writeWRR finish waferNumber totalParts goodParts = .ok bytes →
      ∃ wafer, zeroPadded waferNumber = .ok wafer ∧
        parseRecord (sessionAt pre bytes rest uninit) =
          (some (.wrr
            { HEAD_NUM := 1, SITE_GRP := 1, FINISH_T := finish % 2 ^ 32,
              PART_CNT := totalParts, RTST_CNT := 0, ABRT_CNT := 0, GOOD_CNT := goodParts,
              FUNC_CNT := goodParts, WAFER_ID := lit "WFR_" ++ wafer,
              FABWF_ID := lit "FAB_" ++ showInt waferNumber, FRAME_ID := [], MASK_ID := [],
              USR_DESC := [], EXC_DESC := [] }),
            advance bytes.length (sessionAt pre bytes rest uninit))) ∧
    (∀ (binNum binCount : Nat) (isPass : Bool), binNum < 2 ^ 16 → binCount < 2 ^ 32 →
      parseRecord (sessionAt pre (writeHBR binNum binCount isPass) rest uninit) =
        (some (.hbr
          { HEAD_NUM := 1, SITE_NUM := 1, HBIN_NUM := binNum, HBIN_CNT := binCount,
            HBIN_PF := if isPass then 80 else 70,
            HBIN_NAM := if isPass then lit "PASS_BIN_" ++ showNat binNum
              else lit "FAIL_BIN_" ++ showNat binNum }),
          advance (writeHBR binNum binCount isPass).length
            (sessionAt pre (writeHBR binNum binCount isPass) rest uninit))) ∧
    (∀ (binNum binCount : Nat) (isPass : Bool), binNum < 2 ^ 16 → binCount < 2 ^ 32 →
      parseRecord (sessionAt pre (writeSBR binNum binCount isPass) rest uninit) =
        (some (.sbr
          { HEAD_NUM := 1, SITE_NUM := 1, SBIN_NUM := binNum, SBIN_CNT := binCount,
            SBIN_PF := if isPass then 80 else 70,
            SBIN_NAM := if isPass then lit "SOFT_PASS_" ++ showNat binNum
              else lit "SOFT_FAIL_" ++ showNat binNum }),
          advance (writeSBR binNum binCount isPass).length
            (sessionAt pre (writeSBR binNum binCount isPass) rest uninit))) := by
  refine ⟨?_, ?_, ?_, ?_, ?_, ?_, ?_, ?_, ?_⟩
  · exact parseRecord_of_written pre rest uninit _ _ ⟨far_written, by decide, by decide⟩
  · intro setup start lotNumber waferNumber bytes hw h
    cases hp : zeroPadded lotNumber with
    | error e =>
      simp only [writeMIR, hp] at h
      exact Except.noConfusion h
    | ok lot =>
      obtain ⟨e, w, l⟩ := mir_written setup start lotNumber waferNumber lot hp hw
      rw [e] at h
      injection h with h
      exact ⟨lot, rfl, parseRecord_of_written pre rest uninit _ _ ⟨h.symm, w, l⟩⟩
  · intro partNum
    exact parseRecord_of_written pre rest uninit _ _ ⟨pir_written partNum, by decide, by decide⟩
  · intro sample draw testNum partNum lotNumber hs ht hl
    exact parseRecord_of_written pre rest uninit _ _
      (ptr_written sample draw testNum partNum lotNumber hs ht hl _ rfl)
  · intro draw1 draw2 partNum numTests hp
    exact parseRecord_of_written pre rest uninit _ _
      (prr_written draw1 draw2 partNum numTests hp _ rfl)
  · intro start waferNumber bytes h
    cases hp : zeroPadded waferNumber with
    | error e =>
      simp only [writeWIR, hp] at h
      exact Except.noConfusion h
    | ok wafer =>
      obtain ⟨e, w, l⟩ := wir_written start waferNumber wafer hp _ rfl
      rw [e] at h
      injection h with h
      exact ⟨wafer, rfl, parseRecord_of_written pre rest uninit _ _ ⟨h.symm, w, l⟩⟩
  · intro finish waferNumber totalParts goodParts bytes hw ht hg h
    cases hp : zeroPadded waferNumber with
    | error e =>
      simp only [writeWRR, hp] at h
      exact Except.noConfusion h
    | ok wafer =>
      obtain ⟨e, w, l⟩ := wrr_written finish waferNumber totalParts goodParts wafer hp hw ht hg
        _ rfl
      rw [e] at h
      injection h with h
      exact ⟨wafer, rfl, parseRecord_of_written pre rest uninit _ _ ⟨h.symm, w, l⟩⟩
  · intro binNum binCount isPass hn hc
    exact parseRecord_of_written pre rest uninit _ _
      (hbr_written binNum binCount isPass hn hc _ rfl)
  · intro binNum binCount isPass hn hc
    exact parseRecord_of_written pre rest uninit _ _
      (sbr_written binNum binCount isPass hn hc _ rfl)

/-! ## Byte swaps, and the specification limits of the Parametric Test record -/

theorem swapBytes16_lt (x : Nat) : swapBytes16 x < 2 ^ 16 := by
  unfold swapBytes16
  exact Nat.mod_lt _ (by norm_num)

theorem swapBytes32_lt (y : Nat) : swapBytes32 y < 2 ^ 32 := by
  unfold swapBytes32
  exact Nat.mod_lt _ (by norm_num)

theorem swapBytes32_digits (d0 d1 d2 d3 : Nat) (h0 : d0 < 256) (h1 : d1 < 256) (h2 : d2 < 256)
    (h3 : d3 < 256) :
    swapBytes32 (d0 + 256 * d1 + 65536 * d2 + 16777216 * d3) =
      d3 + 256 * d2 + 65536 * d1 + 16777216 * d0 := by
  rw [swapBytes32_eq _ (by omega)]
  have a0 : (d0 + 256 * d1 + 65536 * d2 + 16777216 * d3) % 256 = d0 := by omega
  have a1 : (d0 + 256 * d1 + 65536 * d2 + 16777216 * d3) / 256 % 256 = d1 := by omega
  have a2 : (d0 + 256 * d1 + 65536 * d2 + 16777216 * d3) / 65536 % 256 = d2 := by omega
  have a3 : (d0 + 256 * d1 + 65536 * d2 + 16777216 * d3) / 2 ^ 24 = d3 := by omega
  rw [a0, a1, a2, a3]
  show @Eq Nat _ _
  omega

theorem bytes_of_digits (d0 d1 d2 d3 : Nat) (h0 : d0 < 256) (h1 : d1 < 256) (h2 : d2 < 256)
    (h3 : d3 < 256) :
    (d0 + 256 * d1 + 65536 * d2 + 16777216 * d3) / 1 % 256 = d0 ∧
    (d0 + 256 * d1 + 65536 * d2 + 16777216 * d3) / 256 % 256 = d1 ∧
    (d0 + 256 * d1 + 65536 * d2 + 16777216 * d3) / 65536 % 256 = d2 ∧
    (d0 + 256 * d1 + 65536 * d2 + 16777216 * d3) / 16777216 % 256 = d3 := by
  refine ⟨?_, ?_, ?_, ?_⟩ <;> omega

theorem digits32 (y : Nat) (hy : y < 2 ^ 32) :
    ∃ d0 d1 d2 d3, d0 < 256 ∧ d1 < 256 ∧ d2 < 256 ∧ d3 < 256 ∧
      y = d0 + 256 * d1 + 65536 * d2 + 16777216 * d3 :=
  ⟨y % 256, y / 256 % 256, y / 65536 % 256, y / 16777216, by omega, by omega, by omega,
    by omega, by omega⟩

/-- C35: both `swapBytes` overloads are involutions and pure byte permutations.  For every
16-bit `x`, `swapBytes(swapBytes(x)) = x` and `swapBytes(x) = (x mod 256) * 256 + x div 256`;
for every 32-bit `y`, `swapBytes(swapBytes(y)) = y`, the result is again a 32-bit value and
byte `i` of `swapBytes(y)` is byte `3 - i` of `y`. -/
theorem swapBytes_involutions (x y : Nat) (hx : x < 2 ^ 16) (hy : y < 2 ^ 32) :
    swapBytes16 (swapBytes16 x) = x ∧ swapBytes16 x = (x % 256) * 256 + x / 256 ∧
    swapBytes32 (swapBytes32 y) = y ∧ swapBytes32 y < 2 ^ 32 ∧
    ∀ i, i < 4 → swapBytes32 y / 256 ^ i % 256 = y / 256 ^ (3 - i) % 256 := by
  have l16 : @LT.lt Nat _ (swapBytes16 x) 65536 := swapBytes16_lt x
  have e16 : @Eq Nat (swapBytes16 x) ((x % 256) * 256 + x / 256) := swapBytes16_eq x (by omega)
  have e16b : @Eq Nat (swapBytes16 (swapBytes16 x))
      ((swapBytes16 x % 256) * 256 + swapBytes16 x / 256) := swapBytes16_eq (swapBytes16 x) l16
  obtain ⟨d0, d1, d2, d3, h0, h1, h2, h3, rfl⟩ := digits32 y hy
  have e32 := swapBytes32_digits d0 d1 d2 d3 h0 h1 h2 h3
  have e32b := swapBytes32_digits d3 d2 d1 d0 h3 h2 h1 h0
  rw [e32, e32b]
  generalize swapBytes16 (swapBytes16 x) = a2 at e16b ⊢
  generalize swapBytes16 x = a1 at l16 e16 e16b ⊢
  refine ⟨?_, e16, ?_, ?_, ?_⟩
  · show @Eq Nat a2 x
    omega
  · show @Eq Nat _ _
    omega
  · show @LT.lt Nat _ _ 4294967296
    omega
  · obtain ⟨u0, u1, u2, u3⟩ := bytes_of_digits d0 d1 d2 d3 h0 h1 h2 h3
    obtain ⟨v0, v1, v2, v3⟩ := bytes_of_digits d3 d2 d1 d0 h3 h2 h1 h0
    intro i hi
    interval_cases i
    · exact v0.trans u3.symm
    · exact v1.trans u2.symm
    · exact v2.trans u1.symm
    · exact v3.trans u0.symm

/-- Witness of C35: the values `0x1234` and `0x12345678`. -/
theorem swapBytes_involutions_witness :
    swapBytes16 (swapBytes16 0x1234) = 0x1234 ∧ swapBytes16 0x1234 = 0x3412 ∧
    swapBytes32 (swapBytes32 0x12345678) = 0x12345678 ∧ swapBytes32 0x12345678 = 0x78563412 :=
  ⟨(swapBytes_involutions 0x1234 0x12345678 (by decide) (by decide)).1, by decide,
    (swapBytes_involutions 0x1234 0x12345678 (by decide) (by decide)).2.2.1, by decide⟩

/-- C39: no input populates the specification limits of a Parametric Test record.  For every
state of the session (every payload, every `OPT_FLAG` value, complete or short), the record
`parsePTR` returns has `LO_SPEC` and `HI_SPEC` at their initial value 0.0, and `getSize()`
does not depend on these two members: it counts no byte for them. -/
theorem parsePTR_spec_limits (s : STDFParser) :
    (parsePTR s).1.LO_SPEC = 0 ∧ (parsePTR s).1.HI_SPEC = 0 ∧
    (∀ (r : PTRRecord) (lo hi : R4),
      ({ r with LO_SPEC := lo, HI_SPEC := hi } : PTRRecord).getSize = r.getSize) ∧
    (parsePTR s).1.getSize = ptrPayloadSize (parsePTR s).1 := by
  rw [parsePTR_eq_foldl]
  obtain ⟨-, -, -, h4, h5⟩ := foldl_frame (ptrGroups (ptrMandatory s).1.OPT_FLAG) (ptrMandatory s)
  refine ⟨h4.trans rfl, h5.trans rfl, fun r lo hi => rfl, ?_⟩
  exact (ptr_payload_getSize _).symm

/-! ## Array lengths of the Functional Test record, and strings the generator writes -/

theorem fillLoop_length : ∀ (fuel count i : Nat) (arr : List U2) (s : STDFParser),
    (fillLoop fuel count i arr s).1.length = arr.length := by
  intro fuel
  induction fuel with
  | zero => intro count i arr s; rfl
  | succ fuel ih =>
    intro count i arr s
    by_cases h : i < count
    · rw [fillLoop_succ fuel count i arr s h, ih, List.length_set]
    · show (if i < count then _ else _ : List U2 × STDFParser).1.length = _
      rw [if_neg h]

theorem fillLoop_fuel : ∀ (fuel extra count i : Nat) (arr : List U2) (s : STDFParser),
    count ≤ i + fuel → count < 65536 →
    fillLoop (fuel + extra) count i arr s = fillLoop fuel count i arr s := by
  intro fuel
  induction fuel with
  | zero =>
    intro extra count i arr s h _
    cases extra with
    | zero => rfl
    | succ e =>
      show (if i < count then _ else _) = (arr, s)
      rw [if_neg (by omega)]
  | succ fuel ih =>
    intro extra count i arr s h hc
    by_cases hi : i < count
    · rw [Nat.add_right_comm, fillLoop_succ _ count i arr s hi, fillLoop_succ _ count i arr s hi,
        Nat.mod_eq_of_lt (by omega : i + 1 < 2 ^ 16)]
      exact ih extra count (i + 1) _ _ (by omega) hc
    · rw [Nat.add_right_comm]
      show (if i < count then _ else _) = (if i < count then _ else _)
      rw [if_neg hi, if_neg hi]

/-- C32: every record `parseFTR` returns, from any state of the session, has
`|RTN_INDX| = |RTN_STAT| = RTN_ICNT` and `|PGM_INDX| = |PGM_STAT| = PGM_ICNT`, with both
counts between 0 and 65535.  The fill loops end by their own condition for every count up to
65535: the 16-bit counter reaches the count without wrapping, so that more iterations
allowed change nothing. -/
theorem parseFTR_array_lengths (s : STDFParser) :
    (parseFTR s).1.RTN_INDX.length = (parseFTR s).1.RTN_ICNT ∧
    (parseFTR s).1.RTN_STAT.length = (parseFTR s).1.RTN_ICNT ∧
    (parseFTR s).1.PGM_INDX.length = (parseFTR s).1.PGM_ICNT ∧
    (parseFTR s).1.PGM_STAT.length = (parseFTR s).1.PGM_ICNT ∧
    (parseFTR s).1.RTN_ICNT ≤ 65535 ∧ (parseFTR s).1.PGM_ICNT ≤ 65535 ∧
    ∀ (count extra : Nat) (arr : List U2) (t : STDFParser), count ≤ 65535 →
      fillLoop (count + extra) count 0 arr t = fillLoop count count 0 arr t := by
  unfold parseFTR
  simp only []
  refine ⟨?_, ?_, ?_, ?_, ?_, ?_, ?_⟩
  · rw [fillLoop_length, resize_nil, List.length_replicate]
  · rw [fillLoop_length, resize_nil, List.length_replicate]
  · rw [fillLoop_length, resize_nil, List.length_replicate]
  · rw [fillLoop_length, resize_nil, List.length_replicate]
  · exact Nat.le_of_lt_succ (readU2_lt _)
  · exact Nat.le_of_lt_succ (readU2_lt _)
  · intro count extra arr t hc
    exact fillLoop_fuel count extra count 0 arr t (by omega) (by omega)

/-- C38: `readCn` undoes the generator's `writeCn` exactly when the string fits the one-byte
length prefix.  `writeCn(str)` is one byte holding `|str| mod 256`, followed by all `|str|`
bytes of the string.  Reading it back, in either byte-order mode, returns the first
`|str| mod 256` bytes of `str` and consumes `1 + |str| mod 256` bytes.  For `|str| <= 255`
that is `str` itself and all `1 + |str|` bytes written; for `|str| > 255` the result is a
proper part of `str` and `|str| - |str| mod 256 > 0` content bytes stay unconsumed. -/
theorem readCn_writeCn (str pre rest uninit : List Byte) (swap : Bool) :
    (writeCn str).length = 1 + str.length ∧
    (writeCn str).head? = some (byteOf str.length) ∧ (writeCn str).tail = str ∧
    readCn (STDFParser.mk (IfStream.mk (pre ++ writeCn str ++ rest) pre.length false false)
        (pre ++ writeCn str ++ rest).length swap uninit) =
      (str.take (str.length % 256),
        advance (1 + str.length % 256)
          (STDFParser.mk (IfStream.mk (pre ++ writeCn str ++ rest) pre.length false false)
            (pre ++ writeCn str ++ rest).length swap uninit)) ∧
    (str.length ≤ 255 → str.take (str.length % 256) = str ∧
      1 + str.length % 256 = (writeCn str).length) ∧
    (255 < str.length → str.take (str.length % 256) ≠ str ∧
      1 + str.length % 256 < (writeCn str).length ∧
      remaining (advance (1 + str.length % 256)
          (STDFParser.mk (IfStream.mk (pre ++ writeCn str ++ rest) pre.length false false)
            (pre ++ writeCn str ++ rest).length swap uninit)) =
        str.drop (str.length % 256) ++ rest) := by
  have hlen : (writeCn str).length = 1 + str.length := by
    show (byteOf str.length :: str).length = _
    rw [List.length_cons]; omega
  have hm : str.length % 256 < 256 := Nat.mod_lt _ (by decide)
  refine ⟨hlen, rfl, rfl, ?_, ?_, ?_⟩
  · have hd : (pre ++ writeCn str ++ rest).drop pre.length =
        byteOf str.length :: (str.take (str.length % 256) ++ (str.drop (str.length % 256) ++ rest)) := by
      rw [List.append_assoc, List.drop_left]
      show byteOf str.length :: (str ++ rest) = _
      rw [← List.append_assoc, List.take_append_drop]
    have h := readCn_of_bytes (STDFParser.mk (IfStream.mk (pre ++ writeCn str ++ rest) pre.length
      false false) (pre ++ writeCn str ++ rest).length swap uninit) (byteOf str.length)
      (str.take (str.length % 256)) (str.drop (str.length % 256) ++ rest) rfl hd
      (by rw [List.length_take, byteOf_val_mod]; exact Nat.min_eq_left (Nat.mod_le _ _))
    rw [h, byteOf_val_mod]
  · intro h
    rw [Nat.mod_eq_of_lt (by omega), List.take_length]
    exact ⟨rfl, hlen.symm⟩
  · intro h
    refine ⟨?_, by omega, ?_⟩
    · intro e
      have := congrArg List.length e
      rw [List.length_take, Nat.min_eq_left (Nat.mod_le _ _)] at this
      omega
    · show (pre ++ writeCn str ++ rest).drop (pre.length + (1 + str.length % 256)) = _
      rw [List.append_assoc, ← List.drop_drop, List.drop_left]
      show (byteOf str.length :: (str ++ rest)).drop (1 + str.length % 256) = _
      rw [Nat.add_comm, List.drop_succ_cons, List.drop_append_of_le_length (Nat.mod_le _ _)]

/-! ## The mandatory fields of the Parametric Test record -/

theorem readGroup_mandatory (p : PTRRecord × STDFParser) (g : PTRGroup) :
    (readGroup p g).1.TEST_NUM = p.1.TEST_NUM ∧ (readGroup p g).1.HEAD_NUM = p.1.HEAD_NUM ∧
      (readGroup p g).1.SITE_NUM = p.1.SITE_NUM ∧ (readGroup p g).1.TEST_FLG = p.1.TEST_FLG ∧
      (readGroup p g).1.PARM_FLG = p.1.PARM_FLG ∧ (readGroup p g).1.RESULT = p.1.RESULT := by
  cases g <;> exact ⟨rfl, rfl, rfl, rfl, rfl, rfl⟩

theorem foldl_mandatory (gs : List PTRGroup) :
    ∀ p : PTRRecord × STDFParser,
      (List.foldl readGroup p gs).1.TEST_NUM = p.1.TEST_NUM ∧
      (List.foldl readGroup p gs).1.HEAD_NUM = p.1.HEAD_NUM ∧
      (List.foldl readGroup p gs).1.SITE_NUM = p.1.SITE_NUM ∧
      (List.foldl readGroup p gs).1.TEST_FLG = p.1.TEST_FLG ∧
      (List.foldl readGroup p gs).1.PARM_FLG = p.1.PARM_FLG ∧
      (List.foldl readGroup p gs).1.RESULT = p.1.RESULT := by
  induction gs with
  | nil => intro p; exact ⟨rfl, rfl, rfl, rfl, rfl, rfl⟩
  | cons a gs ih =>
    intro p
    obtain ⟨h1, h2, h3, h4, h5, h6⟩ := ih (readGroup p a)
    obtain ⟨k1, k2, k3, k4, k5, k6⟩ := readGroup_mandatory p a
    exact ⟨h1.trans k1, h2.trans k2, h3.trans k3, h4.trans k4, h5.trans k5, h6.trans k6⟩

set_option maxRecDepth 100000 in
/-- C33, counterexample: on a payload whose `TEST_TXT` is one character and whose `ALARM_ID`
is empty, the seven reads `TEST_NUM`, `HEAD_NUM`, `SITE_NUM`, `TEST_FLG`, `PARM_FLG`,
`RESULT`, `TEST_TXT` end at offset 14; the byte read there is 0, the length prefix of
`ALARM_ID`, while the `OPT_FLAG` of the record is 255, the byte at offset 15 that follows the
eighth field. -/
theorem parsePTR_flag_after_eight :
    (readCn (readR4 (readU1 (readU1 (readU1 (readU1 (readU4 ptrSample).2).2).2).2).2).2).2.file_.pos
      = 14 ∧
    (readU1 (readCn (readR4 (readU1 (readU1 (readU1 (readU1
      (readU4 ptrSample).2).2).2).2).2).2).2).1 = 0 ∧
    (parsePTR ptrSample).1.OPT_FLAG = 255 ∧ byteAt ptrSample 15 = 255 ∧
    (parsePTR ptrSample).1.ALARM_ID = [] ∧ (parsePTR ptrSample).1.TEST_TXT = [65] := by
  decide

theorem ptrMandatory_reads (s : STDFParser) :
    ∃ s1 s2 s3 s4 s5 s6 s7 s8 : STDFParser,
      readU4 s = ((ptrMandatory s).1.TEST_NUM, s1) ∧
      readU1 s1 = ((ptrMandatory s).1.HEAD_NUM, s2) ∧
      readU1 s2 = ((ptrMandatory s).1.SITE_NUM, s3) ∧
      readU1 s3 = ((ptrMandatory s).1.TEST_FLG, s4) ∧
      readU1 s4 = ((ptrMandatory s).1.PARM_FLG, s5) ∧
      readR4 s5 = ((ptrMandatory s).1.RESULT, s6) ∧
      readCn s6 = ((ptrMandatory s).1.TEST_TXT, s7) ∧
      readCn s7 = ((ptrMandatory s).1.ALARM_ID, s8) ∧
      readU1 s8 = ((ptrMandatory s).1.OPT_FLAG, (ptrMandatory s).2) := by
  unfold ptrMandatory
  simp only []
  generalize readU4 s = x0
  generalize e1 : readU1 x0.2 = x1
  generalize e2 : readU1 x1.2 = x2
  generalize e3 : readU1 x2.2 = x3
  generalize e4 : readU1 x3.2 = x4
  generalize e5 : readR4 x4.2 = x5
  generalize e6 : readCn x5.2 = x6
  generalize e7 : readCn x6.2 = x7
  generalize e8 : readU1 x7.2 = x8
  exact ⟨x0.2, x1.2, x2.2, x3.2, x4.2, x5.2, x6.2, x7.2, rfl, e1, e2, e3, e4, e5, e6, e7, e8⟩

theorem readU1_byteAt (s : STDFParser) (h : (readU1 s).2.file_.failbit = false) :
    (readU1 s).1 = byteAt s s.file_.pos := by
  have e : readU1 s = (leValue (readRaw 1 s).1, (readRaw 1 s).2) := rfl
  rw [e] at h ⊢
  have k := readRaw_failbit 1 s h
  have h2 : (readRaw 1 s).1 = (s.file_.data.drop s.file_.pos).take 1 := k.2.2.1
  have h3 : (readRaw 1 s).1.length = 1 := k.2.2.2
  show leValue (readRaw 1 s).1 = _
  rw [h2] at h3 ⊢
  unfold byteAt
  cases hd : s.file_.data.drop s.file_.pos with
  | nil => rw [hd] at h3; exact absurd h3 (by decide)
  | cons b rest =>
    have hg : s.file_.data[s.file_.pos]? = some b := by
      have := congrArg (fun l => l[0]?) hd
      simpa using this
    rw [List.getD_eq_getElem?_getD, hg]
    simp [leValue]

/-- C33 (amended): the Parametric Test decoder reads exactly eight mandatory fields before
the optional-field bitmask: `TEST_NUM` (4 bytes), `HEAD_NUM`, `SITE_NUM`, `TEST_FLG`,
`PARM_FLG` (one byte each), `RESULT` (4 bytes) and the two length-prefixed strings `TEST_TXT`
and `ALARM_ID`, in this order and each from where the previous read stopped; `OPT_FLAG` is
the ninth read, and the optional groups are decoded from where it stopped.  When no read runs
short, `OPT_FLAG` is the byte at offset `14 + |TEST_TXT| + |ALARM_ID|` of the payload. -/
theorem parsePTR_eight_mandatory (s : STDFParser) :
    ∃ s1 s2 s3 s4 s5 s6 s7 s8 : STDFParser,
      readU4 s = ((parsePTR s).1.TEST_NUM, s1) ∧
      readU1 s1 = ((parsePTR s).1.HEAD_NUM, s2) ∧
      readU1 s2 = ((parsePTR s).1.SITE_NUM, s3) ∧
      readU1 s3 = ((parsePTR s).1.TEST_FLG, s4) ∧
      readU1 s4 = ((parsePTR s).1.PARM_FLG, s5) ∧
      readR4 s5 = ((parsePTR s).1.RESULT, s6) ∧
      readCn s6 = ((parsePTR s).1.TEST_TXT, s7) ∧
      readCn s7 = ((parsePTR s).1.ALARM_ID, s8) ∧
      (readU1 s8).1 = (parsePTR s).1.OPT_FLAG ∧
      parsePTR s = List.foldl readGroup ((ptrMandatory s).1, (readU1 s8).2)
        (ptrGroups (parsePTR s).1.OPT_FLAG) ∧
      ((parsePTR s).2.file_.failbit = false →
        s8.file_.pos = s.file_.pos + 14 + (parsePTR s).1.TEST_TXT.length +
          (parsePTR s).1.ALARM_ID.length ∧
        (parsePTR s).1.OPT_FLAG = byteAt s (s.file_.pos + 14 +
          (parsePTR s).1.TEST_TXT.length + (parsePTR s).1.ALARM_ID.length)) := by
  have hfold := parsePTR_eq_foldl s
  obtain ⟨f1, f2, f3, f4, f5⟩ :=
    foldl_frame (ptrGroups (ptrMandatory s).1.OPT_FLAG) (ptrMandatory s)
  obtain ⟨m1, m2, m3, m4, m5, m6⟩ :=
    foldl_mandatory (ptrGroups (ptrMandatory s).1.OPT_FLAG) (ptrMandatory s)
  obtain ⟨s1, s2, s3, s4, s5, s6, s7, s8, e1, e2, e3, e4, e5, e6, e7, e8, e9⟩ :=
    ptrMandatory_reads s
  have hadv : ∀ gs : List PTRGroup, gs.Nodup →
      (List.foldl readGroup (ptrMandatory s) gs).2.file_.failbit = false →
      (ptrMandatory s).2.file_.failbit = false := fun gs hn h =>
    (foldl_adv gs hn (ptrMandatory s) h).ok
  generalize ptrMandatory s = pm at hfold f1 f2 f3 f4 f5 m1 m2 m3 m4 m5 m6 e1 e2 e3 e4 e5 e6 e7 e8 e9 hadv
  rw [← hfold] at f1 f2 f3 m1 m2 m3 m4 m5 m6
  generalize parsePTR s = pp at hfold f1 f2 f3 m1 m2 m3 m4 m5 m6 ⊢
  have e9a : (readU1 s8).1 = pm.1.OPT_FLAG := by rw [e9]
  have e9b : (readU1 s8).2 = pm.2 := by rw [e9]
  refine ⟨s1, s2, s3, s4, s5, s6, s7, s8, ?_, ?_, ?_, ?_, ?_, ?_, ?_, ?_, ?_, ?_, ?_⟩
  · rw [m1]; exact e1
  · rw [m2]; exact e2
  · rw [m3]; exact e3
  · rw [m4]; exact e4
  · rw [m5]; exact e5
  · rw [m6]; exact e6
  · rw [f2]; exact e7
  · rw [f3]; exact e8
  · rw [f1]; exact e9a
  · rw [f1, e9b, Prod.mk.eta]; exact hfold
  · intro h
    rw [f1, f2, f3]
    rw [hfold] at h
    have hm : (readU1 s8).2.file_.failbit = false := by
      rw [e9b]; exact hadv _ (ptrGroups_nodup _) h
    have c9 := readU1_adv s8 hm
    have hv := readU1_byteAt s8 hm
    have c8 := readCn_adv s7 (by rw [e8]; exact c9.ok)
    rw [e8] at c8
    have c7 := readCn_adv s6 (by rw [e7]; exact c8.ok)
    rw [e7] at c7
    have c6 := readR4_adv s5 (by rw [e6]; exact c7.ok)
    rw [e6] at c6
    have c5 := readU1_adv s4 (by rw [e5]; exact c6.ok)
    rw [e5] at c5
    have c4 := readU1_adv s3 (by rw [e4]; exact c5.ok)
    rw [e4] at c4
    have c3 := readU1_adv s2 (by rw [e3]; exact c4.ok)
    rw [e3] at c3
    have c2 := readU1_adv s1 (by rw [e2]; exact c3.ok)
    rw [e2] at c2
    have c1 := readU4_adv s (by rw [e1]; exact c2.ok)
    rw [e1] at c1
    have c := c1.trans (c2.trans (c3.trans (c4.trans (c5.trans (c6.trans (c7.trans c8))))))
    have hp := c.pos_eq
    simp only [] at hp
    have hpos : s8.file_.pos = s.file_.pos + 14 + pm.1.TEST_TXT.length +
        pm.1.ALARM_ID.length := by omega
    refine ⟨hpos, ?_⟩
    have hd : s8.file_.data = s.file_.data := by
      have := c.eq
      simp only [] at this
      rw [this]
      rfl
    rw [← e9a, hv, ← hpos]
    unfold byteAt
    rw [hd]

/-! ## A first header of minor type 20 -/

theorem construct_minor (be : Bool) (u : Byte) (rest uninit : List Byte) :
    (STDFParser.construct (put16 be 2 ++ [0, u] ++ rest) uninit).endianSwap_ =
      (be && decide (u.val = 10 ∨ u.val = 20)) := by
  cases be with
  | false =>
    show (STDFParser.construct (2 :: 0 :: 0 :: u :: rest) uninit).endianSwap_ = _
    rw [construct_of_header]
    show decide _ = false
    rw [decide_eq_false_iff_not]
    intro h
    exact h.2.2.1 rfl
  | true =>
    show (STDFParser.construct (0 :: 2 :: 0 :: u :: rest) uninit).endianSwap_ = _
    rw [construct_of_header]
    show decide _ = (true && decide _)
    rw [Bool.true_and]
    congr 1
    apply propext
    constructor
    · intro h; exact h.2.1
    · intro h; exact ⟨rfl, h, by decide, by decide⟩

/-- C36, counterexample: a file whose first header is (length 2, major 0, minor 20), followed
by its two payload bytes and a File Attributes record, yields that FAR record. -/
theorem minor_twenty_then_far :
    (parseFile 5 (STDFParser.construct [2, 0, 0, 20, 7, 7, 2, 0, 0, 10, 2, 4] [])).map Prod.fst =
      some [STDFRecord.far { CPU_TYP := 2, STDF_VER := 4 }] := by
  decide

/-- C36 (amended): the detector and the dispatcher disagree on minor type 20.  For every
input whose first header is (length 2, major 0, minor 20) in either byte order, the
constructor chooses the correction flag exactly as it does for a File Attributes header
(minor 10) in that byte order, and sets it for no other minor; yet the first
`parseNextRecord` returns no record and leaves the read offset at 6, the two payload bytes
skipped.  The first header therefore yields no record, and `parseFile` returns what the
parse loop returns from offset 6 on. -/
theorem minor_twenty_is_skipped (be : Bool) (rest uninit : List Byte) (fuel : Nat)
    (hfit : rest.length + 4 < 2 ^ 63) :
    (STDFParser.construct (put16 be 2 ++ [0, 20] ++ rest) uninit).endianSwap_ = be ∧
    (STDFParser.construct (put16 be 2 ++ [0, 10] ++ rest) uninit).endianSwap_ = be ∧
    (∀ u : Byte, u.val ≠ 10 → u.val ≠ 20 →
      (STDFParser.construct (put16 be 2 ++ [0, u] ++ rest) uninit).endianSwap_ = false) ∧
    (STDFParser.construct (put16 be 2 ++ [0, 20] ++ rest) uninit).file_.pos = 0 ∧
    parseNextRecord (STDFParser.construct (put16 be 2 ++ [0, 20] ++ rest) uninit) =
      (none, advance 6 (STDFParser.construct (put16 be 2 ++ [0, 20] ++ rest) uninit)) ∧
    parseFile (fuel + 1) (STDFParser.construct (put16 be 2 ++ [0, 20] ++ rest) uninit) =
      parseFileLoop fuel []
        (advance 6 (STDFParser.construct (put16 be 2 ++ [0, 20] ++ rest) uninit)) := by
  have hsw := construct_minor be 20 rest uninit
  have hsw2 := construct_minor be 10 rest uninit
  rw [show decide (((20 : Byte)).val = 10 ∨ ((20 : Byte)).val = 20) = true from rfl,
    Bool.and_true] at hsw
  rw [show decide (((10 : Byte)).val = 10 ∨ ((10 : Byte)).val = 20) = true from rfl,
    Bool.and_true] at hsw2
  have hd : ∃ b0 b1 : Byte, put16 be 2 ++ [0, 20] ++ rest = b0 :: b1 :: 0 :: 20 :: rest ∧
      (if be then 256 * b0.val + b1.val else b0.val + 256 * b1.val) = 2 := by
    cases be
    · exact ⟨2, 0, rfl, rfl⟩
    · exact ⟨0, 2, rfl, rfl⟩
  obtain ⟨b0, b1, hd, hL⟩ := hd
  obtain ⟨hfile, hsz, -⟩ := construct_state b0 b1 0 20 rest uninit hfit
  rw [← hd] at hfile hsz
  refine ⟨hsw, hsw2, ?_, by rw [hfile], ?_, ?_⟩
  · intro u h1 h2
    rw [construct_minor, show decide (u.val = 10 ∨ u.val = 20) = false from
      decide_eq_false (by omega), Bool.and_false]
  all_goals
    generalize STDFParser.construct (put16 be 2 ++ [0, 20] ++ rest) uninit = c
      at hfile hsz hsw ⊢
    have hg : c.file_.good = true := by rw [hfile]; rfl
    have hdrop : c.file_.data.drop c.file_.pos = b0 :: b1 :: 0 :: 20 :: rest := by
      rw [hfile, hd]; rfl
    have hp : c.file_.pos < c.file_.data.length := by
      rw [hfile, hd]
      show 0 < rest.length + 4
      omega
    have hr : parseRecord c = (none, advance 6 c) := by
      rw [parseRecord_skip c b0 b1 0 20 rest hg hdrop (by decide), hsw, hL]
  · rw [parseNextRecord_of_more c hg hsz hp, hr]
  · have e : parseFile (fuel + 1) c = parseFileLoop (fuel + 1) []
        (STDFParser.mk (c.file_.seekgOff 0 .beg) c.fileSize_ c.endianSwap_ c.uninit) := rfl
    have e2 : STDFParser.mk (c.file_.seekgOff 0 .beg) c.fileSize_ c.endianSwap_ c.uninit = c := by
      rw [hfile, hd, seekg_begin, ← hd, ← hfile]
    rw [e, e2, parseFileLoop_more fuel [] c hg hsz hp, hr]

/-- Witness of C36: a big-endian header of minor type 20, its payload, and a stray byte. -/
theorem minor_twenty_is_skipped_witness :
    (STDFParser.construct [0, 2, 0, 20, 7, 7, 9] []).endianSwap_ = true ∧
    (parseNextRecord (STDFParser.construct [0, 2, 0, 20, 7, 7, 9] [])).1 = none ∧
    (parseNextRecord (STDFParser.construct [0, 2, 0, 20, 7, 7, 9] [])).2.file_.pos = 6 :=
  ⟨(minor_twenty_is_skipped true [7, 7, 9] [] 0 (by decide)).1,
    congrArg Prod.fst (minor_twenty_is_skipped true [7, 7, 9] [] 0 (by decide)).2.2.2.2.1,
    by decide⟩

/-! ## The length field the generator writes -/

theorem encode_getSize (r : STDFRecord) (be : Bool) : (r.encode be).length = r.getSize := by
  cases r with
  | ptr x =>
    simp only [STDFRecord.encode, STDFRecord.getSize, PTRRecord.encode, PTRRecord.getSize,
      List.length_append, List.length_cons, List.length_nil, put32_length, putCn_length,
      apply_ite List.length]
    split_ifs <;> omega
  | ftr x =>
    simp only [STDFRecord.encode, STDFRecord.getSize, FTRRecord.encode, FTRRecord.getSize,
      List.length_append, List.length_cons, List.length_nil, put16_length, put32_length,
      putCn_length, putBn_length, putWords_length]
    omega
  | far x => rfl
  | pir x => rfl
  | mir x =>
    simp only [STDFRecord.encode, STDFRecord.getSize, MIRRecord.encode, MIRRecord.getSize,
      List.length_append, List.length_cons, List.length_nil, put16_length, put32_length,
      putCn_length]
    omega
  | prr x =>
    simp only [STDFRecord.encode, STDFRecord.getSize, PRRRecord.encode, PRRRecord.getSize,
      List.length_append, List.length_cons, List.length_nil, put16_length, put32_length,
      putCn_length, putBn_length]
    omega
  | hbr x =>
    simp only [STDFRecord.encode, STDFRecord.getSize, HBRRecord.encode, HBRRecord.getSize,
      List.length_append, List.length_cons, List.length_nil, put16_length, put32_length,
      putCn_length]
    omega
  | sbr x =>
    simp only [STDFRecord.encode, STDFRecord.getSize, SBRRecord.encode, SBRRecord.getSize,
      List.length_append, List.length_cons, List.length_nil, put16_length, put32_length,
      putCn_length]
    omega
  | wir x =>
    simp only [STDFRecord.encode, STDFRecord.getSize, WIRRecord.encode, WIRRecord.getSize,
      List.length_append, List.length_cons, List.length_nil, put16_length, put32_length,
      putCn_length]
    omega
  | wrr x =>
    simp only [STDFRecord.encode, STDFRecord.getSize, WRRRecord.encode, WRRRecord.getSize,
      List.length_append, List.length_cons, List.length_nil, put16_length, put32_length,
      putCn_length]
    omega

theorem code_lt (r : STDFRecord) : r.code.1 < 256 ∧ r.code.2 < 256 := by
  cases r <;> exact ⟨by show (_ : Nat) < 256; simp [STDFRecord.code], by show (_ : Nat) < 256; simp [STDFRecord.code]⟩

theorem lengthAgrees_of_written (pre rest uninit bytes : List Byte) (r : STDFRecord)
    (h : bytes = Item.encode false (.record r) ∧ r.WF ∧ (r.encode false).length < 2 ^ 16) :
    LengthAgrees pre rest uninit bytes := by
  obtain ⟨e, w, l⟩ := h
  have hp := parseRecord_of_written pre rest uninit bytes r ⟨e, w, l⟩
  subst e
  refine ⟨(r.encode false).length, r.code.1, r.code.2, r.encode false, r, rfl, l, rfl, ?_,
    by rw [hp], (encode_getSize r false).symm⟩
  have a : Ahead (sessionAt pre (Item.encode false (.record r)) rest uninit) false 0
      (put16 false (r.encode false).length ++ [byteOf r.code.1, byteOf r.code.2] ++
        (r.encode false ++ rest))
      (sessionAt pre (Item.encode false (.record r)) rest uninit) := by
    refine ⟨rfl, rfl, rfl, ?_⟩
    show (pre ++ Item.encode false (.record r) ++ rest).drop (pre.length + 0) = _
    rw [drop_pre]
    simp [Item.encode]
  obtain ⟨c1, c2⟩ := code_lt r
  rw [(readRecordHeader_step a ⟨l, c1, c2⟩).1]

/-- C37: for every record the generator writes, the length field the writer places in the
record header equals the number of payload bytes it writes after the header, and equals
`getSize()` of the record `parseRecord` decodes from those bytes.  This holds for each of the
nine writers and every argument tuple of the argument types for which the writer returns;
every string a writer produces is shorter than 256 bytes. -/
theorem header_length_is_getSize (pre rest uninit : List Byte) :
    LengthAgrees pre rest uninit writeFAR ∧
    (∀ (setup start : Nat) (lotNumber waferNumber : Int) (bytes : List Byte),
      IsInt waferNumber → writeMIR setup start lotNumber waferNumber = .ok bytes →
      LengthAgrees pre rest uninit bytes) ∧
    (∀ partNum : Int, LengthAgrees pre rest uninit (writePIR partNum)) ∧
    (∀ (sample : R4) (draw : Nat) (testNum partNum lotNumber : Int),
      sample < 2 ^ 32 → IsInt testNum → IsInt lotNumber →
      LengthAgrees pre rest uninit (writePTR sample draw testNum partNum lotNumber)) ∧
    (∀ (draw1 draw2 : Nat) (partNum numTests : Int), IsInt partNum →
      LengthAgrees pre rest uninit (writePRR draw1 draw2 partNum numTests)) ∧
    (∀ (start : Nat) (waferNumber : Int) (bytes : List Byte),
      writeWIR start waferNumber = .ok bytes → LengthAgrees pre rest uninit bytes) ∧
    (∀ (finish : Nat) (waferNumber : Int) (totalParts goodParts : Nat) (bytes : List Byte),
      IsInt waferNumber → totalParts < 2 ^ 32 → goodParts < 2 ^ 32 →
      writeWRR finish waferNumber totalParts goodParts = .ok bytes →
      LengthAgrees pre rest uninit bytes) ∧
    (∀ (binNum binCount : Nat) (isPass : Bool), binNum < 2 ^ 16 → binCount < 2 ^ 32 →
      LengthAgrees pre rest uninit (writeHBR binNum binCount isPass)) ∧
    (∀ (binNum binCount : Nat) (isPass : Bool), binNum < 2 ^ 16 → binCount < 2 ^ 32 →
      LengthAgrees pre rest uninit (writeSBR binNum binCount isPass)) := by
  refine ⟨?_, ?_, ?_, ?_, ?_, ?_, ?_, ?_, ?_⟩
  · exact lengthAgrees_of_written pre rest uninit _ _ ⟨far_written, by decide, by decide⟩
  · intro setup start lotNumber waferNumber bytes hw h
    cases hp : zeroPadded lotNumber with
    | error e =>
      simp only [writeMIR, hp] at h
      exact Except.noConfusion h
    | ok lot =>
      obtain ⟨e, w, l⟩ := mir_written setup start lotNumber waferNumber lot hp hw
      rw [e] at h
      injection h with h
      exact lengthAgrees_of_written pre rest uninit _ _ ⟨h.symm, w, l⟩
  · intro partNum
    exact lengthAgrees_of_written pre rest uninit _ _
      ⟨pir_written partNum, by decide, by decide⟩
  · intro sample draw testNum partNum lotNumber hs ht hl
    exact lengthAgrees_of_written pre rest uninit _ _
      (ptr_written sample draw testNum partNum lotNumber hs ht hl _ rfl)
  · intro draw1 draw2 partNum numTests hp
    exact lengthAgrees_of_written pre rest uninit _ _
      (prr_written draw1 draw2 partNum numTests hp _ rfl)
  · intro start waferNumber bytes h
    cases hp : zeroPadded waferNumber with
    | error e =>
      simp only [writeWIR, hp] at h
      exact Except.noConfusion h
    | ok wafer =>
      obtain ⟨e, w, l⟩ := wir_written start waferNumber wafer hp _ rfl
      rw [e] at h
      injection h with h
      exact lengthAgrees_of_written pre rest uninit _ _ ⟨h.symm, w, l⟩
  · intro finish waferNumber totalParts goodParts bytes hw ht hg h
    cases hp : zeroPadded waferNumber with
    | error e =>
      simp only [writeWRR, hp] at h
      exact Except.noConfusion h
    | ok wafer =>
      obtain ⟨e, w, l⟩ := wrr_written finish waferNumber totalParts goodParts wafer hp hw ht hg
        _ rfl
      rw [e] at h
      injection h with h
      exact lengthAgrees_of_written pre rest uninit _ _ ⟨h.symm, w, l⟩
  · intro binNum binCount isPass hn hc
    exact lengthAgrees_of_written pre rest uninit _ _
      (hbr_written binNum binCount isPass hn hc _ rfl)
  · intro binNum binCount isPass hn hc
    exact lengthAgrees_of_written pre rest uninit _ _
      (sbr_written binNum binCount isPass hn hc _ rfl)

/-! ## The read offset across the public operations -/

theorem read_frame (f : IfStream) (n : Nat) :
    (f.read n).2.data = f.data ∧ f.pos ≤ (f.read n).2.pos ∧
    ((f.read n).2.eofbit = true → (f.read n).2.failbit = true) ∧
    ((f.read n).2.failbit = false → f.failbit = false ∧ (f.read n).1.length = n ∧
      (f.read n).2.pos ≤ max f.pos f.data.length) := by
  unfold IfStream.read
  by_cases c : f.good = true
  · rw [if_pos c]
    obtain ⟨he, hf⟩ := (good_iff f).1 c
    by_cases l : ((f.data.drop f.pos).take n).length = n
    · simp only [l, if_true]
      refine ⟨trivial, Nat.le_add_right _ _, ?_, ?_⟩
      · intro x; rw [he] at x; exact Bool.noConfusion x
      · intro _
        refine ⟨hf, trivial, ?_⟩
        rw [List.length_take, List.length_drop] at l
        omega
    · simp only [l, if_false]
      refine ⟨trivial, Nat.le_add_right _ _, fun _ => trivial, ?_⟩
      intro x
      exact Bool.noConfusion x
  · rw [if_neg c]
    refine ⟨rfl, Nat.le_refl _, ?_, ?_⟩
    · intro _; rfl
    · intro x
      exact Bool.noConfusion x

theorem follows_refl {s : STDFParser} (h : s.file_.eofbit = true → s.file_.failbit = true) :
    Follows s s :=
  ⟨rfl, rfl, rfl, Nat.le_refl _, h, fun x => ⟨x, rfl⟩⟩

theorem follows_trans {a b c : STDFParser} (h1 : Follows a b) (h2 : Follows b c) :
    Follows a c := by
  obtain ⟨a1, a2, a3, a4, a5, a6⟩ := h1
  obtain ⟨b1, b2, b3, b4, b5, b6⟩ := h2
  refine ⟨b1.trans a1, b2.trans a2, b3.trans a3, Nat.le_trans a4 b4, b5, ?_⟩
  intro x
  obtain ⟨y, z⟩ := b6 x
  obtain ⟨y2, z2⟩ := a6 y
  exact ⟨y2, z.trans z2⟩

theorem readRaw_follows (n : Nat) (s : STDFParser)
    (_h : s.file_.eofbit = true → s.file_.failbit = true) : Follows s (readRaw n s).2 := by
  obtain ⟨r1, r2, r3, r4⟩ := read_frame s.file_ n
  rw [readRaw_eq]
  refine ⟨r1, rfl, rfl, r2, r3, ?_⟩
  intro x
  obtain ⟨y1, y2, -⟩ := r4 x
  refine ⟨y1, ?_⟩
  show List.drop _ _ = _
  rw [y2, Nat.sub_self, List.drop_zero]

theorem readInto_follows (n : Nat) (s : STDFParser)
    (_h : s.file_.eofbit = true → s.file_.failbit = true) : Follows s (readInto n s).2 := by
  obtain ⟨r1, r2, r3, r4⟩ := read_frame s.file_ n
  have e : readInto n s =
      ((s.file_.read n).1 ++ List.replicate (n - (s.file_.read n).1.length) 0,
        STDFParser.mk (s.file_.read n).2 s.fileSize_ s.endianSwap_ s.uninit) := rfl
  rw [e]
  exact ⟨r1, rfl, rfl, r2, r3, fun x => ⟨(r4 x).1, rfl⟩⟩

theorem respects_follows (s0 : STDFParser) : Respects (fun s t => s = t ∧ Follows s0 s) := by
  refine ⟨?_, ?_, fun s t h => by rw [h.1]⟩
  · intro n s t h
    obtain ⟨rfl, hs⟩ := h
    exact ⟨rfl, rfl, follows_trans hs (readRaw_follows n s hs.2.2.2.2.1)⟩
  · intro n s t h
    obtain ⟨rfl, hs⟩ := h
    exact ⟨rfl, rfl, follows_trans hs (readInto_follows n s hs.2.2.2.2.1)⟩

theorem readRecordHeader_follows {s0 s : STDFParser} (h : Follows s0 s) :
    Follows s0 (readRecordHeader s).2 := by
  have a := readU2_respects (respects_follows s0) (s := s) (t := s) ⟨rfl, h⟩
  have b := readU1_respects (respects_follows s0) a.2
  have c := readU1_respects (respects_follows s0) b.2
  exact c.2.2

theorem skipBytes_follows (count : Nat) {s0 s : STDFParser} (h : Follows s0 s) :
    Follows s0 (skipBytes count s) := by
  obtain ⟨a1, a2, a3, a4, a5, a6⟩ := h
  unfold skipBytes IfStream.seekgOff IfStream.seekTarget
  by_cases hf : s.file_.failbit = true
  · simp only [hf, if_true]
    exact ⟨a1, a2, a3, a4, fun x => Bool.noConfusion x, fun x => Bool.noConfusion x⟩
  · have hf' : s.file_.failbit = false := by
      cases h : s.file_.failbit
      · rfl
      · exact absurd h hf
    simp only [hf', Bool.false_eq_true, if_false]
    rw [if_neg (by omega)]
    refine ⟨a1, a2, a3, ?_, fun x => Bool.noConfusion x, fun _ => a6 hf'⟩
    show s0.file_.pos ≤ (((s.file_.pos : Int) + (count : Int))).toNat
    omega

theorem parseRecord_follows {s0 s : STDFParser} (h : Follows s0 s) :
    Follows s0 (parseRecord s).2 := by
  have hh := readRecordHeader_follows h
  cases hk : specDispatch (readRecordHeader s).1.recordType (readRecordHeader s).1.recordSub with
  | none =>
    rw [parseRecord_unmapped s hk]
    exact skipBytes_follows _ hh
  | some k =>
    obtain ⟨r, -, -, -, h4⟩ := parseRecord_respects (respects_follows s0) (s := s) (t := s)
      rfl rfl ⟨rfl, hh⟩ hk
    exact h4.2

theorem parseNextRecord_follows {s0 s : STDFParser} (h : Follows s0 s) :
    Follows s0 (parseNextRecord s).2 := by
  have e : parseNextRecord s =
      if (isEndOfFile s).1 then (none, (isEndOfFile s).2) else parseRecord (isEndOfFile s).2 := rfl
  rw [e, isEndOfFile_state]
  split
  · exact h
  · exact parseRecord_follows h

theorem afterCalls_succ (k : Nat) (s : STDFParser) :
    afterCalls (k + 1) s = (parseNextRecord (afterCalls k s)).2 :=
  Function.iterate_succ_apply' _ _ _

theorem afterCalls_add (a b : Nat) (s : STDFParser) :
    afterCalls (a + b) s = afterCalls a (afterCalls b s) :=
  Function.iterate_add_apply _ _ _ _

theorem afterCalls_follows (k : Nat) {s0 s : STDFParser} (h : Follows s0 s) :
    Follows s0 (afterCalls k s) := by
  induction k with
  | zero => exact h
  | succ k ih =>
    rw [afterCalls_succ]
    exact parseNextRecord_follows ih

theorem follows_eq_advance {s0 s : STDFParser} (h : Follows s0 s)
    (hf : s.file_.failbit = false) (he : s0.file_.eofbit = false) :
    s = advance (s.file_.pos - s0.file_.pos) s0 := by
  obtain ⟨a1, a2, a3, a4, a5, a6⟩ := h
  obtain ⟨b1, b2⟩ := a6 hf
  have hes : s.file_.eofbit = false := by
    cases hx : s.file_.eofbit
    · rfl
    · have := a5 hx
      rw [hf] at this
      exact Bool.noConfusion this
  rcases s with ⟨⟨d, p, e, f⟩, sz, sw, u⟩
  rcases s0 with ⟨⟨d0, p0, e0, f0⟩, sz0, sw0, u0⟩
  simp only [] at a1 a2 a3 a4 hf he b1 b2 hes
  subst a1 a2 a3 hf he b1 b2 hes
  simp only [advance]
  congr 2
  omega

/-- The stream has not failed only at offsets up to `bound`. -/
theorem respects_bound (bound : Nat) :
    Respects (fun s t => s = t ∧ s.file_.data.length ≤ bound ∧
      (s.file_.failbit = false → s.file_.pos ≤ bound)) := by
  refine ⟨?_, ?_, fun s t h => by rw [h.1]⟩
  · intro n s t h
    obtain ⟨rfl, hl, hs⟩ := h
    obtain ⟨r1, r2, r3, r4⟩ := read_frame s.file_ n
    rw [readRaw_eq]
    refine ⟨rfl, rfl, by show (s.file_.read n).2.data.length ≤ bound; rw [r1]; exact hl, ?_⟩
    intro x
    obtain ⟨y1, -, y3⟩ := r4 x
    have := hs y1
    show (s.file_.read n).2.pos ≤ bound
    omega
  · intro n s t h
    obtain ⟨rfl, hl, hs⟩ := h
    obtain ⟨r1, r2, r3, r4⟩ := read_frame s.file_ n
    have e : readInto n s =
        ((s.file_.read n).1 ++ List.replicate (n - (s.file_.read n).1.length) 0,
          STDFParser.mk (s.file_.read n).2 s.fileSize_ s.endianSwap_ s.uninit) := rfl
    rw [e]
    refine ⟨rfl, rfl, by show (s.file_.read n).2.data.length ≤ bound; rw [r1]; exact hl, ?_⟩
    intro x
    obtain ⟨y1, -, y3⟩ := r4 x
    have := hs y1
    show (s.file_.read n).2.pos ≤ bound
    omega

theorem parseRecord_bound (s : STDFParser) (hp : s.file_.pos ≤ s.file_.data.length)
    (hf : (parseRecord s).2.file_.failbit = false) :
    (parseRecord s).2.file_.pos ≤ s.file_.data.length + 65535 := by
  have a := readU2_respects (respects_bound s.file_.data.length) (s := s) (t := s)
    ⟨rfl, Nat.le_refl _, fun _ => hp⟩
  have b := readU1_respects (respects_bound s.file_.data.length) a.2
  have c := readU1_respects (respects_bound s.file_.data.length) b.2
  have hh : (readRecordHeader s).2.file_.data.length ≤ s.file_.data.length ∧
      ((readRecordHeader s).2.file_.failbit = false →
        (readRecordHeader s).2.file_.pos ≤ s.file_.data.length) := c.2.2
  cases hk : specDispatch (readRecordHeader s).1.recordType (readRecordHeader s).1.recordSub with
  | none =>
    rw [parseRecord_unmapped s hk] at hf ⊢
    have hL : (readRecordHeader s).1.length < 65536 := readU2_lt s
    generalize (readRecordHeader s).1.length = L at hL hf ⊢
    generalize (readRecordHeader s).2 = t at hh hf ⊢
    unfold skipBytes IfStream.seekgOff IfStream.seekTarget at hf ⊢
    by_cases hfl : t.file_.failbit = true
    · simp only [hfl, if_true] at hf
      exact Bool.noConfusion hf
    · have hf' : t.file_.failbit = false := by
        cases h : t.file_.failbit
        · rfl
        · exact absurd h hfl
      have := hh.2 hf'
      have hL' : @LT.lt Nat _ L 65536 := hL
      simp only [hf', Bool.false_eq_true, if_false]
      rw [if_neg (by omega)]
      show (((t.file_.pos : Int) + (L : Int))).toNat ≤ _
      omega
  | some k =>
    obtain ⟨r, -, -, -, h4⟩ := parseRecord_respects (respects_bound s.file_.data.length)
      (s := s) (t := s) rfl rfl ⟨rfl, hh⟩ hk
    have := h4.2.2 hf
    omega

theorem getCurrentPosition_state (s : STDFParser)
    (h : s.file_.eofbit = true → s.file_.failbit = true) : (getCurrentPosition s).2 = s := by
  rcases s with ⟨⟨d, p, e, f⟩, sz, sw, u⟩
  cases e <;> cases f <;> first | rfl | exact Bool.noConfusion (h rfl)

theorem parseNextRecord_bound (s : STDFParser) (hs : Sized s)
    (he : s.file_.eofbit = true → s.file_.failbit = true)
    (hb : s.file_.failbit = false → s.file_.pos ≤ s.file_.data.length + 65535)
    (hf : (parseNextRecord s).2.file_.failbit = false) :
    (parseNextRecord s).2.file_.pos ≤ s.file_.data.length + 65535 := by
  have hfs : s.file_.failbit = false := ((parseNextRecord_follows (follows_refl he)).2.2.2.2.2 hf).1
  have hg : s.file_.good = true := by
    rw [good_iff]
    refine ⟨?_, hfs⟩
    cases hx : s.file_.eofbit
    · rfl
    · have := he hx
      rw [hfs] at this
      exact Bool.noConfusion this
  by_cases hp : s.file_.pos < s.file_.data.length
  · rw [parseNextRecord_of_more s hg hs hp] at hf ⊢
    exact parseRecord_bound s (Nat.le_of_lt hp) hf
  · have hend : (isEndOfFile s).1 = true := by
      rw [isEndOfFile_good s hg hs]
      show decide _ = true
      rw [decide_eq_true_iff]
      omega
    rw [(parseNextRecord_at_end s hend).2.1]
    exact hb hfs

theorem seekgPos_data (f : IfStream) (p : Int) : (f.seekgPos p).data = f.data := by
  unfold IfStream.seekgPos
  simp only []
  split
  · rfl
  · split <;> rfl

theorem readRaw_data (n : Nat) (s : STDFParser) : (readRaw n s).2.file_.data = s.file_.data := by
  rw [readRaw_eq]
  exact (read_frame s.file_ n).1

theorem construct_data (contents uninit : List Byte) :
    (STDFParser.construct contents uninit).file_.data = contents := by
  have e1 : (IfStream.mk contents 0 false false).seekgOff 0 .fin =
      IfStream.mk contents contents.length false false := by
    unfold IfStream.seekgOff IfStream.seekTarget
    simp only [Bool.false_eq_true, if_false, Int.add_zero]
    rw [if_neg (by omega)]
    simp
  have e0 : STDFParser.construct contents uninit =
      detectEndianness (STDFParser.mk (IfStream.mk contents 0 false false)
        (toUnsigned 64 (contents.length : Int)) false uninit) := by
    unfold STDFParser.construct
    simp only []
    rw [e1]
    rfl
  rw [e0, detectEndianness_file, seekgPos_data, readRaw_data, readRaw_data, readRaw_data]
  rfl

theorem construct_facts (contents uninit : List Byte) (hlen : contents.length < 2 ^ 63) :
    Sized (STDFParser.construct contents uninit) ∧
    (STDFParser.construct contents uninit).file_.eofbit = false ∧
    ((STDFParser.construct contents uninit).file_.failbit = false →
      (STDFParser.construct contents uninit).file_.pos = 0) := by
  by_cases h : contents.length < 4
  · obtain ⟨he, hf, hs⟩ := construct_short contents uninit h
    refine ⟨⟨?_, ?_⟩, he, ?_⟩
    · rw [hs, construct_data]
    · rw [construct_data]; exact hlen
    · intro x
      rw [hf] at x
      exact Bool.noConfusion x
  · match contents, h, hlen with
    | b0 :: b1 :: t :: u :: rest, _, hlen =>
      obtain ⟨hfile, hsz, -⟩ := construct_state b0 b1 t u rest uninit
        (by simpa using hlen)
      refine ⟨hsz, by rw [hfile], fun _ => by rw [hfile]⟩
    | [], h, _ => exact absurd (by simp) h
    | [_], h, _ => exact absurd (by simp) h
    | [_, _], h, _ => exact absurd (by simp) h
    | [_, _, _], h, _ => exact absurd (by simp) h

theorem parseFileLoop_calls (fuel : Nat) :
    ∀ (acc : List STDFRecord) (s : STDFParser) (out : List STDFRecord × STDFParser),
      parseFileLoop fuel acc s = some out →
      ∃ n, out.2 = afterCalls n s ∧ (isEndOfFile out.2).1 = true := by
  induction fuel with
  | zero => intro acc s out h; exact Option.noConfusion h
  | succ fuel ih =>
    intro acc s out h
    have e : parseFileLoop (fuel + 1) acc s =
        if (isEndOfFile s).1 then some (acc, (isEndOfFile s).2)
        else parseFileLoop fuel
          (match (parseNextRecord (isEndOfFile s).2).1 with
            | some r => acc ++ [r]
            | none => acc) (parseNextRecord (isEndOfFile s).2).2 := rfl
    rw [e, isEndOfFile_state] at h
    by_cases h0 : (isEndOfFile s).1 = true
    · rw [if_pos h0] at h
      injection h with h
      subst h
      exact ⟨0, rfl, h0⟩
    · rw [if_neg h0] at h
      obtain ⟨n, hn, hend⟩ := ih _ _ _ h
      exact ⟨n + 1, by rw [hn]; rfl, hend⟩

theorem afterCalls_at_end (k : Nat) (s : STDFParser) (h : (isEndOfFile s).1 = true) :
    afterCalls k s = s := by
  induction k with
  | zero => rfl
  | succ k ih => rw [afterCalls_succ, ih, (parseNextRecord_at_end s h).2.1]

theorem parseFile_failed (fuel : Nat) (s : STDFParser) (hf : s.file_.failbit = true)
    (hs : s.fileSize_ < 2 ^ 63) : parseFile fuel s = none := by
  have e : parseFile fuel s = parseFileLoop fuel []
      (STDFParser.mk (s.file_.seekgOff 0 .beg) s.fileSize_ s.endianSwap_ s.uninit) := rfl
  rw [e]
  apply parseFileLoop_stuck
  unfold IfStream.seekgOff
  simp only [hf, if_true]
  exact ⟨rfl, rfl, hs⟩

theorem parseFile_rewinds (fuel : Nat) {start s : STDFParser} (h : Follows start s)
    (hf : s.file_.failbit = false) (he : start.file_.eofbit = false)
    (hp : start.file_.pos = 0) : parseFile fuel s = parseFileLoop fuel [] start := by
  have e : parseFile fuel s = parseFileLoop fuel []
      (STDFParser.mk (s.file_.seekgOff 0 .beg) s.fileSize_ s.endianSwap_ s.uninit) := rfl
  have hs := follows_eq_advance h hf he
  have hf0 := (h.2.2.2.2.2 hf).1
  rw [e]
  congr 1
  rw [hs]
  rcases start with ⟨⟨d0, p0, e0, f0⟩, sz0, sw0, u0⟩
  simp only [] at he hp hf0
  subst he hp hf0
  simp [advance, IfStream.seekgOff, IfStream.seekTarget]

theorem reachable_inv (contents uninit : List Byte) (hlen : contents.length < 2 ^ 63)
    {s : STDFParser} (hr : Reachable contents uninit s) :
    Follows (STDFParser.construct contents uninit) s ∧
      (s.file_.failbit = false → ∃ n, s = afterCalls n (STDFParser.construct contents uninit)) := by
  obtain ⟨hsz, he, hp⟩ := construct_facts contents uninit hlen
  have hrefl : Follows (STDFParser.construct contents uninit)
      (STDFParser.construct contents uninit) :=
    follows_refl (fun x => by rw [he] at x; exact Bool.noConfusion x)
  induction hr with
  | opened => exact ⟨hrefl, fun _ => ⟨0, rfl⟩⟩
  | @next s _ ih =>
    refine ⟨parseNextRecord_follows ih.1, ?_⟩
    intro hf
    have hfs := ((parseNextRecord_follows (follows_refl ih.1.2.2.2.2.1)).2.2.2.2.2 hf).1
    obtain ⟨n, hn⟩ := ih.2 hfs
    exact ⟨n + 1, by rw [afterCalls_succ, ← hn]⟩
  | @atEnd s _ ih => rw [isEndOfFile_state]; exact ih
  | @position s _ ih => rw [getCurrentPosition_state s ih.1.2.2.2.2.1]; exact ih
  | @file s fuel out _ hout ih =>
    by_cases hf : s.file_.failbit = true
    · rw [parseFile_failed fuel s hf (by rw [ih.1.2.1, hsz.1]; exact hsz.2)] at hout
      exact Option.noConfusion hout
    · have hf' : s.file_.failbit = false := by
        cases h : s.file_.failbit
        · rfl
        · exact absurd h hf
      have hf0 := (ih.1.2.2.2.2.2 hf').1
      rw [parseFile_rewinds fuel ih.1 hf' he (hp hf0)] at hout
      obtain ⟨n, hn, -⟩ := parseFileLoop_calls fuel _ _ _ hout
      rw [hn]
      exact ⟨afterCalls_follows n hrefl, fun _ => ⟨n, rfl⟩⟩

theorem afterCalls_bound (contents uninit : List Byte) (hlen : contents.length < 2 ^ 63)
    (n : Nat) :
    (afterCalls n (STDFParser.construct contents uninit)).file_.failbit = false →
      (afterCalls n (STDFParser.construct contents uninit)).file_.pos ≤ contents.length + 65535 := by
  obtain ⟨hsz, he, hp⟩ := construct_facts contents uninit hlen
  have hd := construct_data contents uninit
  have hrefl : Follows (STDFParser.construct contents uninit)
      (STDFParser.construct contents uninit) :=
    follows_refl (fun x => by rw [he] at x; exact Bool.noConfusion x)
  induction n with
  | zero =>
    intro hf
    show (STDFParser.construct contents uninit).file_.pos ≤ _
    rw [hp hf]
    omega
  | succ n ih =>
    have hfl := afterCalls_follows n hrefl
    rw [afterCalls_succ]
    intro hf
    have hdn : (afterCalls n (STDFParser.construct contents uninit)).file_.data = contents :=
      hfl.1.trans hd
    have := parseNextRecord_bound (afterCalls n (STDFParser.construct contents uninit))
      ⟨by rw [hfl.2.1, hfl.1]; exact hsz.1, by rw [hfl.1]; exact hsz.2⟩ hfl.2.2.2.2.1
      (by rw [hdn]; exact ih) hf
    rw [hdn] at this
    exact this

theorem offset_le_of_follows {s t : STDFParser} (h : Follows s t)
    (hes : s.file_.eofbit = true → s.file_.failbit = true)
    (hb : t.file_.failbit = false → t.file_.pos < 2 ^ 64) :
    (getCurrentPosition s).1 ≤ (getCurrentPosition t).1 := by
  obtain ⟨a1, a2, a3, a4, a5, a6⟩ := h
  have hlt : (getCurrentPosition s).1 < 2 ^ 64 := by
    unfold getCurrentPosition
    exact toUnsigned_lt 64 _
  by_cases hf : t.file_.failbit = true
  · rw [getCurrentPosition_failed t hf]
    omega
  · have hf' : t.file_.failbit = false := by
      cases h : t.file_.failbit
      · rfl
      · exact absurd h hf
    have hfs := (a6 hf').1
    have hgt : t.file_.good = true := by
      rw [good_iff]
      refine ⟨?_, hf'⟩
      cases hx : t.file_.eofbit
      · rfl
      · have := a5 hx
        rw [hf'] at this
        exact Bool.noConfusion this
    have hgs : s.file_.good = true := by
      rw [good_iff]
      refine ⟨?_, hfs⟩
      cases hx : s.file_.eofbit
      · rfl
      · have := hes hx
        rw [hfs] at this
        exact Bool.noConfusion this
    have hbt := hb hf'
    rw [getCurrentPosition_good t hgt hbt, getCurrentPosition_good s hgs (by omega)]
    exact a4

theorem reachable_le (contents uninit : List Byte) (hlen : contents.length < 2 ^ 63)
    {s t : STDFParser} (hs : Reachable contents uninit s) (ht : Reachable contents uninit t)
    (h : Follows s t) :
    s.file_.pos ≤ t.file_.pos ∧ (getCurrentPosition s).1 ≤ (getCurrentPosition t).1 := by
  refine ⟨h.2.2.2.1, offset_le_of_follows h (reachable_inv contents uninit hlen hs).1.2.2.2.2.1 ?_⟩
  intro hf
  obtain ⟨n, hn⟩ := (reachable_inv contents uninit hlen ht).2 hf
  rw [hn] at hf ⊢
  have := afterCalls_bound contents uninit hlen n hf
  omega

/-- C31: the read offset of a session never decreases.  For every state a session on a file
of less than 2^63 bytes can be in (the state the constructor leaves, and every state reached
from it by the public operations), and each of `parseNextRecord`, `isEndOfFile`,
`getCurrentPosition` and `parseFile` (when it returns), the position of the stream after the
operation is at least the position before it, and so is the offset `getCurrentPosition()`
reports.  `parseFile` seeks to offset 0 first; it returns at an offset that is not smaller
than the one it was called at, because that offset lies on the path of its loop. -/
theorem offset_never_decreases (contents uninit : List Byte) (s : STDFParser)
    (hs : Reachable contents uninit s) (hlen : contents.length < 2 ^ 63) :
    (s.file_.pos ≤ (parseNextRecord s).2.file_.pos ∧
      (getCurrentPosition s).1 ≤ (getCurrentPosition (parseNextRecord s).2).1) ∧
    (s.file_.pos ≤ (isEndOfFile s).2.file_.pos ∧
      (getCurrentPosition s).1 ≤ (getCurrentPosition (isEndOfFile s).2).1) ∧
    (s.file_.pos ≤ (getCurrentPosition s).2.file_.pos ∧
      (getCurrentPosition s).1 ≤ (getCurrentPosition (getCurrentPosition s).2).1) ∧
    ∀ (fuel : Nat) (out : List STDFRecord × STDFParser), parseFile fuel s = some out →
      s.file_.pos ≤ out.2.file_.pos ∧
        (getCurrentPosition s).1 ≤ (getCurrentPosition out.2).1 := by
  obtain ⟨hfol, htraj⟩ := reachable_inv contents uninit hlen hs
  have hes := hfol.2.2.2.2.1
  have hrefl : Follows s s := follows_refl hes
  refine ⟨?_, ?_, ?_, ?_⟩
  · exact reachable_le contents uninit hlen hs hs.next (parseNextRecord_follows hrefl)
  · exact reachable_le contents uninit hlen hs hs.atEnd (by rw [isEndOfFile_state]; exact hrefl)
  · exact reachable_le contents uninit hlen hs hs.position
      (by rw [getCurrentPosition_state s hes]; exact hrefl)
  · intro fuel out hout
    refine reachable_le contents uninit hlen hs (hs.file hout) ?_
    obtain ⟨hsz, he, hp⟩ := construct_facts contents uninit hlen
    by_cases hf : s.file_.failbit = true
    · rw [parseFile_failed fuel s hf (by rw [hfol.2.1, hsz.1]; exact hsz.2)] at hout
      exact Option.noConfusion hout
    · have hf' : s.file_.failbit = false := by
        cases h : s.file_.failbit
        · rfl
        · exact absurd h hf
      have hf0 := (hfol.2.2.2.2.2 hf').1
      rw [parseFile_rewinds fuel hfol hf' he (hp hf0)] at hout
      obtain ⟨j, hj, hend⟩ := parseFileLoop_calls fuel _ _ _ hout
      obtain ⟨n, hn⟩ := htraj hf'
      rcases Nat.le_total n j with hle | hle
      · have e : out.2 = afterCalls (j - n) s := by
          have := afterCalls_add (j - n) n (STDFParser.construct contents uninit)
          rw [Nat.sub_add_cancel hle] at this
          rw [hj, this, ← hn]
        rw [e]
        exact afterCalls_follows _ hrefl
      · have e : s = out.2 := by
          have := afterCalls_add (n - j) j (STDFParser.construct contents uninit)
          rw [Nat.sub_add_cancel hle] at this
          rw [hn, this, ← hj, afterCalls_at_end _ _ hend]
        rw [← e]
        exact hrefl

set_option maxRecDepth 100000 in
/-- Witness of C31: the session on a file of one File Attributes record, after one call of
`parseNextRecord`; `parseFile` rewinds and returns at the same offset 6. -/
theorem offset_never_decreases_witness :
    Reachable [2, 0, 0, 10, 2, 4] []
      (parseNextRecord (STDFParser.construct [2, 0, 0, 10, 2, 4] [])).2 ∧
    (parseNextRecord (STDFParser.construct [2, 0, 0, 10, 2, 4] [])).2.file_.pos = 6 ∧
    parseFile 3 (parseNextRecord (STDFParser.construct [2, 0, 0, 10, 2, 4] [])).2 =
      some ([STDFRecord.far (FARRecord.mk 2 4)],
        STDFParser.mk (IfStream.mk [2, 0, 0, 10, 2, 4] 6 false false) 6 false []) ∧
    (parseNextRecord (STDFParser.construct [2, 0, 0, 10, 2, 4] [])).2.file_.pos ≤
      (STDFParser.mk (IfStream.mk [2, 0, 0, 10, 2, 4] 6 false false) 6 false []).file_.pos :=
  ⟨Reachable.opened.next, by decide, by decide,
    ((offset_never_decreases [2, 0, 0, 10, 2, 4] [] _ Reachable.opened.next
      (by decide)).2.2.2 3 ([STDFRecord.far (FARRecord.mk 2 4)],
        STDFParser.mk (IfStream.mk [2, 0, 0, 10, 2, 4] 6 false false) 6 false [])
      (by decide)).1⟩

theorem afterCalls_stuck (k : Nat) (s : STDFParser) (h : Stuck s) : Stuck (afterCalls k s) := by
  induction k with
  | zero => exact h
  | succ k ih =>
    rw [afterCalls_succ]
    have e : parseNextRecord (afterCalls k s) =
        if (isEndOfFile (afterCalls k s)).1 then (none, (isEndOfFile (afterCalls k s)).2)
        else parseRecord (isEndOfFile (afterCalls k s)).2 := rfl
    rw [e, isEndOfFile_failed _ ih.2.1 ih.1 ih.2.2, isEndOfFile_state]
    exact parseRecord_stuck _ ih

theorem afterCalls_items {c : STDFParser} {be : Bool} (hs : Sized c) (k : Nat) :
    ∀ (items : List Item) (m : Nat) (s : STDFParser), (∀ i ∈ items, i.WF) →
      Ahead c be m (encodeFile be items) s → ∃ m2, afterCalls k s = advance m2 c := by
  induction k with
  | zero => intro items m s _ a; exact ⟨m, a.state⟩
  | succ k ih =>
    intro items m s w a
    have e : afterCalls (k + 1) s = afterCalls k (parseNextRecord s).2 := rfl
    have g : s.file_.good = true := by rw [a.state]; exact a.good
    have hsz : Sized s := by rw [a.state]; exact hs
    cases items with
    | nil =>
      have hend : (isEndOfFile s).1 = true := by
        rw [isEndOfFile_good s g hsz]
        show decide _ = true
        rw [decide_eq_true_iff, a.state]
        show c.file_.data.length ≤ c.file_.pos + m
        have := congrArg List.length a.left
        simp only [encodeFile, List.map_nil, List.flatten_nil, List.length_nil,
          List.length_drop] at this
        omega
      rw [afterCalls_at_end _ _ hend]
      exact ⟨m, a.state⟩
    | cons i is =>
      have a2 : Ahead c be m (i.encode be ++ encodeFile be is) s := by
        simpa only [encodeFile, List.map_cons, List.flatten_cons] using a
      obtain ⟨-, a3⟩ := parseRecord_item i (w i (List.mem_cons_self _ _)) a2
      have hp : s.file_.pos < s.file_.data.length := by
        have l := a2.left
        have h1 := length_of_drop l (by simp [item_encode_ne_nil])
        have h2 : 0 < (i.encode be).length :=
          List.length_pos.2 (item_encode_ne_nil be i)
        rw [a.state]
        show c.file_.pos + m < c.file_.data.length
        simp only [List.length_append] at h1
        omega
      rw [e, parseNextRecord_of_more s g hsz hp]
      exact ih is _ _ (fun x hx => w x (List.mem_cons_of_mem _ hx)) a3

theorem parseFile_advance (fuel m : Nat) (c : STDFParser) (hg : c.file_.good = true) :
    parseFile fuel (advance m c) = parseFile fuel c := by
  obtain ⟨he, hf⟩ := (good_iff _).1 hg
  rcases c with ⟨⟨d0, p0, e0, f0⟩, sz0, sw0, u0⟩
  simp only [] at he hf
  subst he hf
  simp [parseFile, advance, IfStream.seekgOff, IfStream.seekTarget]

theorem parseFile_again (fuel m : Nat) (c : STDFParser) (recs : List STDFRecord)
    (hg : c.file_.good = true) (h : parseFile fuel c = some (recs, advance m c)) :
    ∀ out, parseFile fuel c = some out → parseFile fuel out.2 = some out := by
  intro out ho
  rw [h] at ho
  injection ho with ho
  subst ho
  exact (parseFile_advance fuel m c hg).trans h

/-- C34: `parseFile` does not depend on how much of the input was consumed before it is
called.  For every input made of complete records in a byte order the session has detected,
and every number `k` of preceding `parseNextRecord` calls, `parseFile` gives what it gives on
the fresh session; when the input has at least one record that is the records of the file in
file order, with the stream left at the end of the input; and a second `parseFile` called
right after the first returns the same records and leaves the same state.  On the input
without any record neither call returns. -/
theorem parseFile_ignores_offset (be : Bool) (items : List Item) (uninit : List Byte)
    (fuel k : Nat) (hw : ∀ i ∈ items, i.WF) (hlen : (encodeFile be items).length < 2 ^ 63)
    (hdet : (STDFParser.construct (encodeFile be items) uninit).endianSwap_ = be)
    (hfuel : items.length < fuel) :
    parseFile fuel (afterCalls k (STDFParser.construct (encodeFile be items) uninit)) =
      parseFile fuel (STDFParser.construct (encodeFile be items) uninit) ∧
    (items ≠ [] →
      parseFile fuel (STDFParser.construct (encodeFile be items) uninit) =
        some (items.filterMap Item.record?,
          advance (encodeFile be items).length
            (STDFParser.construct (encodeFile be items) uninit))) ∧
    (items = [] →
      parseFile fuel (STDFParser.construct (encodeFile be items) uninit) = none) ∧
    ∀ out, parseFile fuel (STDFParser.construct (encodeFile be items) uninit) = some out →
      parseFile fuel out.2 = some out := by
  cases items with
  | nil =>
    have hst : Stuck (STDFParser.construct (encodeFile be []) uninit) := by
      obtain ⟨he, hf, hs⟩ := construct_short (encodeFile be []) uninit
        (show ([] : List Byte).length < 4 by decide)
      exact ⟨hf, he, by rw [hs]; exact hlen⟩
    have h0 := parseFile_stuck fuel _ hst
    refine ⟨?_, fun h => absurd rfl h, fun _ => h0, ?_⟩
    · rw [h0, parseFile_stuck fuel _ (afterCalls_stuck k _ hst)]
    · intro out h
      rw [h0] at h
      exact Option.noConfusion h
  | cons i is =>
    have hitems := parseFile_items be (i :: is) uninit fuel (List.cons_ne_nil _ _) hw hlen hdet
      hfuel
    obtain ⟨b0, b1, t, u, rest, hd⟩ := encodeFile_header be i is
    have hfit : rest.length + 4 < 2 ^ 63 := by
      have := congrArg List.length hd
      simp only [List.length_cons] at this
      omega
    obtain ⟨hfile, hsz, _⟩ := construct_state b0 b1 t u rest uninit hfit
    rw [← hd] at hfile hsz
    generalize STDFParser.construct (encodeFile be (i :: is)) uninit = c
      at hfile hsz hdet hitems ⊢
    have hg : c.file_.good = true := by rw [hfile]; rfl
    have a : Ahead c be 0 (encodeFile be (i :: is)) c := by
      refine ⟨rfl, hg, hdet, ?_⟩
      rw [hfile]
      rfl
    obtain ⟨m2, hm⟩ := afterCalls_items hsz k (i :: is) 0 c hw a
    refine ⟨?_, fun _ => hitems, fun h => absurd h (List.cons_ne_nil _ _), ?_⟩
    · rw [hm, parseFile_advance fuel m2 c hg]
    · exact parseFile_again fuel _ c _ hg hitems

set_option maxRecDepth 100000 in
/-- Witness of C34: a file of three complete records after two calls of `parseNextRecord`. -/
theorem parseFile_ignores_offset_witness :
    (afterCalls 2 (STDFParser.construct
        (encodeFile false [.record (.far (FARRecord.mk 2 4)), .other 1 20 [7, 8] [8, 7],
          .record (.pir (PIRRecord.mk 1 1))]) [])).file_.pos = 12 ∧
    (parseFile 4 (afterCalls 2 (STDFParser.construct
        (encodeFile false [.record (.far (FARRecord.mk 2 4)), .other 1 20 [7, 8] [8, 7],
          .record (.pir (PIRRecord.mk 1 1))]) []))).map Prod.fst =
      some [.far (FARRecord.mk 2 4), .pir (PIRRecord.mk 1 1)] :=
  have h := parseFile_ignores_offset false
    [.record (.far (FARRecord.mk 2 4)), .other 1 20 [7, 8] [8, 7],
      .record (.pir (PIRRecord.mk 1 1))] [] 4 2 (by decide) (by decide) (by decide) (by decide)
  ⟨by decide, (congrArg (Option.map Prod.fst) (h.1.trans (h.2.1 (List.cons_ne_nil _ _)))).trans
    rfl⟩

end STDF
